import Mathlib

/-!
# SGL warehouse API: inventory ledger, FEFO allocation, orders, receptions, routes

A shallow embedding of the use cases of `internal/usecase` together with the
PostgreSQL repositories of `internal/repository/postgres` they call.

Modelling conventions

* A table is the list of its rows, in insertion order.  `SELECT ... WHERE id = $1`
  read through `db.Get` is the first matching row, `UPDATE ... WHERE id = $1`
  rewrites every matching row and reports `ErrNotFound` when there is none,
  `INSERT` appends a row.  A failure of the database is modelled for the writes whose
  error the use cases discard: the flags of `Faults` make the audit insert, the insert
  of a reception discrepancy and the status updates of vehicles, drivers and orders fail.
* `uuid.UUID` is a natural number, `time.Time` an integer number of nanoseconds.
  All clock reads of one call (`time.Now()`, `CURRENT_TIMESTAMP`) are one instant
  `now` handed to the call.  The numbers formatted from the clock (`REC-...`, `ORD-...`,
  `RTA-...`) are handed to the call as strings; their format is modelled on a
  `Timestamp`, the calendar date and the Unix second the formatting reads.
* Go `int` (64 bit) quantities are integers; stock quantities are checked against the
  stock before they are subtracted and stay within the bounds, the difference BlindCount
  takes of an unchecked count is reduced modulo `2 ^ 64` (`GoInt.wrap`).
* A `float64` value is the rational it denotes, and every float64 operation is the exact
  operation followed by `Float64.round`, the rounding to the nearest float64 with ties to
  even; each operation is rounded on its own, as the amd64 compiler does (no fused
  multiply-add).  Infinities and NaN are outside the model: the theorems on the float64
  totals of an order assume that no operation of the call overflows
  (`CreateOrderUseCase.inRange`).
* A use case returns the store it leaves behind together with its Go result,
  so that the effects of a failed call stay visible.
-/

namespace Sgl

/-! ## Domain types (`internal/domain`) -/

abbrev UUID := Nat

/-- StockStatus of `domain/inventory.go`. -/
inductive StockStatus where
  | StockDisponible
  | StockReservado
  | StockBloqueado
  | StockCuarentena
  | StockCaducado
deriving DecidableEq, Repr

/-- MovementType of `domain/inventory.go`. -/
inductive MovementType where
  | MovementEntrada
  | MovementSalida
  | MovementAjuste
  | MovementMerma
  | MovementDevolucion
  | MovementTransferencia
deriving DecidableEq, Repr

/-- Inventory of `domain/inventory.go`: one lot of one product. -/
structure Inventory where
  ID : UUID
  ProductID : UUID
  LotNumber : String
  ExpirationDate : Option Int
  Quantity : Int
  Status : StockStatus
  WarehouseLocation : String
  LastMovementAt : Option Int
  CreatedAt : Int
  UpdatedAt : Int
deriving DecidableEq, Repr

/-- InventoryMovement of `domain/inventory.go`: one ledger entry. -/
structure InventoryMovement where
  ID : UUID
  InventoryID : UUID
  MovementType : MovementType
  Quantity : Int
  PreviousQuantity : Int
  NewQuantity : Int
  ReferenceID : Option UUID
  ReferenceType : String
  Reason : String
  EvidencePhotoURL : String
  PerformedBy : UUID
  CreatedAt : Int
deriving DecidableEq, Repr

/-- Status column of `cycle_counts`; the code writes and tests the two strings
`"PENDIENTE"` and `"COMPLETADO"`. -/
inductive CycleCountStatus where
  | PENDIENTE
  | COMPLETADO
deriving DecidableEq, Repr

/-- CycleCount of `domain/inventory.go`. -/
structure CycleCount where
  ID : UUID
  ScheduledDate : Int
  Location : String
  ProductID : UUID
  ExpectedQuantity : Option Int
  CountedQuantity : Option Int
  Variance : Option Int
  CountedBy : Option UUID
  CountedAt : Option Int
  Status : CycleCountStatus
  CreatedAt : Int
deriving DecidableEq, Repr

/-- AuditLog entry handed to `AuditRepository.Log` (the `NewValues` map is left out). -/
structure AuditLog where
  UserID : Option UUID
  Action : String
  EntityType : String
  EntityID : Option UUID
deriving DecidableEq, Repr

/-- Brand of `domain/product.go`. -/
inductive Brand where
  | BrandCostena
  | BrandJumex
  | BrandPronto
  | BrandLaCostena
  | BrandOtros
deriving DecidableEq, Repr

/-- ReceptionStatus of `domain/reception.go`. -/
inductive ReceptionStatus where
  | ReceptionPendiente
  | ReceptionEnConteo
  | ReceptionValidada
  | ReceptionConIncidencia
  | ReceptionCompletada
deriving DecidableEq, Repr

/-- ProductCondition of `domain/reception.go`. -/
inductive ProductCondition where
  | ConditionApto
  | ConditionDesecho
  | ConditionCuarentena
deriving DecidableEq, Repr

/-- DiscrepancyStatus of `domain/reception.go`. -/
inductive DiscrepancyStatus where
  | DiscrepancyDetectada
  | DiscrepancyEnRevision
  | DiscrepancyResuelta
  | DiscrepancyAceptada
deriving DecidableEq, Repr

/-- ReceptionOrder of `domain/reception.go`. -/
structure ReceptionOrder where
  ID : UUID
  OrderNumber : String
  SupplierID : UUID
  Brand : Brand
  InvoiceNumber : String
  InvoiceFileURL : String
  Status : ReceptionStatus
  ReceivedBy : Option UUID
  ReceivedAt : Option Int
  ValidatedBy : Option UUID
  ValidatedAt : Option Int
  Notes : String
  CreatedAt : Int
  UpdatedAt : Int
deriving DecidableEq, Repr

/-- ReceptionLine of `domain/reception.go`. -/
structure ReceptionLine where
  ID : UUID
  ReceptionOrderID : UUID
  ProductID : UUID
  ExpectedQuantity : Int
  CountedQuantity : Option Int
  Discrepancy : Option Int
  LotNumber : String
  ExpirationDate : Option Int
  Condition : ProductCondition
  CountedBy : Option UUID
  CountedAt : Option Int
  CreatedAt : Int
  UpdatedAt : Int
deriving DecidableEq, Repr

/-- ReceptionDiscrepancy of `domain/reception.go`. -/
structure ReceptionDiscrepancy where
  ID : UUID
  ReceptionLineID : UUID
  ExpectedQty : Int
  CountedQty : Int
  Difference : Int
  Status : DiscrepancyStatus
  ResolutionNotes : String
  ResolvedBy : Option UUID
  ResolvedAt : Option Int
  CreatedAt : Int
  UpdatedAt : Int
deriving DecidableEq, Repr

/-- Product of `domain/product.go`. -/
structure Product where
  ID : UUID
  SKU : String
  Name : String
  Brand : Brand
  Category : String
  WeightKg : ℚ
  LengthCm : ℚ
  WidthCm : ℚ
  HeightCm : ℚ
  IsFragile : Bool
  UnitPrice : ℚ
  IsActive : Bool
  DeletedAt : Option Int
deriving DecidableEq

/-- OrderStatus of `domain/order.go`. -/
inductive OrderStatus where
  | OrderBorrador
  | OrderConfirmado
  | OrderEnPreparacion
  | OrderListo
  | OrderEnRuta
  | OrderEntregado
  | OrderCancelado
deriving DecidableEq, Repr

/-- VehicleType of `domain/order.go`. -/
inductive VehicleType where
  | VehicleVan
  | VehicleCamioneta
  | VehicleCamion35
  | VehicleTorton
deriving DecidableEq, Repr

/-- Customer of `domain/order.go`. -/
structure Customer where
  ID : UUID
  Name : String
  CreditLimit : ℚ
  IsActive : Bool
deriving DecidableEq

/-- Order of `domain/order.go`. -/
structure Order where
  ID : UUID
  OrderNumber : String
  CustomerID : UUID
  Status : OrderStatus
  TotalWeightKg : ℚ
  TotalVolumeM3 : ℚ
  TotalCost : ℚ
  SuggestedVehicle : Option VehicleType
  HasFragileItems : Bool
  HasHeavyItems : Bool
  LoadingAlert : String
  CreatedBy : UUID
  CreatedAt : Int
  UpdatedAt : Int
  DeletedAt : Option Int
deriving DecidableEq

/-- OrderLine of `domain/order.go`. -/
structure OrderLine where
  ID : UUID
  OrderID : UUID
  ProductID : UUID
  InventoryID : Option UUID
  Quantity : Int
  UnitPrice : ℚ
  Subtotal : ℚ
  CreatedAt : Int
deriving DecidableEq

/-- VehicleStatus of `domain/fleet.go`. -/
inductive VehicleStatus where
  | VehicleDisponible
  | VehicleEnRuta
  | VehicleEnTaller
  | VehicleFueraServicio
deriving DecidableEq, Repr

/-- DriverStatus of `domain/fleet.go`. -/
inductive DriverStatus where
  | DriverDisponible
  | DriverEnRuta
  | DriverDescanso
  | DriverLicencia
deriving DecidableEq, Repr

/-- RouteType of `domain/fleet.go`. -/
inductive RouteType where
  | RouteLocal
  | RouteForanea
deriving DecidableEq, Repr

/-- Vehicle of `domain/fleet.go`. -/
structure Vehicle where
  ID : UUID
  PlateNumber : String
  VehicleType : VehicleType
  Brand : String
  Model : String
  Year : Int
  CapacityKg : ℚ
  CapacityM3 : ℚ
  Status : VehicleStatus
  LastMaintenanceDate : Option Int
  NextMaintenanceDate : Option Int
  IsActive : Bool
  CreatedAt : Int
  UpdatedAt : Int
deriving DecidableEq

/-- Driver of `domain/fleet.go`. -/
structure Driver where
  ID : UUID
  UserID : UUID
  LicenseNumber : String
  LicenseExpiry : Int
  Phone : String
  Status : DriverStatus
  IsActive : Bool
  CreatedAt : Int
  UpdatedAt : Int
deriving DecidableEq, Repr

/-- Route of `domain/fleet.go`. -/
structure Route where
  ID : UUID
  RouteNumber : String
  OrderID : UUID
  VehicleID : UUID
  DriverID : UUID
  RouteType : RouteType
  DepartureDate : Option Int
  EstimatedArrival : Option Int
  ActualArrival : Option Int
  Status : OrderStatus
  InvoicePDFURL : String
  AssignedBy : UUID
  CreatedAt : Int
  UpdatedAt : Int
deriving DecidableEq, Repr

/-- VehicleMaintenance of `domain/fleet.go`. -/
structure VehicleMaintenance where
  ID : UUID
  VehicleID : UUID
  MaintenanceType : String
  Description : String
  Cost : ℚ
  StartDate : Int
  EndDate : Option Int
  PerformedBy : String
  CreatedAt : Int
deriving DecidableEq

/-- PreDepartureChecklist of `domain/fleet.go`. -/
structure PreDepartureChecklist where
  ID : UUID
  RouteID : UUID
  DriverID : UUID
  TireCondition : String
  FuelLevel : Int
  OilLevel : String
  LightsOk : Bool
  DamagePhotoURL : String
  Notes : String
  CheckedAt : Int
deriving DecidableEq, Repr

/-- Supplier of `domain/product.go`. -/
structure Supplier where
  ID : UUID
  Name : String
  Brand : Brand
  RFC : String
  ContactName : String
  Phone : String
  Email : String
  IsActive : Bool
  CreatedAt : Int
  UpdatedAt : Int
deriving DecidableEq, Repr

/-- Failures of the database, as part of the state a call runs in: a flag that is set
makes the named write return an error and write nothing. -/
structure Faults where
  auditLog : Bool := false
  vehicleUpdate : Bool := false
  driverUpdate : Bool := false
  orderUpdate : Bool := false
  discrepancyInsert : Bool := false
deriving DecidableEq, Repr

/-- The database: one list of rows per table, and the failures it is subject to. -/
structure Store where
  inventory : List Inventory := []
  movements : List InventoryMovement := []
  cycleCounts : List CycleCount := []
  receptionOrders : List ReceptionOrder := []
  receptionLines : List ReceptionLine := []
  discrepancies : List ReceptionDiscrepancy := []
  products : List Product := []
  customers : List Customer := []
  orders : List Order := []
  orderLines : List OrderLine := []
  auditLogs : List AuditLog := []
  vehicles : List Vehicle := []
  drivers : List Driver := []
  routes : List Route := []
  maintenances : List VehicleMaintenance := []
  checklists : List PreDepartureChecklist := []
  suppliers : List Supplier := []
  faults : Faults := {}
deriving DecidableEq

/-- Identifier handed out by `RETURNING id`: one above every identifier in use. -/
def freshID (used : List UUID) : UUID :=
  used.foldr max 0 + 1

/-! ## Machine arithmetic (Go `int` and `float64`) -/

/-- The value a Go `int` (64 bit, two's complement) holds for the integer `n`: `n` reduced
modulo `2 ^ 64` into the range from `-2 ^ 63` to `2 ^ 63 - 1`.  Go subtraction of two `int`
values is the exact difference passed through this reduction. -/
def GoInt.wrap (n : Int) : Int :=
  (n + 9223372036854775808) % 18446744073709551616 - 9223372036854775808

/-- Two to the power `e`, for any integer exponent. -/
def Float64.pow2 (e : Int) : ℚ :=
  if 0 ≤ e then ((2 ^ e.toNat : Nat) : ℚ) else 1 / ((2 ^ (-e).toNat : Nat) : ℚ)

/-- Position of the leading binary digit of `n` (0 for `n < 2`), found by halving; `fuel`
bounds the number of halvings and `n` itself is always enough. -/
def Float64.bits : Nat → Nat → Nat
  | 0, _ => 0
  | fuel + 1, n => if n < 2 then 0 else Float64.bits fuel (n / 2) + 1

/-- The binary exponent of a non-zero rational: the `k` with `2 ^ k ≤ |q| < 2 ^ (k + 1)`. -/
def Float64.ilog2 (q : ℚ) : Int :=
  let k : Int := (Float64.bits q.num.natAbs q.num.natAbs : Int) - (Float64.bits q.den q.den : Int)
  if Float64.pow2 k ≤ |q| then k else k - 1

/-- Rounding to the nearest integer, a tie going to the even neighbour. -/
def Float64.roundEven (x : ℚ) : Int :=
  let f := ⌊x⌋
  if x - f < 1 / 2 then f
  else if 1 / 2 < x - f then f + 1
  else if f % 2 = 0 then f else f + 1

/-- The exponent of the last place of the float64 nearest to `q`: 52 below the binary
exponent of `q`, and never below -1074, where the subnormal numbers end. -/
def Float64.exponent (q : ℚ) : Int := max (Float64.ilog2 q - 52) (-1074)

/-- The float64 nearest to the rational `q` (IEEE 754 binary64, round to nearest, ties to
even): a 53 bit significand times a power of two.  A float64 value is kept as the rational
it denotes.  Overflow is outside the model: beyond about 1.8e308 Go yields an infinity,
here the exponent grows on. -/
def Float64.round (q : ℚ) : ℚ :=
  if q = 0 then 0
  else Float64.roundEven (q / Float64.pow2 (Float64.exponent q)) * Float64.pow2 (Float64.exponent q)

/-- Go `a + b` on float64 values. -/
def Float64.add (a b : ℚ) : ℚ := Float64.round (a + b)

/-- Go `a * b` on float64 values. -/
def Float64.mul (a b : ℚ) : ℚ := Float64.round (a * b)

/-- Go `a / b` on float64 values, for a divisor other than zero. -/
def Float64.div (a b : ℚ) : ℚ := Float64.round (a / b)

/-- Go `float64(n)` for an `int`. -/
def Float64.ofInt (n : Int) : ℚ := Float64.round (n : ℚ)

/-- Go `int(x)` for a float64 within the range of `int`: the fraction is dropped. -/
def Float64.toInt (x : ℚ) : Int := if 0 ≤ x then ⌊x⌋ else -⌊-x⌋

/-- The result `x` of a float64 operation is a finite float64: its magnitude is below
`2 ^ 1024`.  An operation whose rounded result reaches `2 ^ 1024` overflows, and Go yields
an infinity where the model goes on with `x`. -/
def Float64.isFinite (x : ℚ) : Bool := decide (|x| < Float64.pow2 1024)

/-- A finite float64 value: a rational that the rounding leaves as it is, below the
overflow threshold. -/
def Float64.isValue (x : ℚ) : Bool := decide (Float64.round x = x) && Float64.isFinite x

/-! ## Repositories (`internal/repository/postgres`) -/

/-- AuditRepositoryPostgres.Log: `INSERT INTO audit_logs ...`, one audit record appended.
Every caller discards the error, so only the store is given back: when the insert fails
the table is left as it was. -/
def AuditRepository.Log (s : Store) (entry : AuditLog) : Store :=
  { s with auditLogs := if s.faults.auditLog then s.auditLogs else s.auditLogs ++ [entry] }

/-- InventoryRepositoryPostgres.FindByID: `SELECT * FROM inventory WHERE id = $1`. -/
def InventoryRepository.FindByID (s : Store) (id : UUID) : Option Inventory :=
  s.inventory.find? (fun i => i.ID == id)

/-- Row rewrite of `UPDATE inventory SET quantity, status, last_movement_at, updated_at
WHERE id = $4`. -/
def Inventory.applyUpdate (now : Int) (inventory : Inventory) (row : Inventory) : Inventory :=
  if row.ID == inventory.ID then
    { row with
      Quantity := inventory.Quantity
      Status := inventory.Status
      LastMovementAt := some now
      UpdatedAt := now }
  else row

/-- InventoryRepositoryPostgres.Update; `none` is `ErrNotFound` (no row affected). -/
def InventoryRepository.Update (s : Store) (now : Int) (inventory : Inventory) : Option Store :=
  if s.inventory.any (fun i => i.ID == inventory.ID) then
    some { s with inventory := s.inventory.map (Inventory.applyUpdate now inventory) }
  else none

/-- Order of `ORDER BY expiration_date` (ascending, PostgreSQL puts NULL last). -/
def expirationLE (a b : Option Int) : Prop :=
  match a, b with
  | some x, some y => x ≤ y
  | some _, none => True
  | none, some _ => False
  | none, none => True

instance expirationLE.decidable (a b : Option Int) : Decidable (expirationLE a b) := by
  unfold expirationLE
  cases a <;> cases b <;> infer_instance

/-- Row order of `ORDER BY expiration_date ASC NULLS LAST, created_at ASC`. -/
def fefoLE (a b : Inventory) : Prop :=
  match a.ExpirationDate, b.ExpirationDate with
  | some x, some y => x < y ∨ (x = y ∧ a.CreatedAt ≤ b.CreatedAt)
  | some _, none => True
  | none, some _ => False
  | none, none => a.CreatedAt ≤ b.CreatedAt

instance fefoLE.decidable (a b : Inventory) : Decidable (fefoLE a b) := by
  unfold fefoLE
  cases a.ExpirationDate <;> cases b.ExpirationDate <;> infer_instance

/-- InventoryRepositoryPostgres.FindByProduct:
`SELECT * FROM inventory WHERE product_id = $1 ORDER BY expiration_date`.
Rows the ORDER BY clause does not separate keep their table order. -/
def InventoryRepository.FindByProduct (s : Store) (productID : UUID) : List Inventory :=
  (s.inventory.filter (fun i => i.ProductID == productID)).insertionSort
    (fun a b => expirationLE a.ExpirationDate b.ExpirationDate)

/-- WHERE clause of FindByProductFEFO:
`product_id = $1 AND status = DISPONIBLE AND quantity > 0`. -/
def fefoWhere (productID : UUID) (i : Inventory) : Bool :=
  i.ProductID == productID && i.Status == StockStatus.StockDisponible && decide (i.Quantity > 0)

/-- InventoryRepositoryPostgres.FindByProductFEFO (HU-06):
the rows passing `fefoWhere`, in the order
`ORDER BY expiration_date ASC NULLS LAST, created_at ASC`.
Rows the ORDER BY clause does not separate keep their table order. -/
def InventoryRepository.FindByProductFEFO (s : Store) (productID : UUID) : List Inventory :=
  (s.inventory.filter (fefoWhere productID)).insertionSort fefoLE

/-- InventoryMovementRepositoryPostgres.Create: `INSERT INTO inventory_movements ...
RETURNING id, created_at`; gives back the stored row. -/
def InventoryMovementRepository.Create (s : Store) (now : Int) (movement : InventoryMovement) :
    Store × InventoryMovement :=
  let row := { movement with ID := freshID (s.movements.map (·.ID)), CreatedAt := now }
  ({ s with movements := s.movements ++ [row] }, row)

/-- CycleCountRepositoryPostgres.FindByID. -/
def CycleCountRepository.FindByID (s : Store) (id : UUID) : Option CycleCount :=
  s.cycleCounts.find? (fun c => c.ID == id)

/-- Row rewrite of `UPDATE cycle_counts SET counted_quantity, counted_by, counted_at, status
WHERE id = $5`; the other columns, `variance` among them, are not written. -/
def CycleCount.applyUpdate (count : CycleCount) (row : CycleCount) : CycleCount :=
  if row.ID == count.ID then
    { row with
      CountedQuantity := count.CountedQuantity
      CountedBy := count.CountedBy
      CountedAt := count.CountedAt
      Status := count.Status }
  else row

/-- CycleCountRepositoryPostgres.Update; `none` is `ErrNotFound`. -/
def CycleCountRepository.Update (s : Store) (count : CycleCount) : Option Store :=
  if s.cycleCounts.any (fun c => c.ID == count.ID) then
    some { s with cycleCounts := s.cycleCounts.map (CycleCount.applyUpdate count) }
  else none

/-! ## Inventory use cases (`internal/usecase/inventory`) -/

/-- RegisterDamageInput of `register_damage.go`. -/
structure RegisterDamageInput where
  InventoryID : UUID
  Quantity : Int
  Reason : String
  EvidencePhotoURL : String
  UserID : UUID
deriving DecidableEq, Repr

/-- RegisterDamageOutput of `register_damage.go`. -/
structure RegisterDamageOutput where
  Message : String
  AdjustedInventory : Option UUID
  MovementID : UUID
deriving DecidableEq, Repr

/-- The movement literal RegisterDamage builds: type MERMA, delta `-input.Quantity`,
the photo appended to the reason. -/
def RegisterDamageUseCase.movement (input : RegisterDamageInput) : InventoryMovement :=
  { ID := 0
    InventoryID := input.InventoryID
    MovementType := MovementType.MovementMerma
    Quantity := -input.Quantity
    PreviousQuantity := 0
    NewQuantity := 0
    ReferenceID := none
    ReferenceType := ""
    Reason := input.Reason ++ " | Foto: " ++ input.EvidencePhotoURL
    EvidencePhotoURL := ""
    PerformedBy := input.UserID
    CreatedAt := 0 }

/-- RegisterDamageUseCase.Execute (HU-13). -/
def RegisterDamageUseCase.Execute (now : Int) (s : Store) (input : RegisterDamageInput) :
    Store × Except String RegisterDamageOutput :=
  if input.EvidencePhotoURL = "" then
    (s, .error "evidence_photo_url es obligatorio (HU-13)")
  else
    match InventoryRepository.FindByID s input.InventoryID with
    | none => (s, .error "inventario no encontrado")
    | some inventory =>
      if inventory.Quantity < input.Quantity then
        (s, .error "cantidad insuficiente")
      else
        let inventory := { inventory with Quantity := inventory.Quantity - input.Quantity }
        match InventoryRepository.Update s now inventory with
        | none => (s, .error "recurso no encontrado")
        | some s1 =>
          let created := InventoryMovementRepository.Create s1 now
            (RegisterDamageUseCase.movement input)
          let s3 := AuditRepository.Log created.1
            { UserID := some input.UserID
              Action := "REGISTER_DAMAGE"
              EntityType := "INVENTORY"
              EntityID := some inventory.ID }
          (s3, .ok
            { Message := "Merma registrada exitosamente"
              AdjustedInventory := some inventory.ID
              MovementID := created.2.ID })

/-- PerformCountInput of `cycle_count.go`. -/
structure PerformCountInput where
  CountID : UUID
  CountedQuantity : Int
  UserID : UUID
deriving DecidableEq, Repr

/-- Step 3 of PerformCount: when the loaded count carries a non-zero variance and the
product has a lot, write the AJUSTE movement and set the first lot to the counted
quantity.  The results of both repository calls are discarded, as in the source. -/
def PerformCycleCountUseCase.adjust (now : Int) (s : Store) (count : CycleCount)
    (input : PerformCountInput) : Store :=
  match count.Variance with
  | none => s
  | some variance =>
    if variance ≠ 0 then
      match InventoryRepository.FindByProduct s count.ProductID with
      | [] => s
      | inventory :: _ =>
        let previousQty := inventory.Quantity
        let inventory := { inventory with Quantity := input.CountedQuantity }
        let created := InventoryMovementRepository.Create s now
          { ID := 0
            InventoryID := inventory.ID
            MovementType := MovementType.MovementAjuste
            Quantity := variance
            PreviousQuantity := previousQty
            NewQuantity := inventory.Quantity
            ReferenceID := some count.ID
            ReferenceType := "CYCLE_COUNT"
            Reason := "Ajuste por conteo cíclico"
            EvidencePhotoURL := ""
            PerformedBy := input.UserID
            CreatedAt := 0 }
        match InventoryRepository.Update created.1 now inventory with
        | none => created.1
        | some s2 => s2
    else s

/-- PerformCycleCountUseCase.PerformCount (HU-15); `none` is the `nil` error. -/
def PerformCycleCountUseCase.PerformCount (now : Int) (s : Store) (input : PerformCountInput) :
    Store × Option String :=
  match CycleCountRepository.FindByID s input.CountID with
  | none => (s, some "conteo cíclico no encontrado")
  | some count =>
    if count.Status ≠ CycleCountStatus.PENDIENTE then
      (s, some "el conteo ya fue realizado")
    else
      let count := { count with
        CountedQuantity := some input.CountedQuantity
        CountedBy := some input.UserID
        CountedAt := some now
        Status := CycleCountStatus.COMPLETADO }
      match CycleCountRepository.Update s count with
      | none => (s, some "recurso no encontrado")
      | some s1 =>
        let s2 := PerformCycleCountUseCase.adjust now s1 count input
        let s3 := AuditRepository.Log s2
          { UserID := some input.UserID
            Action := "CYCLE_COUNT"
            EntityType := "CYCLE_COUNT"
            EntityID := some count.ID }
        (s3, none)

/-- Sum of the movement deltas (`Quantity`) recorded for one lot. -/
def ledgerSum (movements : List InventoryMovement) (lot : UUID) : Int :=
  ((movements.filter (fun m => m.InventoryID == lot)).map (·.Quantity)).sum

/-- The stock invariant of a store: every lot row holds the sum of its movement deltas. -/
def LedgerConsistent (s : Store) : Prop :=
  ∀ lot ∈ s.inventory, lot.Quantity = ledgerSum s.movements lot.ID

instance LedgerConsistent.decidable (s : Store) : Decidable (LedgerConsistent s) := by
  unfold LedgerConsistent
  infer_instance

/-- FEFOLot of `register_damage.go`: one entry of the FEFO listing. -/
structure FEFOLot where
  InventoryID : UUID
  LotNumber : String
  Quantity : Int
  ExpirationDate : Option Int
  DaysUntilExpiry : Option Int
  WarehouseLocation : String
  ExpirationAlert : String
deriving DecidableEq, Repr

/-- Nanoseconds in an hour, `time.Hour`. -/
def nanosPerHour : Int := 3600 * 1000000000

/-- The `time.Duration` from `earlier` to `later`, as `Time.Sub` gives it: the difference
in nanoseconds, held at the largest or the smallest `int64` when it does not fit. -/
def Duration.between (later earlier : Int) : Int :=
  max (-9223372036854775808) (min 9223372036854775807 (later - earlier))

/-- Duration.Hours of package `time`:
`float64(d / Hour) + float64(d % Hour) / (60 * 60 * 1e9)`. -/
def Duration.Hours (d : Int) : ℚ :=
  Float64.add (Float64.ofInt (d.tdiv nanosPerHour))
    (Float64.div (Float64.ofInt (d.tmod nanosPerHour)) 3600000000000)

/-- Inventory.DaysUntilExpiration: `int(time.Until(expiration).Hours() / 24)`, the days
left, the hours and their division by 24 in float64 and the fraction of the quotient
dropped. -/
def Inventory.DaysUntilExpiration (now : Int) (i : Inventory) : Option Int :=
  match i.ExpirationDate with
  | none => none
  | some expiration =>
    some (Float64.toInt (Float64.div (Duration.Hours (Duration.between expiration now)) 24))

/-- Alert text GetFEFOLots attaches to a lot, from the days left. -/
def GetFEFOLotsUseCase.alert (daysUntilExp : Option Int) : String :=
  match daysUntilExp with
  | none => ""
  | some d =>
    if d < 0 then "PRODUCTO CADUCADO"
    else if d < 30 then "ALERTA ROJA: Caducidad menor a 30 días"
    else if d < 60 then "Precaución: Caducidad próxima"
    else ""

/-- Body of the loop of GetFEFOLotsUseCase.Execute: the entry built for one lot. -/
def GetFEFOLotsUseCase.entry (now : Int) (lot : Inventory) : FEFOLot :=
  { InventoryID := lot.ID
    LotNumber := lot.LotNumber
    Quantity := lot.Quantity
    ExpirationDate := lot.ExpirationDate
    DaysUntilExpiry := lot.DaysUntilExpiration now
    WarehouseLocation := lot.WarehouseLocation
    ExpirationAlert := GetFEFOLotsUseCase.alert (lot.DaysUntilExpiration now) }

/-- GetFEFOLotsUseCase.Execute (HU-06): one entry per lot of FindByProductFEFO, appended
in loop order. -/
def GetFEFOLotsUseCase.Execute (now : Int) (s : Store) (productID : UUID) : List FEFOLot :=
  (InventoryRepository.FindByProductFEFO s productID).foldl
    (fun fefoLots lot => fefoLots ++ [GetFEFOLotsUseCase.entry now lot]) []

/-! ## Order creation (`internal/usecase/orders`, `domain/order.go`, `domain/product.go`) -/

/-- CustomerRepositoryPostgres.FindByID. -/
def CustomerRepository.FindByID (s : Store) (id : UUID) : Option Customer :=
  s.customers.find? (fun c => c.ID == id)

/-- ProductRepositoryPostgres.FindByID:
`SELECT * FROM products WHERE id = $1 AND deleted_at IS NULL`. -/
def ProductRepository.FindByID (s : Store) (id : UUID) : Option Product :=
  s.products.find? (fun p => p.ID == id && p.DeletedAt.isNone)

/-- OrderRepositoryPostgres.Create: `INSERT INTO orders ... RETURNING id, created_at,
updated_at`; gives back the stored row. -/
def OrderRepository.Create (s : Store) (now : Int) (order : Order) : Store × Order :=
  let row := { order with
    ID := freshID (s.orders.map (·.ID))
    CreatedAt := now
    UpdatedAt := now
    DeletedAt := none }
  ({ s with orders := s.orders ++ [row] }, row)

/-- OrderLineRepositoryPostgres.CreateBatch: inserts the lines one after the other and
gives back the stored rows. -/
def OrderLineRepository.CreateBatch (s : Store) (now : Int) :
    List OrderLine → Store × List OrderLine
  | [] => (s, [])
  | line :: rest =>
    let row := { line with ID := freshID (s.orderLines.map (·.ID)), CreatedAt := now }
    let r := OrderLineRepository.CreateBatch { s with orderLines := s.orderLines ++ [row] } now rest
    (r.1, row :: r.2)

/-- Product.CalculateVolume: volume in cubic metres,
`(p.LengthCm * p.WidthCm * p.HeightCm) / 1000000.0` in float64. -/
def Product.CalculateVolume (p : Product) : ℚ :=
  Float64.div (Float64.mul (Float64.mul p.LengthCm p.WidthCm) p.HeightCm) 1000000

/-- Order.SuggestVehicle (HU-08). -/
def Order.SuggestVehicle (o : Order) : VehicleType :=
  if o.TotalVolumeM3 < 10 then VehicleType.VehicleVan
  else if o.TotalVolumeM3 < 20 then VehicleType.VehicleCamion35
  else VehicleType.VehicleTorton

/-- Order.GenerateLoadingAlert (HU-09). -/
def Order.GenerateLoadingAlert (o : Order) : String :=
  if o.HasFragileItems && o.HasHeavyItems then
    "ADVERTENCIA: Cuidado al estibar. Evitar colocar productos pesados sobre frágiles."
  else if o.HasFragileItems then
    "PRECAUCIÓN: El pedido contiene productos frágiles. Manejar con cuidado."
  else ""

/-- OrderLineInput of `create_order.go`. -/
structure OrderLineInput where
  ProductID : UUID
  Quantity : Int
deriving DecidableEq, Repr

/-- CreateOrderInput of `create_order.go`. -/
structure CreateOrderInput where
  CustomerID : UUID
  Lines : List OrderLineInput
  UserID : UUID
deriving DecidableEq, Repr

/-- CreateOrderOutput of `create_order.go`. -/
structure CreateOrderOutput where
  Order : Order
  Lines : List OrderLine
  SuggestedVehicle : VehicleType
  LoadingAlert : String
  LoadingEfficiency : ℚ
  BrandsMixed : Multiset Brand
deriving DecidableEq

/-- The inner loop of CreateOrder ("Reservar inventario FEFO"): walk the lots in order and
stop at the first one with `lot.Quantity >= remainingQty`. -/
def CreateOrderUseCase.reserve (remainingQty : Int) : List Inventory → Option UUID
  | [] => none
  | lot :: rest =>
    if lot.Quantity ≥ remainingQty then some lot.ID
    else CreateOrderUseCase.reserve remainingQty rest

/-- The variables the line loop of CreateOrder accumulates. -/
structure CreateOrderUseCase.Metrics where
  orderLines : List OrderLine := []
  totalCost : ℚ := 0
  totalWeightKg : ℚ := 0
  totalVolumeM3 : ℚ := 0
  hasFragile : Bool := false
  hasHeavy : Bool := false
  brands : List Brand := []
deriving DecidableEq

/-- One pass of the line loop of CreateOrder; the error is the missing product.  The
products and the running totals are float64 operations, each rounded on its own.  The keys
of `brandMap` are kept as a list without repetition. -/
def CreateOrderUseCase.processLine (s : Store) (acc : CreateOrderUseCase.Metrics)
    (lineInput : OrderLineInput) : Except String CreateOrderUseCase.Metrics :=
  match ProductRepository.FindByID s lineInput.ProductID with
  | none => .error ("producto " ++ toString lineInput.ProductID ++ " no encontrado")
  | some product =>
    let lineWeight := Float64.mul product.WeightKg (Float64.ofInt lineInput.Quantity)
    let lineVolume := Float64.mul product.CalculateVolume (Float64.ofInt lineInput.Quantity)
    let subtotal := Float64.mul product.UnitPrice (Float64.ofInt lineInput.Quantity)
    let lots := InventoryRepository.FindByProductFEFO s product.ID
    let inventoryID := CreateOrderUseCase.reserve lineInput.Quantity lots
    let orderLine : OrderLine :=
      { ID := 0
        OrderID := 0
        ProductID := product.ID
        InventoryID := inventoryID
        Quantity := lineInput.Quantity
        UnitPrice := product.UnitPrice
        Subtotal := subtotal
        CreatedAt := 0 }
    .ok
      { orderLines := acc.orderLines ++ [orderLine]
        totalCost := Float64.add acc.totalCost subtotal
        totalWeightKg := Float64.add acc.totalWeightKg lineWeight
        totalVolumeM3 := Float64.add acc.totalVolumeM3 lineVolume
        hasFragile := if product.IsFragile then true else acc.hasFragile
        hasHeavy := if product.WeightKg > 10 then true else acc.hasHeavy
        brands := if product.Brand ∈ acc.brands then acc.brands else acc.brands ++ [product.Brand] }

/-- The line loop of CreateOrder: stops at the first missing product. -/
def CreateOrderUseCase.processLines (s : Store) :
    CreateOrderUseCase.Metrics → List OrderLineInput → Except String CreateOrderUseCase.Metrics
  | acc, [] => .ok acc
  | acc, lineInput :: rest =>
    match CreateOrderUseCase.processLine s acc lineInput with
    | .error e => .error e
    | .ok acc1 => CreateOrderUseCase.processLines s acc1 rest

/-- The capacity lookup of HU-18, in cubic metres. -/
def CreateOrderUseCase.vehicleCapacity (suggestedVehicle : VehicleType) : ℚ :=
  match suggestedVehicle with
  | VehicleType.VehicleVan => 10
  | VehicleType.VehicleCamion35 => 20
  | VehicleType.VehicleTorton => 40
  | _ => 10

/-- The loading efficiency of HU-18: `(totalVolumeM3 / vehicleCapacity) * 100` in float64,
and 100 when that is above 100. -/
def CreateOrderUseCase.loadingEfficiency (totalVolumeM3 vehicleCapacity : ℚ) : ℚ :=
  let loadingEfficiency := Float64.mul (Float64.div totalVolumeM3 vehicleCapacity) 100
  if loadingEfficiency > 100 then 100 else loadingEfficiency

/-- CreateOrderUseCase.Execute (HU-07, HU-08, HU-09, HU-18).  `orderNumber` is the string
`ORD-<date>-<unix mod 10000>` formatted from the clock.  `BrandsMixed` is filled by ranging
over `brandMap`, in an order Go does not fix: it is returned as a multiset. -/
def CreateOrderUseCase.Execute (now : Int) (orderNumber : String) (s : Store)
    (input : CreateOrderInput) : Store × Except String CreateOrderOutput :=
  match CustomerRepository.FindByID s input.CustomerID with
  | none => (s, .error "cliente no encontrado")
  | some customer =>
    if !customer.IsActive then (s, .error "cliente inactivo")
    else
      match CreateOrderUseCase.processLines s {} input.Lines with
      | .error e => (s, .error e)
      | .ok acc =>
        let order : Order :=
          { ID := 0
            OrderNumber := orderNumber
            CustomerID := input.CustomerID
            Status := OrderStatus.OrderBorrador
            TotalWeightKg := acc.totalWeightKg
            TotalVolumeM3 := acc.totalVolumeM3
            TotalCost := acc.totalCost
            SuggestedVehicle := none
            HasFragileItems := acc.hasFragile
            HasHeavyItems := acc.hasHeavy
            LoadingAlert := ""
            CreatedBy := input.UserID
            CreatedAt := 0
            UpdatedAt := 0
            DeletedAt := none }
        let suggestedVehicle := order.SuggestVehicle
        let order := { order with SuggestedVehicle := some suggestedVehicle }
        let loadingAlert := order.GenerateLoadingAlert
        let order := { order with LoadingAlert := loadingAlert }
        let createdOrder := OrderRepository.Create s now order
        let order := createdOrder.2
        let orderLines := acc.orderLines.map (fun line => { line with OrderID := order.ID })
        let createdLines := OrderLineRepository.CreateBatch createdOrder.1 now orderLines
        let vehicleCapacity := CreateOrderUseCase.vehicleCapacity suggestedVehicle
        let loadingEfficiency :=
          CreateOrderUseCase.loadingEfficiency acc.totalVolumeM3 vehicleCapacity
        let s3 := AuditRepository.Log createdLines.1
          { UserID := some input.UserID
            Action := "CREATE_ORDER"
            EntityType := "ORDER"
            EntityID := some order.ID }
        (s3, .ok
          { Order := order
            Lines := createdLines.2
            SuggestedVehicle := suggestedVehicle
            LoadingAlert := loadingAlert
            LoadingEfficiency := loadingEfficiency
            BrandsMixed := (acc.brands : Multiset Brand) })

/-- The order lines a CreateOrder result carries (none when the call failed). -/
def CreateOrderUseCase.createdLines (r : Store × Except String CreateOrderOutput) :
    List OrderLine :=
  match r.2 with
  | .ok out => out.Lines
  | .error _ => []

/-- The output a CreateOrder result carries (none when the call failed). -/
def CreateOrderUseCase.output (r : Store × Except String CreateOrderOutput) :
    Option CreateOrderOutput :=
  match r.2 with
  | .ok out => some out
  | .error _ => none

/-- No float64 operation overflows in the pass of the line loop that adds `quantity` units
of `product` to the totals of `acc`; the measures of the product are finite float64 values
(a decimal such as 0.1 is read from the database as the float64 nearest to it). -/
def CreateOrderUseCase.lineInRange (acc : CreateOrderUseCase.Metrics) (product : Product)
    (quantity : Int) : Bool :=
  let lineWeight := Float64.mul product.WeightKg (Float64.ofInt quantity)
  let lineVolume := Float64.mul product.CalculateVolume (Float64.ofInt quantity)
  let subtotal := Float64.mul product.UnitPrice (Float64.ofInt quantity)
  Float64.isValue product.WeightKg && Float64.isValue product.LengthCm &&
  Float64.isValue product.WidthCm && Float64.isValue product.HeightCm &&
  Float64.isValue product.UnitPrice &&
  Float64.isFinite (Float64.mul product.LengthCm product.WidthCm) &&
  Float64.isFinite (Float64.mul (Float64.mul product.LengthCm product.WidthCm)
    product.HeightCm) &&
  Float64.isFinite product.CalculateVolume &&
  Float64.isFinite lineWeight && Float64.isFinite lineVolume && Float64.isFinite subtotal &&
  Float64.isFinite (Float64.add acc.totalWeightKg lineWeight) &&
  Float64.isFinite (Float64.add acc.totalVolumeM3 lineVolume) &&
  Float64.isFinite (Float64.add acc.totalCost subtotal)

/-- No float64 operation overflows in the line loop of CreateOrder, as far as the loop
runs. -/
def CreateOrderUseCase.linesInRange (s : Store) :
    CreateOrderUseCase.Metrics → List OrderLineInput → Bool
  | _, [] => true
  | acc, lineInput :: rest =>
    match ProductRepository.FindByID s lineInput.ProductID with
    | none => true
    | some product =>
      CreateOrderUseCase.lineInRange acc product lineInput.Quantity &&
      match CreateOrderUseCase.processLine s acc lineInput with
      | .ok acc1 => CreateOrderUseCase.linesInRange s acc1 rest
      | .error _ => true

/-- No float64 operation of the call overflows: none in the line loop, and none in the
efficiency `(totalVolumeM3 / vehicleCapacity) * 100`, whatever the capacity looked up (10,
20 or 40).  On such a call every float64 of the code is a finite number, the one the model
computes. -/
def CreateOrderUseCase.inRange (s : Store) (input : CreateOrderInput) : Bool :=
  CreateOrderUseCase.linesInRange s {} input.Lines &&
  match CreateOrderUseCase.processLines s {} input.Lines with
  | .ok acc =>
    Float64.isFinite (Float64.mul (Float64.div acc.totalVolumeM3 10) 100) &&
    Float64.isFinite (Float64.mul (Float64.div acc.totalVolumeM3 20) 100) &&
    Float64.isFinite (Float64.mul (Float64.div acc.totalVolumeM3 40) 100)
  | .error _ => true

/-- Total quantity of the order lines that reference lot `lot`. -/
def reservedQuantity (lines : List OrderLine) (lot : UUID) : Int :=
  ((lines.filter (fun line => line.InventoryID == some lot)).map (·.Quantity)).sum

/-! ## Blind count (`internal/usecase/reception`, `domain/reception.go`) -/

/-- ReceptionOrderRepositoryPostgres.FindByID. -/
def ReceptionOrderRepository.FindByID (s : Store) (id : UUID) : Option ReceptionOrder :=
  s.receptionOrders.find? (fun o => o.ID == id)

/-- Row rewrite of `UPDATE reception_orders SET status, received_by, received_at,
validated_by, validated_at, notes, updated_at WHERE id = $7`. -/
def ReceptionOrder.applyUpdate (now : Int) (order : ReceptionOrder) (row : ReceptionOrder) :
    ReceptionOrder :=
  if row.ID == order.ID then
    { row with
      Status := order.Status
      ReceivedBy := order.ReceivedBy
      ReceivedAt := order.ReceivedAt
      ValidatedBy := order.ValidatedBy
      ValidatedAt := order.ValidatedAt
      Notes := order.Notes
      UpdatedAt := now }
  else row

/-- The store after the UPDATE of a reception order has rewritten its rows. -/
def ReceptionOrderRepository.written (s : Store) (now : Int) (order : ReceptionOrder) : Store :=
  { s with receptionOrders := s.receptionOrders.map (ReceptionOrder.applyUpdate now order) }

/-- ReceptionOrderRepositoryPostgres.Update; `none` is `ErrNotFound`. -/
def ReceptionOrderRepository.Update (s : Store) (now : Int) (order : ReceptionOrder) :
    Option Store :=
  if s.receptionOrders.any (fun o => o.ID == order.ID) then
    some (ReceptionOrderRepository.written s now order)
  else none

/-- ReceptionLineRepositoryPostgres.FindByID. -/
def ReceptionLineRepository.FindByID (s : Store) (id : UUID) : Option ReceptionLine :=
  s.receptionLines.find? (fun l => l.ID == id)

/-- Row rewrite of `UPDATE reception_lines SET counted_quantity, condition, counted_by,
counted_at, updated_at WHERE id = $5`. -/
def ReceptionLine.applyUpdate (now : Int) (line : ReceptionLine) (row : ReceptionLine) :
    ReceptionLine :=
  if row.ID == line.ID then
    { row with
      CountedQuantity := line.CountedQuantity
      Condition := line.Condition
      CountedBy := line.CountedBy
      CountedAt := line.CountedAt
      UpdatedAt := now }
  else row

/-- The store after the UPDATE of a reception line has rewritten its rows. -/
def ReceptionLineRepository.written (s : Store) (now : Int) (line : ReceptionLine) : Store :=
  { s with receptionLines := s.receptionLines.map (ReceptionLine.applyUpdate now line) }

/-- ReceptionLineRepositoryPostgres.Update; `none` is `ErrNotFound`. -/
def ReceptionLineRepository.Update (s : Store) (now : Int) (line : ReceptionLine) :
    Option Store :=
  if s.receptionLines.any (fun l => l.ID == line.ID) then
    some (ReceptionLineRepository.written s now line)
  else none

/-- ReceptionDiscrepancyRepositoryPostgres.Create: `INSERT INTO reception_discrepancies
(reception_line_id, expected_qty, counted_qty, difference, status) ... RETURNING id,
created_at, updated_at`.  Its only caller discards the error: when the insert fails the
table is left as it was and the literal is handed back unfilled. -/
def ReceptionDiscrepancyRepository.Create (s : Store) (now : Int)
    (discrepancy : ReceptionDiscrepancy) : Store × ReceptionDiscrepancy :=
  let row := { discrepancy with
    ID := freshID (s.discrepancies.map (·.ID))
    CreatedAt := now
    UpdatedAt := now }
  ({ s with
      discrepancies :=
        if s.faults.discrepancyInsert then s.discrepancies else s.discrepancies ++ [row] },
    if s.faults.discrepancyInsert then discrepancy else row)

/-- ReceptionLine.HasDiscrepancy. -/
def ReceptionLine.HasDiscrepancy (rl : ReceptionLine) : Bool :=
  match rl.CountedQuantity with
  | none => false
  | some counted => counted != rl.ExpectedQuantity

/-- BlindCountLineInput of `blind_count.go`; an empty `Condition` string is `none`. -/
structure BlindCountLineInput where
  LineID : UUID
  CountedQuantity : Int
  Condition : Option ProductCondition
deriving DecidableEq, Repr

/-- BlindCountInput of `blind_count.go`. -/
structure BlindCountInput where
  ReceptionOrderID : UUID
  Lines : List BlindCountLineInput
  UserID : UUID
deriving DecidableEq, Repr

/-- The discrepancy literal BlindCount builds for a counted line (HU-03).  `Difference` is
the Go expression `*line.CountedQuantity - line.ExpectedQuantity` on `int` values: the
difference reduced modulo `2 ^ 64`. -/
def BlindCountUseCase.discrepancy (line : ReceptionLine) (counted : Int) :
    ReceptionDiscrepancy :=
  { ID := 0
    ReceptionLineID := line.ID
    ExpectedQty := line.ExpectedQuantity
    CountedQty := counted
    Difference := GoInt.wrap (counted - line.ExpectedQuantity)
    Status := DiscrepancyStatus.DiscrepancyDetectada
    ResolutionNotes := ""
    ResolvedBy := none
    ResolvedAt := none
    CreatedAt := 0
    UpdatedAt := 0 }

/-- The line as BlindCount fills it before the UPDATE: counted quantity, counter, time of
the count, and the submitted condition when there is one. -/
def BlindCountUseCase.counted (now : Int) (input : BlindCountInput)
    (countInput : BlindCountLineInput) (line : ReceptionLine) : ReceptionLine :=
  { line with
    CountedQuantity := some countInput.CountedQuantity
    CountedBy := some input.UserID
    CountedAt := some now
    Condition :=
      match countInput.Condition with
      | some condition => condition
      | none => line.Condition }

/-- Step 2 of BlindCount, the loop over the submitted lines.  It carries the store and
`hasDiscrepancies`, and stops with the error of the first line that is missing or belongs
to another order; the writes made before that stay in the store. -/
def BlindCountUseCase.countLines (now : Int) (input : BlindCountInput) :
    Store → Bool → List BlindCountLineInput → Store × Bool × Option String
  | s, hasDiscrepancies, [] => (s, hasDiscrepancies, none)
  | s, hasDiscrepancies, countInput :: rest =>
    match ReceptionLineRepository.FindByID s countInput.LineID with
    | none => (s, hasDiscrepancies, some "recurso no encontrado")
    | some line =>
      if line.ReceptionOrderID ≠ input.ReceptionOrderID then
        (s, hasDiscrepancies, some "línea no pertenece a esta orden")
      else
        let line := BlindCountUseCase.counted now input countInput line
        match ReceptionLineRepository.Update s now line with
        | none => (s, hasDiscrepancies, some "recurso no encontrado")
        | some s1 =>
          if line.HasDiscrepancy then
            let created := ReceptionDiscrepancyRepository.Create s1 now
              (BlindCountUseCase.discrepancy line countInput.CountedQuantity)
            BlindCountUseCase.countLines now input created.1 true rest
          else
            BlindCountUseCase.countLines now input s1 hasDiscrepancies rest

/-- Step 3 of BlindCount: the order as it is written back, CON_INCIDENCIA when a
discrepancy was raised and EN_CONTEO otherwise, with the receiver and the time. -/
def BlindCountUseCase.received (now : Int) (input : BlindCountInput) (hasDiscrepancies : Bool)
    (order : ReceptionOrder) : ReceptionOrder :=
  { order with
    Status :=
      if hasDiscrepancies then ReceptionStatus.ReceptionConIncidencia
      else ReceptionStatus.ReceptionEnConteo
    ReceivedBy := some input.UserID
    ReceivedAt := some now }

/-- BlindCountUseCase.Execute (HU-02); `none` is the `nil` error. -/
def BlindCountUseCase.Execute (now : Int) (s : Store) (input : BlindCountInput) :
    Store × Option String :=
  match ReceptionOrderRepository.FindByID s input.ReceptionOrderID with
  | none => (s, some "orden de recepción no encontrada")
  | some order =>
    if order.Status ≠ ReceptionStatus.ReceptionPendiente then
      (s, some "la orden ya fue contada o validada")
    else
      match BlindCountUseCase.countLines now input s false input.Lines with
      | (s1, _, some err) => (s1, some err)
      | (s1, hasDiscrepancies, none) =>
        let order := BlindCountUseCase.received now input hasDiscrepancies order
        match ReceptionOrderRepository.Update s1 now order with
        | none => (s1, some "recurso no encontrado")
        | some s2 =>
          (AuditRepository.Log s2
            { UserID := some input.UserID
              Action := "BLIND_COUNT"
              EntityType := "RECEPTION_ORDER"
              EntityID := some order.ID }, none)

/-- A sequence of BlindCount calls, each with its clock reading, run one after the other
on the store the previous call left. -/
def BlindCountUseCase.run (s : Store) : List (Int × BlindCountInput) → Store
  | [] => s
  | call :: rest => BlindCountUseCase.run (BlindCountUseCase.Execute call.1 s call.2).1 rest

/-- The reception order `orderID` is stored with a status other than PENDIENTE. -/
def OrderClosed (s : Store) (orderID : UUID) : Prop :=
  ∃ order, ReceptionOrderRepository.FindByID s orderID = some order ∧
    order.Status ≠ ReceptionStatus.ReceptionPendiente

/-- Expected quantity stored for a reception line. -/
def expectedQuantity (s : Store) (lineID : UUID) : Option Int :=
  (ReceptionLineRepository.FindByID s lineID).map (·.ExpectedQuantity)

/-- The submitted entry counts something else than the line expects. -/
def BlindCountLineInput.differs (s : Store) (countInput : BlindCountLineInput) : Bool :=
  expectedQuantity s countInput.LineID != some countInput.CountedQuantity

/-- The row a successful insert of `discrepancy` appends to `reception_discrepancies`. -/
def ReceptionDiscrepancyRepository.stored (s : Store) (now : Int)
    (discrepancy : ReceptionDiscrepancy) : ReceptionDiscrepancy :=
  { discrepancy with
    ID := freshID (s.discrepancies.map (·.ID))
    CreatedAt := now
    UpdatedAt := now }

/-- Number of discrepancy rows recorded for a reception line. -/
def discrepancyCount (s : Store) (lineID : UUID) : Nat :=
  (s.discrepancies.filter (fun d => d.ReceptionLineID == lineID)).length

/-- Order and expected quantity stored for a reception line: the two columns BlindCount
reads and never writes. -/
def lineKey (s : Store) (lineID : UUID) : Option (UUID × Int) :=
  (ReceptionLineRepository.FindByID s lineID).map
    (fun line => (line.ReceptionOrderID, line.ExpectedQuantity))

/-- The cycle count `countID` is stored with a status other than PENDIENTE. -/
def CountClosed (s : Store) (countID : UUID) : Prop :=
  ∃ count, CycleCountRepository.FindByID s countID = some count ∧
    count.Status ≠ CycleCountStatus.PENDIENTE

/-- The store after the UPDATE of a cycle count has rewritten its rows. -/
def CycleCountRepository.written (s : Store) (count : CycleCount) : Store :=
  { s with cycleCounts := s.cycleCounts.map (CycleCount.applyUpdate count) }

/-- The count as PerformCount fills it before the UPDATE (step 2). -/
def PerformCycleCountUseCase.counted (now : Int) (input : PerformCountInput)
    (count : CycleCount) : CycleCount :=
  { count with
    CountedQuantity := some input.CountedQuantity
    CountedBy := some input.UserID
    CountedAt := some now
    Status := CycleCountStatus.COMPLETADO }

/-- A sequence of PerformCount calls, each with its clock reading, run one after the other
on the store the previous call left. -/
def PerformCycleCountUseCase.run (s : Store) : List (Int × PerformCountInput) → Store
  | [] => s
  | call :: rest =>
    PerformCycleCountUseCase.run (PerformCycleCountUseCase.PerformCount call.1 s call.2).1 rest

/-- Modelled from the spec: the values the columns of `cycle_counts` take that the INSERT
of a count does not name (`counted_quantity`, `variance`, `counted_by`, `counted_at`); the
schema with their defaults is not in the sources.  The spec has the counted quantity
"nullable until performed" and the variance derived from it. -/
def CycleCountRepository.columnDefaults (count : CycleCount) : CycleCount :=
  { count with
    CountedQuantity := none
    Variance := none
    CountedBy := none
    CountedAt := none }

/-- CycleCountRepositoryPostgres.Create: `INSERT INTO cycle_counts (scheduled_date,
location, product_id, expected_quantity, status) ... RETURNING id, created_at`; the other
columns are stored at their defaults. -/
def CycleCountRepository.Create (s : Store) (now : Int) (count : CycleCount) :
    Store × CycleCount :=
  let id := freshID (s.cycleCounts.map (·.ID))
  ({ s with
      cycleCounts := s.cycleCounts ++
        [{ CycleCountRepository.columnDefaults count with ID := id, CreatedAt := now }] },
    { count with ID := id, CreatedAt := now })

/-- The cycle counts are as the code leaves them: a count that is still PENDIENTE carries
no variance.  The INSERT of a count does not name the column, and the only UPDATE of the
table, which closes the count, does not write it. -/
def PendingWithoutVariance (s : Store) : Prop :=
  ∀ count ∈ s.cycleCounts, count.Status = CycleCountStatus.PENDIENTE →
    count.Variance = none ∨ count.Variance = some 0

instance PendingWithoutVariance.decidable (s : Store) :
    Decidable (PendingWithoutVariance s) := by
  unfold PendingWithoutVariance
  infer_instance

/-! ## Route assignment (`internal/usecase/fleet`, `domain/fleet.go`) -/

/-- ErrVehicleNotAvailable of `domain/errors.go`. -/
def ErrVehicleNotAvailable : String := "vehículo no disponible"

/-- ErrDriverNotAvailable of `domain/errors.go`. -/
def ErrDriverNotAvailable : String := "chofer no disponible"

/-- Vehicle.IsAvailableForRoute. -/
def Vehicle.IsAvailableForRoute (v : Vehicle) : Bool :=
  v.Status == VehicleStatus.VehicleDisponible && v.IsActive

/-- Driver.IsAvailableForRoute; `now` is the reading of `time.Now()`. -/
def Driver.IsAvailableForRoute (now : Int) (d : Driver) : Bool :=
  d.Status == DriverStatus.DriverDisponible && d.IsActive && decide (now < d.LicenseExpiry)

/-- OrderRepositoryPostgres.FindByID:
`SELECT * FROM orders WHERE id = $1 AND deleted_at IS NULL`. -/
def OrderRepository.FindByID (s : Store) (id : UUID) : Option Order :=
  s.orders.find? (fun o => o.ID == id && o.DeletedAt.isNone)

/-- Row rewrite of `UPDATE orders SET status, total_weight_kg, total_volume_m3, total_cost,
suggested_vehicle, has_fragile_items, has_heavy_items, loading_alert, updated_at
WHERE id = $9 AND deleted_at IS NULL`. -/
def Order.applyUpdate (now : Int) (order : Order) (row : Order) : Order :=
  if row.ID == order.ID && row.DeletedAt.isNone then
    { row with
      Status := order.Status
      TotalWeightKg := order.TotalWeightKg
      TotalVolumeM3 := order.TotalVolumeM3
      TotalCost := order.TotalCost
      SuggestedVehicle := order.SuggestedVehicle
      HasFragileItems := order.HasFragileItems
      HasHeavyItems := order.HasHeavyItems
      LoadingAlert := order.LoadingAlert
      UpdatedAt := now }
  else row

/-- The store after the UPDATE of an order has rewritten its rows. -/
def OrderRepository.written (s : Store) (now : Int) (order : Order) : Store :=
  { s with orders := s.orders.map (Order.applyUpdate now order) }

/-- OrderRepositoryPostgres.Update; `none` is an error: `ErrOrderNotFound` (no row
affected) or the failure of the database. -/
def OrderRepository.Update (s : Store) (now : Int) (order : Order) : Option Store :=
  if s.faults.orderUpdate then none
  else if s.orders.any (fun o => o.ID == order.ID && o.DeletedAt.isNone) then
    some (OrderRepository.written s now order)
  else none

/-- VehicleRepositoryPostgres.FindByID. -/
def VehicleRepository.FindByID (s : Store) (id : UUID) : Option Vehicle :=
  s.vehicles.find? (fun v => v.ID == id)

/-- Row rewrite of `UPDATE vehicles SET status, last_maintenance_date,
next_maintenance_date, is_active, updated_at WHERE id = $5`. -/
def Vehicle.applyUpdate (now : Int) (vehicle : Vehicle) (row : Vehicle) : Vehicle :=
  if row.ID == vehicle.ID then
    { row with
      Status := vehicle.Status
      LastMaintenanceDate := vehicle.LastMaintenanceDate
      NextMaintenanceDate := vehicle.NextMaintenanceDate
      IsActive := vehicle.IsActive
      UpdatedAt := now }
  else row

/-- The store after the UPDATE of a vehicle has rewritten its rows. -/
def VehicleRepository.written (s : Store) (now : Int) (vehicle : Vehicle) : Store :=
  { s with vehicles := s.vehicles.map (Vehicle.applyUpdate now vehicle) }

/-- VehicleRepositoryPostgres.Update; `none` is an error: `ErrNotFound` or the failure of
the database. -/
def VehicleRepository.Update (s : Store) (now : Int) (vehicle : Vehicle) : Option Store :=
  if s.faults.vehicleUpdate then none
  else if s.vehicles.any (fun v => v.ID == vehicle.ID) then
    some (VehicleRepository.written s now vehicle)
  else none

/-- VehicleRepositoryPostgres.ListAvailable:
`SELECT * FROM vehicles WHERE status = DISPONIBLE AND is_active = true ORDER BY vehicle_type`.
The order the database gives to the values of `vehicle_type` depends on the column type
and collation, which the sources do not fix: it is the parameter `typeOrder`.  Rows of one
type keep their table order. -/
def VehicleRepository.ListAvailable (typeOrder : VehicleType → Nat) (s : Store) :
    List Vehicle :=
  (s.vehicles.filter
    (fun v => v.Status == VehicleStatus.VehicleDisponible && v.IsActive)).insertionSort
    (fun a b => typeOrder a.VehicleType ≤ typeOrder b.VehicleType)

/-- DriverRepositoryPostgres.FindByID. -/
def DriverRepository.FindByID (s : Store) (id : UUID) : Option Driver :=
  s.drivers.find? (fun d => d.ID == id)

/-- Row rewrite of `UPDATE drivers SET phone, status, is_active, updated_at WHERE id = $4`. -/
def Driver.applyUpdate (now : Int) (driver : Driver) (row : Driver) : Driver :=
  if row.ID == driver.ID then
    { row with
      Phone := driver.Phone
      Status := driver.Status
      IsActive := driver.IsActive
      UpdatedAt := now }
  else row

/-- The store after the UPDATE of a driver has rewritten its rows. -/
def DriverRepository.written (s : Store) (now : Int) (driver : Driver) : Store :=
  { s with drivers := s.drivers.map (Driver.applyUpdate now driver) }

/-- DriverRepositoryPostgres.Update; `none` is an error: `ErrNotFound` or the failure of
the database. -/
def DriverRepository.Update (s : Store) (now : Int) (driver : Driver) : Option Store :=
  if s.faults.driverUpdate then none
  else if s.drivers.any (fun d => d.ID == driver.ID) then
    some (DriverRepository.written s now driver)
  else none

/-- DriverRepositoryPostgres.ListAvailable:
`SELECT * FROM drivers WHERE status = DISPONIBLE AND is_active = true ORDER BY id`. -/
def DriverRepository.ListAvailable (s : Store) : List Driver :=
  (s.drivers.filter
    (fun d => d.Status == DriverStatus.DriverDisponible && d.IsActive)).insertionSort
    (fun a b => a.ID ≤ b.ID)

/-- RouteRepositoryPostgres.Create: `INSERT INTO routes ... RETURNING id, created_at,
updated_at`; gives back the stored row. -/
def RouteRepository.Create (s : Store) (now : Int) (route : Route) : Store × Route :=
  let row := { route with
    ID := freshID (s.routes.map (·.ID))
    CreatedAt := now
    UpdatedAt := now }
  ({ s with routes := s.routes ++ [row] }, row)

/-- AssignRouteInput of `assign_route.go`; an omitted identifier is `none`. -/
structure AssignRouteInput where
  OrderID : UUID
  VehicleID : Option UUID
  DriverID : Option UUID
  RouteType : RouteType
  DepartureDate : Int
  EstimatedArrival : Int
  UserID : UUID
deriving DecidableEq, Repr

/-- AssignRouteOutput of `assign_route.go`. -/
structure AssignRouteOutput where
  Route : Route
  AssignedVehicle : Vehicle
  AssignedDriver : Driver
  AutoAssigned : Bool
deriving DecidableEq

/-- The scan of step 2 of AssignRoute: the first available vehicle whose type is the
suggested one, when the order has a suggested type. -/
def AssignRouteUseCase.matchVehicle (suggested : Option VehicleType) :
    List Vehicle → Option Vehicle
  | [] => none
  | v :: rest =>
    match suggested with
    | some vehicleType =>
      if v.VehicleType = vehicleType then some v
      else AssignRouteUseCase.matchVehicle suggested rest
    | none => AssignRouteUseCase.matchVehicle suggested rest

/-- `selectedVehicle` of step 2 of AssignRoute: the match of the scan, else the first
available vehicle, else nothing. -/
def AssignRouteUseCase.selectVehicle (order : Order) (availableVehicles : List Vehicle) :
    Option Vehicle :=
  match AssignRouteUseCase.matchVehicle order.SuggestedVehicle availableVehicles with
  | some v => some v
  | none => availableVehicles.head?

/-- The identifier AssignRoute settles on for the vehicle, with the flag telling that it
was picked automatically; the error is ErrVehicleNotAvailable. -/
def AssignRouteUseCase.vehicleChoice (typeOrder : VehicleType → Nat) (s : Store)
    (order : Order) (input : AssignRouteInput) : Except String (UUID × Bool) :=
  match input.VehicleID with
  | none =>
    match AssignRouteUseCase.selectVehicle order
        (VehicleRepository.ListAvailable typeOrder s) with
    | none => .error ErrVehicleNotAvailable
    | some selectedVehicle => .ok (selectedVehicle.ID, true)
  | some vehicleID => .ok (vehicleID, false)

/-- Step 2 of AssignRoute with the check that follows it: the vehicle is chosen, read
back by its identifier and tested with IsAvailableForRoute. -/
def AssignRouteUseCase.chooseVehicle (typeOrder : VehicleType → Nat) (s : Store)
    (order : Order) (input : AssignRouteInput) : Except String (Vehicle × Bool) :=
  match AssignRouteUseCase.vehicleChoice typeOrder s order input with
  | .error e => .error e
  | .ok (vehicleID, autoAssigned) =>
    match VehicleRepository.FindByID s vehicleID with
    | none => .error "vehículo no encontrado"
    | some vehicle =>
      if !vehicle.IsAvailableForRoute then .error ErrVehicleNotAvailable
      else .ok (vehicle, autoAssigned)

/-- The identifier AssignRoute settles on for the driver, with the flag telling that it
was picked automatically; the error is ErrDriverNotAvailable. -/
def AssignRouteUseCase.driverChoice (s : Store) (input : AssignRouteInput) :
    Except String (UUID × Bool) :=
  match input.DriverID with
  | none =>
    match DriverRepository.ListAvailable s with
    | [] => .error ErrDriverNotAvailable
    | first :: _ => .ok (first.ID, true)
  | some driverID => .ok (driverID, false)

/-- Step 3 of AssignRoute with the check that follows it: the driver is chosen, read back
by its identifier and tested with IsAvailableForRoute. -/
def AssignRouteUseCase.chooseDriver (now : Int) (s : Store) (input : AssignRouteInput) :
    Except String (Driver × Bool) :=
  match AssignRouteUseCase.driverChoice s input with
  | .error e => .error e
  | .ok (driverID, autoAssigned) =>
    match DriverRepository.FindByID s driverID with
    | none => .error "chofer no encontrado"
    | some driver =>
      if !driver.IsAvailableForRoute now then .error ErrDriverNotAvailable
      else .ok (driver, autoAssigned)

/-- Steps 4 to 6 of AssignRoute: the route is inserted, then the vehicle, the driver and
the order are written back as EN_RUTA (the results of these three updates are discarded,
as in the source), then the audit record is appended. -/
def AssignRouteUseCase.commit (now : Int) (routeNumber : String) (s : Store)
    (input : AssignRouteInput) (order : Order) (vehicle : Vehicle) (driver : Driver)
    (autoAssigned : Bool) : Store × AssignRouteOutput :=
  let created := RouteRepository.Create s now
    { ID := 0
      RouteNumber := routeNumber
      OrderID := input.OrderID
      VehicleID := vehicle.ID
      DriverID := driver.ID
      RouteType := input.RouteType
      DepartureDate := some input.DepartureDate
      EstimatedArrival := some input.EstimatedArrival
      ActualArrival := none
      Status := OrderStatus.OrderConfirmado
      InvoicePDFURL := ""
      AssignedBy := input.UserID
      CreatedAt := 0
      UpdatedAt := 0 }
  let vehicle := { vehicle with Status := VehicleStatus.VehicleEnRuta }
  let s1 :=
    match VehicleRepository.Update created.1 now vehicle with
    | some t => t
    | none => created.1
  let driver := { driver with Status := DriverStatus.DriverEnRuta }
  let s2 :=
    match DriverRepository.Update s1 now driver with
    | some t => t
    | none => s1
  let order := { order with Status := OrderStatus.OrderEnRuta }
  let s3 :=
    match OrderRepository.Update s2 now order with
    | some t => t
    | none => s2
  let s4 := AuditRepository.Log s3
    { UserID := some input.UserID
      Action := "ASSIGN_ROUTE"
      EntityType := "ROUTE"
      EntityID := some created.2.ID }
  (s4,
    { Route := created.2
      AssignedVehicle := vehicle
      AssignedDriver := driver
      AutoAssigned := autoAssigned })

/-- AssignRouteUseCase.Execute (HU-10).  `routeNumber` is the string
`RTA-<date>-<unix mod 10000>` formatted from the clock. -/
def AssignRouteUseCase.Execute (typeOrder : VehicleType → Nat) (now : Int)
    (routeNumber : String) (s : Store) (input : AssignRouteInput) :
    Store × Except String AssignRouteOutput :=
  match OrderRepository.FindByID s input.OrderID with
  | none => (s, .error "pedido no encontrado")
  | some order =>
    match AssignRouteUseCase.chooseVehicle typeOrder s order input with
    | .error e => (s, .error e)
    | .ok (vehicle, autoVehicle) =>
      match AssignRouteUseCase.chooseDriver now s input with
      | .error e => (s, .error e)
      | .ok (driver, autoDriver) =>
        let done := AssignRouteUseCase.commit now routeNumber s input order vehicle driver
          (autoVehicle || autoDriver)
        (done.1, .ok done.2)

/-- The output an AssignRoute result carries (none when the call failed). -/
def AssignRouteUseCase.output (r : Store × Except String AssignRouteOutput) :
    Option AssignRouteOutput :=
  match r.2 with
  | .ok out => some out
  | .error _ => none

/-- The error an AssignRoute result carries (none when the call succeeded). -/
def AssignRouteUseCase.failure (r : Store × Except String AssignRouteOutput) :
    Option String :=
  match r.2 with
  | .ok _ => none
  | .error e => some e

/-- The route literal AssignRoute builds (step 4). -/
def AssignRouteUseCase.route (routeNumber : String) (input : AssignRouteInput)
    (vehicle : Vehicle) (driver : Driver) : Route :=
  { ID := 0
    RouteNumber := routeNumber
    OrderID := input.OrderID
    VehicleID := vehicle.ID
    DriverID := driver.ID
    RouteType := input.RouteType
    DepartureDate := some input.DepartureDate
    EstimatedArrival := some input.EstimatedArrival
    ActualArrival := none
    Status := OrderStatus.OrderConfirmado
    InvoicePDFURL := ""
    AssignedBy := input.UserID
    CreatedAt := 0
    UpdatedAt := 0 }

/-- The row AssignRoute appends to `routes`. -/
def AssignRouteUseCase.storedRoute (now : Int) (routeNumber : String) (s : Store)
    (input : AssignRouteInput) (vehicle : Vehicle) (driver : Driver) : Route :=
  (RouteRepository.Create s now
    (AssignRouteUseCase.route routeNumber input vehicle driver)).2

/-- A sequence of AssignRoute calls, each with its clock reading and route number, run
one after the other on the store the previous call left. -/
def AssignRouteUseCase.run (typeOrder : VehicleType → Nat) (s : Store) :
    List (Int × String × AssignRouteInput) → Store
  | [] => s
  | call :: rest =>
    AssignRouteUseCase.run typeOrder
      (AssignRouteUseCase.Execute typeOrder call.1 call.2.1 s call.2.2).1 rest

/-- The store put under the failures `f`. -/
def Store.withFaults (s : Store) (f : Faults) : Store :=
  { s with faults := f }

/-- The primary state of a store: every table but the audit log, the failure of the audit
insert put aside. -/
def Store.primary (s : Store) : Store :=
  { s with auditLogs := [], faults := { s.faults with auditLog := false } }

/-- The store with the audit insert failing (`down = true`) or working (`down = false`),
the rest of the state as it is. -/
def Store.auditDown (s : Store) (down : Bool) : Store :=
  s.withFaults { s.faults with auditLog := down }

/-- No vehicle row with identifier `vehicleID` is available for a route. -/
def VehicleBusy (s : Store) (vehicleID : UUID) : Prop :=
  ∀ v ∈ s.vehicles, v.ID = vehicleID → v.IsAvailableForRoute = false

/-- No driver row with identifier `driverID` has status DISPONIBLE. -/
def DriverBusy (s : Store) (driverID : UUID) : Prop :=
  ∀ d ∈ s.drivers, d.ID = driverID → d.Status ≠ DriverStatus.DriverDisponible

/-! ## Maintenance and pre-departure check (`internal/usecase/fleet/maintenance.go`) -/

/-- RouteRepositoryPostgres.FindByID. -/
def RouteRepository.FindByID (s : Store) (id : UUID) : Option Route :=
  s.routes.find? (fun r => r.ID == id)

/-- VehicleMaintenanceRepositoryPostgres.Create: `INSERT INTO vehicle_maintenance ...
RETURNING id, created_at`; gives back the stored row. -/
def VehicleMaintenanceRepository.Create (s : Store) (now : Int)
    (maintenance : VehicleMaintenance) : Store × VehicleMaintenance :=
  let row := { maintenance with
    ID := freshID (s.maintenances.map (·.ID))
    CreatedAt := now }
  ({ s with maintenances := s.maintenances ++ [row] }, row)

/-- PreDepartureChecklistRepositoryPostgres.Create: `INSERT INTO pre_departure_checklist ...
RETURNING id`; gives back the stored row. -/
def PreDepartureChecklistRepository.Create (s : Store)
    (checklist : PreDepartureChecklist) : Store × PreDepartureChecklist :=
  let row := { checklist with ID := freshID (s.checklists.map (·.ID)) }
  ({ s with checklists := s.checklists ++ [row] }, row)

/-- RegisterMaintenanceInput of `maintenance.go`. -/
structure RegisterMaintenanceInput where
  VehicleID : UUID
  MaintenanceType : String
  Description : String
  Cost : ℚ
  PerformedBy : String
  UserID : UUID
deriving DecidableEq

/-- RegisterMaintenanceUseCase.Execute (HU-16); `none` is the `nil` error.
`nextMaintenance` is `now.AddDate(0, 3, 0)`, the instant three calendar months after
`now`.  The result of the vehicle update is discarded, as in the source. -/
def RegisterMaintenanceUseCase.Execute (now nextMaintenance : Int) (s : Store)
    (input : RegisterMaintenanceInput) : Store × Option String :=
  match VehicleRepository.FindByID s input.VehicleID with
  | none => (s, some "vehículo no encontrado")
  | some vehicle =>
    let created := VehicleMaintenanceRepository.Create s now
      { ID := 0
        VehicleID := input.VehicleID
        MaintenanceType := input.MaintenanceType
        Description := input.Description
        Cost := input.Cost
        StartDate := now
        EndDate := none
        PerformedBy := input.PerformedBy
        CreatedAt := 0 }
    let vehicle := { vehicle with
      Status := VehicleStatus.VehicleEnTaller
      LastMaintenanceDate := some now
      NextMaintenanceDate := some nextMaintenance }
    let s2 :=
      match VehicleRepository.Update created.1 now vehicle with
      | some t => t
      | none => created.1
    let s3 := AuditRepository.Log s2
      { UserID := some input.UserID
        Action := "REGISTER_MAINTENANCE"
        EntityType := "VEHICLE"
        EntityID := some vehicle.ID }
    (s3, none)

/-- PerformCheckInput of `maintenance.go`. -/
structure PerformCheckInput where
  RouteID : UUID
  TireCondition : String
  FuelLevel : Int
  OilLevel : String
  LightsOk : Bool
  DamagePhotoURL : String
  Notes : String
  UserID : UUID
deriving DecidableEq, Repr

/-- The checklist literal PerformPreDepartureCheck builds (step 3). -/
def PerformPreDepartureCheckUseCase.checklist (now : Int) (input : PerformCheckInput)
    (route : Route) : PreDepartureChecklist :=
  { ID := 0
    RouteID := input.RouteID
    DriverID := route.DriverID
    TireCondition := input.TireCondition
    FuelLevel := input.FuelLevel
    OilLevel := input.OilLevel
    LightsOk := input.LightsOk
    DamagePhotoURL := input.DamagePhotoURL
    Notes := input.Notes
    CheckedAt := now }

/-- PerformPreDepartureCheckUseCase.Execute (HU-17); `none` is the `nil` error. -/
def PerformPreDepartureCheckUseCase.Execute (now : Int) (s : Store)
    (input : PerformCheckInput) : Store × Option String :=
  match RouteRepository.FindByID s input.RouteID with
  | none => (s, some "ruta no encontrada")
  | some route =>
    if input.FuelLevel < 25 then
      (s, some
        "nivel de combustible insuficiente (<25%). Cargar combustible antes de partir")
    else if input.TireCondition = "MALO" then
      (s, some "condición de llantas MALA. Cambiar llantas antes de partir")
    else if !input.LightsOk then
      (s, some "luces no funcionan correctamente. Reparar antes de partir")
    else
      let created := PreDepartureChecklistRepository.Create s
        (PerformPreDepartureCheckUseCase.checklist now input route)
      let s2 := AuditRepository.Log created.1
        { UserID := some input.UserID
          Action := "PRE_DEPARTURE_CHECK"
          EntityType := "ROUTE"
          EntityID := some route.ID }
      (s2, none)

/-! ## Creation of reception orders (`internal/usecase/reception/create_reception_order.go`) -/

/-- SupplierRepositoryPostgres.FindByID. -/
def SupplierRepository.FindByID (s : Store) (id : UUID) : Option Supplier :=
  s.suppliers.find? (fun p => p.ID == id)

/-- ReceptionOrderRepositoryPostgres.Create: `INSERT INTO reception_orders ... RETURNING
id, created_at, updated_at`; gives back the stored row. -/
def ReceptionOrderRepository.Create (s : Store) (now : Int) (order : ReceptionOrder) :
    Store × ReceptionOrder :=
  let row := { order with
    ID := freshID (s.receptionOrders.map (·.ID))
    CreatedAt := now
    UpdatedAt := now }
  ({ s with receptionOrders := s.receptionOrders ++ [row] }, row)

/-- Modelled from the spec: the values the columns of `reception_lines` take that the
INSERT of CreateBatch does not name (`counted_quantity`, `discrepancy`, `condition`,
`counted_by`, `counted_at`); the schema with their defaults is not in the sources.  The
spec has the lines persisted "with condition defaulted to FIT", and a line is counted
only by the blind count. -/
def ReceptionLineRepository.columnDefaults (line : ReceptionLine) : ReceptionLine :=
  { line with
    CountedQuantity := none
    Discrepancy := none
    Condition := ProductCondition.ConditionApto
    CountedBy := none
    CountedAt := none }

/-- The row one INSERT of CreateBatch stores: `reception_order_id, product_id,
expected_quantity, lot_number, expiration_date` from the line, `id, created_at,
updated_at` from the database, the other columns at their defaults. -/
def ReceptionLineRepository.stored (s : Store) (now : Int) (line : ReceptionLine) :
    ReceptionLine :=
  { ReceptionLineRepository.columnDefaults line with
    ID := freshID (s.receptionLines.map (·.ID))
    CreatedAt := now
    UpdatedAt := now }

/-- ReceptionLineRepositoryPostgres.CreateBatch: inserts the lines one after the other in
one transaction and gives back the stored rows. -/
def ReceptionLineRepository.CreateBatch (s : Store) (now : Int) :
    List ReceptionLine → Store × List ReceptionLine
  | [] => (s, [])
  | line :: rest =>
    let row := ReceptionLineRepository.stored s now line
    let r := ReceptionLineRepository.CreateBatch
      { s with receptionLines := s.receptionLines ++ [row] } now rest
    (r.1, row :: r.2)

/-- ReceptionLineInput of `create_reception_order.go`. -/
structure ReceptionLineInput where
  ProductID : UUID
  ExpectedQuantity : Int
  LotNumber : String
  ExpirationDate : Option Int
deriving DecidableEq, Repr

/-- CreateReceptionOrderInput of `create_reception_order.go`. -/
structure CreateReceptionOrderInput where
  SupplierID : UUID
  InvoiceNumber : String
  InvoiceFileURL : String
  Notes : String
  Lines : List ReceptionLineInput
  UserID : UUID
deriving DecidableEq, Repr

/-- The line literal CreateReceptionOrder builds for one input line (step 5). -/
def CreateReceptionOrderUseCase.line (order : ReceptionOrder)
    (lineInput : ReceptionLineInput) : ReceptionLine :=
  { ID := 0
    ReceptionOrderID := order.ID
    ProductID := lineInput.ProductID
    ExpectedQuantity := lineInput.ExpectedQuantity
    CountedQuantity := none
    Discrepancy := none
    LotNumber := lineInput.LotNumber
    ExpirationDate := lineInput.ExpirationDate
    Condition := ProductCondition.ConditionApto
    CountedBy := none
    CountedAt := none
    CreatedAt := 0
    UpdatedAt := 0 }

/-- The loop of step 5 of CreateReceptionOrder: it looks every product up and appends the
line, and stops with an error at the first product that is missing. -/
def CreateReceptionOrderUseCase.buildLines (s : Store) (order : ReceptionOrder) :
    List ReceptionLine → List ReceptionLineInput → Except String (List ReceptionLine)
  | lines, [] => .ok lines
  | lines, lineInput :: rest =>
    match ProductRepository.FindByID s lineInput.ProductID with
    | none => .error ("producto " ++ toString lineInput.ProductID ++ " no encontrado")
    | some _ =>
      CreateReceptionOrderUseCase.buildLines s order
        (lines ++ [CreateReceptionOrderUseCase.line order lineInput]) rest

/-- The order literal CreateReceptionOrder builds (step 4). -/
def CreateReceptionOrderUseCase.order (orderNumber : String)
    (input : CreateReceptionOrderInput) (supplier : Supplier) : ReceptionOrder :=
  { ID := 0
    OrderNumber := orderNumber
    SupplierID := input.SupplierID
    Brand := supplier.Brand
    InvoiceNumber := input.InvoiceNumber
    InvoiceFileURL := input.InvoiceFileURL
    Status := ReceptionStatus.ReceptionPendiente
    ReceivedBy := none
    ReceivedAt := none
    ValidatedBy := none
    ValidatedAt := none
    Notes := input.Notes
    CreatedAt := 0
    UpdatedAt := 0 }

/-- CreateReceptionOrderUseCase.Execute (HU-01).  `orderNumber` is the string
`REC-<date>-<unix mod 10000>` formatted from the clock.  The order is inserted (step 4)
before the products of the lines are looked up (step 5). -/
def CreateReceptionOrderUseCase.Execute (now : Int) (orderNumber : String) (s : Store)
    (input : CreateReceptionOrderInput) : Store × Except String ReceptionOrder :=
  match SupplierRepository.FindByID s input.SupplierID with
  | none => (s, .error "proveedor no encontrado")
  | some supplier =>
    if input.Lines.length = 0 then
      (s, .error "la orden debe tener al menos una línea")
    else
      let created := ReceptionOrderRepository.Create s now
        (CreateReceptionOrderUseCase.order orderNumber input supplier)
      let order := created.2
      match CreateReceptionOrderUseCase.buildLines created.1 order [] input.Lines with
      | .error e => (created.1, .error e)
      | .ok lines =>
        let batch := ReceptionLineRepository.CreateBatch created.1 now lines
        let s3 := AuditRepository.Log batch.1
          { UserID := some input.UserID
            Action := "CREATE_RECEPTION_ORDER"
            EntityType := "RECEPTION_ORDER"
            EntityID := some order.ID }
        (s3, .ok order)

/-- The order a CreateReceptionOrder result carries (none when the call failed). -/
def CreateReceptionOrderUseCase.output (r : Store × Except String ReceptionOrder) :
    Option ReceptionOrder :=
  match r.2 with
  | .ok order => some order
  | .error _ => none

/-- The error a CreateReceptionOrder result carries (none when the call succeeded). -/
def CreateReceptionOrderUseCase.failure (r : Store × Except String ReceptionOrder) :
    Option String :=
  match r.2 with
  | .ok _ => none
  | .error e => some e

/-! ## Generated numbers (`create_reception_order.go`, `create_order.go`) -/

/-- What the two reads of `time.Now()` give when a number is generated: the calendar date
that `Format("20060102")` prints and the Unix time in seconds. -/
structure Timestamp where
  Year : Nat
  Month : Nat
  Day : Nat
  Unix : Int
deriving DecidableEq, Repr

/-- The `appendInt` of Go's time formatting: the decimal digits of `x`, padded with zeros
on the left up to `width`. -/
def appendInt (x width : Nat) : String :=
  String.mk (List.replicate (width - (Nat.repr x).length) '0') ++ Nat.repr x

/-- `Format("20060102")`: four digits of year, two of month, two of day. -/
def Timestamp.Format (t : Timestamp) : String :=
  appendInt t.Year 4 ++ appendInt t.Month 2 ++ appendInt t.Day 2

/-- The suffix `%d` prints for `time.Now().Unix()%10000`: the decimal numeral of the
remainder of Go's truncated division, without padding. -/
def Timestamp.suffix (t : Timestamp) : String :=
  toString (Int.tmod t.Unix 10000)

/-- Step 3 of CreateReceptionOrder:
`fmt.Sprintf("REC-%s-%d", time.Now().Format("20060102"), time.Now().Unix()%10000)`. -/
def CreateReceptionOrderUseCase.orderNumber (t : Timestamp) : String :=
  "REC-" ++ t.Format ++ "-" ++ t.suffix

/-- Step 2 of CreateOrder:
`fmt.Sprintf("ORD-%s-%d", time.Now().Format("20060102"), time.Now().Unix()%10000)`. -/
def CreateOrderUseCase.orderNumber (t : Timestamp) : String :=
  "ORD-" ++ t.Format ++ "-" ++ t.suffix

/-! ## Concrete rows used in the examples -/

/-- An available lot row with the given identifier, product, expiration, quantity and
creation time. -/
def lotRow (id product : UUID) (expiration : Option Int) (quantity : Int) (created : Int) :
    Inventory :=
  { ID := id, ProductID := product, LotNumber := "", ExpirationDate := expiration,
    Quantity := quantity, Status := StockStatus.StockDisponible, WarehouseLocation := "",
    LastMovementAt := none, CreatedAt := created, UpdatedAt := created }

/-- An ENTRADA movement that brought `quantity` units into lot `lot`. -/
def entryRow (id lot : UUID) (quantity : Int) : InventoryMovement :=
  { ID := id, InventoryID := lot, MovementType := MovementType.MovementEntrada,
    Quantity := quantity, PreviousQuantity := 0, NewQuantity := quantity, ReferenceID := none,
    ReferenceType := "", Reason := "", EvidencePhotoURL := "", PerformedBy := 0, CreatedAt := 0 }

/-- Product 7 holds two lots of 10 and 20 units, each explained by its ENTRADA movement. -/
def ledgerStore : Store :=
  { inventory := [lotRow 1 7 none 10 0, lotRow 2 7 none 20 1]
    movements := [entryRow 1 1 10, entryRow 2 2 20] }

/-- A damage report of 4 units on lot 1 with a photo. -/
def damageInput : RegisterDamageInput :=
  { InventoryID := 1, Quantity := 4, Reason := "caja rota", EvidencePhotoURL := "foto.jpg",
    UserID := 3 }

/-- A product row with the given identifier, weight and fragility. -/
def productRow (id : UUID) (weight : ℚ) (fragile : Bool) : Product :=
  { ID := id, SKU := "", Name := "", Brand := Brand.BrandJumex, Category := "",
    WeightKg := weight, LengthCm := 10, WidthCm := 10, HeightCm := 10, IsFragile := fragile,
    UnitPrice := 5, IsActive := true, DeletedAt := none }

/-- Customer 1 is active; product 7 has lot 1 (expires at 100, 10 units) and lot 2 (no
expiration, 20 units); product 8 has no lot. -/
def orderStore : Store :=
  { customers := [{ ID := 1, Name := "cliente", CreditLimit := 0, IsActive := true }]
    products := [productRow 7 2 false, productRow 8 12 true]
    inventory := [lotRow 2 7 none 20 0, lotRow 1 7 (some 100) 10 1] }

/-- Customer 1 is active; product 9 has the single lot 1 of 10 units. -/
def overbookStore : Store :=
  { customers := [{ ID := 1, Name := "cliente", CreditLimit := 0, IsActive := true }]
    products := [productRow 9 2 false]
    inventory := [lotRow 1 9 none 10 0] }

/-- An order of customer 1 with two lines, each asking 8 units of product 9. -/
def overbookInput : CreateOrderInput :=
  { CustomerID := 1
    Lines := [{ ProductID := 9, Quantity := 8 }, { ProductID := 9, Quantity := 8 }]
    UserID := 3 }

/-- An order of customer 1: 15 units of product 7, 30 units of product 7, 1 unit of
product 8. -/
def mixedInput : CreateOrderInput :=
  { CustomerID := 1
    Lines := [{ ProductID := 7, Quantity := 15 }, { ProductID := 7, Quantity := 30 },
      { ProductID := 8, Quantity := 1 }]
    UserID := 3 }

/-- An order of customer 1: 15 units of product 7 and 1 unit of product 8. -/
def distinctInput : CreateOrderInput :=
  { CustomerID := 1
    Lines := [{ ProductID := 7, Quantity := 15 }, { ProductID := 8, Quantity := 1 }]
    UserID := 3 }

/-- A reception order row with the given identifier and status. -/
def receptionOrderRow (id : UUID) (status : ReceptionStatus) : ReceptionOrder :=
  { ID := id, OrderNumber := "REC-1", SupplierID := 1, Brand := Brand.BrandJumex,
    InvoiceNumber := "", InvoiceFileURL := "", Status := status,
    ReceivedBy := none, ReceivedAt := none, ValidatedBy := none,
    ValidatedAt := none, Notes := "", CreatedAt := 0, UpdatedAt := 0 }

/-- An uncounted reception line of order `order` expecting `expected` units. -/
def receptionLineRow (id order : UUID) (expected : Int) : ReceptionLine :=
  { ID := id, ReceptionOrderID := order, ProductID := 7, ExpectedQuantity := expected,
    CountedQuantity := none, Discrepancy := none, LotNumber := "", ExpirationDate := none,
    Condition := ProductCondition.ConditionApto, CountedBy := none, CountedAt := none,
    CreatedAt := 0, UpdatedAt := 0 }

/-- Order 1 is PENDIENTE with line 10 (expects 50) and line 11 (expects 20); order 2 is
PENDIENTE with line 20 (expects 5); order 3 is VALIDADA with line 30 (expects 7).  No
discrepancy is recorded. -/
def receptionStore : Store :=
  { receptionOrders :=
      [receptionOrderRow 1 ReceptionStatus.ReceptionPendiente,
       receptionOrderRow 2 ReceptionStatus.ReceptionPendiente,
       receptionOrderRow 3 ReceptionStatus.ReceptionValidada]
    receptionLines :=
      [receptionLineRow 10 1 50, receptionLineRow 11 1 20, receptionLineRow 20 2 5,
       receptionLineRow 30 3 7] }

/-- A blind count of order 1: 45 units on line 10 (expects 50), 20 units on line 11
(expects 20). -/
def shortCountInput : BlindCountInput :=
  { ReceptionOrderID := 1
    Lines := [{ LineID := 10, CountedQuantity := 45, Condition := none },
      { LineID := 11, CountedQuantity := 20, Condition := none }]
    UserID := 3 }

/-- A blind count of order 1 that names line 10 twice, with 45 and then 44 units. -/
def repeatedCountInput : BlindCountInput :=
  { ReceptionOrderID := 1
    Lines := [{ LineID := 10, CountedQuantity := 45, Condition := none },
      { LineID := 10, CountedQuantity := 44, Condition := none }]
    UserID := 3 }

/-- A blind count of order 1 whose second entry, line 20, belongs to order 2. -/
def foreignLineInput : BlindCountInput :=
  { ReceptionOrderID := 1
    Lines := [{ LineID := 10, CountedQuantity := 45, Condition := none },
      { LineID := 20, CountedQuantity := 5, Condition := none }]
    UserID := 3 }

/-- A blind count of order 1 with the single entry of 45 units on line 10. -/
def retryInput : BlindCountInput :=
  { ReceptionOrderID := 1
    Lines := [{ LineID := 10, CountedQuantity := 45, Condition := none }]
    UserID := 3 }

/-- A blind count of order 3, which is VALIDADA. -/
def validatedOrderInput : BlindCountInput :=
  { ReceptionOrderID := 3
    Lines := [{ LineID := 30, CountedQuantity := 6, Condition := none }]
    UserID := 3 }

/-- A blind count of order 2: 5 units on line 20, as expected. -/
def secondOrderInput : BlindCountInput :=
  { ReceptionOrderID := 2
    Lines := [{ LineID := 20, CountedQuantity := 5, Condition := none }]
    UserID := 4 }

/-- A blind count of order 1 with the single entry of -9223372036854775808 units, the
smallest Go `int`, on line 10. -/
def overflowCountInput : BlindCountInput :=
  { ReceptionOrderID := 1
    Lines := [{ LineID := 10, CountedQuantity := -9223372036854775808, Condition := none }]
    UserID := 3 }

/-- A blind count of order 1 that submits no line. -/
def emptyCountInput : BlindCountInput :=
  { ReceptionOrderID := 1, Lines := [], UserID := 3 }

/-- A cycle count row as GenerateDailyCycleCounts inserts it: PENDIENTE, with the expected
quantity and neither counted quantity nor variance. -/
def pendingCountRow (id product : UUID) (expected : Int) : CycleCount :=
  { ID := id, ScheduledDate := 0, Location := "Random", ProductID := product,
    ExpectedQuantity := some expected, CountedQuantity := none, Variance := none,
    CountedBy := none, CountedAt := none, Status := CycleCountStatus.PENDIENTE, CreatedAt := 0 }

/-- Product 7 holds lot 1 of 30 units, explained by its ENTRADA movement; cycle count 6 of
product 7 and cycle count 8 of product 9 are PENDIENTE, as generated, with expected
quantities 30 and 0. -/
def freshCountStore : Store :=
  { inventory := [lotRow 1 7 none 30 0]
    movements := [entryRow 1 1 30]
    cycleCounts := [pendingCountRow 6 7 30, pendingCountRow 8 9 0] }

/-- The count of 25 units for cycle count 6. -/
def shortCycleInput : PerformCountInput :=
  { CountID := 6, CountedQuantity := 25, UserID := 3 }

/-- The count of 0 units for cycle count 8. -/
def otherCycleInput : PerformCountInput :=
  { CountID := 8, CountedQuantity := 0, UserID := 4 }

/-- A product row of 200 x 200 x 200 cm (8 cubic metres), 10 kg, fragile. -/
def bulkProductRow (id : UUID) : Product :=
  { ID := id, SKU := "", Name := "", Brand := Brand.BrandOtros, Category := "",
    WeightKg := 10, LengthCm := 200, WidthCm := 200, HeightCm := 200, IsFragile := true,
    UnitPrice := 50, IsActive := true, DeletedAt := none }

/-- Customer 1 is active; product 5 is bulky (8 cubic metres a unit), weighs exactly 10 kg
and is fragile; product 7 is small, light and sturdy; product 8 is small, weighs 12 kg and
is fragile.  No lot is stored. -/
def bulkStore : Store :=
  { customers := [{ ID := 1, Name := "cliente", CreditLimit := 0, IsActive := true }]
    products := [bulkProductRow 5, productRow 7 2 false, productRow 8 12 true] }

/-- An order of customer 1: 10 units of product 5, that is 80 cubic metres. -/
def bulkInput : CreateOrderInput :=
  { CustomerID := 1, Lines := [{ ProductID := 5, Quantity := 10 }], UserID := 3 }

/-- An order of customer 1: 3 units of product 7 and 2 units of product 8. -/
def heavyFragileInput : CreateOrderInput :=
  { CustomerID := 1
    Lines := [{ ProductID := 7, Quantity := 3 }, { ProductID := 8, Quantity := 2 }]
    UserID := 3 }

/-- A vehicle row of the given type, status and active flag. -/
def vehicleRow (id : UUID) (vehicleType : VehicleType) (status : VehicleStatus)
    (active : Bool) : Vehicle :=
  { ID := id, PlateNumber := "", VehicleType := vehicleType, Brand := "", Model := "",
    Year := 2020, CapacityKg := 1000, CapacityM3 := 20, Status := status,
    LastMaintenanceDate := none, NextMaintenanceDate := none, IsActive := active,
    CreatedAt := 0, UpdatedAt := 0 }

/-- A driver row of the given status, active flag and license expiry. -/
def driverRow (id : UUID) (status : DriverStatus) (active : Bool) (expiry : Int) : Driver :=
  { ID := id, UserID := id, LicenseNumber := "", LicenseExpiry := expiry, Phone := "",
    Status := status, IsActive := active, CreatedAt := 0, UpdatedAt := 0 }

/-- A stored order in status LISTO with the given suggested vehicle. -/
def placedOrderRow (id : UUID) (suggested : Option VehicleType) : Order :=
  { ID := id, OrderNumber := "", CustomerID := 1, Status := OrderStatus.OrderListo,
    TotalWeightKg := 0, TotalVolumeM3 := 0, TotalCost := 0, SuggestedVehicle := suggested,
    HasFragileItems := false, HasHeavyItems := false, LoadingAlert := "", CreatedBy := 1,
    CreatedAt := 0, UpdatedAt := 0, DeletedAt := none }

/-- The order of the vehicle types as text: CAMION_3_5, CAMIONETA, TORTON, VAN. -/
def textOrder : VehicleType → Nat
  | VehicleType.VehicleCamion35 => 0
  | VehicleType.VehicleCamioneta => 1
  | VehicleType.VehicleTorton => 2
  | VehicleType.VehicleVan => 3

/-- A fleet with three available vehicles (a camioneta and two tortons), one vehicle in
the workshop, an available driver, a resting driver, and three orders: order 20 suggests a
torton, order 21 suggests nothing, order 22 suggests a van. -/
def fleetStore : Store :=
  { orders := [placedOrderRow 20 (some VehicleType.VehicleTorton), placedOrderRow 21 none,
      placedOrderRow 22 (some VehicleType.VehicleVan)]
    vehicles := [vehicleRow 1 VehicleType.VehicleTorton VehicleStatus.VehicleDisponible true,
      vehicleRow 2 VehicleType.VehicleCamioneta VehicleStatus.VehicleDisponible true,
      vehicleRow 3 VehicleType.VehicleTorton VehicleStatus.VehicleDisponible true,
      vehicleRow 4 VehicleType.VehicleVan VehicleStatus.VehicleEnTaller true]
    drivers := [driverRow 1 DriverStatus.DriverDisponible true 1000,
      driverRow 2 DriverStatus.DriverDescanso true 1000] }

/-- A fleet none of whose vehicles is available: one is in the workshop, the other is
DISPONIBLE but inactive. -/
def idleFleetStore : Store :=
  { orders := [placedOrderRow 20 (some VehicleType.VehicleTorton)]
    vehicles := [vehicleRow 4 VehicleType.VehicleVan VehicleStatus.VehicleEnTaller true,
      vehicleRow 5 VehicleType.VehicleTorton VehicleStatus.VehicleDisponible false]
    drivers := [driverRow 1 DriverStatus.DriverDisponible true 1000,
      driverRow 2 DriverStatus.DriverDescanso true 1000] }

/-- A route request for the given order with the given vehicle and driver. -/
def routeInput (order : UUID) (vehicle driver : Option UUID) : AssignRouteInput :=
  { OrderID := order, VehicleID := vehicle, DriverID := driver,
    RouteType := RouteType.RouteLocal, DepartureDate := 200, EstimatedArrival := 300,
    UserID := 9 }

/-- A fleet none of whose vehicles has status DISPONIBLE: one is in the workshop, the
other is on a route. -/
def workshopFleetStore : Store :=
  { orders := [placedOrderRow 20 (some VehicleType.VehicleTorton)]
    vehicles := [vehicleRow 4 VehicleType.VehicleVan VehicleStatus.VehicleEnTaller true,
      vehicleRow 6 VehicleType.VehicleTorton VehicleStatus.VehicleEnRuta true]
    drivers := [driverRow 1 DriverStatus.DriverDisponible true 1000,
      driverRow 2 DriverStatus.DriverDescanso true 1000] }

/-- A fleet with two available tortons, a camioneta and two available drivers; order 20
suggests a torton. -/
def twoDriverFleetStore : Store :=
  { orders := [placedOrderRow 20 (some VehicleType.VehicleTorton)]
    vehicles := [vehicleRow 1 VehicleType.VehicleTorton VehicleStatus.VehicleDisponible true,
      vehicleRow 2 VehicleType.VehicleCamioneta VehicleStatus.VehicleDisponible true,
      vehicleRow 3 VehicleType.VehicleTorton VehicleStatus.VehicleDisponible true]
    drivers := [driverRow 1 DriverStatus.DriverDisponible true 1000,
      driverRow 2 DriverStatus.DriverDisponible true 1000] }

/-- A stored route of order 20 with vehicle 1 and driver 1. -/
def routeRow (id : UUID) : Route :=
  { ID := id, RouteNumber := "RTA-1", OrderID := 20, VehicleID := 1, DriverID := 1,
    RouteType := RouteType.RouteLocal, DepartureDate := some 200,
    EstimatedArrival := some 300, ActualArrival := none,
    Status := OrderStatus.OrderConfirmado, InvoicePDFURL := "", AssignedBy := 9,
    CreatedAt := 0, UpdatedAt := 0 }

/-- A store holding route 1 and no checklist. -/
def routedStore : Store :=
  { routes := [routeRow 1] }

/-- A pre-departure check of route 1 with good oil, no photo and no notes. -/
def checkInput (fuel : Int) (tires : String) (lights : Bool) : PerformCheckInput :=
  { RouteID := 1, TireCondition := tires, FuelLevel := fuel, OilLevel := "OK",
    LightsOk := lights, DamagePhotoURL := "", Notes := "", UserID := 9 }

/-- A supplier row of the given brand. -/
def supplierRow (id : UUID) (brand : Brand) : Supplier :=
  { ID := id, Name := "", Brand := brand, RFC := "", ContactName := "", Phone := "",
    Email := "", IsActive := true, CreatedAt := 0, UpdatedAt := 0 }

/-- A store with supplier 1 of brand Jumex and the products 7 and 8, without reception
orders. -/
def receivingStore : Store :=
  { suppliers := [supplierRow 1 Brand.BrandJumex]
    products := [productRow 7 5 false, productRow 8 12 true] }

/-- An input line of a reception order. -/
def receptionLineInput (product : UUID) (expected : Int) (lot : String)
    (expiration : Option Int) : ReceptionLineInput :=
  { ProductID := product, ExpectedQuantity := expected, LotNumber := lot,
    ExpirationDate := expiration }

/-- A reception order of supplier 1 with the given lines. -/
def receptionInput (lines : List ReceptionLineInput) : CreateReceptionOrderInput :=
  { SupplierID := 1, InvoiceNumber := "F-1", InvoiceFileURL := "", Notes := "",
    Lines := lines, UserID := 9 }

/-- The clock reading of 14 November 2023, Unix second 1700000042. -/
def novemberStamp : Timestamp :=
  { Year := 2023, Month := 11, Day := 14, Unix := 1700000042 }

/-- The clock reading of 5 March 2024, Unix second 1709640000. -/
def marchStamp : Timestamp :=
  { Year := 2024, Month := 3, Day := 5, Unix := 1709640000 }

/-- An order of customer 1: 3 units of product 7. -/
def smallInput : CreateOrderInput :=
  { CustomerID := 1, Lines := [{ ProductID := 7, Quantity := 3 }], UserID := 3 }

/-- A product row of `length` x 100 x 100 cm that weighs 1 kg and costs 1. -/
def boxProductRow (id : UUID) (length : ℚ) : Product :=
  { ID := id, SKU := "", Name := "", Brand := Brand.BrandJumex, Category := "",
    WeightKg := 1, LengthCm := length, WidthCm := 100, HeightCm := 100, IsFragile := false,
    UnitPrice := 1, IsActive := true, DeletedAt := none }

/-- Customer 1 is active; product 7 measures 70 x 100 x 100 cm (0.7 cubic metres), product
8 measures 20 x 100 x 100 cm (0.2 cubic metres). -/
def boxStore : Store :=
  { customers := [{ ID := 1, Name := "cliente", CreditLimit := 0, IsActive := true }]
    products := [boxProductRow 7 70, boxProductRow 8 20] }

/-- An order of customer 1: 14 units of product 7 and 1 unit of product 8, 10 cubic metres
in exact arithmetic. -/
def boxInput : CreateOrderInput :=
  { CustomerID := 1
    Lines := [{ ProductID := 7, Quantity := 14 }, { ProductID := 8, Quantity := 1 }]
    UserID := 3 }

/-- A product row of 10 x 10 x 10 cm whose weight and unit price are both the float64
nearest to `tenths / 10`. -/
def decimalProductRow (id : UUID) (tenths : Int) : Product :=
  { ID := id, SKU := "", Name := "", Brand := Brand.BrandJumex, Category := "",
    WeightKg := Float64.round ((tenths : ℚ) / 10), LengthCm := 10, WidthCm := 10,
    HeightCm := 10, IsFragile := false, UnitPrice := Float64.round ((tenths : ℚ) / 10),
    IsActive := true, DeletedAt := none }

/-- Customer 1 is active; product 7 weighs and costs the float64 0.1, product 8 weighs and
costs the float64 0.2. -/
def decimalStore : Store :=
  { customers := [{ ID := 1, Name := "cliente", CreditLimit := 0, IsActive := true }]
    products := [decimalProductRow 7 1, decimalProductRow 8 2] }

/-- An order of customer 1: 1 unit of product 7 and 1 unit of product 8. -/
def decimalInput : CreateOrderInput :=
  { CustomerID := 1
    Lines := [{ ProductID := 7, Quantity := 1 }, { ProductID := 8, Quantity := 1 }]
    UserID := 3 }

/-! ## Inventory ledger: lemmas -/

/-- C3: with an empty evidence reference RegisterDamage fails with the validation error
and hands back the store untouched, whatever the store, the lot identifier, the quantity,
the reason and the user are: no lot is read or changed and no movement is written. -/
theorem RegisterDamageUseCase.Execute_requires_evidence (now : Int) (s : Store)
    (lotID : UUID) (quantity : Int) (reason : String) (user : UUID) :
    RegisterDamageUseCase.Execute now s
        { InventoryID := lotID, Quantity := quantity, Reason := reason,
          EvidencePhotoURL := "", UserID := user } =
      (s, .error "evidence_photo_url es obligatorio (HU-13)") := by
  simp [RegisterDamageUseCase.Execute]

/-! ## FEFO selection -/

theorem fefoLE_total (a b : Inventory) : fefoLE a b ∨ fefoLE b a := by
  unfold fefoLE
  cases a.ExpirationDate <;> cases b.ExpirationDate <;> simp <;> omega

theorem fefoLE_trans (a b c : Inventory) (hab : fefoLE a b) (hbc : fefoLE b c) :
    fefoLE a c := by
  unfold fefoLE at *
  cases ha : a.ExpirationDate <;> cases hb : b.ExpirationDate <;>
    cases hc : c.ExpirationDate <;> simp [ha, hb, hc] at hab hbc ⊢ <;> omega

theorem fefoWhere_iff (productID : UUID) (lot : Inventory) :
    fefoWhere productID lot = true ↔
      lot.ProductID = productID ∧ lot.Status = StockStatus.StockDisponible ∧
        0 < lot.Quantity := by
  simp [fefoWhere, and_assoc]

theorem foldl_append_singleton {α β : Type} (f : α → β) (l : List α) (init : List β) :
    l.foldl (fun acc x => acc ++ [f x]) init = init ++ l.map f := by
  induction l generalizing init with
  | nil => simp
  | cons x rest ih => simp [ih]

theorem InventoryRepository.mem_FindByProductFEFO (s : Store) (productID : UUID)
    (lot : Inventory) :
    lot ∈ InventoryRepository.FindByProductFEFO s productID ↔
      lot ∈ s.inventory ∧ lot.ProductID = productID ∧
        lot.Status = StockStatus.StockDisponible ∧ 0 < lot.Quantity := by
  unfold InventoryRepository.FindByProductFEFO
  rw [(List.perm_insertionSort fefoLE _).mem_iff, List.mem_filter, fefoWhere_iff]

/-- C4: FindByProductFEFO returns exactly the lots of the product with status DISPONIBLE
and quantity above zero (each as often as the table holds it); in the returned sequence a
lot with an expiration date is preceded only by lots with an expiration date that is not
later (so dated lots come first, ascending, and undated lots last), and of two lots with the
same expiration date, or both without, the one created earlier comes first;
GetFEFOLotsUseCase.Execute returns one entry per lot of that sequence, in the same order,
carrying the lot identifier, lot number, quantity, expiration date and location. -/
theorem GetFEFOLotsUseCase.Execute_fefo (now : Int) (s : Store) (productID : UUID) :
    (∀ lot : Inventory, lot ∈ InventoryRepository.FindByProductFEFO s productID ↔
      lot ∈ s.inventory ∧ lot.ProductID = productID ∧
        lot.Status = StockStatus.StockDisponible ∧ 0 < lot.Quantity) ∧
    List.Perm (InventoryRepository.FindByProductFEFO s productID)
      (s.inventory.filter (fun lot => decide (lot.ProductID = productID ∧
        lot.Status = StockStatus.StockDisponible ∧ 0 < lot.Quantity))) ∧
    List.Pairwise
      (fun a b =>
        (∀ y, b.ExpirationDate = some y → ∃ x, a.ExpirationDate = some x ∧ x ≤ y) ∧
        (a.ExpirationDate = b.ExpirationDate → a.CreatedAt ≤ b.CreatedAt))
      (InventoryRepository.FindByProductFEFO s productID) ∧
    List.Forall₂
      (fun entry lot =>
        entry.InventoryID = lot.ID ∧ entry.LotNumber = lot.LotNumber ∧
        entry.Quantity = lot.Quantity ∧ entry.ExpirationDate = lot.ExpirationDate ∧
        entry.WarehouseLocation = lot.WarehouseLocation)
      (GetFEFOLotsUseCase.Execute now s productID)
      (InventoryRepository.FindByProductFEFO s productID) := by
  have hperm : List.Perm (InventoryRepository.FindByProductFEFO s productID)
      (s.inventory.filter (fefoWhere productID)) :=
    List.perm_insertionSort fefoLE _
  have hfilter : s.inventory.filter (fefoWhere productID) =
      s.inventory.filter (fun lot => decide (lot.ProductID = productID ∧
        lot.Status = StockStatus.StockDisponible ∧ 0 < lot.Quantity)) := by
    apply List.filter_congr
    intro lot _
    rw [Bool.eq_iff_iff, fefoWhere_iff]
    simp
  refine ⟨?_, ?_, ?_, ?_⟩
  · exact InventoryRepository.mem_FindByProductFEFO s productID
  · rw [← hfilter]
    exact hperm
  · haveI : IsTotal Inventory fefoLE := ⟨fefoLE_total⟩
    haveI : IsTrans Inventory fefoLE := ⟨fefoLE_trans⟩
    have hsorted : List.Sorted fefoLE (InventoryRepository.FindByProductFEFO s productID) :=
      List.sorted_insertionSort fefoLE _
    refine List.Pairwise.imp ?_ hsorted
    intro a b hab
    unfold fefoLE at hab
    cases ha : a.ExpirationDate <;> cases hb : b.ExpirationDate <;>
      simp [ha, hb] at hab ⊢ <;> omega
  · unfold GetFEFOLotsUseCase.Execute
    rw [foldl_append_singleton, List.nil_append, List.forall₂_map_left_iff]
    exact List.forall₂_same.mpr (fun lot _ => ⟨rfl, rfl, rfl, rfl, rfl⟩)

/-! ## Order creation: reservation -/

theorem forall₂_chain {α β γ : Type} {R : α → β → Prop} {S : β → γ → Prop}
    {T : α → γ → Prop} (h : ∀ a b c, R a b → S b c → T a c)
    {l1 : List α} {l2 : List β} (h12 : List.Forall₂ R l1 l2) :
    ∀ {l3 : List γ}, List.Forall₂ S l2 l3 → List.Forall₂ T l1 l3 := by
  induction h12 with
  | nil =>
    intro l3 h23
    cases h23
    exact .nil
  | @cons a b rest1 rest2 r _ ih =>
    intro l3 h23
    cases h23 with
    | cons s ss => exact .cons (h _ _ _ r s) (ih ss)

/-- The reservation loop is first fit: it returns the first lot of the list holding at
least the requested quantity, and nothing when no lot of the list does. -/
theorem CreateOrderUseCase.reserve_first_fit (q : Int) (lots : List Inventory) :
    (∃ pre lot post, lots = pre ++ lot :: post ∧ (∀ x ∈ pre, x.Quantity < q) ∧
      q ≤ lot.Quantity ∧ CreateOrderUseCase.reserve q lots = some lot.ID) ∨
    ((∀ x ∈ lots, x.Quantity < q) ∧ CreateOrderUseCase.reserve q lots = none) := by
  induction lots with
  | nil => exact Or.inr ⟨by simp, rfl⟩
  | cons lot rest ih =>
    by_cases hfit : lot.Quantity ≥ q
    · exact Or.inl ⟨[], lot, rest, rfl, by simp, hfit, by simp [CreateOrderUseCase.reserve, hfit]⟩
    · have hlt : lot.Quantity < q := by omega
      have hstep : CreateOrderUseCase.reserve q (lot :: rest) =
          CreateOrderUseCase.reserve q rest := by
        simp [CreateOrderUseCase.reserve, hfit]
      rcases ih with ⟨pre, found, post, hsplit, hpre, hq, href⟩ | ⟨hall, href⟩
      · refine Or.inl ⟨lot :: pre, found, post, by simp [hsplit], ?_, hq, by rw [hstep, href]⟩
        intro x hx
        rcases List.mem_cons.mp hx with rfl | hx
        · exact hlt
        · exact hpre x hx
      · refine Or.inr ⟨?_, by rw [hstep, href]⟩
        intro x hx
        rcases List.mem_cons.mp hx with rfl | hx
        · exact hlt
        · exact hall x hx

theorem ProductRepository.product_found_ID {s : Store} {id : UUID} {product : Product}
    (h : ProductRepository.FindByID s id = some product) : product.ID = id := by
  have h1 := List.find?_some h
  simp only [Bool.and_eq_true, beq_iff_eq] at h1
  exact h1.1

/-- The line loop succeeds when every requested product exists, and then appends one line
per requested line, in order, each carrying the product, the quantity and the lot picked
by the reservation loop on the FEFO list of the product. -/
theorem CreateOrderUseCase.processLines_ok (s : Store) :
    ∀ (lines : List OrderLineInput) (acc : CreateOrderUseCase.Metrics),
      (∀ li ∈ lines, (ProductRepository.FindByID s li.ProductID).isSome = true) →
      ∃ acc1 created,
        CreateOrderUseCase.processLines s acc lines = .ok acc1 ∧
        acc1.orderLines = acc.orderLines ++ created ∧
        List.Forall₂
          (fun li line =>
            line.ProductID = li.ProductID ∧ line.Quantity = li.Quantity ∧
            line.InventoryID = CreateOrderUseCase.reserve li.Quantity
              (InventoryRepository.FindByProductFEFO s li.ProductID))
          lines created
  | [], acc, _ => ⟨acc, [], rfl, by simp, .nil⟩
  | li :: rest, acc, h => by
    have hli := h li (List.mem_cons_self _ _)
    obtain ⟨product, hproduct⟩ := Option.isSome_iff_exists.mp hli
    have hid := ProductRepository.product_found_ID hproduct
    have hrest : ∀ x ∈ rest, (ProductRepository.FindByID s x.ProductID).isSome = true :=
      fun x hx => h x (List.mem_cons_of_mem _ hx)
    obtain ⟨acc0, hstep⟩ : ∃ acc0, CreateOrderUseCase.processLine s acc li = .ok acc0 ∧
        ∃ line, acc0.orderLines = acc.orderLines ++ [line] ∧
          line.ProductID = li.ProductID ∧ line.Quantity = li.Quantity ∧
          line.InventoryID = CreateOrderUseCase.reserve li.Quantity
            (InventoryRepository.FindByProductFEFO s li.ProductID) := by
      simp only [CreateOrderUseCase.processLine, hproduct]
      exact ⟨_, rfl, _, rfl, hid, rfl, by rw [hid]⟩
    obtain ⟨hok, line, hlines, hline⟩ := hstep
    obtain ⟨acc1, created, hrun, happ, hall⟩ :=
      CreateOrderUseCase.processLines_ok s rest acc0 hrest
    refine ⟨acc1, line :: created, ?_, ?_, .cons hline hall⟩
    · simp only [CreateOrderUseCase.processLines, hok, hrun]
    · rw [happ, hlines]
      simp

/-- CreateBatch appends the rows it gives back to `order_lines`, leaves the other tables
alone, and every row keeps the order, product, lot reference and quantity of its line. -/
theorem OrderLineRepository.CreateBatch_rows (now : Int) :
    ∀ (lines : List OrderLine) (s : Store),
      (OrderLineRepository.CreateBatch s now lines).1 =
        { s with orderLines := s.orderLines ++ (OrderLineRepository.CreateBatch s now lines).2 } ∧
      List.Forall₂
        (fun line row =>
          row.OrderID = line.OrderID ∧ row.ProductID = line.ProductID ∧
          row.InventoryID = line.InventoryID ∧ row.Quantity = line.Quantity)
        lines (OrderLineRepository.CreateBatch s now lines).2
  | [], s => ⟨by simp [OrderLineRepository.CreateBatch], .nil⟩
  | line :: rest, s => by
    obtain ⟨hstore, hrows⟩ := OrderLineRepository.CreateBatch_rows now rest
      { s with orderLines := s.orderLines ++
        [{ line with ID := freshID (s.orderLines.map (·.ID)), CreatedAt := now }] }
    refine ⟨?_, ?_⟩
    · simp only [OrderLineRepository.CreateBatch]
      rw [hstore]
      simp
    · simp only [OrderLineRepository.CreateBatch]
      exact .cons ⟨rfl, rfl, rfl, rfl⟩ hrows

theorem OrderLineRepository.CreateBatch_with_order (now : Int) (orderID : UUID)
    (lines : List OrderLine) (s : Store) :
    List.Forall₂
      (fun line row =>
        row.OrderID = orderID ∧ row.ProductID = line.ProductID ∧
        row.InventoryID = line.InventoryID ∧ row.Quantity = line.Quantity)
      lines
      (OrderLineRepository.CreateBatch s now
        (lines.map (fun line => { line with OrderID := orderID }))).2 := by
  have hrows := (OrderLineRepository.CreateBatch_rows now
    (lines.map (fun line => { line with OrderID := orderID })) s).2
  rw [List.forall₂_map_left_iff] at hrows
  exact hrows

/-- CreateOrder succeeds as soon as the customer is active and every requested product
exists; it then stores one order and one line per requested line, in order, and each line
carries the lot picked by the reservation loop on the FEFO list of its product. -/
theorem CreateOrderUseCase.Execute_lines (now : Int) (orderNumber : String) (s : Store)
    (input : CreateOrderInput) (customer : Customer)
    (hCustomer : CustomerRepository.FindByID s input.CustomerID = some customer)
    (hActive : customer.IsActive = true)
    (hProducts : ∀ li ∈ input.Lines,
      (ProductRepository.FindByID s li.ProductID).isSome = true) :
    ∃ out,
      (CreateOrderUseCase.Execute now orderNumber s input).2 = .ok out ∧
      (CreateOrderUseCase.Execute now orderNumber s input).1.orders = s.orders ++ [out.Order] ∧
      (CreateOrderUseCase.Execute now orderNumber s input).1.orderLines =
        s.orderLines ++ out.Lines ∧
      (CreateOrderUseCase.Execute now orderNumber s input).1.inventory = s.inventory ∧
      List.Forall₂
        (fun li line =>
          line.OrderID = out.Order.ID ∧ line.ProductID = li.ProductID ∧
          line.Quantity = li.Quantity ∧
          line.InventoryID = CreateOrderUseCase.reserve li.Quantity
            (InventoryRepository.FindByProductFEFO s li.ProductID))
        input.Lines out.Lines := by
  obtain ⟨acc, created, hrun, happ, hall⟩ :=
    CreateOrderUseCase.processLines_ok s input.Lines {} hProducts
  have hcreated : acc.orderLines = created := by simpa using happ
  simp only [CreateOrderUseCase.Execute, hCustomer, hActive, hrun]
  simp only [Bool.not_true, Bool.false_eq_true, if_false]
  refine ⟨_, rfl, ?_, ?_, ?_, ?_⟩
  · rw [(OrderLineRepository.CreateBatch_rows now _ _).1]
    rfl
  · rw [(OrderLineRepository.CreateBatch_rows now _ _).1]
    rfl
  · rw [(OrderLineRepository.CreateBatch_rows now _ _).1]
    rfl
  · rw [hcreated]
    refine forall₂_chain ?_ hall (OrderLineRepository.CreateBatch_with_order now _ created _)
    intro li line row h1 h2
    exact ⟨h2.1, h2.2.1.trans h1.1, h2.2.2.2.trans h1.2.1, h2.2.2.1.trans h1.2.2⟩

/-- The lots of the FEFO list and the line references computed on `orderStore`. -/
theorem CreateOrderUseCase.Execute_mixed_lines :
    (InventoryRepository.FindByProductFEFO orderStore 7).map (fun lot => (lot.ID, lot.Quantity)) =
      [(1, 10), (2, 20)] ∧
    (CreateOrderUseCase.createdLines
      (CreateOrderUseCase.Execute 9 "ORD-20240101-9" orderStore mixedInput)).map
        (fun line => (line.ProductID, line.Quantity, line.InventoryID)) =
      [(7, 15, some 2), (7, 30, none), (8, 1, none)] := by
  decide

/-- C6 (counterexample): lot 1 is the only lot of product 9 and holds 10 units; an order
with two lines of 8 units of product 9 is created with both lines on lot 1, 16 units in
all, more than the lot holds. -/
theorem CreateOrderUseCase.Execute_overbooks :
    (CreateOrderUseCase.createdLines
      (CreateOrderUseCase.Execute 9 "ORD-20240101-9" overbookStore overbookInput)).map
        (fun line => (line.ProductID, line.Quantity, line.InventoryID)) =
      [(9, 8, some 1), (9, 8, some 1)] ∧
    overbookStore.inventory.map (fun lot => (lot.ID, lot.Quantity)) = [(1, 10)] ∧
    reservedQuantity (CreateOrderUseCase.createdLines
      (CreateOrderUseCase.Execute 9 "ORD-20240101-9" overbookStore overbookInput)) 1 = 16 ∧
    ¬ (∀ lot ∈ overbookStore.inventory,
        reservedQuantity (CreateOrderUseCase.createdLines
          (CreateOrderUseCase.Execute 9 "ORD-20240101-9" overbookStore overbookInput)) lot.ID ≤
            lot.Quantity) := by
  decide

theorem forall₂_mem_right {α β : Type} {R : α → β → Prop} {l1 : List α} {l2 : List β}
    (h : List.Forall₂ R l1 l2) : ∀ y ∈ l2, ∃ x ∈ l1, R x y := by
  induction h with
  | nil => intro y hy; simp at hy
  | @cons a b rest1 rest2 r _ ih =>
    intro y hy
    rcases List.mem_cons.mp hy with rfl | hy
    · exact ⟨a, List.mem_cons_self _ _, r⟩
    · obtain ⟨x, hx, hR⟩ := ih y hy
      exact ⟨x, List.mem_cons_of_mem _ hx, hR⟩

theorem reservedQuantity_cons (line : OrderLine) (lines : List OrderLine) (lot : UUID) :
    reservedQuantity (line :: lines) lot =
      (if line.InventoryID = some lot then line.Quantity else 0) +
        reservedQuantity lines lot := by
  unfold reservedQuantity
  by_cases h : line.InventoryID = some lot <;> simp [List.filter_cons, h]

/-- Lines of products other than `product` hold nothing of a lot that only lines of
`product` can reference. -/
theorem reservedQuantity_eq_zero (product lot : UUID) (bound : Int)
    {lines : List OrderLineInput} {rows : List OrderLine}
    (h : List.Forall₂
      (fun li row => row.InventoryID = some lot → li.ProductID = product ∧ row.Quantity ≤ bound)
      lines rows)
    (hne : ∀ li ∈ lines, li.ProductID ≠ product) : reservedQuantity rows lot = 0 := by
  induction h with
  | nil => rfl
  | @cons li row rest1 rest2 r _ ih =>
    have hrow : ¬ row.InventoryID = some lot :=
      fun href => hne li (List.mem_cons_self _ _) (r href).1
    rw [reservedQuantity_cons, if_neg hrow, ih (fun x hx => hne x (List.mem_cons_of_mem _ hx))]
    rfl

/-- When the requested lines name pairwise distinct products, the lines referencing a lot
are at most one line, whose quantity the lot covers. -/
theorem reservedQuantity_le (product lot : UUID) (bound : Int) (hbound : 0 ≤ bound)
    {lines : List OrderLineInput} {rows : List OrderLine}
    (h : List.Forall₂
      (fun li row => row.InventoryID = some lot → li.ProductID = product ∧ row.Quantity ≤ bound)
      lines rows)
    (hnodup : (lines.map (·.ProductID)).Nodup) : reservedQuantity rows lot ≤ bound := by
  induction h with
  | nil => exact hbound
  | @cons li row rest1 rest2 r rs ih =>
    rw [List.map_cons, List.nodup_cons] at hnodup
    rw [reservedQuantity_cons]
    by_cases href : row.InventoryID = some lot
    · have hli := r href
      have hzero := reservedQuantity_eq_zero product lot bound rs (by
        intro x hx hxp
        apply hnodup.1
        rw [hli.1, ← hxp]
        exact List.mem_map_of_mem _ hx)
      rw [if_pos href, hzero]
      have := hli.2
      omega
    · rw [if_neg href]
      have := ih hnodup.2
      omega

/-- A lot picked by the reservation loop on the FEFO list of a product is an available lot
of that product, stored in the inventory table, and holds at least the requested
quantity. -/
theorem CreateOrderUseCase.reserve_covered (s : Store) (productID : UUID) (q : Int)
    (ref : UUID)
    (h : CreateOrderUseCase.reserve q (InventoryRepository.FindByProductFEFO s productID) =
      some ref) :
    ∃ lot ∈ s.inventory, lot.ID = ref ∧ lot.ProductID = productID ∧
      lot.Status = StockStatus.StockDisponible ∧ q ≤ lot.Quantity := by
  rcases CreateOrderUseCase.reserve_first_fit q
    (InventoryRepository.FindByProductFEFO s productID) with
    ⟨pre, lot, post, hsplit, _, hq, href⟩ | ⟨_, hnone⟩
  · have hmem : lot ∈ InventoryRepository.FindByProductFEFO s productID := by
      rw [hsplit]
      simp
    rw [InventoryRepository.mem_FindByProductFEFO] at hmem
    rw [h] at href
    exact ⟨lot, hmem.1, (Option.some.inj href).symm, hmem.2.1, hmem.2.2.1, hq⟩
  · rw [h] at hnone
    exact absurd hnone (by simp)

/-- C6 (amended): when the customer is active and every requested product exists,
CreateOrder succeeds and leaves the lots as they were; every created line that references a
lot references an available lot of its own product whose quantity is at least the quantity
of that line; and when the requested lines name pairwise distinct products (lot identifiers
being unique), for every lot with a non-negative quantity the quantities of the created
lines referencing it sum to at most the quantity of the lot. -/
theorem CreateOrderUseCase.Execute_reservation_bound (now : Int) (orderNumber : String)
    (s : Store) (input : CreateOrderInput) (customer : Customer)
    (hCustomer : CustomerRepository.FindByID s input.CustomerID = some customer)
    (hActive : customer.IsActive = true)
    (hProducts : ∀ li ∈ input.Lines,
      (ProductRepository.FindByID s li.ProductID).isSome = true) :
    ∃ out,
      (CreateOrderUseCase.Execute now orderNumber s input).2 = .ok out ∧
      (CreateOrderUseCase.Execute now orderNumber s input).1.inventory = s.inventory ∧
      (∀ line ∈ out.Lines, ∀ ref : UUID, line.InventoryID = some ref →
        ∃ lot ∈ s.inventory, lot.ID = ref ∧ lot.ProductID = line.ProductID ∧
          lot.Status = StockStatus.StockDisponible ∧ line.Quantity ≤ lot.Quantity) ∧
      ((input.Lines.map (·.ProductID)).Nodup → (s.inventory.map (·.ID)).Nodup →
        ∀ lot ∈ s.inventory, 0 ≤ lot.Quantity →
          reservedQuantity out.Lines lot.ID ≤ lot.Quantity) := by
  obtain ⟨out, hok, _, _, hinv, hall⟩ :=
    CreateOrderUseCase.Execute_lines now orderNumber s input customer hCustomer hActive hProducts
  refine ⟨out, hok, hinv, ?_, ?_⟩
  · intro line hline ref href
    obtain ⟨li, _, hR⟩ := forall₂_mem_right hall line hline
    rw [hR.2.2.2] at href
    obtain ⟨lot, hmem, hid, hprod, hstatus, hq⟩ :=
      CreateOrderUseCase.reserve_covered s li.ProductID li.Quantity ref href
    exact ⟨lot, hmem, hid, by rw [hprod, hR.2.1], hstatus, by rw [hR.2.2.1]; exact hq⟩
  · intro hnodup hids lot hlot hquantity
    refine reservedQuantity_le lot.ProductID lot.ID lot.Quantity hquantity (hall.imp ?_) hnodup
    intro li line hR href
    rw [hR.2.2.2] at href
    obtain ⟨found, hmem, hid, hprod, _, hq⟩ :=
      CreateOrderUseCase.reserve_covered s li.ProductID li.Quantity lot.ID href
    have hsame : found = lot := List.inj_on_of_nodup_map hids hmem hlot hid
    rw [hsame] at hprod hq
    exact ⟨hprod.symm, by rw [hR.2.2.1]; exact hq⟩

/-- C6 (amended) at a concrete store: 15 units of product 7 and 1 unit of product 8. -/
theorem CreateOrderUseCase.Execute_reservation_bound_witness :
    ∃ out,
      (CreateOrderUseCase.Execute 9 "ORD-20240101-9" orderStore distinctInput).2 = .ok out ∧
      (CreateOrderUseCase.Execute 9 "ORD-20240101-9" orderStore distinctInput).1.inventory =
        orderStore.inventory ∧
      (∀ line ∈ out.Lines, ∀ ref : UUID, line.InventoryID = some ref →
        ∃ lot ∈ orderStore.inventory, lot.ID = ref ∧ lot.ProductID = line.ProductID ∧
          lot.Status = StockStatus.StockDisponible ∧ line.Quantity ≤ lot.Quantity) ∧
      ((distinctInput.Lines.map (·.ProductID)).Nodup →
        (orderStore.inventory.map (·.ID)).Nodup →
        ∀ lot ∈ orderStore.inventory, 0 ≤ lot.Quantity →
          reservedQuantity out.Lines lot.ID ≤ lot.Quantity) :=
  CreateOrderUseCase.Execute_reservation_bound 9 "ORD-20240101-9" orderStore distinctInput
    { ID := 1, Name := "cliente", CreditLimit := 0, IsActive := true }
    (by decide) (by decide) (by decide)

/-! ## Blind count -/

theorem ReceptionLine.line_applyUpdate_ID (now : Int) (line row : ReceptionLine) :
    (ReceptionLine.applyUpdate now line row).ID = row.ID := by
  unfold ReceptionLine.applyUpdate
  split <;> rfl

theorem ReceptionLine.applyUpdate_key (now : Int) (line row : ReceptionLine) :
    ((ReceptionLine.applyUpdate now line row).ReceptionOrderID,
      (ReceptionLine.applyUpdate now line row).ExpectedQuantity) =
      (row.ReceptionOrderID, row.ExpectedQuantity) := by
  unfold ReceptionLine.applyUpdate
  split <;> rfl

theorem ReceptionLineRepository.find_map_line_update (now : Int) (line : ReceptionLine)
    (rows : List ReceptionLine) (id : UUID) :
    (rows.map (ReceptionLine.applyUpdate now line)).find? (fun l => l.ID == id) =
      (rows.find? (fun l => l.ID == id)).map (ReceptionLine.applyUpdate now line) := by
  induction rows with
  | nil => rfl
  | cons row rest ih =>
    simp only [List.map_cons, List.find?_cons, ReceptionLine.line_applyUpdate_ID]
    cases row.ID == id <;> simp [ih]

/-- The UPDATE of a reception line that was found succeeds and keeps the order and the
expected quantity of every line. -/
theorem ReceptionLineRepository.Update_of_found_line {s : Store} {id : UUID}
    {found : ReceptionLine} (now : Int) (line : ReceptionLine)
    (h : ReceptionLineRepository.FindByID s id = some found) (hid : line.ID = id) :
    ReceptionLineRepository.Update s now line =
        some (ReceptionLineRepository.written s now line) ∧
      ∀ other, lineKey (ReceptionLineRepository.written s now line) other = lineKey s other := by
  have hmem : found ∈ s.receptionLines := List.mem_of_find?_eq_some h
  have hfound : found.ID = id := by
    have h1 := List.find?_some h
    simpa using h1
  have hany : s.receptionLines.any (fun l => l.ID == line.ID) = true := by
    rw [List.any_eq_true]
    exact ⟨found, hmem, by simp [hfound, hid]⟩
  refine ⟨by simp [ReceptionLineRepository.Update, hany], ?_⟩
  intro other
  simp only [lineKey, ReceptionLineRepository.FindByID, ReceptionLineRepository.written]
  rw [ReceptionLineRepository.find_map_line_update, Option.map_map]
  congr 1
  funext row
  exact ReceptionLine.applyUpdate_key now line row

theorem lineKey_found {s : Store} {id order : UUID} {e : Int}
    (h : lineKey s id = some (order, e)) :
    ∃ line, ReceptionLineRepository.FindByID s id = some line ∧ line.ID = id ∧
      line.ReceptionOrderID = order ∧ line.ExpectedQuantity = e := by
  unfold lineKey at h
  cases hfind : ReceptionLineRepository.FindByID s id with
  | none => simp [hfind] at h
  | some line =>
    simp only [hfind, Option.map_some', Option.some.injEq, Prod.mk.injEq] at h
    have hid : line.ID = id := by
      have h1 := List.find?_some hfind
      simpa using h1
    exact ⟨line, rfl, hid, h.1, h.2⟩

/-- The loop of BlindCount on lines that all exist and belong to the order: it ends
without error, leaves every table but `reception_lines` and `reception_discrepancies` alone,
raises `hasDiscrepancies` exactly when some submitted entry counts something else than its
line expects and, unless the discrepancy insert fails, appends one DETECTADA discrepancy
per such entry, in order; when the insert fails no discrepancy is appended. -/
theorem BlindCountUseCase.countLines_ok (now : Int) (input : BlindCountInput)
    (key : UUID → Option (UUID × Int)) :
    ∀ (lines : List BlindCountLineInput) (t : Store) (has : Bool),
      (∀ id, lineKey t id = key id) →
      (∀ ci ∈ lines, ∃ e, key ci.LineID = some (input.ReceptionOrderID, e)) →
      ∃ t1 created,
        BlindCountUseCase.countLines now input t has lines =
          (t1, has || lines.any
            (fun ci => (key ci.LineID).map Prod.snd != some ci.CountedQuantity), none) ∧
        (∀ id, lineKey t1 id = key id) ∧
        t1.receptionOrders = t.receptionOrders ∧
        t1.auditLogs = t.auditLogs ∧
        t1.discrepancies =
          t.discrepancies ++ (if t.faults.discrepancyInsert then [] else created) ∧
        List.Forall₂
          (fun ci d =>
            d.ReceptionLineID = ci.LineID ∧
            (key ci.LineID).map Prod.snd = some d.ExpectedQty ∧
            d.CountedQty = ci.CountedQuantity ∧
            d.Difference = GoInt.wrap (ci.CountedQuantity - d.ExpectedQty) ∧
            d.Status = DiscrepancyStatus.DiscrepancyDetectada)
          (lines.filter
            (fun ci => (key ci.LineID).map Prod.snd != some ci.CountedQuantity))
          created := by
  intro lines
  induction lines with
  | nil =>
    intro t has hkey _
    exact ⟨t, [], by simp [BlindCountUseCase.countLines], hkey, rfl, rfl, by simp, by simp⟩
  | cons ci rest ih =>
    intro t has hkey hlines
    obtain ⟨e, he⟩ := hlines ci (List.mem_cons_self _ _)
    have hrest : ∀ x ∈ rest, ∃ e, key x.LineID = some (input.ReceptionOrderID, e) :=
      fun x hx => hlines x (List.mem_cons_of_mem _ hx)
    obtain ⟨line, hfind, hid, horder, hexp⟩ := lineKey_found ((hkey ci.LineID).trans he)
    obtain ⟨hupd, hkeep⟩ := ReceptionLineRepository.Update_of_found_line now
      (BlindCountUseCase.counted now input ci line) hfind hid
    have hsnd : (key ci.LineID).map Prod.snd = some e := by rw [he]; rfl
    have hhas : (BlindCountUseCase.counted now input ci line).HasDiscrepancy =
        (ci.CountedQuantity != e) := by
      simp [ReceptionLine.HasDiscrepancy, BlindCountUseCase.counted, hexp]
    by_cases hdiff : ci.CountedQuantity = e
    · obtain ⟨t1, created, hrun, hk1, hord, haud, hdisc, hall⟩ :=
        ih (ReceptionLineRepository.written t now (BlindCountUseCase.counted now input ci line))
          has (fun id => (hkeep id).trans (hkey id)) hrest
      refine ⟨t1, created, ?_, hk1, hord, haud, hdisc, ?_⟩
      · simp only [BlindCountUseCase.countLines, hfind, horder, hupd, hhas]
        simp only [ne_eq, not_true_eq_false, if_false, hdiff, bne_self_eq_false,
          Bool.false_eq_true]
        rw [hrun]
        simp [hsnd, hdiff]
      · simpa [List.filter_cons, hsnd, hdiff] using hall
    · obtain ⟨t1, created, hrun, hk1, hord, haud, hdisc, hall⟩ :=
        ih (ReceptionDiscrepancyRepository.Create
          (ReceptionLineRepository.written t now (BlindCountUseCase.counted now input ci line))
          now (BlindCountUseCase.discrepancy (BlindCountUseCase.counted now input ci line)
            ci.CountedQuantity)).1 true
          (fun id => (hkeep id).trans (hkey id)) hrest
      have hne : (ci.CountedQuantity != e) = true := by simpa using hdiff
      have hne2 : (some e != some ci.CountedQuantity) = true := by
        simpa using fun h : e = ci.CountedQuantity => hdiff h.symm
      refine ⟨t1, ReceptionDiscrepancyRepository.stored
          (ReceptionLineRepository.written t now (BlindCountUseCase.counted now input ci line))
          now (BlindCountUseCase.discrepancy (BlindCountUseCase.counted now input ci line)
            ci.CountedQuantity) :: created, ?_, hk1, hord, haud, ?_, ?_⟩
      · simp only [BlindCountUseCase.countLines, hfind, horder, hupd, hhas, hne]
        simp only [ne_eq, not_true_eq_false, if_false, if_true]
        rw [hrun]
        simp [hsnd, hne2]
      · rw [hdisc]
        show (if t.faults.discrepancyInsert then t.discrepancies else _) ++
          (if t.faults.discrepancyInsert then [] else created) = _
        cases t.faults.discrepancyInsert
        · simp [ReceptionDiscrepancyRepository.stored, ReceptionLineRepository.written]
        · simp
      · rw [List.filter_cons, hsnd, hne2, if_pos rfl]
        refine .cons ⟨hid, ?_, rfl, rfl, rfl⟩ hall
        rw [hsnd]
        exact congrArg some hexp.symm

theorem ReceptionOrder.order_applyUpdate_ID (now : Int) (order row : ReceptionOrder) :
    (ReceptionOrder.applyUpdate now order row).ID = row.ID := by
  unfold ReceptionOrder.applyUpdate
  split <;> rfl

theorem ReceptionOrderRepository.find_map_order_update (now : Int) (order : ReceptionOrder)
    (rows : List ReceptionOrder) (id : UUID) :
    (rows.map (ReceptionOrder.applyUpdate now order)).find? (fun o => o.ID == id) =
      (rows.find? (fun o => o.ID == id)).map (ReceptionOrder.applyUpdate now order) := by
  induction rows with
  | nil => rfl
  | cons row rest ih =>
    simp only [List.map_cons, List.find?_cons, ReceptionOrder.order_applyUpdate_ID]
    cases row.ID == id <;> simp [ih]

theorem ReceptionOrderRepository.order_found_ID {s : Store} {id : UUID}
    {order : ReceptionOrder} (h : ReceptionOrderRepository.FindByID s id = some order) :
    order.ID = id := by
  have h1 := List.find?_some h
  simpa using h1

/-- The UPDATE of a reception order whose row exists succeeds. -/
theorem ReceptionOrderRepository.Update_of_found_order {s : Store} {id : UUID}
    {found : ReceptionOrder} (now : Int) (order : ReceptionOrder)
    (h : ReceptionOrderRepository.FindByID s id = some found) (hid : order.ID = id) :
    ReceptionOrderRepository.Update s now order =
      some (ReceptionOrderRepository.written s now order) := by
  have hmem : found ∈ s.receptionOrders := List.mem_of_find?_eq_some h
  have hfound := ReceptionOrderRepository.order_found_ID h
  have hany : s.receptionOrders.any (fun o => o.ID == order.ID) = true := by
    rw [List.any_eq_true]
    exact ⟨found, hmem, by simp [hfound, hid]⟩
  simp [ReceptionOrderRepository.Update, hany]

theorem expectedQuantity_eq_key (s : Store) (lineID : UUID) :
    expectedQuantity s lineID = (lineKey s lineID).map Prod.snd := by
  simp [expectedQuantity, lineKey, Option.map_map, Function.comp_def]

/-- A successful BlindCount: when the order is PENDIENTE and every submitted line exists
and belongs to it, the call returns no error, appends one DETECTADA discrepancy per
submitted entry whose count differs from the expected quantity of its line, or none at all
when the discrepancy insert fails, and writes the order back as CON_INCIDENCIA when there
is such an entry and as EN_CONTEO otherwise. -/
theorem BlindCountUseCase.Execute_ok (now : Int) (s : Store) (input : BlindCountInput)
    (order : ReceptionOrder)
    (hOrder : ReceptionOrderRepository.FindByID s input.ReceptionOrderID = some order)
    (hPending : order.Status = ReceptionStatus.ReceptionPendiente)
    (hLines : ∀ ci ∈ input.Lines, ∃ line,
      ReceptionLineRepository.FindByID s ci.LineID = some line ∧
        line.ReceptionOrderID = input.ReceptionOrderID) :
    ∃ created,
      (BlindCountUseCase.Execute now s input).2 = none ∧
      (BlindCountUseCase.Execute now s input).1.discrepancies =
        s.discrepancies ++ (if s.faults.discrepancyInsert then [] else created) ∧
      List.Forall₂
        (fun ci d =>
          d.ReceptionLineID = ci.LineID ∧
          expectedQuantity s ci.LineID = some d.ExpectedQty ∧
          d.CountedQty = ci.CountedQuantity ∧
          d.Difference = GoInt.wrap (ci.CountedQuantity - d.ExpectedQty) ∧
          d.Status = DiscrepancyStatus.DiscrepancyDetectada)
        (input.Lines.filter (fun ci => expectedQuantity s ci.LineID != some ci.CountedQuantity))
        created ∧
      ReceptionOrderRepository.FindByID (BlindCountUseCase.Execute now s input).1
          input.ReceptionOrderID =
        some { order with
          Status :=
            if input.Lines.any
                (fun ci => expectedQuantity s ci.LineID != some ci.CountedQuantity) then
              ReceptionStatus.ReceptionConIncidencia
            else ReceptionStatus.ReceptionEnConteo
          ReceivedBy := some input.UserID
          ReceivedAt := some now
          UpdatedAt := now } := by
  have hkeys : ∀ ci ∈ input.Lines, ∃ e,
      lineKey s ci.LineID = some (input.ReceptionOrderID, e) := by
    intro ci hci
    obtain ⟨line, hfind, hord⟩ := hLines ci hci
    exact ⟨line.ExpectedQuantity, by simp [lineKey, hfind, hord]⟩
  obtain ⟨t1, created, hrun, _, hord, _, hdisc, hall⟩ :=
    BlindCountUseCase.countLines_ok now input (lineKey s) input.Lines s false
      (fun _ => rfl) hkeys
  have hfun : (fun ci : BlindCountLineInput =>
      (lineKey s ci.LineID).map Prod.snd != some ci.CountedQuantity) =
      (fun ci => expectedQuantity s ci.LineID != some ci.CountedQuantity) := by
    funext ci
    rw [expectedQuantity_eq_key]
  rw [hfun] at hrun hall
  rw [Bool.false_or] at hrun
  have hOrder1 : ReceptionOrderRepository.FindByID t1 input.ReceptionOrderID = some order := by
    unfold ReceptionOrderRepository.FindByID at hOrder ⊢
    rw [hord]
    exact hOrder
  have hid := ReceptionOrderRepository.order_found_ID hOrder
  have hupd := ReceptionOrderRepository.Update_of_found_order now
    (BlindCountUseCase.received now input
      (input.Lines.any (fun ci => expectedQuantity s ci.LineID != some ci.CountedQuantity))
      order) hOrder1 hid
  have hexec : BlindCountUseCase.Execute now s input =
      (AuditRepository.Log (ReceptionOrderRepository.written t1 now
        (BlindCountUseCase.received now input
          (input.Lines.any (fun ci => expectedQuantity s ci.LineID != some ci.CountedQuantity))
          order))
        { UserID := some input.UserID, Action := "BLIND_COUNT",
          EntityType := "RECEPTION_ORDER", EntityID := some order.ID }, none) := by
    simp only [BlindCountUseCase.Execute, hOrder, hPending, hrun, hupd]
    simp
    rfl
  rw [hexec]
  refine ⟨created, rfl, ?_, ?_, ?_⟩
  · exact hdisc
  · refine hall.imp ?_
    intro ci d h
    rw [expectedQuantity_eq_key]
    exact h
  · show (List.map _ t1.receptionOrders).find? _ = _
    rw [ReceptionOrderRepository.find_map_order_update, hord]
    have hfind : s.receptionOrders.find? (fun o => o.ID == input.ReceptionOrderID) =
        some order := hOrder
    rw [hfind]
    simp [ReceptionOrder.applyUpdate, BlindCountUseCase.received]

/-- When the loop of BlindCount ends without error, every submitted line exists and
belongs to the order of the request. -/
theorem BlindCountUseCase.countLines_success_lines (now : Int) (input : BlindCountInput)
    (key : UUID → Option (UUID × Int)) :
    ∀ (lines : List BlindCountLineInput) (t : Store) (has : Bool),
      (∀ id, lineKey t id = key id) →
      (BlindCountUseCase.countLines now input t has lines).2.2 = none →
      ∀ ci ∈ lines, ∃ e, key ci.LineID = some (input.ReceptionOrderID, e) := by
  intro lines
  induction lines with
  | nil =>
    intro t has _ _ ci hci
    simp at hci
  | cons ci rest ih =>
    intro t has hkey hok
    cases hfind : ReceptionLineRepository.FindByID t ci.LineID with
    | none =>
      have hstep : BlindCountUseCase.countLines now input t has (ci :: rest) =
          (t, has, some "recurso no encontrado") := by
        simp only [BlindCountUseCase.countLines, hfind]
      rw [hstep] at hok
      simp at hok
    | some line =>
      by_cases hord : line.ReceptionOrderID ≠ input.ReceptionOrderID
      · have hstep : BlindCountUseCase.countLines now input t has (ci :: rest) =
            (t, has, some "línea no pertenece a esta orden") := by
          simp only [BlindCountUseCase.countLines, hfind, if_pos hord]
        rw [hstep] at hok
        simp at hok
      · have hid : line.ID = ci.LineID := by
          have h1 := List.find?_some hfind
          simpa using h1
        have hbelongs : line.ReceptionOrderID = input.ReceptionOrderID := not_not.mp hord
        obtain ⟨hupd, hkeep⟩ := ReceptionLineRepository.Update_of_found_line now
          (BlindCountUseCase.counted now input ci line) hfind hid
        have hline : key ci.LineID = some (input.ReceptionOrderID, line.ExpectedQuantity) := by
          rw [← hkey]
          simp [lineKey, hfind, hbelongs]
        have hrest : ∀ x ∈ rest, ∃ e, key x.LineID = some (input.ReceptionOrderID, e) := by
          by_cases hhas : (BlindCountUseCase.counted now input ci line).HasDiscrepancy = true
          · have hstep : BlindCountUseCase.countLines now input t has (ci :: rest) =
                BlindCountUseCase.countLines now input
                  (ReceptionDiscrepancyRepository.Create
                    (ReceptionLineRepository.written t now
                      (BlindCountUseCase.counted now input ci line)) now
                    (BlindCountUseCase.discrepancy (BlindCountUseCase.counted now input ci line)
                      ci.CountedQuantity)).1 true rest := by
              simp only [BlindCountUseCase.countLines, hfind, if_neg hord, hupd, hhas, if_true]
            rw [hstep] at hok
            exact ih (ReceptionDiscrepancyRepository.Create
              (ReceptionLineRepository.written t now
                (BlindCountUseCase.counted now input ci line)) now
              (BlindCountUseCase.discrepancy (BlindCountUseCase.counted now input ci line)
                ci.CountedQuantity)).1 true (fun id => (hkeep id).trans (hkey id)) hok
          · have hstep : BlindCountUseCase.countLines now input t has (ci :: rest) =
                BlindCountUseCase.countLines now input
                  (ReceptionLineRepository.written t now
                    (BlindCountUseCase.counted now input ci line)) has rest := by
              simp only [BlindCountUseCase.countLines, hfind, if_neg hord, hupd, hhas,
                Bool.false_eq_true, if_false]
            rw [hstep] at hok
            exact ih _ has (fun id => (hkeep id).trans (hkey id)) hok
        intro x hx
        rcases List.mem_cons.mp hx with rfl | hx
        · exact ⟨line.ExpectedQuantity, hline⟩
        · exact hrest x hx

/-- A BlindCount returns no error only when the order exists and is PENDIENTE and every
submitted line exists and belongs to it. -/
theorem BlindCountUseCase.Execute_success_inv (now : Int) (s : Store)
    (input : BlindCountInput) (hok : (BlindCountUseCase.Execute now s input).2 = none) :
    ∃ order,
      ReceptionOrderRepository.FindByID s input.ReceptionOrderID = some order ∧
      order.Status = ReceptionStatus.ReceptionPendiente ∧
      ∀ ci ∈ input.Lines, ∃ line,
        ReceptionLineRepository.FindByID s ci.LineID = some line ∧
          line.ReceptionOrderID = input.ReceptionOrderID := by
  cases hfind : ReceptionOrderRepository.FindByID s input.ReceptionOrderID with
  | none =>
    have hexec : BlindCountUseCase.Execute now s input =
        (s, some "orden de recepción no encontrada") := by
      simp only [BlindCountUseCase.Execute, hfind]
    rw [hexec] at hok
    simp at hok
  | some order =>
    by_cases hst : order.Status ≠ ReceptionStatus.ReceptionPendiente
    · have hexec : BlindCountUseCase.Execute now s input =
          (s, some "la orden ya fue contada o validada") := by
        simp only [BlindCountUseCase.Execute, hfind, if_pos hst]
      rw [hexec] at hok
      simp at hok
    · refine ⟨order, rfl, not_not.mp hst, ?_⟩
      rcases hrun : BlindCountUseCase.countLines now input s false input.Lines with
        ⟨t1, has, err⟩
      cases err with
      | some e =>
        have hexec : BlindCountUseCase.Execute now s input = (t1, some e) := by
          simp only [BlindCountUseCase.Execute, hfind, if_neg hst, hrun]
        rw [hexec] at hok
        simp at hok
      | none =>
        have hloop : (BlindCountUseCase.countLines now input s false input.Lines).2.2 = none := by
          rw [hrun]
        intro ci hci
        obtain ⟨e, he⟩ := BlindCountUseCase.countLines_success_lines now input (lineKey s)
          input.Lines s false (fun _ => rfl) hloop ci hci
        obtain ⟨line, hline, _, hbelongs, _⟩ := lineKey_found he
        exact ⟨line, hline, hbelongs⟩

/-- Within the range of a Go `int` the reduction modulo `2 ^ 64` changes nothing. -/
theorem GoInt.wrap_of_range (n : Int) (hlow : -9223372036854775808 ≤ n)
    (hhigh : n ≤ 9223372036854775807) : GoInt.wrap n = n := by
  unfold GoInt.wrap
  omega

/-- C7: for every BlindCount that returns no error.  When the insert of a discrepancy does
not fail, the discrepancies the call creates are, in order, one per submitted entry whose
counted quantity differs from the expected quantity of its line, and none for the other
entries; the discrepancy of an entry with expected quantity `e` and counted quantity `c`
carries the line, ExpectedQty `e`, CountedQty `c`, status DETECTADA and as Difference the
Go `int` value of `c - e`, that is `c - e` reduced modulo `2 ^ 64`, which is `c - e` itself
whenever `c - e` lies within the range of a 64 bit integer.  When the insert fails, its
error being discarded, the call creates no discrepancy. -/
theorem BlindCountUseCase.Execute_discrepancies (now : Int) (s : Store)
    (input : BlindCountInput)
    (hok : (BlindCountUseCase.Execute now s input).2 = none) :
    (s.faults.discrepancyInsert = false →
      ∃ created,
        (BlindCountUseCase.Execute now s input).1.discrepancies = s.discrepancies ++ created ∧
        List.Forall₂
          (fun ci d =>
            d.ReceptionLineID = ci.LineID ∧
            expectedQuantity s ci.LineID = some d.ExpectedQty ∧
            d.CountedQty = ci.CountedQuantity ∧
            d.Difference = GoInt.wrap (ci.CountedQuantity - d.ExpectedQty) ∧
            (-9223372036854775808 ≤ ci.CountedQuantity - d.ExpectedQty →
              ci.CountedQuantity - d.ExpectedQty ≤ 9223372036854775807 →
              d.Difference = ci.CountedQuantity - d.ExpectedQty) ∧
            d.Status = DiscrepancyStatus.DiscrepancyDetectada)
          (input.Lines.filter
            (fun ci => expectedQuantity s ci.LineID != some ci.CountedQuantity))
          created) ∧
    (s.faults.discrepancyInsert = true →
      (BlindCountUseCase.Execute now s input).1.discrepancies = s.discrepancies) := by
  obtain ⟨order, hOrder, hPending, hLines⟩ :=
    BlindCountUseCase.Execute_success_inv now s input hok
  obtain ⟨created, _, hdisc, hall, _⟩ :=
    BlindCountUseCase.Execute_ok now s input order hOrder hPending hLines
  constructor
  · intro hfault
    rw [hfault] at hdisc
    refine ⟨created, hdisc, hall.imp ?_⟩
    intro ci d h
    exact ⟨h.1, h.2.1, h.2.2.1, h.2.2.2.1,
      fun hlow hhigh => h.2.2.2.1.trans (GoInt.wrap_of_range _ hlow hhigh), h.2.2.2.2⟩
  · intro hfault
    rw [hfault] at hdisc
    simpa using hdisc

/-- C7 at a concrete store, where no insert fails: line 10 expects 50 and is counted 45,
line 11 expects 20 and is counted 20; the call succeeds and the only discrepancy created is
the one of line 10, with Difference -5 and status DETECTADA. -/
theorem BlindCountUseCase.Execute_discrepancies_witness :
    (BlindCountUseCase.Execute 9 receptionStore shortCountInput).2 = none ∧
    receptionStore.faults.discrepancyInsert = false ∧
    (∃ created,
      (BlindCountUseCase.Execute 9 receptionStore shortCountInput).1.discrepancies =
        receptionStore.discrepancies ++ created ∧
      List.Forall₂
        (fun ci d =>
          d.ReceptionLineID = ci.LineID ∧
          expectedQuantity receptionStore ci.LineID = some d.ExpectedQty ∧
          d.CountedQty = ci.CountedQuantity ∧
          d.Difference = GoInt.wrap (ci.CountedQuantity - d.ExpectedQty) ∧
          (-9223372036854775808 ≤ ci.CountedQuantity - d.ExpectedQty →
            ci.CountedQuantity - d.ExpectedQty ≤ 9223372036854775807 →
            d.Difference = ci.CountedQuantity - d.ExpectedQty) ∧
          d.Status = DiscrepancyStatus.DiscrepancyDetectada)
        (shortCountInput.Lines.filter
          (fun ci => expectedQuantity receptionStore ci.LineID != some ci.CountedQuantity))
        created) ∧
    (BlindCountUseCase.Execute 9 receptionStore shortCountInput).1.discrepancies.map
        (fun d => (d.ReceptionLineID, d.ExpectedQty, d.CountedQty, d.Difference, d.Status)) =
      [(10, 50, 45, -5, DiscrepancyStatus.DiscrepancyDetectada)] :=
  ⟨by decide, by decide,
   (BlindCountUseCase.Execute_discrepancies 9 receptionStore shortCountInput (by decide)).1
     (by decide),
   by decide⟩

/-- C7 (counterexamples).  With the insert of discrepancies failing, the count of order 1
with line 10 short by 5 (expected 50, counted 45) still succeeds and leaves the order
CON_INCIDENCIA, but no discrepancy is stored.  With every write succeeding, a counted
quantity of -9223372036854775808 on line 10 (expected 50) stores a discrepancy whose
Difference is 9223372036854775758, not the counted quantity minus the expected one. -/
theorem BlindCountUseCase.Execute_discrepancies_lost :
    expectedQuantity receptionStore 10 = some 50 ∧
    (BlindCountUseCase.Execute 9 (receptionStore.withFaults { discrepancyInsert := true })
      shortCountInput).2 = none ∧
    (BlindCountUseCase.Execute 9 (receptionStore.withFaults { discrepancyInsert := true })
      shortCountInput).1.discrepancies = [] ∧
    (ReceptionOrderRepository.FindByID
      (BlindCountUseCase.Execute 9 (receptionStore.withFaults { discrepancyInsert := true })
        shortCountInput).1 1).map (·.Status) = some ReceptionStatus.ReceptionConIncidencia ∧
    (BlindCountUseCase.Execute 9 receptionStore overflowCountInput).2 = none ∧
    (BlindCountUseCase.Execute 9 receptionStore overflowCountInput).1.discrepancies.map
        (fun d => (d.ReceptionLineID, d.ExpectedQty, d.CountedQty, d.Difference, d.Status)) =
      [(10, 50, -9223372036854775808, 9223372036854775758,
        DiscrepancyStatus.DiscrepancyDetectada)] ∧
    (9223372036854775758 : Int) ≠ -9223372036854775808 - 50 := by
  decide

/-- C8: for every BlindCount that returns no error, the order was PENDIENTE and is
afterwards stored as CON_INCIDENCIA if and only if some submitted entry counts something
else than its line expects, and as EN_CONTEO if and only if no entry does (in particular
when no line is submitted). -/
theorem BlindCountUseCase.Execute_final_status (now : Int) (s : Store)
    (input : BlindCountInput)
    (hok : (BlindCountUseCase.Execute now s input).2 = none) :
    (∃ order, ReceptionOrderRepository.FindByID s input.ReceptionOrderID = some order ∧
      order.Status = ReceptionStatus.ReceptionPendiente) ∧
    ∃ final,
      ReceptionOrderRepository.FindByID (BlindCountUseCase.Execute now s input).1
        input.ReceptionOrderID = some final ∧
      (final.Status = ReceptionStatus.ReceptionConIncidencia ↔
        ∃ ci ∈ input.Lines, expectedQuantity s ci.LineID ≠ some ci.CountedQuantity) ∧
      (final.Status = ReceptionStatus.ReceptionEnConteo ↔
        ¬ ∃ ci ∈ input.Lines, expectedQuantity s ci.LineID ≠ some ci.CountedQuantity) := by
  obtain ⟨order, hOrder, hPending, hLines⟩ :=
    BlindCountUseCase.Execute_success_inv now s input hok
  obtain ⟨created, _, _, _, hfinal⟩ :=
    BlindCountUseCase.Execute_ok now s input order hOrder hPending hLines
  refine ⟨⟨order, hOrder, hPending⟩, _, hfinal, ?_, ?_⟩
  · by_cases hany : input.Lines.any
        (fun ci => expectedQuantity s ci.LineID != some ci.CountedQuantity) = true
    · have hex : ∃ ci ∈ input.Lines, expectedQuantity s ci.LineID ≠ some ci.CountedQuantity := by
        simpa using hany
      simp [hany, hex]
    · have hex : ¬ ∃ ci ∈ input.Lines,
          expectedQuantity s ci.LineID ≠ some ci.CountedQuantity := by
        simpa using hany
      simp only [hany, hex, iff_false]
      simp
  · by_cases hany : input.Lines.any
        (fun ci => expectedQuantity s ci.LineID != some ci.CountedQuantity) = true
    · have hex : ∃ ci ∈ input.Lines, expectedQuantity s ci.LineID ≠ some ci.CountedQuantity := by
        simpa using hany
      simp only [hany, hex, not_true_eq_false, iff_false]
      simp
    · have hex : ¬ ∃ ci ∈ input.Lines,
          expectedQuantity s ci.LineID ≠ some ci.CountedQuantity := by
        simpa using hany
      simp [hany, hex]

/-- C8 at a concrete store: the count of order 1 with line 10 short by 5 succeeds and
leaves the order CON_INCIDENCIA; a count of order 1 without any line succeeds and leaves it
EN_CONTEO. -/
theorem BlindCountUseCase.Execute_final_status_witness :
    (BlindCountUseCase.Execute 9 receptionStore shortCountInput).2 = none ∧
    ((∃ order, ReceptionOrderRepository.FindByID receptionStore
        shortCountInput.ReceptionOrderID = some order ∧
      order.Status = ReceptionStatus.ReceptionPendiente) ∧
    ∃ final,
      ReceptionOrderRepository.FindByID (BlindCountUseCase.Execute 9 receptionStore
        shortCountInput).1 shortCountInput.ReceptionOrderID = some final ∧
      (final.Status = ReceptionStatus.ReceptionConIncidencia ↔
        ∃ ci ∈ shortCountInput.Lines,
          expectedQuantity receptionStore ci.LineID ≠ some ci.CountedQuantity) ∧
      (final.Status = ReceptionStatus.ReceptionEnConteo ↔
        ¬ ∃ ci ∈ shortCountInput.Lines,
          expectedQuantity receptionStore ci.LineID ≠ some ci.CountedQuantity)) ∧
    (ReceptionOrderRepository.FindByID (BlindCountUseCase.Execute 9 receptionStore
      shortCountInput).1 1).map (·.Status) = some ReceptionStatus.ReceptionConIncidencia ∧
    (BlindCountUseCase.Execute 9 receptionStore emptyCountInput).2 = none ∧
    (ReceptionOrderRepository.FindByID (BlindCountUseCase.Execute 9 receptionStore
      emptyCountInput).1 1).map (·.Status) = some ReceptionStatus.ReceptionEnConteo :=
  ⟨by decide,
   BlindCountUseCase.Execute_final_status 9 receptionStore shortCountInput (by decide),
   by decide, by decide, by decide⟩

/-- C9 (failing inputs): starting from a store without discrepancies, one successful
BlindCount that names line 10 twice (45, then 44, expected 50) leaves two discrepancy rows
for line 10; so does a BlindCount that fails on a foreign line after having counted line 10,
followed by a successful BlindCount of line 10. -/
theorem BlindCountUseCase.Execute_repeated_line :
    receptionStore.discrepancies = [] ∧
    (BlindCountUseCase.Execute 9 receptionStore repeatedCountInput).2 = none ∧
    (BlindCountUseCase.Execute 9 receptionStore repeatedCountInput).1.discrepancies.map
        (fun d => (d.ReceptionLineID, d.ExpectedQty, d.CountedQty, d.Difference)) =
      [(10, 50, 45, -5), (10, 50, 44, -6)] ∧
    discrepancyCount (BlindCountUseCase.Execute 9 receptionStore repeatedCountInput).1 10 = 2 ∧
    (BlindCountUseCase.Execute 9 receptionStore foreignLineInput).2 =
      some "línea no pertenece a esta orden" ∧
    discrepancyCount (BlindCountUseCase.Execute 9 receptionStore foreignLineInput).1 10 = 1 ∧
    (BlindCountUseCase.Execute 10
      (BlindCountUseCase.Execute 9 receptionStore foreignLineInput).1 retryInput).2 = none ∧
    discrepancyCount
      (BlindCountUseCase.run receptionStore [(9, foreignLineInput), (10, retryInput)]) 10 = 2 := by
  decide

/-- The loop of BlindCount never writes `reception_orders`, whether it ends with an error
or not. -/
theorem BlindCountUseCase.countLines_orders (now : Int) (input : BlindCountInput) :
    ∀ (lines : List BlindCountLineInput) (t : Store) (has : Bool),
      (BlindCountUseCase.countLines now input t has lines).1.receptionOrders =
        t.receptionOrders := by
  intro lines
  induction lines with
  | nil => intro t has; rfl
  | cons ci rest ih =>
    intro t has
    unfold BlindCountUseCase.countLines
    cases ReceptionLineRepository.FindByID t ci.LineID with
    | none => rfl
    | some line =>
      by_cases hord : line.ReceptionOrderID ≠ input.ReceptionOrderID
      · simp only [if_pos hord]
      · simp only [if_neg hord]
        unfold ReceptionLineRepository.Update
        by_cases hany : t.receptionLines.any
            (fun l => l.ID == (BlindCountUseCase.counted now input ci line).ID) = true
        · simp only [hany, if_true]
          by_cases hhas : (BlindCountUseCase.counted now input ci line).HasDiscrepancy = true
          · simp only [hhas, if_true]
            rw [ih]
            rfl
          · simp only [hhas, Bool.false_eq_true, if_false]
            rw [ih]
            rfl
        · simp only [hany, Bool.false_eq_true, if_false]

theorem ReceptionOrder.received_not_pending (now : Int) (input : BlindCountInput) (has : Bool)
    (order row : ReceptionOrder) (h : row.Status ≠ ReceptionStatus.ReceptionPendiente) :
    (ReceptionOrder.applyUpdate now (BlindCountUseCase.received now input has order) row).Status ≠
      ReceptionStatus.ReceptionPendiente := by
  unfold ReceptionOrder.applyUpdate
  split
  · cases has <;> simp [BlindCountUseCase.received]
  · exact h

/-- The store a BlindCount call leaves differs in `reception_orders` from the store it
started on only when the call succeeds, and then by the final UPDATE of its own order,
which sets CON_INCIDENCIA or EN_CONTEO. -/
theorem BlindCountUseCase.Execute_orders (now : Int) (s : Store) (input : BlindCountInput) :
    ((BlindCountUseCase.Execute now s input).2 ≠ none ∧
      (BlindCountUseCase.Execute now s input).1.receptionOrders = s.receptionOrders) ∨
    ((BlindCountUseCase.Execute now s input).2 = none ∧
      ∃ order has, ReceptionOrderRepository.FindByID s input.ReceptionOrderID = some order ∧
        (BlindCountUseCase.Execute now s input).1.receptionOrders =
          s.receptionOrders.map (ReceptionOrder.applyUpdate now
            (BlindCountUseCase.received now input has order))) := by
  cases hfind : ReceptionOrderRepository.FindByID s input.ReceptionOrderID with
  | none =>
    have hexec : BlindCountUseCase.Execute now s input =
        (s, some "orden de recepción no encontrada") := by
      simp only [BlindCountUseCase.Execute, hfind]
    rw [hexec]
    exact Or.inl ⟨by simp, rfl⟩
  | some order =>
    by_cases hst : order.Status ≠ ReceptionStatus.ReceptionPendiente
    · have hexec : BlindCountUseCase.Execute now s input =
          (s, some "la orden ya fue contada o validada") := by
        simp only [BlindCountUseCase.Execute, hfind, if_pos hst]
      rw [hexec]
      exact Or.inl ⟨by simp, rfl⟩
    · have hord := BlindCountUseCase.countLines_orders now input input.Lines s false
      rcases hrun : BlindCountUseCase.countLines now input s false input.Lines with
        ⟨t1, has, err⟩
      rw [hrun] at hord
      cases err with
      | some e =>
        have hexec : BlindCountUseCase.Execute now s input = (t1, some e) := by
          simp only [BlindCountUseCase.Execute, hfind, if_neg hst, hrun]
        rw [hexec]
        exact Or.inl ⟨by simp, hord⟩
      | none =>
        by_cases hany : t1.receptionOrders.any
            (fun o => o.ID == (BlindCountUseCase.received now input has order).ID) = true
        · have hexec : BlindCountUseCase.Execute now s input =
              (AuditRepository.Log (ReceptionOrderRepository.written t1 now
                (BlindCountUseCase.received now input has order))
                { UserID := some input.UserID, Action := "BLIND_COUNT",
                  EntityType := "RECEPTION_ORDER", EntityID := some order.ID }, none) := by
            simp only [BlindCountUseCase.Execute, hfind, if_neg hst, hrun,
              ReceptionOrderRepository.Update, hany, if_true]
            rfl
          rw [hexec]
          refine Or.inr ⟨rfl, order, has, rfl, ?_⟩
          show List.map _ t1.receptionOrders = _
          rw [show t1.receptionOrders = s.receptionOrders from hord]
        · have hexec : BlindCountUseCase.Execute now s input =
              (t1, some "recurso no encontrado") := by
            simp only [BlindCountUseCase.Execute, hfind, if_neg hst, hrun,
              ReceptionOrderRepository.Update, hany, Bool.false_eq_true, if_false]
          rw [hexec]
          exact Or.inl ⟨by simp, hord⟩

/-- A reception order that is not PENDIENTE stays so through any BlindCount call. -/
theorem BlindCountUseCase.Execute_keeps_closed (now : Int) (s : Store)
    (input : BlindCountInput) (orderID : UUID) (h : OrderClosed s orderID) :
    OrderClosed (BlindCountUseCase.Execute now s input).1 orderID := by
  obtain ⟨row, hrow, hstatus⟩ := h
  rcases BlindCountUseCase.Execute_orders now s input with ⟨_, hsame⟩ | ⟨_, order, has, _, hmap⟩
  · refine ⟨row, ?_, hstatus⟩
    unfold ReceptionOrderRepository.FindByID at hrow ⊢
    rw [hsame]
    exact hrow
  · refine ⟨ReceptionOrder.applyUpdate now (BlindCountUseCase.received now input has order) row,
      ?_, ReceptionOrder.received_not_pending now input has order row hstatus⟩
    unfold ReceptionOrderRepository.FindByID at hrow ⊢
    rw [hmap, ReceptionOrderRepository.find_map_order_update, hrow]
    rfl

/-- A reception order that is not PENDIENTE stays so through any sequence of BlindCount
calls. -/
theorem BlindCountUseCase.run_keeps_closed (orderID : UUID) :
    ∀ (calls : List (Int × BlindCountInput)) (s : Store),
      OrderClosed s orderID → OrderClosed (BlindCountUseCase.run s calls) orderID := by
  intro calls
  induction calls with
  | nil => intro s h; exact h
  | cons call rest ih =>
    intro s h
    exact ih _ (BlindCountUseCase.Execute_keeps_closed call.1 s call.2 orderID h)

/-- A BlindCount that returns no error leaves its order stored with a status other than
PENDIENTE. -/
theorem BlindCountUseCase.Execute_closes (now : Int) (s : Store) (input : BlindCountInput)
    (hok : (BlindCountUseCase.Execute now s input).2 = none) :
    OrderClosed (BlindCountUseCase.Execute now s input).1 input.ReceptionOrderID := by
  rcases BlindCountUseCase.Execute_orders now s input with
    ⟨hfail, _⟩ | ⟨_, order, has, hfind, hmap⟩
  · exact absurd hok hfail
  · refine ⟨ReceptionOrder.applyUpdate now (BlindCountUseCase.received now input has order) order,
      ?_, ?_⟩
    · unfold ReceptionOrderRepository.FindByID at hfind ⊢
      rw [hmap, ReceptionOrderRepository.find_map_order_update, hfind]
      rfl
    · have hid : order.ID = (BlindCountUseCase.received now input has order).ID := rfl
      unfold ReceptionOrder.applyUpdate
      rw [if_pos (by simp [BlindCountUseCase.received])]
      cases has <;> simp [BlindCountUseCase.received]

/-- C10: a BlindCount on an order that is stored with a status other than PENDIENTE fails
with "la orden ya fue contada o validada" and hands back the store as it was: no reception
line is changed, no discrepancy is created and the order is untouched.  In particular, once
a BlindCount on an order has succeeded, then after any further sequence of BlindCount calls
every BlindCount on that order fails in this way. -/
theorem BlindCountUseCase.Execute_not_pending (now : Int) (s : Store)
    (input : BlindCountInput) :
    (∀ order, ReceptionOrderRepository.FindByID s input.ReceptionOrderID = some order →
      order.Status ≠ ReceptionStatus.ReceptionPendiente →
      BlindCountUseCase.Execute now s input = (s, some "la orden ya fue contada o validada")) ∧
    ((BlindCountUseCase.Execute now s input).2 = none →
      ∀ (calls : List (Int × BlindCountInput)) (later : Int) (again : BlindCountInput),
        again.ReceptionOrderID = input.ReceptionOrderID →
        BlindCountUseCase.Execute later
            (BlindCountUseCase.run (BlindCountUseCase.Execute now s input).1 calls) again =
          (BlindCountUseCase.run (BlindCountUseCase.Execute now s input).1 calls,
            some "la orden ya fue contada o validada")) := by
  have hfail : ∀ (t : Store) (at_ : Int) (inp : BlindCountInput) (order : ReceptionOrder),
      ReceptionOrderRepository.FindByID t inp.ReceptionOrderID = some order →
      order.Status ≠ ReceptionStatus.ReceptionPendiente →
      BlindCountUseCase.Execute at_ t inp = (t, some "la orden ya fue contada o validada") := by
    intro t at_ inp order hfind hst
    simp only [BlindCountUseCase.Execute, hfind, if_pos hst]
  refine ⟨hfail s now input, ?_⟩
  intro hok calls later again hsame
  obtain ⟨order, hfind, hst⟩ := BlindCountUseCase.run_keeps_closed input.ReceptionOrderID calls _
    (BlindCountUseCase.Execute_closes now s input hok)
  rw [← hsame] at hfind
  exact hfail _ later again order hfind hst

/-- C10 at a concrete store: a count of the VALIDADA order 3 is refused and changes
nothing; after the successful count of order 1, followed by a count of order 2 and a failed
count, a second count of order 1 is refused and changes nothing. -/
theorem BlindCountUseCase.Execute_not_pending_witness :
    BlindCountUseCase.Execute 9 receptionStore validatedOrderInput =
      (receptionStore, some "la orden ya fue contada o validada") ∧
    BlindCountUseCase.Execute 12
        (BlindCountUseCase.run (BlindCountUseCase.Execute 9 receptionStore shortCountInput).1
          [(10, secondOrderInput), (11, validatedOrderInput)]) retryInput =
      (BlindCountUseCase.run (BlindCountUseCase.Execute 9 receptionStore shortCountInput).1
          [(10, secondOrderInput), (11, validatedOrderInput)],
        some "la orden ya fue contada o validada") :=
  ⟨(BlindCountUseCase.Execute_not_pending 9 receptionStore validatedOrderInput).1
      (receptionOrderRow 3 ReceptionStatus.ReceptionValidada) (by decide) (by decide),
   (BlindCountUseCase.Execute_not_pending 9 receptionStore shortCountInput).2 (by decide)
      [(10, secondOrderInput), (11, validatedOrderInput)] 12 retryInput rfl⟩

/-- A line that belongs to another order than the one of the request is read back
unchanged after the loop of BlindCount, however the loop ends. -/
theorem BlindCountUseCase.countLines_foreign (now : Int) (input : BlindCountInput)
    (id : UUID) (foreign : ReceptionLine)
    (hforeign : foreign.ReceptionOrderID ≠ input.ReceptionOrderID) :
    ∀ (lines : List BlindCountLineInput) (t : Store) (has : Bool),
      ReceptionLineRepository.FindByID t id = some foreign →
      ReceptionLineRepository.FindByID
        (BlindCountUseCase.countLines now input t has lines).1 id = some foreign := by
  intro lines
  induction lines with
  | nil => intro t has h; exact h
  | cons ci rest ih =>
    intro t has h
    cases hfind : ReceptionLineRepository.FindByID t ci.LineID with
    | none =>
      have hstep : BlindCountUseCase.countLines now input t has (ci :: rest) =
          (t, has, some "recurso no encontrado") := by
        simp only [BlindCountUseCase.countLines, hfind]
      rw [hstep]
      exact h
    | some line =>
      by_cases hord : line.ReceptionOrderID ≠ input.ReceptionOrderID
      · have hstep : BlindCountUseCase.countLines now input t has (ci :: rest) =
            (t, has, some "línea no pertenece a esta orden") := by
          simp only [BlindCountUseCase.countLines, hfind, if_pos hord]
        rw [hstep]
        exact h
      · have hid : line.ID = ci.LineID := by
          have h1 := List.find?_some hfind
          simpa using h1
        have hfid : foreign.ID = id := by
          have h1 := List.find?_some h
          simpa using h1
        have hne : foreign.ID ≠ (BlindCountUseCase.counted now input ci line).ID := by
          intro heq
          have hsame : ci.LineID = id := by
            rw [← hid, ← hfid]
            exact heq.symm
          rw [hsame, h] at hfind
          exact hord (by rw [← Option.some.inj hfind]; exact hforeign)
        obtain ⟨hupd, _⟩ := ReceptionLineRepository.Update_of_found_line now
          (BlindCountUseCase.counted now input ci line) hfind hid
        have hkept : ReceptionLineRepository.FindByID
            (ReceptionLineRepository.written t now
              (BlindCountUseCase.counted now input ci line)) id = some foreign := by
          have hfind0 : t.receptionLines.find? (fun l => l.ID == id) = some foreign := h
          show (List.map _ t.receptionLines).find? _ = _
          rw [ReceptionLineRepository.find_map_line_update, hfind0]
          simp [ReceptionLine.applyUpdate, hne]
        by_cases hhas : (BlindCountUseCase.counted now input ci line).HasDiscrepancy = true
        · have hstep : BlindCountUseCase.countLines now input t has (ci :: rest) =
              BlindCountUseCase.countLines now input
                (ReceptionDiscrepancyRepository.Create
                  (ReceptionLineRepository.written t now
                    (BlindCountUseCase.counted now input ci line)) now
                  (BlindCountUseCase.discrepancy (BlindCountUseCase.counted now input ci line)
                    ci.CountedQuantity)).1 true rest := by
            simp only [BlindCountUseCase.countLines, hfind, if_neg hord, hupd, hhas, if_true]
          rw [hstep]
          exact ih _ true hkept
        · have hstep : BlindCountUseCase.countLines now input t has (ci :: rest) =
              BlindCountUseCase.countLines now input
                (ReceptionLineRepository.written t now
                  (BlindCountUseCase.counted now input ci line)) has rest := by
            simp only [BlindCountUseCase.countLines, hfind, if_neg hord, hupd, hhas,
              Bool.false_eq_true, if_false]
          rw [hstep]
          exact ih _ has hkept

/-- The reception lines a BlindCount call leaves are those the call started on or those
its loop left. -/
theorem BlindCountUseCase.Execute_receptionLines (now : Int) (s : Store)
    (input : BlindCountInput) :
    (BlindCountUseCase.Execute now s input).1.receptionLines = s.receptionLines ∨
    (BlindCountUseCase.Execute now s input).1.receptionLines =
      (BlindCountUseCase.countLines now input s false input.Lines).1.receptionLines := by
  cases hfind : ReceptionOrderRepository.FindByID s input.ReceptionOrderID with
  | none =>
    have hexec : BlindCountUseCase.Execute now s input =
        (s, some "orden de recepción no encontrada") := by
      simp only [BlindCountUseCase.Execute, hfind]
    rw [hexec]
    exact Or.inl rfl
  | some order =>
    by_cases hst : order.Status ≠ ReceptionStatus.ReceptionPendiente
    · have hexec : BlindCountUseCase.Execute now s input =
          (s, some "la orden ya fue contada o validada") := by
        simp only [BlindCountUseCase.Execute, hfind, if_pos hst]
      rw [hexec]
      exact Or.inl rfl
    · rcases hrun : BlindCountUseCase.countLines now input s false input.Lines with
        ⟨t1, has, err⟩
      cases err with
      | some e =>
        have hexec : BlindCountUseCase.Execute now s input = (t1, some e) := by
          simp only [BlindCountUseCase.Execute, hfind, if_neg hst, hrun]
        rw [hexec]
        exact Or.inr rfl
      | none =>
        by_cases hany : t1.receptionOrders.any
            (fun o => o.ID == (BlindCountUseCase.received now input has order).ID) = true
        · have hexec : BlindCountUseCase.Execute now s input =
              (AuditRepository.Log (ReceptionOrderRepository.written t1 now
                (BlindCountUseCase.received now input has order))
                { UserID := some input.UserID, Action := "BLIND_COUNT",
                  EntityType := "RECEPTION_ORDER", EntityID := some order.ID }, none) := by
            simp only [BlindCountUseCase.Execute, hfind, if_neg hst, hrun,
              ReceptionOrderRepository.Update, hany, if_true]
            rfl
          rw [hexec]
          exact Or.inr rfl
        · have hexec : BlindCountUseCase.Execute now s input =
              (t1, some "recurso no encontrado") := by
            simp only [BlindCountUseCase.Execute, hfind, if_neg hst, hrun,
              ReceptionOrderRepository.Update, hany, Bool.false_eq_true, if_false]
          rw [hexec]
          exact Or.inr rfl

/-- C11: when some submitted entry names a line that belongs to another reception order
than the one of the request, BlindCount returns an error, the table of reception orders is
left as it was (so the named order keeps its status, PENDIENTE if it was PENDIENTE, and is
never moved to EN_CONTEO or CON_INCIDENCIA), and the foreign line is read back
unchanged. -/
theorem BlindCountUseCase.Execute_foreign_line (now : Int) (s : Store)
    (input : BlindCountInput) (ci : BlindCountLineInput) (foreign : ReceptionLine)
    (hci : ci ∈ input.Lines)
    (hfind : ReceptionLineRepository.FindByID s ci.LineID = some foreign)
    (hforeign : foreign.ReceptionOrderID ≠ input.ReceptionOrderID) :
    (BlindCountUseCase.Execute now s input).2 ≠ none ∧
    (BlindCountUseCase.Execute now s input).1.receptionOrders = s.receptionOrders ∧
    ReceptionOrderRepository.FindByID (BlindCountUseCase.Execute now s input).1
        input.ReceptionOrderID =
      ReceptionOrderRepository.FindByID s input.ReceptionOrderID ∧
    ReceptionLineRepository.FindByID (BlindCountUseCase.Execute now s input).1 ci.LineID =
      some foreign := by
  have hfail : (BlindCountUseCase.Execute now s input).2 ≠ none := by
    intro hok
    obtain ⟨_, _, _, hLines⟩ := BlindCountUseCase.Execute_success_inv now s input hok
    obtain ⟨line, hline, hbelongs⟩ := hLines ci hci
    rw [hfind] at hline
    exact hforeign (by rw [Option.some.inj hline]; exact hbelongs)
  have horders : (BlindCountUseCase.Execute now s input).1.receptionOrders =
      s.receptionOrders := by
    rcases BlindCountUseCase.Execute_orders now s input with ⟨_, hsame⟩ | ⟨hok, _⟩
    · exact hsame
    · exact absurd hok hfail
  refine ⟨hfail, horders, ?_, ?_⟩
  · unfold ReceptionOrderRepository.FindByID
    rw [horders]
  · rcases BlindCountUseCase.Execute_receptionLines now s input with hsame | hloop
    · unfold ReceptionLineRepository.FindByID at hfind ⊢
      rw [hsame]
      exact hfind
    · have hkept := BlindCountUseCase.countLines_foreign now input ci.LineID foreign hforeign
        input.Lines s false hfind
      unfold ReceptionLineRepository.FindByID at hkept ⊢
      rw [hloop]
      exact hkept

/-- C11 at a concrete store: the count of order 1 that also names line 20 of order 2 fails,
order 1 stays PENDIENTE and line 20 stays uncounted. -/
theorem BlindCountUseCase.Execute_foreign_line_witness :
    ((BlindCountUseCase.Execute 9 receptionStore foreignLineInput).2 ≠ none ∧
    (BlindCountUseCase.Execute 9 receptionStore foreignLineInput).1.receptionOrders =
      receptionStore.receptionOrders ∧
    ReceptionOrderRepository.FindByID (BlindCountUseCase.Execute 9 receptionStore
        foreignLineInput).1 foreignLineInput.ReceptionOrderID =
      ReceptionOrderRepository.FindByID receptionStore foreignLineInput.ReceptionOrderID ∧
    ReceptionLineRepository.FindByID (BlindCountUseCase.Execute 9 receptionStore
        foreignLineInput).1 20 = some (receptionLineRow 20 2 5)) ∧
    (ReceptionOrderRepository.FindByID (BlindCountUseCase.Execute 9 receptionStore
        foreignLineInput).1 1).map (·.Status) = some ReceptionStatus.ReceptionPendiente :=
  ⟨BlindCountUseCase.Execute_foreign_line 9 receptionStore foreignLineInput
    { LineID := 20, CountedQuantity := 5, Condition := none } (receptionLineRow 20 2 5)
    (by decide) (by decide) (by decide), by decide⟩

/-! ## Cycle count -/

theorem CycleCount.count_applyUpdate_ID (count row : CycleCount) :
    (CycleCount.applyUpdate count row).ID = row.ID := by
  unfold CycleCount.applyUpdate
  split <;> rfl

theorem CycleCountRepository.find_map_count_update (count : CycleCount)
    (rows : List CycleCount) (id : UUID) :
    (rows.map (CycleCount.applyUpdate count)).find? (fun c => c.ID == id) =
      (rows.find? (fun c => c.ID == id)).map (CycleCount.applyUpdate count) := by
  induction rows with
  | nil => rfl
  | cons row rest ih =>
    simp only [List.map_cons, List.find?_cons, CycleCount.count_applyUpdate_ID]
    cases row.ID == id <;> simp [ih]

theorem CycleCountRepository.count_found_ID {s : Store} {id : UUID} {count : CycleCount}
    (h : CycleCountRepository.FindByID s id = some count) : count.ID = id := by
  have h1 := List.find?_some h
  simpa using h1

/-- The UPDATE of a cycle count whose row exists succeeds. -/
theorem CycleCountRepository.Update_of_found_count {s : Store} {id : UUID}
    {found : CycleCount} (count : CycleCount)
    (h : CycleCountRepository.FindByID s id = some found) (hid : count.ID = id) :
    CycleCountRepository.Update s count = some (CycleCountRepository.written s count) := by
  have hmem : found ∈ s.cycleCounts := List.mem_of_find?_eq_some h
  have hfound := CycleCountRepository.count_found_ID h
  have hany : s.cycleCounts.any (fun c => c.ID == count.ID) = true := by
    rw [List.any_eq_true]
    exact ⟨found, hmem, by simp [hfound, hid]⟩
  simp only [CycleCountRepository.Update, hany, if_true]
  rfl

theorem InventoryRepository.Update_keeps_counts {s s1 : Store} {now : Int}
    {inventory : Inventory} (h : InventoryRepository.Update s now inventory = some s1) :
    s1.cycleCounts = s.cycleCounts := by
  unfold InventoryRepository.Update at h
  by_cases hany : s.inventory.any (fun i => i.ID == inventory.ID) = true
  · rw [if_pos hany] at h
    rw [← Option.some.inj h]
  · rw [if_neg hany] at h
    exact absurd h (by simp)

/-- Step 3 of PerformCount never writes `cycle_counts`. -/
theorem PerformCycleCountUseCase.adjust_cycleCounts (now : Int) (s : Store)
    (count : CycleCount) (input : PerformCountInput) :
    (PerformCycleCountUseCase.adjust now s count input).cycleCounts = s.cycleCounts := by
  unfold PerformCycleCountUseCase.adjust
  cases count.Variance with
  | none => rfl
  | some variance =>
    by_cases hv : variance ≠ 0
    · simp only [if_pos hv]
      cases InventoryRepository.FindByProduct s count.ProductID with
      | nil => rfl
      | cons inventory rest =>
        simp only
        cases hupd : InventoryRepository.Update
            (InventoryMovementRepository.Create s now
              { ID := 0
                InventoryID := inventory.ID
                MovementType := MovementType.MovementAjuste
                Quantity := variance
                PreviousQuantity := inventory.Quantity
                NewQuantity := input.CountedQuantity
                ReferenceID := some count.ID
                ReferenceType := "CYCLE_COUNT"
                Reason := "Ajuste por conteo cíclico"
                EvidencePhotoURL := ""
                PerformedBy := input.UserID
                CreatedAt := 0 }).1 now
            { inventory with Quantity := input.CountedQuantity } with
        | none => rfl
        | some s2 =>
          simp only
          rw [InventoryRepository.Update_keeps_counts hupd]
          rfl
    · simp only [if_neg hv]

/-- Step 3 of PerformCount does nothing when the loaded count carries no variance. -/
theorem PerformCycleCountUseCase.adjust_without_variance (now : Int) (s : Store)
    (count : CycleCount) (input : PerformCountInput) (h : count.Variance = none) :
    PerformCycleCountUseCase.adjust now s count input = s := by
  unfold PerformCycleCountUseCase.adjust
  rw [h]

/-- What PerformCount does, branch by branch: it fails and hands back the store as it
was, or it succeeds on a PENDIENTE count, rewrites the count and runs step 3. -/
theorem PerformCycleCountUseCase.PerformCount_cases (now : Int) (s : Store)
    (input : PerformCountInput) :
    ((PerformCycleCountUseCase.PerformCount now s input).2 ≠ none ∧
      (PerformCycleCountUseCase.PerformCount now s input).1 = s) ∨
    (∃ count,
      CycleCountRepository.FindByID s input.CountID = some count ∧
      count.Status = CycleCountStatus.PENDIENTE ∧
      PerformCycleCountUseCase.PerformCount now s input =
        (AuditRepository.Log
          (PerformCycleCountUseCase.adjust now
            (CycleCountRepository.written s (PerformCycleCountUseCase.counted now input count))
            (PerformCycleCountUseCase.counted now input count) input)
          { UserID := some input.UserID, Action := "CYCLE_COUNT",
            EntityType := "CYCLE_COUNT", EntityID := some count.ID }, none)) := by
  cases hfind : CycleCountRepository.FindByID s input.CountID with
  | none =>
    have hexec : PerformCycleCountUseCase.PerformCount now s input =
        (s, some "conteo cíclico no encontrado") := by
      simp only [PerformCycleCountUseCase.PerformCount, hfind]
    rw [hexec]
    exact Or.inl ⟨by simp, rfl⟩
  | some count =>
    by_cases hst : count.Status ≠ CycleCountStatus.PENDIENTE
    · have hexec : PerformCycleCountUseCase.PerformCount now s input =
          (s, some "el conteo ya fue realizado") := by
        simp only [PerformCycleCountUseCase.PerformCount, hfind, if_pos hst]
      rw [hexec]
      exact Or.inl ⟨by simp, rfl⟩
    · have hid := CycleCountRepository.count_found_ID hfind
      have hupd := CycleCountRepository.Update_of_found_count
        (PerformCycleCountUseCase.counted now input count) hfind hid
      refine Or.inr ⟨count, rfl, not_not.mp hst, ?_⟩
      unfold PerformCycleCountUseCase.counted at hupd
      simp only [PerformCycleCountUseCase.PerformCount, hfind, if_neg hst, hupd]
      rfl

/-- The cycle counts PerformCount leaves after a success: the rows it started on, rewritten
by the UPDATE of step 2. -/
theorem PerformCycleCountUseCase.PerformCount_counts (now : Int) (s : Store)
    (input : PerformCountInput) (count : CycleCount)
    (hexec : PerformCycleCountUseCase.PerformCount now s input =
      (AuditRepository.Log
        (PerformCycleCountUseCase.adjust now
          (CycleCountRepository.written s (PerformCycleCountUseCase.counted now input count))
          (PerformCycleCountUseCase.counted now input count) input)
        { UserID := some input.UserID, Action := "CYCLE_COUNT",
          EntityType := "CYCLE_COUNT", EntityID := some count.ID }, none)) :
    (PerformCycleCountUseCase.PerformCount now s input).1.cycleCounts =
      s.cycleCounts.map
        (CycleCount.applyUpdate (PerformCycleCountUseCase.counted now input count)) := by
  rw [hexec]
  show (PerformCycleCountUseCase.adjust now _ _ input).cycleCounts = _
  rw [PerformCycleCountUseCase.adjust_cycleCounts]
  rfl

theorem CycleCount.counted_not_pending (now : Int) (input : PerformCountInput)
    (count row : CycleCount) (h : row.Status ≠ CycleCountStatus.PENDIENTE) :
    (CycleCount.applyUpdate (PerformCycleCountUseCase.counted now input count) row).Status ≠
      CycleCountStatus.PENDIENTE := by
  unfold CycleCount.applyUpdate
  split
  · simp [PerformCycleCountUseCase.counted]
  · exact h

/-- A cycle count that is not PENDIENTE stays so through any PerformCount call. -/
theorem PerformCycleCountUseCase.PerformCount_keeps_closed (now : Int) (s : Store)
    (input : PerformCountInput) (countID : UUID) (h : CountClosed s countID) :
    CountClosed (PerformCycleCountUseCase.PerformCount now s input).1 countID := by
  obtain ⟨row, hrow, hstatus⟩ := h
  rcases PerformCycleCountUseCase.PerformCount_cases now s input with
    ⟨_, hsame⟩ | ⟨count, _, _, hexec⟩
  · rw [hsame]
    exact ⟨row, hrow, hstatus⟩
  · refine ⟨CycleCount.applyUpdate (PerformCycleCountUseCase.counted now input count) row,
      ?_, CycleCount.counted_not_pending now input count row hstatus⟩
    unfold CycleCountRepository.FindByID at hrow ⊢
    rw [PerformCycleCountUseCase.PerformCount_counts now s input count hexec,
      CycleCountRepository.find_map_count_update, hrow]
    rfl

/-- A cycle count that is not PENDIENTE stays so through any sequence of PerformCount
calls. -/
theorem PerformCycleCountUseCase.run_keeps_count_closed (countID : UUID) :
    ∀ (calls : List (Int × PerformCountInput)) (s : Store),
      CountClosed s countID → CountClosed (PerformCycleCountUseCase.run s calls) countID := by
  intro calls
  induction calls with
  | nil => intro s h; exact h
  | cons call rest ih =>
    intro s h
    exact ih _ (PerformCycleCountUseCase.PerformCount_keeps_closed call.1 s call.2 countID h)

/-- A PerformCount that returns no error leaves its count stored as COMPLETADO. -/
theorem PerformCycleCountUseCase.PerformCount_closes (now : Int) (s : Store)
    (input : PerformCountInput)
    (hok : (PerformCycleCountUseCase.PerformCount now s input).2 = none) :
    ∃ count, CycleCountRepository.FindByID
        (PerformCycleCountUseCase.PerformCount now s input).1 input.CountID = some count ∧
      count.Status = CycleCountStatus.COMPLETADO ∧
      count.CountedQuantity = some input.CountedQuantity := by
  rcases PerformCycleCountUseCase.PerformCount_cases now s input with
    ⟨hfail, _⟩ | ⟨count, hfind, _, hexec⟩
  · exact absurd hok hfail
  · have hid := CycleCountRepository.count_found_ID hfind
    refine ⟨CycleCount.applyUpdate (PerformCycleCountUseCase.counted now input count) count,
      ?_, ?_, ?_⟩
    · unfold CycleCountRepository.FindByID at hfind ⊢
      rw [PerformCycleCountUseCase.PerformCount_counts now s input count hexec,
        CycleCountRepository.find_map_count_update, hfind]
      rfl
    · simp [CycleCount.applyUpdate, PerformCycleCountUseCase.counted]
    · simp [CycleCount.applyUpdate, PerformCycleCountUseCase.counted]

/-- On a PENDIENTE count whose loaded row carries no variance, PerformCount succeeds,
rewrites the count and appends the audit record, and nothing else: no lot changes and no
movement is written, whatever the counted quantity is. -/
theorem PerformCycleCountUseCase.PerformCount_without_variance (now : Int) (s : Store)
    (input : PerformCountInput) (count : CycleCount)
    (hfind : CycleCountRepository.FindByID s input.CountID = some count)
    (hPending : count.Status = CycleCountStatus.PENDIENTE)
    (hVariance : count.Variance = none) :
    PerformCycleCountUseCase.PerformCount now s input =
      (AuditRepository.Log
        (CycleCountRepository.written s (PerformCycleCountUseCase.counted now input count))
        { UserID := some input.UserID, Action := "CYCLE_COUNT",
          EntityType := "CYCLE_COUNT", EntityID := some count.ID }, none) ∧
    (PerformCycleCountUseCase.PerformCount now s input).1.inventory = s.inventory ∧
    (PerformCycleCountUseCase.PerformCount now s input).1.movements = s.movements := by
  have hexec : PerformCycleCountUseCase.PerformCount now s input =
      (AuditRepository.Log
        (CycleCountRepository.written s (PerformCycleCountUseCase.counted now input count))
        { UserID := some input.UserID, Action := "CYCLE_COUNT",
          EntityType := "CYCLE_COUNT", EntityID := some count.ID }, none) := by
    rcases PerformCycleCountUseCase.PerformCount_cases now s input with
      ⟨hfail, _⟩ | ⟨found, hfound, _, hrun⟩
    · exfalso
      apply hfail
      have hid := CycleCountRepository.count_found_ID hfind
      have hupd := CycleCountRepository.Update_of_found_count
        (PerformCycleCountUseCase.counted now input count) hfind hid
      unfold PerformCycleCountUseCase.counted at hupd
      simp only [PerformCycleCountUseCase.PerformCount, hfind, hPending, hupd]
      simp
    · rw [hfind] at hfound
      have hsame : count = found := Option.some.inj hfound
      subst hsame
      rw [hrun, PerformCycleCountUseCase.adjust_without_variance now _ _ input
        (by simp [PerformCycleCountUseCase.counted, hVariance])]
  refine ⟨hexec, ?_, ?_⟩
  · rw [hexec]
    rfl
  · rw [hexec]
    rfl

/-- C12 (failing input): cycle count 6 of product 7 is PENDIENTE as generated (expected 30,
no counted quantity, no variance) and product 7 has lot 1 with 30 units.  PerformCount with
counted quantity 25 succeeds and stores the count as COMPLETADO with counted quantity 25,
but the variance it reads is the one loaded before the update, which is empty: the stored
variance stays empty, lot 1 keeps its 30 units and no AJUSTE movement is written. -/
theorem PerformCycleCountUseCase.PerformCount_skips_adjustment :
    (InventoryRepository.FindByProduct freshCountStore 7).map
        (fun lot => (lot.ID, lot.Quantity)) = [(1, 30)] ∧
    (PerformCycleCountUseCase.PerformCount 9 freshCountStore shortCycleInput).2 = none ∧
    (PerformCycleCountUseCase.PerformCount 9 freshCountStore shortCycleInput).1.cycleCounts.map
        (fun c => (c.ID, c.Status, c.ExpectedQuantity, c.CountedQuantity, c.Variance)) =
      [(6, CycleCountStatus.COMPLETADO, some 30, some 25, none),
       (8, CycleCountStatus.PENDIENTE, some 0, none, none)] ∧
    (PerformCycleCountUseCase.PerformCount 9 freshCountStore shortCycleInput).1.inventory.map
        (fun lot => (lot.ID, lot.Quantity)) = [(1, 30)] ∧
    (PerformCycleCountUseCase.PerformCount 9 freshCountStore shortCycleInput).1.inventory =
      freshCountStore.inventory ∧
    (PerformCycleCountUseCase.PerformCount 9 freshCountStore shortCycleInput).1.movements =
      freshCountStore.movements := by
  decide

/-- C13: PerformCount on a count that is stored with a status other than PENDIENTE fails
with "el conteo ya fue realizado" and hands back the store as it was: the count, the lots
and the movement ledger are untouched.  In particular, once a PerformCount on a count has
succeeded, then after any further sequence of PerformCount calls every PerformCount on
that count fails in this way. -/
theorem PerformCycleCountUseCase.PerformCount_not_pending (now : Int) (s : Store)
    (input : PerformCountInput) :
    (∀ count, CycleCountRepository.FindByID s input.CountID = some count →
      count.Status ≠ CycleCountStatus.PENDIENTE →
      PerformCycleCountUseCase.PerformCount now s input =
        (s, some "el conteo ya fue realizado")) ∧
    ((PerformCycleCountUseCase.PerformCount now s input).2 = none →
      ∀ (calls : List (Int × PerformCountInput)) (later : Int) (again : PerformCountInput),
        again.CountID = input.CountID →
        PerformCycleCountUseCase.PerformCount later
            (PerformCycleCountUseCase.run
              (PerformCycleCountUseCase.PerformCount now s input).1 calls) again =
          (PerformCycleCountUseCase.run
              (PerformCycleCountUseCase.PerformCount now s input).1 calls,
            some "el conteo ya fue realizado")) := by
  have hfail : ∀ (t : Store) (at_ : Int) (inp : PerformCountInput) (count : CycleCount),
      CycleCountRepository.FindByID t inp.CountID = some count →
      count.Status ≠ CycleCountStatus.PENDIENTE →
      PerformCycleCountUseCase.PerformCount at_ t inp =
        (t, some "el conteo ya fue realizado") := by
    intro t at_ inp count hfind hst
    simp only [PerformCycleCountUseCase.PerformCount, hfind, if_pos hst]
  refine ⟨hfail s now input, ?_⟩
  intro hok calls later again hsame
  obtain ⟨done, hdone, hstatus, _⟩ := PerformCycleCountUseCase.PerformCount_closes now s input hok
  obtain ⟨count, hfind, hst⟩ :=
    PerformCycleCountUseCase.run_keeps_count_closed input.CountID calls _
      ⟨done, hdone, by rw [hstatus]; decide⟩
  rw [← hsame] at hfind
  exact hfail _ later again count hfind hst

/-- C13 at a concrete store: after the count of cycle count 6 has been performed, followed
by the count of cycle count 8, a second PerformCount on cycle count 6 is refused and
changes nothing. -/
theorem PerformCycleCountUseCase.PerformCount_not_pending_witness :
    PerformCycleCountUseCase.PerformCount 10
        (PerformCycleCountUseCase.PerformCount 9 freshCountStore shortCycleInput).1
        shortCycleInput =
      ((PerformCycleCountUseCase.PerformCount 9 freshCountStore shortCycleInput).1,
        some "el conteo ya fue realizado") ∧
    PerformCycleCountUseCase.PerformCount 12
        (PerformCycleCountUseCase.run
          (PerformCycleCountUseCase.PerformCount 9 freshCountStore shortCycleInput).1
          [(10, otherCycleInput), (11, shortCycleInput)])
        { CountID := 6, CountedQuantity := 31, UserID := 5 } =
      (PerformCycleCountUseCase.run
          (PerformCycleCountUseCase.PerformCount 9 freshCountStore shortCycleInput).1
          [(10, otherCycleInput), (11, shortCycleInput)],
        some "el conteo ya fue realizado") :=
  ⟨(PerformCycleCountUseCase.PerformCount_not_pending 10
      (PerformCycleCountUseCase.PerformCount 9 freshCountStore shortCycleInput).1
      shortCycleInput).1
      { pendingCountRow 6 7 30 with
        CountedQuantity := some 25, CountedBy := some 3, CountedAt := some 9,
        Status := CycleCountStatus.COMPLETADO } (by decide) (by decide),
   (PerformCycleCountUseCase.PerformCount_not_pending 9 freshCountStore shortCycleInput).2
      (by decide) [(10, otherCycleInput), (11, shortCycleInput)] 12
      { CountID := 6, CountedQuantity := 31, UserID := 5 } rfl⟩

/-! ## Inventory ledger: the stock invariant -/

theorem Float64.pow2_eq (e : Int) : Float64.pow2 e = (2 : ℚ) ^ e := by
  unfold Float64.pow2
  by_cases h : 0 ≤ e
  · rw [if_pos h]
    have he : e = (e.toNat : Int) := (Int.toNat_of_nonneg h).symm
    conv_rhs => rw [he]
    rw [zpow_natCast]
    push_cast
    rfl
  · rw [if_neg h]
    have hneg : 0 ≤ -e := by omega
    have he : e = -((-e).toNat : Int) := by
      rw [Int.toNat_of_nonneg hneg]
      ring
    conv_rhs => rw [he]
    rw [zpow_neg, zpow_natCast]
    push_cast
    rw [one_div]

theorem Float64.pow2_pos (e : Int) : 0 < Float64.pow2 e := by
  rw [Float64.pow2_eq]
  exact zpow_pos (by norm_num) e

theorem Float64.pow2_add (a b : Int) :
    Float64.pow2 (a + b) = Float64.pow2 a * Float64.pow2 b := by
  simp only [Float64.pow2_eq]
  exact zpow_add₀ (by norm_num) a b

theorem Float64.pow2_mono {a b : Int} (h : a ≤ b) : Float64.pow2 a ≤ Float64.pow2 b := by
  simp only [Float64.pow2_eq]
  exact zpow_le_zpow_right₀ (by norm_num) h

theorem Float64.pow2_lt_iff {a b : Int} : Float64.pow2 a < Float64.pow2 b ↔ a < b := by
  simp only [Float64.pow2_eq]
  exact zpow_lt_zpow_iff_right₀ (by norm_num)

theorem Float64.pow2_natCast (n : Nat) : Float64.pow2 (n : Int) = (2 : ℚ) ^ n := by
  rw [Float64.pow2_eq, zpow_natCast]

theorem Float64.bits_spec : ∀ (fuel n : Nat), n ≤ fuel → 1 ≤ n →
    2 ^ Float64.bits fuel n ≤ n ∧ n < 2 ^ (Float64.bits fuel n + 1)
  | 0, n, h, h1 => by omega
  | fuel + 1, n, h, h1 => by
    unfold Float64.bits
    by_cases h2 : n < 2
    · rw [if_pos h2]
      have : n = 1 := by omega
      subst this
      norm_num
    · rw [if_neg h2]
      have hhalf : n / 2 ≤ fuel := by omega
      have hpos : 1 ≤ n / 2 := by omega
      obtain ⟨hlo, hhi⟩ := Float64.bits_spec fuel (n / 2) hhalf hpos
      constructor
      · rw [pow_succ]
        omega
      · rw [pow_succ]
        omega


theorem Float64.ilog2_spec {q : ℚ} (hq : 0 < q) :
    Float64.pow2 (Float64.ilog2 q) ≤ q ∧ q < Float64.pow2 (Float64.ilog2 q + 1) := by
  have hnum : 0 < q.num := Rat.num_pos.mpr hq
  have hn1 : 1 ≤ q.num.natAbs := by omega
  have hd1 : 1 ≤ q.den := q.den_pos
  obtain ⟨hnlo, hnhi⟩ := Float64.bits_spec q.num.natAbs q.num.natAbs le_rfl hn1
  obtain ⟨hdlo, hdhi⟩ := Float64.bits_spec q.den q.den le_rfl hd1
  have hqd : q * (q.den : ℚ) = (q.num.natAbs : ℚ) := by
    have h0 : (q.num.natAbs : Int) = q.num := Int.natAbs_of_nonneg hnum.le
    have h1 : (q.num.natAbs : ℚ) = (q.num : ℚ) := by
      rw [← h0, Int.cast_natCast, h0]
    rw [h1]
    exact Rat.mul_den_eq_num q
  have hdpos : (0 : ℚ) < (q.den : ℚ) := by exact_mod_cast q.den_pos
  have hnlo' : Float64.pow2 (Float64.bits q.num.natAbs q.num.natAbs : Int) ≤
      (q.num.natAbs : ℚ) := by
    rw [Float64.pow2_natCast]
    exact_mod_cast hnlo
  have hnhi' : (q.num.natAbs : ℚ) <
      Float64.pow2 ((Float64.bits q.num.natAbs q.num.natAbs : Int) + 1) := by
    have h := Float64.pow2_natCast (Float64.bits q.num.natAbs q.num.natAbs + 1)
    push_cast at h
    rw [h]
    exact_mod_cast hnhi
  have hdlo' : Float64.pow2 (Float64.bits q.den q.den : Int) ≤ (q.den : ℚ) := by
    rw [Float64.pow2_natCast]
    exact_mod_cast hdlo
  have hdhi' : (q.den : ℚ) < Float64.pow2 ((Float64.bits q.den q.den : Int) + 1) := by
    have h := Float64.pow2_natCast (Float64.bits q.den q.den + 1)
    push_cast at h
    rw [h]
    exact_mod_cast hdhi
  have habs : |q| = q := abs_of_pos hq
  have hupper : q < Float64.pow2 ((Float64.bits q.num.natAbs q.num.natAbs : Int) -
      (Float64.bits q.den q.den : Int) + 1) := by
    have hsplit : Float64.pow2 ((Float64.bits q.num.natAbs q.num.natAbs : Int) + 1) =
        Float64.pow2 ((Float64.bits q.num.natAbs q.num.natAbs : Int) -
          (Float64.bits q.den q.den : Int) + 1) *
        Float64.pow2 (Float64.bits q.den q.den : Int) := by
      rw [← Float64.pow2_add]
      congr 1
      ring
    have hlt : q * (q.den : ℚ) < Float64.pow2 ((Float64.bits q.num.natAbs q.num.natAbs : Int) -
        (Float64.bits q.den q.den : Int) + 1) * (q.den : ℚ) := by
      rw [hqd]
      calc (q.num.natAbs : ℚ)
          < Float64.pow2 ((Float64.bits q.num.natAbs q.num.natAbs : Int) + 1) := hnhi'
        _ = _ := hsplit
        _ ≤ _ := mul_le_mul_of_nonneg_left hdlo' (Float64.pow2_pos _).le
    exact lt_of_mul_lt_mul_right hlt hdpos.le
  have hlower : Float64.pow2 ((Float64.bits q.num.natAbs q.num.natAbs : Int) -
      (Float64.bits q.den q.den : Int) - 1) ≤ q := by
    have hsplit : Float64.pow2 (Float64.bits q.num.natAbs q.num.natAbs : Int) =
        Float64.pow2 ((Float64.bits q.num.natAbs q.num.natAbs : Int) -
          (Float64.bits q.den q.den : Int) - 1) *
        Float64.pow2 ((Float64.bits q.den q.den : Int) + 1) := by
      rw [← Float64.pow2_add]
      congr 1
      ring
    have hle : Float64.pow2 ((Float64.bits q.num.natAbs q.num.natAbs : Int) -
        (Float64.bits q.den q.den : Int) - 1) * (q.den : ℚ) ≤ q * (q.den : ℚ) := by
      rw [hqd]
      calc _ ≤ Float64.pow2 ((Float64.bits q.num.natAbs q.num.natAbs : Int) -
            (Float64.bits q.den q.den : Int) - 1) *
            Float64.pow2 ((Float64.bits q.den q.den : Int) + 1) :=
            mul_le_mul_of_nonneg_left hdhi'.le (Float64.pow2_pos _).le
        _ = _ := hsplit.symm
        _ ≤ _ := hnlo'
    exact le_of_mul_le_mul_right hle hdpos
  unfold Float64.ilog2
  simp only [habs]
  by_cases hk : Float64.pow2 ((Float64.bits q.num.natAbs q.num.natAbs : Int) -
      (Float64.bits q.den q.den : Int)) ≤ q
  · rw [if_pos hk]
    exact ⟨hk, hupper⟩
  · rw [if_neg hk]
    refine ⟨hlower, ?_⟩
    have : (Float64.bits q.num.natAbs q.num.natAbs : Int) - (Float64.bits q.den q.den : Int) - 1 + 1 =
        (Float64.bits q.num.natAbs q.num.natAbs : Int) - (Float64.bits q.den q.den : Int) := by ring
    rw [this]
    exact not_le.mp hk


theorem Float64.floor_le_roundEven (x : ℚ) : ⌊x⌋ ≤ Float64.roundEven x := by
  unfold Float64.roundEven
  simp only
  split_ifs <;> omega

theorem Float64.roundEven_le_floor_succ (x : ℚ) : Float64.roundEven x ≤ ⌊x⌋ + 1 := by
  unfold Float64.roundEven
  simp only
  split_ifs <;> omega

theorem Float64.roundEven_intCast (n : Int) : Float64.roundEven (n : ℚ) = n := by
  unfold Float64.roundEven
  simp

theorem Float64.roundEven_mono {x y : ℚ} (h : x ≤ y) :
    Float64.roundEven x ≤ Float64.roundEven y := by
  have hfloor : ⌊x⌋ ≤ ⌊y⌋ := Int.floor_le_floor h
  rcases lt_or_eq_of_le hfloor with hlt | heq
  · calc Float64.roundEven x ≤ ⌊x⌋ + 1 := Float64.roundEven_le_floor_succ x
      _ ≤ ⌊y⌋ := hlt
      _ ≤ Float64.roundEven y := Float64.floor_le_roundEven y
  · unfold Float64.roundEven
    simp only
    rw [← heq]
    split_ifs <;> first | omega | (exfalso; linarith)

theorem Float64.roundEven_le {x : ℚ} {n : Int} (h : x ≤ (n : ℚ)) : Float64.roundEven x ≤ n := by
  have := Float64.roundEven_mono h
  rwa [Float64.roundEven_intCast] at this

theorem Float64.le_roundEven {x : ℚ} {n : Int} (h : (n : ℚ) ≤ x) : n ≤ Float64.roundEven x := by
  have := Float64.roundEven_mono h
  rwa [Float64.roundEven_intCast] at this


theorem Float64.ilog2_mono {a b : ℚ} (ha : 0 < a) (hab : a ≤ b) :
    Float64.ilog2 a ≤ Float64.ilog2 b := by
  have h1 := (Float64.ilog2_spec ha).1
  have h2 := (Float64.ilog2_spec (lt_of_lt_of_le ha hab)).2
  have h3 : Float64.pow2 (Float64.ilog2 a) < Float64.pow2 (Float64.ilog2 b + 1) :=
    lt_of_le_of_lt (h1.trans hab) h2
  have := Float64.pow2_lt_iff.mp h3
  omega

theorem Float64.exponent_mono {a b : ℚ} (ha : 0 < a) (hab : a ≤ b) :
    Float64.exponent a ≤ Float64.exponent b := by
  unfold Float64.exponent
  have := Float64.ilog2_mono ha hab
  omega

theorem Float64.pow2_53 : Float64.pow2 53 = ((2 ^ 53 : Int) : ℚ) := by
  have := Float64.pow2_natCast 53
  push_cast at this ⊢
  exact this

theorem Float64.pow2_52 : Float64.pow2 52 = ((2 ^ 52 : Int) : ℚ) := by
  have := Float64.pow2_natCast 52
  push_cast at this ⊢
  exact this

/-- The scaled value of a positive number is below `2 ^ 53`. -/
theorem Float64.scaled_lt {q : ℚ} (hq : 0 < q) :
    q / Float64.pow2 (Float64.exponent q) < ((2 ^ 53 : Int) : ℚ) := by
  have h2 := (Float64.ilog2_spec hq).2
  have he : Float64.ilog2 q + 1 ≤ Float64.exponent q + 53 := by
    unfold Float64.exponent
    omega
  have h3 : q < Float64.pow2 (Float64.exponent q + 53) :=
    lt_of_lt_of_le h2 (Float64.pow2_mono he)
  rw [Float64.pow2_add, Float64.pow2_53, mul_comm] at h3
  rw [div_lt_iff₀ (Float64.pow2_pos _)]
  exact h3

/-- The scaled value of a positive number above the subnormal range is at least `2 ^ 52`. -/
theorem Float64.le_scaled {q : ℚ} (hq : 0 < q) (he : -1074 < Float64.exponent q) :
    ((2 ^ 52 : Int) : ℚ) ≤ q / Float64.pow2 (Float64.exponent q) := by
  have h1 := (Float64.ilog2_spec hq).1
  have hl : Float64.ilog2 q = Float64.exponent q + 52 := by
    unfold Float64.exponent at he ⊢
    omega
  rw [hl, Float64.pow2_add, Float64.pow2_52, mul_comm] at h1
  rw [le_div_iff₀ (Float64.pow2_pos _)]
  exact h1

theorem Float64.round_pos_eq {q : ℚ} (hq : q ≠ 0) :
    Float64.round q =
      Float64.roundEven (q / Float64.pow2 (Float64.exponent q)) *
        Float64.pow2 (Float64.exponent q) := by
  unfold Float64.round
  rw [if_neg hq]

theorem Float64.round_zero : Float64.round 0 = 0 := by
  unfold Float64.round
  rw [if_pos rfl]

theorem Float64.round_nonneg {q : ℚ} (hq : 0 ≤ q) : 0 ≤ Float64.round q := by
  rcases eq_or_lt_of_le hq with h0 | hpos
  · rw [← h0, Float64.round_zero]
  · rw [Float64.round_pos_eq hpos.ne.symm]
    have hscaled : ((0 : Int) : ℚ) ≤ q / Float64.pow2 (Float64.exponent q) := by
      rw [Int.cast_zero]
      exact div_nonneg hq (Float64.pow2_pos _).le
    have hM : (0 : Int) ≤ Float64.roundEven (q / Float64.pow2 (Float64.exponent q)) :=
      Float64.le_roundEven hscaled
    exact mul_nonneg (by exact_mod_cast hM) (Float64.pow2_pos _).le

theorem Float64.round_nonpos {q : ℚ} (hq : q ≤ 0) : Float64.round q ≤ 0 := by
  rcases eq_or_lt_of_le hq with h0 | hneg
  · rw [h0, Float64.round_zero]
  · rw [Float64.round_pos_eq hneg.ne]
    have hscaled : q / Float64.pow2 (Float64.exponent q) ≤ ((0 : Int) : ℚ) := by
      rw [Int.cast_zero]
      exact div_nonpos_of_nonpos_of_nonneg hq (Float64.pow2_pos _).le
    have hM : Float64.roundEven (q / Float64.pow2 (Float64.exponent q)) ≤ (0 : Int) :=
      Float64.roundEven_le hscaled
    exact mul_nonpos_of_nonpos_of_nonneg (by exact_mod_cast hM) (Float64.pow2_pos _).le

/-- Rounding to float64 is monotone on the non-negative numbers. -/
theorem Float64.round_mono {a b : ℚ} (ha : 0 ≤ a) (hab : a ≤ b) :
    Float64.round a ≤ Float64.round b := by
  rcases eq_or_lt_of_le ha with h0 | hpos
  · rw [← h0, Float64.round_zero]
    exact Float64.round_nonneg (ha.trans hab)
  · have hbpos : 0 < b := lt_of_lt_of_le hpos hab
    rw [Float64.round_pos_eq hpos.ne.symm, Float64.round_pos_eq hbpos.ne.symm]
    have hexp := Float64.exponent_mono hpos hab
    rcases eq_or_lt_of_le hexp with heq | hlt
    · rw [← heq]
      have hdiv : a / Float64.pow2 (Float64.exponent a) ≤ b / Float64.pow2 (Float64.exponent a) :=
        div_le_div_of_nonneg_right hab (Float64.pow2_pos _).le
      have hM := Float64.roundEven_mono hdiv
      exact mul_le_mul_of_nonneg_right (by exact_mod_cast hM) (Float64.pow2_pos _).le
    · have hlow : -1074 < Float64.exponent b := by
        have : -1074 ≤ Float64.exponent a := by
          unfold Float64.exponent
          omega
        omega
      have hMa : Float64.roundEven (a / Float64.pow2 (Float64.exponent a)) ≤ (2 ^ 53 : Int) :=
        Float64.roundEven_le (Float64.scaled_lt hpos).le
      have hMb : (2 ^ 52 : Int) ≤ Float64.roundEven (b / Float64.pow2 (Float64.exponent b)) :=
        Float64.le_roundEven (Float64.le_scaled hbpos hlow)
      have hstep : Float64.pow2 (Float64.exponent a + 1) ≤ Float64.pow2 (Float64.exponent b) :=
        Float64.pow2_mono (by omega)
      rw [Float64.pow2_add] at hstep
      have hone : Float64.pow2 1 = 2 := by
        have := Float64.pow2_natCast 1
        simpa using this
      rw [hone] at hstep
      have hpa := Float64.pow2_pos (Float64.exponent a)
      have hpb := Float64.pow2_pos (Float64.exponent b)
      have hMa' : (Float64.roundEven (a / Float64.pow2 (Float64.exponent a)) : ℚ) ≤ 2 ^ 53 := by
        exact_mod_cast hMa
      have hMb' : (2 : ℚ) ^ 52 ≤ Float64.roundEven (b / Float64.pow2 (Float64.exponent b)) := by
        exact_mod_cast hMb
      calc (Float64.roundEven (a / Float64.pow2 (Float64.exponent a)) : ℚ) *
            Float64.pow2 (Float64.exponent a)
          ≤ 2 ^ 53 * Float64.pow2 (Float64.exponent a) :=
            mul_le_mul_of_nonneg_right hMa' hpa.le
        _ = 2 ^ 52 * (Float64.pow2 (Float64.exponent a) * 2) := by ring
        _ ≤ 2 ^ 52 * Float64.pow2 (Float64.exponent b) :=
            mul_le_mul_of_nonneg_left hstep (by positivity)
        _ ≤ _ := mul_le_mul_of_nonneg_right hMb' hpb.le


/-- A float64 of magnitude at least `2 ^ (j + 52)` is a whole multiple of `2 ^ j`. -/
theorem Float64.round_grid {q : ℚ} (hq : 0 < q) (j : Int)
    (h : Float64.pow2 (j + 52) ≤ Float64.round q) :
    ∃ K : Int, Float64.round q = (K : ℚ) * Float64.pow2 j := by
  rw [Float64.round_pos_eq hq.ne.symm] at h ⊢
  have hp := Float64.pow2_pos (Float64.exponent q)
  have hM : Float64.roundEven (q / Float64.pow2 (Float64.exponent q)) ≤ (2 ^ 53 : Int) :=
    Float64.roundEven_le (Float64.scaled_lt hq).le
  have hM' : (Float64.roundEven (q / Float64.pow2 (Float64.exponent q)) : ℚ) ≤
      Float64.pow2 53 := by
    rw [Float64.pow2_53]
    exact_mod_cast hM
  have hbound : Float64.pow2 (j + 52) ≤ Float64.pow2 (53 + Float64.exponent q) := by
    rw [Float64.pow2_add 53]
    exact h.trans (mul_le_mul_of_nonneg_right hM' hp.le)
  have hje : j + 52 ≤ 53 + Float64.exponent q := by
    by_contra hcon
    have hlt : 53 + Float64.exponent q < j + 52 := by omega
    exact absurd hbound (not_le.mpr (Float64.pow2_lt_iff.mpr hlt))
  by_cases hcase : j ≤ Float64.exponent q
  · refine ⟨Float64.roundEven (q / Float64.pow2 (Float64.exponent q)) *
      (2 ^ (Float64.exponent q - j).toNat : Nat), ?_⟩
    have hsplit : Float64.pow2 (Float64.exponent q) =
        Float64.pow2 ((Float64.exponent q - j).toNat : Int) * Float64.pow2 j := by
      rw [← Float64.pow2_add]
      congr 1
      rw [Int.toNat_of_nonneg (by omega)]
      ring
    rw [Float64.pow2_natCast] at hsplit
    rw [hsplit]
    push_cast
    ring
  · have he : Float64.exponent q = j - 1 := by omega
    rw [he] at h ⊢
    have hsplit : Float64.pow2 (j + 52) = Float64.pow2 53 * Float64.pow2 (j - 1) := by
      rw [← Float64.pow2_add]
      congr 1
      ring
    rw [hsplit] at h
    have hM2 : Float64.pow2 53 ≤
        (Float64.roundEven (q / Float64.pow2 (j - 1)) : ℚ) :=
      le_of_mul_le_mul_right h (Float64.pow2_pos _)
    rw [he] at hM'
    have hMeq : (Float64.roundEven (q / Float64.pow2 (j - 1)) : ℚ) = Float64.pow2 53 :=
      le_antisymm hM' hM2
    refine ⟨(2 ^ 52 : Int), ?_⟩
    rw [hMeq]
    have hj : Float64.pow2 j = Float64.pow2 1 * Float64.pow2 (j - 1) := by
      rw [← Float64.pow2_add]
      congr 1
      ring
    have hone : Float64.pow2 1 = 2 := by
      have := Float64.pow2_natCast 1
      simpa using this
    rw [hj, hone, Float64.pow2_53]
    push_cast
    ring

/-- Below a float64 `C * 2 ^ j` of magnitude above `2 ^ (j + 52)` the next float64 is
`(C - 1) * 2 ^ j`: a rounded value that is smaller is at most that. -/
theorem Float64.round_le_pred (q : ℚ) (j C : Int)
    (hlt : Float64.round q < (C : ℚ) * Float64.pow2 j)
    (hC : Float64.pow2 (j + 52) ≤ ((C - 1 : Int) : ℚ) * Float64.pow2 j) :
    Float64.round q ≤ ((C - 1 : Int) : ℚ) * Float64.pow2 j := by
  by_cases hsmall : Float64.round q < Float64.pow2 (j + 52)
  · exact hsmall.le.trans hC
  · have hge : Float64.pow2 (j + 52) ≤ Float64.round q := not_lt.mp hsmall
    have hpos : 0 < Float64.round q := lt_of_lt_of_le (Float64.pow2_pos _) hge
    have hq : 0 < q := by
      by_contra hcon
      exact absurd (Float64.round_nonpos (not_lt.mp hcon)) (not_le.mpr hpos)
    obtain ⟨K, hK⟩ := Float64.round_grid hq j hge
    rw [hK] at hlt ⊢
    have hKC : (K : ℚ) < (C : ℚ) := lt_of_mul_lt_mul_right hlt (Float64.pow2_pos _).le
    have hKC' : K ≤ C - 1 := by
      have : K < C := by exact_mod_cast hKC
      omega
    exact mul_le_mul_of_nonneg_right (by exact_mod_cast hKC') (Float64.pow2_pos _).le

theorem Float64.pow2_one : Float64.pow2 1 = 2 := by
  have := Float64.pow2_natCast 1
  simpa using this

/-- The float64 chain `(a / c) * 100` grows with `a`, for a positive divisor. -/
theorem Float64.percent_mono {a b c : ℚ} (ha : 0 ≤ a) (hab : a ≤ b) (hc : 0 < c) :
    Float64.mul (Float64.div a c) 100 ≤ Float64.mul (Float64.div b c) 100 := by
  unfold Float64.mul Float64.div
  have h1 : Float64.round (a / c) ≤ Float64.round (b / c) :=
    Float64.round_mono (div_nonneg ha hc.le) (div_le_div_of_nonneg_right hab hc.le)
  have h0 : 0 ≤ Float64.round (a / c) := Float64.round_nonneg (div_nonneg ha hc.le)
  exact Float64.round_mono (mul_nonneg h0 (by norm_num))
    (mul_le_mul_of_nonneg_right h1 (by norm_num))

/-! ## Order creation: vehicle, efficiency, alert, totals -/

/-- C14: Order.SuggestVehicle returns VAN exactly for a total volume below 10, CAMION_3_5
exactly for a total volume of at least 10 and below 20, and TORTON exactly for a total
volume of at least 20; in particular 9.99 gives VAN, 10 gives CAMION_3_5, 19.99 gives
CAMION_3_5 and 20 gives TORTON, whatever the other fields of the order are. -/
theorem Order.SuggestVehicle_bands (o : Order) :
    (o.SuggestVehicle = VehicleType.VehicleVan ↔ o.TotalVolumeM3 < 10) ∧
    (o.SuggestVehicle = VehicleType.VehicleCamion35 ↔
      10 ≤ o.TotalVolumeM3 ∧ o.TotalVolumeM3 < 20) ∧
    (o.SuggestVehicle = VehicleType.VehicleTorton ↔ 20 ≤ o.TotalVolumeM3) ∧
    ({ o with TotalVolumeM3 := 9.99 } : Order).SuggestVehicle = VehicleType.VehicleVan ∧
    ({ o with TotalVolumeM3 := 10.0 } : Order).SuggestVehicle = VehicleType.VehicleCamion35 ∧
    ({ o with TotalVolumeM3 := 19.99 } : Order).SuggestVehicle = VehicleType.VehicleCamion35 ∧
    ({ o with TotalVolumeM3 := 20.0 } : Order).SuggestVehicle = VehicleType.VehicleTorton := by
  refine ⟨?_, ?_, ?_, ?_, ?_, ?_, ?_⟩
  · unfold Order.SuggestVehicle
    by_cases h1 : o.TotalVolumeM3 < 10
    · simp [h1]
    · by_cases h2 : o.TotalVolumeM3 < 20 <;> simp [h1, h2]
  · unfold Order.SuggestVehicle
    by_cases h1 : o.TotalVolumeM3 < 10
    · have h3 : ¬ 10 ≤ o.TotalVolumeM3 := not_le.mpr h1
      simp [h1, h3]
    · have h3 : 10 ≤ o.TotalVolumeM3 := not_lt.mp h1
      by_cases h2 : o.TotalVolumeM3 < 20 <;> simp [h1, h2, h3]
  · unfold Order.SuggestVehicle
    by_cases h1 : o.TotalVolumeM3 < 10
    · have h3 : ¬ 20 ≤ o.TotalVolumeM3 := by
        intro h
        linarith
      simp [h1, h3]
    · by_cases h2 : o.TotalVolumeM3 < 20
      · have h3 : ¬ 20 ≤ o.TotalVolumeM3 := not_le.mpr h2
        simp [h1, h2, h3]
      · have h3 : 20 ≤ o.TotalVolumeM3 := not_lt.mp h2
        simp [h1, h2, h3]
  · simp only [Order.SuggestVehicle]
    norm_num
  · simp only [Order.SuggestVehicle]
    norm_num
  · simp only [Order.SuggestVehicle]
    norm_num
  · simp only [Order.SuggestVehicle]
    norm_num

/-- CreateBatch stores every line with its product, lot reference, quantity, unit price
and subtotal. -/
theorem OrderLineRepository.CreateBatch_money (now : Int) :
    ∀ (lines : List OrderLine) (s : Store),
      List.Forall₂
        (fun line row =>
          row.ProductID = line.ProductID ∧ row.InventoryID = line.InventoryID ∧
          row.Quantity = line.Quantity ∧ row.UnitPrice = line.UnitPrice ∧
          row.Subtotal = line.Subtotal)
        lines (OrderLineRepository.CreateBatch s now lines).2
  | [], _ => .nil
  | line :: rest, s => by
    simp only [OrderLineRepository.CreateBatch]
    exact .cons ⟨rfl, rfl, rfl, rfl, rfl⟩ (OrderLineRepository.CreateBatch_money now rest _)

theorem OrderLineRepository.CreateBatch_money_with_order (now : Int) (orderID : UUID)
    (lines : List OrderLine) (s : Store) :
    List.Forall₂
      (fun line row =>
        row.ProductID = line.ProductID ∧ row.InventoryID = line.InventoryID ∧
        row.Quantity = line.Quantity ∧ row.UnitPrice = line.UnitPrice ∧
        row.Subtotal = line.Subtotal)
      lines
      (OrderLineRepository.CreateBatch s now
        (lines.map (fun line => { line with OrderID := orderID }))).2 := by
  have hrows := OrderLineRepository.CreateBatch_money now
    (lines.map (fun line => { line with OrderID := orderID })) s
  rw [List.forall₂_map_left_iff] at hrows
  exact hrows

/-- The line loop, read off a successful run: every requested product was found, one line
was appended per requested line with the unit price of its product and the float64 product
`price * quantity` as subtotal, each of the three totals is the float64 sum, accumulated in
line order from the value the loop started on, of the float64 products `weight * quantity`,
`volume * quantity` and `price * quantity`, and the two flags were raised by a fragile
product and by a product heavier than 10 kg. -/
theorem CreateOrderUseCase.processLines_totals (s : Store) :
    ∀ (lines : List OrderLineInput) (acc acc1 : CreateOrderUseCase.Metrics),
      CreateOrderUseCase.processLines s acc lines = .ok acc1 →
      ∃ products created,
        List.Forall₂ (fun li p => ProductRepository.FindByID s li.ProductID = some p)
          lines products ∧
        acc1.orderLines = acc.orderLines ++ created ∧
        List.Forall₂
          (fun lp line =>
            line.ProductID = lp.1.ProductID ∧ line.Quantity = lp.1.Quantity ∧
            line.UnitPrice = lp.2.UnitPrice ∧
            line.Subtotal = Float64.mul lp.2.UnitPrice (Float64.ofInt lp.1.Quantity))
          (lines.zip products) created ∧
        acc1.totalWeightKg =
          (lines.zip products).foldl
            (fun total lp =>
              Float64.add total (Float64.mul lp.2.WeightKg (Float64.ofInt lp.1.Quantity)))
            acc.totalWeightKg ∧
        acc1.totalVolumeM3 =
          (lines.zip products).foldl
            (fun total lp =>
              Float64.add total
                (Float64.mul lp.2.CalculateVolume (Float64.ofInt lp.1.Quantity)))
            acc.totalVolumeM3 ∧
        acc1.totalCost =
          (lines.zip products).foldl
            (fun total lp =>
              Float64.add total (Float64.mul lp.2.UnitPrice (Float64.ofInt lp.1.Quantity)))
            acc.totalCost ∧
        acc1.hasFragile = (acc.hasFragile || products.any (fun p => p.IsFragile)) ∧
        acc1.hasHeavy = (acc.hasHeavy || products.any (fun p => decide (p.WeightKg > 10))) := by
  intro lines
  induction lines with
  | nil =>
    intro acc acc1 h
    simp only [CreateOrderUseCase.processLines, Except.ok.injEq] at h
    subst h
    exact ⟨[], [], .nil, by simp, .nil, rfl, rfl, rfl, by simp, by simp⟩
  | cons li rest ih =>
    intro acc acc1 h
    cases hfind : ProductRepository.FindByID s li.ProductID with
    | none =>
      simp [CreateOrderUseCase.processLines, CreateOrderUseCase.processLine, hfind] at h
    | some product =>
      have hid := ProductRepository.product_found_ID hfind
      simp only [CreateOrderUseCase.processLines, CreateOrderUseCase.processLine, hfind] at h
      obtain ⟨products, created, hfound, hlines, hrows, hw, hv, hc, hf, hh⟩ := ih _ acc1 h
      refine ⟨product :: products,
        { ID := 0
          OrderID := 0
          ProductID := product.ID
          InventoryID := CreateOrderUseCase.reserve li.Quantity
            (InventoryRepository.FindByProductFEFO s product.ID)
          Quantity := li.Quantity
          UnitPrice := product.UnitPrice
          Subtotal := Float64.mul product.UnitPrice (Float64.ofInt li.Quantity)
          CreatedAt := 0 } :: created, .cons hfind hfound, ?_,
        .cons ⟨hid, rfl, rfl, rfl⟩ hrows, ?_, ?_, ?_, ?_, ?_⟩
      · rw [hlines]
        simp
      · rw [hw]
        rfl
      · rw [hv]
        rfl
      · rw [hc]
        rfl
      · rw [hf]
        by_cases hfragile : product.IsFragile = true <;> simp [hfragile]
      · rw [hh]
        by_cases hheavy : product.WeightKg > 10 <;> simp [hheavy]

/-- The total volume the line loop ends on is a float64: it is the value the loop started
on when no line is requested, and the result of a float64 addition otherwise. -/
theorem CreateOrderUseCase.processLines_volume (s : Store) :
    ∀ (lines : List OrderLineInput) (acc acc1 : CreateOrderUseCase.Metrics),
      CreateOrderUseCase.processLines s acc lines = .ok acc1 →
      (∃ q, acc.totalVolumeM3 = Float64.round q) →
      ∃ q, acc1.totalVolumeM3 = Float64.round q := by
  intro lines
  induction lines with
  | nil =>
    intro acc acc1 h hacc
    simp only [CreateOrderUseCase.processLines, Except.ok.injEq] at h
    subst h
    exact hacc
  | cons li rest ih =>
    intro acc acc1 h _
    cases hfind : ProductRepository.FindByID s li.ProductID with
    | none =>
      simp [CreateOrderUseCase.processLines, CreateOrderUseCase.processLine, hfind] at h
    | some product =>
      simp only [CreateOrderUseCase.processLines, CreateOrderUseCase.processLine, hfind] at h
      exact ih _ acc1 h ⟨_, rfl⟩

/-- What a successful CreateOrder returns, in terms of the variables of its line loop. -/
theorem CreateOrderUseCase.Execute_metrics (now : Int) (orderNumber : String) (s : Store)
    (input : CreateOrderInput) (customer : Customer)
    (hCustomer : CustomerRepository.FindByID s input.CustomerID = some customer)
    (hActive : customer.IsActive = true)
    (hProducts : ∀ li ∈ input.Lines,
      (ProductRepository.FindByID s li.ProductID).isSome = true) :
    ∃ out acc,
      (CreateOrderUseCase.Execute now orderNumber s input).2 = .ok out ∧
      CreateOrderUseCase.processLines s {} input.Lines = .ok acc ∧
      out.Order.TotalWeightKg = acc.totalWeightKg ∧
      out.Order.TotalVolumeM3 = acc.totalVolumeM3 ∧
      out.Order.TotalCost = acc.totalCost ∧
      out.Order.HasFragileItems = acc.hasFragile ∧
      out.Order.HasHeavyItems = acc.hasHeavy ∧
      out.SuggestedVehicle = out.Order.SuggestVehicle ∧
      out.Order.SuggestedVehicle = some out.SuggestedVehicle ∧
      out.LoadingAlert = out.Order.GenerateLoadingAlert ∧
      out.Order.LoadingAlert = out.LoadingAlert ∧
      out.LoadingEfficiency =
        CreateOrderUseCase.loadingEfficiency out.Order.TotalVolumeM3
          (CreateOrderUseCase.vehicleCapacity out.SuggestedVehicle) ∧
      List.Forall₂
        (fun line row =>
          row.ProductID = line.ProductID ∧ row.InventoryID = line.InventoryID ∧
          row.Quantity = line.Quantity ∧ row.UnitPrice = line.UnitPrice ∧
          row.Subtotal = line.Subtotal)
        acc.orderLines out.Lines := by
  obtain ⟨acc, created, hrun, _, _⟩ :=
    CreateOrderUseCase.processLines_ok s input.Lines {} hProducts
  simp only [CreateOrderUseCase.Execute, hCustomer, hActive, hrun]
  simp only [Bool.not_true, Bool.false_eq_true, if_false]
  refine ⟨_, acc, rfl, rfl, rfl, rfl, rfl, rfl, rfl, rfl, rfl, rfl, rfl, rfl, ?_⟩
  exact OrderLineRepository.CreateBatch_money_with_order now _ acc.orderLines _

theorem forall₂_map_eq {α β γ : Type} (f : α → γ) (g : β → γ) {l1 : List α} {l2 : List β}
    (h : List.Forall₂ (fun a b => g b = f a) l1 l2) : l2.map g = l1.map f := by
  induction h with
  | nil => rfl
  | @cons a b rest1 rest2 r _ ih => simp [r, ih]

/-! ## Order creation: the loading efficiency in float64 -/

theorem CreateOrderUseCase.loadingEfficiency_eq_min (v c : ℚ) :
    CreateOrderUseCase.loadingEfficiency v c =
      min 100 (Float64.mul (Float64.div v c) 100) := by
  unfold CreateOrderUseCase.loadingEfficiency
  by_cases hgt : Float64.mul (Float64.div v c) 100 > 100
  · simp only [if_pos hgt, min_eq_left (le_of_lt hgt)]
  · simp only [if_neg hgt, min_eq_right (not_lt.mp hgt)]

/-- The shape of the loading efficiency for one capacity `c = 5629499534213120 * 2 ^ j`
(10, 20 and 40 are of this form), given the three values of the float64 chain
`(v / c) * 100` at the largest float64 below `c`, at `c` and at `c / 2`. -/
theorem CreateOrderUseCase.loadingEfficiency_band (q c : ℚ) (j : Int)
    (hc : c = (5629499534213120 : Int) * Float64.pow2 j)
    (hedge : Float64.mul (Float64.div ((5629499534213119 : Int) * Float64.pow2 j) c) 100 < 100)
    (hfull : Float64.mul (Float64.div c c) 100 = 100)
    (hhalf : Float64.mul (Float64.div (c / 2) c) 100 = 50)
    (h0 : 0 ≤ Float64.round q) :
    0 ≤ CreateOrderUseCase.loadingEfficiency (Float64.round q) c ∧
    CreateOrderUseCase.loadingEfficiency (Float64.round q) c ≤ 100 ∧
    (Float64.round q < c →
      CreateOrderUseCase.loadingEfficiency (Float64.round q) c < 100 ∧
      CreateOrderUseCase.loadingEfficiency (Float64.round q) c =
        Float64.mul (Float64.div (Float64.round q) c) 100) ∧
    (c ≤ Float64.round q → CreateOrderUseCase.loadingEfficiency (Float64.round q) c = 100) ∧
    (c / 2 ≤ Float64.round q →
      50 ≤ CreateOrderUseCase.loadingEfficiency (Float64.round q) c) := by
  have hpj := Float64.pow2_pos j
  have hcpos : 0 < c := by
    rw [hc]
    exact mul_pos (by norm_num) hpj
  have hzero : Float64.mul (Float64.div 0 c) 100 = 0 := by
    simp [Float64.mul, Float64.div, Float64.round_zero]
  have hnonneg : 0 ≤ Float64.mul (Float64.div (Float64.round q) c) 100 := by
    have := Float64.percent_mono (le_refl 0) h0 hcpos
    rwa [hzero] at this
  have hmin := CreateOrderUseCase.loadingEfficiency_eq_min (Float64.round q) c
  refine ⟨?_, ?_, ?_, ?_, ?_⟩
  · rw [hmin]
    exact le_min (by norm_num) hnonneg
  · rw [hmin]
    exact min_le_left _ _
  · intro hlt
    have hpred : Float64.round q ≤ ((5629499534213120 - 1 : Int) : ℚ) * Float64.pow2 j := by
      apply Float64.round_le_pred q j 5629499534213120
      · rw [← hc]
        exact hlt
      · rw [Float64.pow2_add, mul_comm, Float64.pow2_52]
        exact mul_le_mul_of_nonneg_right (by norm_num) hpj.le
    have hpred' : Float64.round q ≤ (5629499534213119 : Int) * Float64.pow2 j := by
      simpa using hpred
    have hle := Float64.percent_mono h0 hpred' hcpos
    have hbelow : Float64.mul (Float64.div (Float64.round q) c) 100 < 100 :=
      lt_of_le_of_lt hle hedge
    rw [hmin, min_eq_right hbelow.le]
    exact ⟨hbelow, rfl⟩
  · intro hge
    have hle := Float64.percent_mono hcpos.le hge hcpos
    rw [hfull] at hle
    rw [hmin, min_eq_left hle]
  · intro hge
    have hle := Float64.percent_mono (by positivity) hge hcpos
    rw [hhalf] at hle
    rw [hmin]
    exact le_min (by norm_num) hle

theorem CreateOrderUseCase.loadingEfficiency_van (q : ℚ) (h0 : 0 ≤ Float64.round q) :
    0 ≤ CreateOrderUseCase.loadingEfficiency (Float64.round q) 10 ∧
    CreateOrderUseCase.loadingEfficiency (Float64.round q) 10 ≤ 100 ∧
    (Float64.round q < 10 →
      CreateOrderUseCase.loadingEfficiency (Float64.round q) 10 < 100 ∧
      CreateOrderUseCase.loadingEfficiency (Float64.round q) 10 =
        Float64.mul (Float64.div (Float64.round q) 10) 100) ∧
    (10 ≤ Float64.round q → CreateOrderUseCase.loadingEfficiency (Float64.round q) 10 = 100) ∧
    (10 / 2 ≤ Float64.round q →
      50 ≤ CreateOrderUseCase.loadingEfficiency (Float64.round q) 10) :=
  CreateOrderUseCase.loadingEfficiency_band q 10 (-49) (by decide!) (by decide!) (by decide!)
    (by decide!) h0

theorem CreateOrderUseCase.loadingEfficiency_camion (q : ℚ) (h0 : 0 ≤ Float64.round q) :
    0 ≤ CreateOrderUseCase.loadingEfficiency (Float64.round q) 20 ∧
    CreateOrderUseCase.loadingEfficiency (Float64.round q) 20 ≤ 100 ∧
    (Float64.round q < 20 →
      CreateOrderUseCase.loadingEfficiency (Float64.round q) 20 < 100 ∧
      CreateOrderUseCase.loadingEfficiency (Float64.round q) 20 =
        Float64.mul (Float64.div (Float64.round q) 20) 100) ∧
    (20 ≤ Float64.round q → CreateOrderUseCase.loadingEfficiency (Float64.round q) 20 = 100) ∧
    (20 / 2 ≤ Float64.round q →
      50 ≤ CreateOrderUseCase.loadingEfficiency (Float64.round q) 20) :=
  CreateOrderUseCase.loadingEfficiency_band q 20 (-48) (by decide!) (by decide!) (by decide!)
    (by decide!) h0

theorem CreateOrderUseCase.loadingEfficiency_torton (q : ℚ) (h0 : 0 ≤ Float64.round q) :
    0 ≤ CreateOrderUseCase.loadingEfficiency (Float64.round q) 40 ∧
    CreateOrderUseCase.loadingEfficiency (Float64.round q) 40 ≤ 100 ∧
    (Float64.round q < 40 →
      CreateOrderUseCase.loadingEfficiency (Float64.round q) 40 < 100 ∧
      CreateOrderUseCase.loadingEfficiency (Float64.round q) 40 =
        Float64.mul (Float64.div (Float64.round q) 40) 100) ∧
    (40 ≤ Float64.round q → CreateOrderUseCase.loadingEfficiency (Float64.round q) 40 = 100) ∧
    (40 / 2 ≤ Float64.round q →
      50 ≤ CreateOrderUseCase.loadingEfficiency (Float64.round q) 40) :=
  CreateOrderUseCase.loadingEfficiency_band q 40 (-47) (by decide!) (by decide!) (by decide!)
    (by decide!) h0

/-- The total volume of a successful CreateOrder is a float64 value. -/
theorem CreateOrderUseCase.Execute_volume_float (now : Int) (orderNumber : String) (s : Store)
    (input : CreateOrderInput) (customer : Customer)
    (hCustomer : CustomerRepository.FindByID s input.CustomerID = some customer)
    (hActive : customer.IsActive = true)
    (hProducts : ∀ li ∈ input.Lines,
      (ProductRepository.FindByID s li.ProductID).isSome = true) :
    ∃ out q,
      (CreateOrderUseCase.Execute now orderNumber s input).2 = .ok out ∧
      out.Order.TotalVolumeM3 = Float64.round q ∧
      out.SuggestedVehicle = out.Order.SuggestVehicle ∧
      out.LoadingEfficiency =
        CreateOrderUseCase.loadingEfficiency out.Order.TotalVolumeM3
          (CreateOrderUseCase.vehicleCapacity out.SuggestedVehicle) := by
  obtain ⟨out, acc, hok, hrun, _, hvol, _, _, _, hsuggest, _, _, _, heff, _⟩ :=
    CreateOrderUseCase.Execute_metrics now orderNumber s input customer hCustomer hActive
      hProducts
  obtain ⟨q, hq⟩ := CreateOrderUseCase.processLines_volume s input.Lines {} acc hrun
    ⟨0, Float64.round_zero.symm⟩
  exact ⟨out, q, hok, hvol.trans hq, hsuggest, heff⟩

/-- Within range, the three totals the line loop ends on are finite float64 values when
those it started on are. -/
theorem CreateOrderUseCase.linesInRange_finite (s : Store) :
    ∀ (lines : List OrderLineInput) (acc acc1 : CreateOrderUseCase.Metrics),
      CreateOrderUseCase.linesInRange s acc lines = true →
      CreateOrderUseCase.processLines s acc lines = .ok acc1 →
      (Float64.isFinite acc.totalWeightKg = true ∧ Float64.isFinite acc.totalVolumeM3 = true ∧
        Float64.isFinite acc.totalCost = true) →
      Float64.isFinite acc1.totalWeightKg = true ∧ Float64.isFinite acc1.totalVolumeM3 = true ∧
        Float64.isFinite acc1.totalCost = true := by
  intro lines
  induction lines with
  | nil =>
    intro acc acc1 _ h hacc
    simp only [CreateOrderUseCase.processLines, Except.ok.injEq] at h
    subst h
    exact hacc
  | cons li rest ih =>
    intro acc acc1 hrange h _
    cases hfind : ProductRepository.FindByID s li.ProductID with
    | none =>
      simp [CreateOrderUseCase.processLines, CreateOrderUseCase.processLine, hfind] at h
    | some product =>
      simp only [CreateOrderUseCase.linesInRange, hfind, CreateOrderUseCase.processLine,
        Bool.and_eq_true] at hrange
      simp only [CreateOrderUseCase.processLines, CreateOrderUseCase.processLine, hfind] at h
      obtain ⟨hline, hrest⟩ := hrange
      simp only [CreateOrderUseCase.lineInRange, Bool.and_eq_true] at hline
      exact ih _ acc1 hrest h ⟨hline.1.1.2, hline.1.2, hline.2⟩

/-- The efficiency is a finite float64 value when the product `(v / c) * 100` is. -/
theorem CreateOrderUseCase.loadingEfficiency_finite (v c : ℚ)
    (h : Float64.isFinite (Float64.mul (Float64.div v c) 100) = true) :
    Float64.isFinite (CreateOrderUseCase.loadingEfficiency v c) = true := by
  unfold CreateOrderUseCase.loadingEfficiency
  dsimp only
  split
  · decide!
  · exact h

/-- Within range, the totals and the efficiency of a successful CreateOrder are finite
float64 values. -/
theorem CreateOrderUseCase.Execute_finite (now : Int) (orderNumber : String) (s : Store)
    (input : CreateOrderInput) (out : CreateOrderOutput)
    (hRange : CreateOrderUseCase.inRange s input = true)
    (hok : (CreateOrderUseCase.Execute now orderNumber s input).2 = .ok out) :
    Float64.isFinite out.Order.TotalWeightKg = true ∧
    Float64.isFinite out.Order.TotalVolumeM3 = true ∧
    Float64.isFinite out.Order.TotalCost = true ∧
    Float64.isFinite out.LoadingEfficiency = true := by
  unfold CreateOrderUseCase.inRange at hRange
  rw [Bool.and_eq_true] at hRange
  cases hcust : CustomerRepository.FindByID s input.CustomerID with
  | none => simp [CreateOrderUseCase.Execute, hcust] at hok
  | some customer =>
    cases hactive : customer.IsActive with
    | false => simp [CreateOrderUseCase.Execute, hcust, hactive] at hok
    | true =>
      cases hrun : CreateOrderUseCase.processLines s {} input.Lines with
      | error e => simp [CreateOrderUseCase.Execute, hcust, hactive, hrun] at hok
      | ok acc =>
        have hfin := CreateOrderUseCase.linesInRange_finite s input.Lines {} acc hRange.1 hrun
          ⟨by decide!, by decide!, by decide!⟩
        have heffs := hRange.2
        rw [hrun] at heffs
        simp only [Bool.and_eq_true] at heffs
        simp only [CreateOrderUseCase.Execute, hcust, hactive, hrun, Bool.not_true,
          Bool.false_eq_true, if_false, Except.ok.injEq] at hok
        rw [← hok]
        refine ⟨hfin.1, hfin.2.1, hfin.2.2, ?_⟩
        show Float64.isFinite (CreateOrderUseCase.loadingEfficiency _ _) = true
        dsimp only [Order.SuggestVehicle]
        split
        · exact CreateOrderUseCase.loadingEfficiency_finite _ _ heffs.1.1
        · split
          · exact CreateOrderUseCase.loadingEfficiency_finite _ _ heffs.1.2
          · exact CreateOrderUseCase.loadingEfficiency_finite _ _ heffs.2

/-- C15: when the customer is active, every requested product exists and no float64
operation of the call overflows, CreateOrder succeeds and its LoadingEfficiency is
`min 100 ((totalVolume / capacity) * 100)`, the division and the multiplication being
float64 operations, each rounded to the nearest float64, where the capacity is 10 when the
suggested vehicle is VAN, 20 when it is CAMION_3_5 and 40 when it is TORTON (the suggested
vehicle is always one of the three); so the efficiency is never above 100, and it is
exactly 100 as soon as the total volume reaches the capacity; the total volume and the
efficiency are finite float64 values. -/
theorem CreateOrderUseCase.Execute_efficiency (now : Int) (orderNumber : String) (s : Store)
    (input : CreateOrderInput) (customer : Customer)
    (hCustomer : CustomerRepository.FindByID s input.CustomerID = some customer)
    (hActive : customer.IsActive = true)
    (hProducts : ∀ li ∈ input.Lines,
      (ProductRepository.FindByID s li.ProductID).isSome = true)
    (hRange : CreateOrderUseCase.inRange s input = true) :
    ∃ out capacity,
      (CreateOrderUseCase.Execute now orderNumber s input).2 = .ok out ∧
      out.SuggestedVehicle = out.Order.SuggestVehicle ∧
      ((out.SuggestedVehicle = VehicleType.VehicleVan ∧ capacity = 10) ∨
       (out.SuggestedVehicle = VehicleType.VehicleCamion35 ∧ capacity = 20) ∨
       (out.SuggestedVehicle = VehicleType.VehicleTorton ∧ capacity = 40)) ∧
      out.LoadingEfficiency =
        min 100 (Float64.mul (Float64.div out.Order.TotalVolumeM3 capacity) 100) ∧
      out.LoadingEfficiency ≤ 100 ∧
      (capacity ≤ out.Order.TotalVolumeM3 → out.LoadingEfficiency = 100) ∧
      Float64.isFinite out.Order.TotalVolumeM3 = true ∧
      Float64.isFinite out.LoadingEfficiency = true := by
  obtain ⟨out, q, hok, hq, hsuggest, heff⟩ :=
    CreateOrderUseCase.Execute_volume_float now orderNumber s input customer hCustomer hActive
      hProducts
  obtain ⟨_, hfinV, _, hfinE⟩ :=
    CreateOrderUseCase.Execute_finite now orderNumber s input out hRange hok
  have hcases : (out.SuggestedVehicle = VehicleType.VehicleVan ∧
        CreateOrderUseCase.vehicleCapacity out.SuggestedVehicle = 10) ∨
      (out.SuggestedVehicle = VehicleType.VehicleCamion35 ∧
        CreateOrderUseCase.vehicleCapacity out.SuggestedVehicle = 20) ∨
      (out.SuggestedVehicle = VehicleType.VehicleTorton ∧
        CreateOrderUseCase.vehicleCapacity out.SuggestedVehicle = 40) := by
    rw [hsuggest]
    unfold Order.SuggestVehicle
    by_cases h1 : out.Order.TotalVolumeM3 < 10
    · simp [h1, CreateOrderUseCase.vehicleCapacity]
    · by_cases h2 : out.Order.TotalVolumeM3 < 20 <;>
        simp [h1, h2, CreateOrderUseCase.vehicleCapacity]
  have hmin := CreateOrderUseCase.loadingEfficiency_eq_min out.Order.TotalVolumeM3
    (CreateOrderUseCase.vehicleCapacity out.SuggestedVehicle)
  refine ⟨out, CreateOrderUseCase.vehicleCapacity out.SuggestedVehicle, hok, hsuggest,
    hcases, heff.trans hmin, ?_, ?_, hfinV, hfinE⟩
  · rw [heff, hmin]
    exact min_le_left _ _
  · intro hfull
    rw [heff, hq]
    rw [hq] at hfull
    rcases hcases with ⟨_, hc⟩ | ⟨_, hc⟩ | ⟨_, hc⟩
    · rw [hc] at hfull ⊢
      exact (CreateOrderUseCase.loadingEfficiency_van q
        (le_trans (by norm_num) hfull)).2.2.2.1 hfull
    · rw [hc] at hfull ⊢
      exact (CreateOrderUseCase.loadingEfficiency_camion q
        (le_trans (by norm_num) hfull)).2.2.2.1 hfull
    · rw [hc] at hfull ⊢
      exact (CreateOrderUseCase.loadingEfficiency_torton q
        (le_trans (by norm_num) hfull)).2.2.2.1 hfull

/-- C15 at a concrete store: 10 units of a product of 8 cubic metres make 80 cubic metres,
twice the 40 of the suggested TORTON, and the efficiency returned is exactly 100; no
float64 operation of the call overflows. -/
theorem CreateOrderUseCase.Execute_efficiency_witness :
    (∃ out capacity,
      (CreateOrderUseCase.Execute 9 "ORD-20240101-9" bulkStore bulkInput).2 = .ok out ∧
      out.SuggestedVehicle = out.Order.SuggestVehicle ∧
      ((out.SuggestedVehicle = VehicleType.VehicleVan ∧ capacity = 10) ∨
       (out.SuggestedVehicle = VehicleType.VehicleCamion35 ∧ capacity = 20) ∨
       (out.SuggestedVehicle = VehicleType.VehicleTorton ∧ capacity = 40)) ∧
      out.LoadingEfficiency =
        min 100 (Float64.mul (Float64.div out.Order.TotalVolumeM3 capacity) 100) ∧
      out.LoadingEfficiency ≤ 100 ∧
      (capacity ≤ out.Order.TotalVolumeM3 → out.LoadingEfficiency = 100) ∧
      Float64.isFinite out.Order.TotalVolumeM3 = true ∧
      Float64.isFinite out.LoadingEfficiency = true) ∧
    CreateOrderUseCase.inRange bulkStore bulkInput = true ∧
    (CreateOrderUseCase.output
      (CreateOrderUseCase.Execute 9 "ORD-20240101-9" bulkStore bulkInput)).map
        (fun out => (out.Order.TotalVolumeM3, out.SuggestedVehicle, out.LoadingEfficiency)) =
      some (80, VehicleType.VehicleTorton, 100) :=
  ⟨CreateOrderUseCase.Execute_efficiency 9 "ORD-20240101-9" bulkStore bulkInput
    { ID := 1, Name := "cliente", CreditLimit := 0, IsActive := true }
    (by decide) (by decide) (by decide) (by decide!), by decide!, by decide!⟩

/-- C15 (counterexamples).  For 3 units of a product of 10 x 10 x 10 cm the total volume is
the float64 0.003, the VAN is suggested, and the efficiency returned is the float64
0.030000000000000002; the number `min(100, totalVolume / 10 * 100)` is another one: it is
not a float64, and the float64 nearest to it is 0.03.  For 14 units of 0.7 cubic metres
and 1 unit of 0.2 cubic metres the total volume is the float64 9.999999999999998, the VAN
is suggested, and the efficiency returned is the float64 99.99999999999997, again not
`min(100, totalVolume / 10 * 100)`.  No float64 operation of either call overflows. -/
theorem CreateOrderUseCase.Execute_efficiency_inexact :
    (CreateOrderUseCase.output
      (CreateOrderUseCase.Execute 9 "ORD-20240101-9" bulkStore smallInput)).map
        (fun out => (out.Order.TotalVolumeM3, out.SuggestedVehicle, out.LoadingEfficiency)) =
      some (3458764513820541 / 1152921504606846976, VehicleType.VehicleVan,
        8646911284551353 / 288230376151711744) ∧
    (8646911284551353 / 288230376151711744 : ℚ) ≠
      min 100 (3458764513820541 / 1152921504606846976 / 10 * 100) ∧
    Float64.round (min 100 (3458764513820541 / 1152921504606846976 / 10 * 100)) =
      1080863910568919 / 36028797018963968 ∧
    Float64.round (3 / 1000) = 3458764513820541 / 1152921504606846976 ∧
    Float64.round (3 / 100) = 1080863910568919 / 36028797018963968 ∧
    (CreateOrderUseCase.output
      (CreateOrderUseCase.Execute 9 "ORD-20240101-9" boxStore boxInput)).map
        (fun out => (out.Order.TotalVolumeM3, out.SuggestedVehicle, out.LoadingEfficiency)) =
      some (5629499534213119 / 562949953421312, VehicleType.VehicleVan,
        3518437208883199 / 35184372088832) ∧
    (3518437208883199 / 35184372088832 : ℚ) ≠
      min 100 (5629499534213119 / 562949953421312 / 10 * 100) ∧
    CreateOrderUseCase.inRange bulkStore smallInput = true ∧
    CreateOrderUseCase.inRange boxStore boxInput = true := by
  refine ⟨by decide!, by norm_num, by decide!, by decide!, by decide!, by decide!,
    by norm_num, by decide!, by decide!⟩

/-- C16: when the customer is active and every requested product exists, CreateOrder
succeeds and its loading alert is the stow warning if and only if some requested product is
fragile and some requested product weighs more than 10 kg, the fragile caution if and only
if some requested product is fragile and none weighs more than 10 kg, and empty if and only
if no requested product is fragile. -/
theorem CreateOrderUseCase.Execute_loading_alert (now : Int) (orderNumber : String)
    (s : Store) (input : CreateOrderInput) (customer : Customer)
    (hCustomer : CustomerRepository.FindByID s input.CustomerID = some customer)
    (hActive : customer.IsActive = true)
    (hProducts : ∀ li ∈ input.Lines,
      (ProductRepository.FindByID s li.ProductID).isSome = true) :
    ∃ out products,
      (CreateOrderUseCase.Execute now orderNumber s input).2 = .ok out ∧
      List.Forall₂ (fun li p => ProductRepository.FindByID s li.ProductID = some p)
        input.Lines products ∧
      out.Order.LoadingAlert = out.LoadingAlert ∧
      (out.LoadingAlert =
          "ADVERTENCIA: Cuidado al estibar. Evitar colocar productos pesados sobre frágiles." ↔
        (∃ p ∈ products, p.IsFragile = true) ∧ (∃ p ∈ products, 10 < p.WeightKg)) ∧
      (out.LoadingAlert =
          "PRECAUCIÓN: El pedido contiene productos frágiles. Manejar con cuidado." ↔
        (∃ p ∈ products, p.IsFragile = true) ∧ ¬ ∃ p ∈ products, 10 < p.WeightKg) ∧
      (out.LoadingAlert = "" ↔ ¬ ∃ p ∈ products, p.IsFragile = true) := by
  obtain ⟨out, acc, hok, hrun, _, _, _, hfragile, hheavy, _, _, halert, hstored, _, _⟩ :=
    CreateOrderUseCase.Execute_metrics now orderNumber s input customer hCustomer hActive
      hProducts
  obtain ⟨products, _, hfound, _, _, _, _, _, hf, hh⟩ :=
    CreateOrderUseCase.processLines_totals s input.Lines {} acc hrun
  have hf1 : out.Order.HasFragileItems = true ↔ ∃ p ∈ products, p.IsFragile = true := by
    rw [hfragile, hf]
    simp
  have hh1 : out.Order.HasHeavyItems = true ↔ ∃ p ∈ products, 10 < p.WeightKg := by
    rw [hheavy, hh]
    simp
  have hne1 : "ADVERTENCIA: Cuidado al estibar. Evitar colocar productos pesados sobre frágiles." ≠
      "PRECAUCIÓN: El pedido contiene productos frágiles. Manejar con cuidado." := by decide
  have hne2 : "ADVERTENCIA: Cuidado al estibar. Evitar colocar productos pesados sobre frágiles." ≠
      "" := by decide
  have hne3 : "PRECAUCIÓN: El pedido contiene productos frágiles. Manejar con cuidado." ≠
      "" := by decide
  refine ⟨out, products, hok, hfound, hstored, ?_, ?_, ?_⟩
  · rw [halert, ← hf1, ← hh1]
    unfold Order.GenerateLoadingAlert
    cases out.Order.HasFragileItems <;> cases out.Order.HasHeavyItems <;>
      simp [hne1.symm, hne2.symm]
  · rw [halert, ← hf1, ← hh1]
    unfold Order.GenerateLoadingAlert
    cases out.Order.HasFragileItems <;> cases out.Order.HasHeavyItems <;>
      simp [hne1, hne3.symm]
  · rw [halert, ← hf1]
    unfold Order.GenerateLoadingAlert
    cases out.Order.HasFragileItems <;> cases out.Order.HasHeavyItems <;>
      simp [hne2, hne3]

/-- C16 at concrete stores: a sturdy light product with a fragile product of 12 kg gives
the stow warning; a fragile product of exactly 10 kg alone gives the fragile caution. -/
theorem CreateOrderUseCase.Execute_loading_alert_witness :
    (∃ out products,
      (CreateOrderUseCase.Execute 9 "ORD-20240101-9" bulkStore heavyFragileInput).2 = .ok out ∧
      List.Forall₂ (fun li p => ProductRepository.FindByID bulkStore li.ProductID = some p)
        heavyFragileInput.Lines products ∧
      out.Order.LoadingAlert = out.LoadingAlert ∧
      (out.LoadingAlert =
          "ADVERTENCIA: Cuidado al estibar. Evitar colocar productos pesados sobre frágiles." ↔
        (∃ p ∈ products, p.IsFragile = true) ∧ (∃ p ∈ products, 10 < p.WeightKg)) ∧
      (out.LoadingAlert =
          "PRECAUCIÓN: El pedido contiene productos frágiles. Manejar con cuidado." ↔
        (∃ p ∈ products, p.IsFragile = true) ∧ ¬ ∃ p ∈ products, 10 < p.WeightKg) ∧
      (out.LoadingAlert = "" ↔ ¬ ∃ p ∈ products, p.IsFragile = true)) ∧
    (CreateOrderUseCase.output
      (CreateOrderUseCase.Execute 9 "ORD-20240101-9" bulkStore heavyFragileInput)).map
        (·.LoadingAlert) =
      some "ADVERTENCIA: Cuidado al estibar. Evitar colocar productos pesados sobre frágiles." ∧
    (CreateOrderUseCase.output
      (CreateOrderUseCase.Execute 9 "ORD-20240101-9" bulkStore bulkInput)).map
        (·.LoadingAlert) =
      some "PRECAUCIÓN: El pedido contiene productos frágiles. Manejar con cuidado." :=
  ⟨CreateOrderUseCase.Execute_loading_alert 9 "ORD-20240101-9" bulkStore heavyFragileInput
    { ID := 1, Name := "cliente", CreditLimit := 0, IsActive := true }
    (by decide) (by decide) (by decide), by decide!, by decide!⟩

/-- C17: when the customer is active, every requested product exists and no float64
operation of the call overflows, CreateOrder succeeds and its three totals are finite
float64 values; with `products` the products of the requested lines, in order, the order
carries
as TotalWeightKg the float64 sum, accumulated from 0 in line order, of the float64 products
weight * quantity, as TotalVolumeM3 the float64 sum of the float64 products
(length * width * height / 1000000) * quantity, the volume being computed in float64 as
well, and as TotalCost the float64 sum of the float64 products unit price * quantity; the
created lines are as many as the requested lines, in the same order, each with the product
and quantity of its request, the unit price of its product and as Subtotal the float64
product unit price * quantity; so TotalCost is the float64 sum, in line order, of the
subtotals of the created lines. -/
theorem CreateOrderUseCase.Execute_totals (now : Int) (orderNumber : String) (s : Store)
    (input : CreateOrderInput) (customer : Customer)
    (hCustomer : CustomerRepository.FindByID s input.CustomerID = some customer)
    (hActive : customer.IsActive = true)
    (hProducts : ∀ li ∈ input.Lines,
      (ProductRepository.FindByID s li.ProductID).isSome = true)
    (hRange : CreateOrderUseCase.inRange s input = true) :
    ∃ out products,
      (CreateOrderUseCase.Execute now orderNumber s input).2 = .ok out ∧
      List.Forall₂ (fun li p => ProductRepository.FindByID s li.ProductID = some p)
        input.Lines products ∧
      out.Order.TotalWeightKg =
        (input.Lines.zip products).foldl
          (fun total lp =>
            Float64.add total (Float64.mul lp.2.WeightKg (Float64.ofInt lp.1.Quantity))) 0 ∧
      out.Order.TotalVolumeM3 =
        (input.Lines.zip products).foldl
          (fun total lp =>
            Float64.add total
              (Float64.mul
                (Float64.div
                  (Float64.mul (Float64.mul lp.2.LengthCm lp.2.WidthCm) lp.2.HeightCm)
                  1000000)
                (Float64.ofInt lp.1.Quantity))) 0 ∧
      out.Order.TotalCost =
        (input.Lines.zip products).foldl
          (fun total lp =>
            Float64.add total (Float64.mul lp.2.UnitPrice (Float64.ofInt lp.1.Quantity))) 0 ∧
      List.Forall₂
        (fun lp line =>
          line.ProductID = lp.1.ProductID ∧ line.Quantity = lp.1.Quantity ∧
          line.UnitPrice = lp.2.UnitPrice ∧
          line.Subtotal = Float64.mul lp.2.UnitPrice (Float64.ofInt lp.1.Quantity))
        (input.Lines.zip products) out.Lines ∧
      out.Order.TotalCost = (out.Lines.map (·.Subtotal)).foldl Float64.add 0 ∧
      out.Lines.length = input.Lines.length ∧
      List.Forall₂ (fun li line => line.ProductID = li.ProductID ∧ line.Quantity = li.Quantity)
        input.Lines out.Lines ∧
      Float64.isFinite out.Order.TotalWeightKg = true ∧
      Float64.isFinite out.Order.TotalVolumeM3 = true ∧
      Float64.isFinite out.Order.TotalCost = true := by
  obtain ⟨out, acc, hok, hrun, hweight, hvolume, hcost, _, _, _, _, _, _, _, hrows⟩ :=
    CreateOrderUseCase.Execute_metrics now orderNumber s input customer hCustomer hActive
      hProducts
  obtain ⟨hfinW, hfinV, hfinC, _⟩ :=
    CreateOrderUseCase.Execute_finite now orderNumber s input out hRange hok
  obtain ⟨products, created, hfound, hlines, hcreated, hw, hv, hc, _, _⟩ :=
    CreateOrderUseCase.processLines_totals s input.Lines {} acc hrun
  have hacc : acc.orderLines = created := by simpa using hlines
  rw [hacc] at hrows
  have hzip : List.Forall₂
      (fun lp line =>
        line.ProductID = lp.1.ProductID ∧ line.Quantity = lp.1.Quantity ∧
        line.UnitPrice = lp.2.UnitPrice ∧
        line.Subtotal = Float64.mul lp.2.UnitPrice (Float64.ofInt lp.1.Quantity))
      (input.Lines.zip products) out.Lines := by
    refine forall₂_chain ?_ hcreated hrows
    intro lp line row h1 h2
    exact ⟨h2.1.trans h1.1, h2.2.2.1.trans h1.2.1, h2.2.2.2.1.trans h1.2.2.1,
      h2.2.2.2.2.trans h1.2.2.2⟩
  have hsub : out.Lines.map (·.Subtotal) =
      (input.Lines.zip products).map
        (fun lp => Float64.mul lp.2.UnitPrice (Float64.ofInt lp.1.Quantity)) :=
    forall₂_map_eq _ _ (hzip.imp (fun _ _ h => h.2.2.2))
  obtain ⟨out2, hok2, _, _, _, hsame⟩ :=
    CreateOrderUseCase.Execute_lines now orderNumber s input customer hCustomer hActive
      hProducts
  have hout : out2 = out := by
    rw [hok] at hok2
    exact (Except.ok.inj hok2).symm
  rw [hout] at hsame
  have hcsum : out.Order.TotalCost =
      (input.Lines.zip products).foldl
        (fun total lp =>
          Float64.add total (Float64.mul lp.2.UnitPrice (Float64.ofInt lp.1.Quantity))) 0 :=
    hcost.trans hc
  refine ⟨out, products, hok, hfound, hweight.trans hw, hvolume.trans hv, hcsum, hzip,
    ?_, ?_, ?_, hfinW, hfinV, hfinC⟩
  · rw [hsub, List.foldl_map]
    exact hcsum
  · exact (List.Forall₂.length_eq hsame).symm
  · exact hsame.imp (fun _ _ h => ⟨h.2.1, h.2.2.1⟩)

/-- C17 at a concrete store: 3 units of product 7 (2 kg, 10 x 10 x 10 cm, price 5) and
2 units of product 8 (12 kg, 10 x 10 x 10 cm, price 5) weigh 30 kg and cost 25, with
subtotals 15 and 10, all of them exact; the total volume is the float64 0.005; no float64
operation of the call overflows. -/
theorem CreateOrderUseCase.Execute_totals_witness :
    (∃ out products,
      (CreateOrderUseCase.Execute 9 "ORD-20240101-9" bulkStore heavyFragileInput).2 = .ok out ∧
      List.Forall₂ (fun li p => ProductRepository.FindByID bulkStore li.ProductID = some p)
        heavyFragileInput.Lines products ∧
      out.Order.TotalWeightKg =
        (heavyFragileInput.Lines.zip products).foldl
          (fun total lp =>
            Float64.add total (Float64.mul lp.2.WeightKg (Float64.ofInt lp.1.Quantity))) 0 ∧
      out.Order.TotalVolumeM3 =
        (heavyFragileInput.Lines.zip products).foldl
          (fun total lp =>
            Float64.add total
              (Float64.mul
                (Float64.div
                  (Float64.mul (Float64.mul lp.2.LengthCm lp.2.WidthCm) lp.2.HeightCm)
                  1000000)
                (Float64.ofInt lp.1.Quantity))) 0 ∧
      out.Order.TotalCost =
        (heavyFragileInput.Lines.zip products).foldl
          (fun total lp =>
            Float64.add total (Float64.mul lp.2.UnitPrice (Float64.ofInt lp.1.Quantity))) 0 ∧
      List.Forall₂
        (fun lp line =>
          line.ProductID = lp.1.ProductID ∧ line.Quantity = lp.1.Quantity ∧
          line.UnitPrice = lp.2.UnitPrice ∧
          line.Subtotal = Float64.mul lp.2.UnitPrice (Float64.ofInt lp.1.Quantity))
        (heavyFragileInput.Lines.zip products) out.Lines ∧
      out.Order.TotalCost = (out.Lines.map (·.Subtotal)).foldl Float64.add 0 ∧
      out.Lines.length = heavyFragileInput.Lines.length ∧
      List.Forall₂ (fun li line => line.ProductID = li.ProductID ∧ line.Quantity = li.Quantity)
        heavyFragileInput.Lines out.Lines ∧
      Float64.isFinite out.Order.TotalWeightKg = true ∧
      Float64.isFinite out.Order.TotalVolumeM3 = true ∧
      Float64.isFinite out.Order.TotalCost = true) ∧
    CreateOrderUseCase.inRange bulkStore heavyFragileInput = true ∧
    (CreateOrderUseCase.output
      (CreateOrderUseCase.Execute 9 "ORD-20240101-9" bulkStore heavyFragileInput)).map
        (fun out => (out.Order.TotalWeightKg, out.Order.TotalVolumeM3, out.Order.TotalCost)) =
      some (30, Float64.round (5 / 1000), 25) ∧
    (CreateOrderUseCase.createdLines
      (CreateOrderUseCase.Execute 9 "ORD-20240101-9" bulkStore heavyFragileInput)).map
        (fun line => (line.ProductID, line.Subtotal)) = [(7, 15), (8, 10)] :=
  ⟨CreateOrderUseCase.Execute_totals 9 "ORD-20240101-9" bulkStore heavyFragileInput
    { ID := 1, Name := "cliente", CreditLimit := 0, IsActive := true }
    (by decide) (by decide) (by decide) (by decide!), by decide!, by decide!, by decide!⟩

/-- C17 (counterexamples).  One unit of a product that weighs and costs the float64 0.1
and one unit of a product that weighs and costs the float64 0.2: the subtotals are these
two prices, and the order carries the float64 0.30000000000000004 as TotalWeightKg and as
TotalCost; that is neither the sum of weight * quantity, nor the sum of unit price *
quantity, nor the sum of the two subtotals, which is a number between the float64 0.3 and
the float64 0.30000000000000004 that is not a float64.  Fourteen units of 70 x 100 x 100 cm
and one unit of 20 x 100 x 100 cm: the sum of (length * width * height / 1000000) *
quantity is 10, the order carries the float64 9.999999999999998 as TotalVolumeM3, and the
VAN is suggested where a total volume of 10 gives the CAMION_3_5.  No float64 operation of
either call overflows. -/
theorem CreateOrderUseCase.Execute_totals_inexact :
    decimalStore.products.map (fun p => (p.ID, p.WeightKg, p.UnitPrice)) =
      [(7, 3602879701896397 / 36028797018963968, 3602879701896397 / 36028797018963968),
       (8, 3602879701896397 / 18014398509481984, 3602879701896397 / 18014398509481984)] ∧
    (CreateOrderUseCase.output
      (CreateOrderUseCase.Execute 9 "ORD-20240101-9" decimalStore decimalInput)).map
        (fun out => (out.Order.TotalWeightKg, out.Order.TotalCost,
          out.Lines.map (fun line => (line.Quantity, line.Subtotal)))) =
      some (1351079888211149 / 4503599627370496, 1351079888211149 / 4503599627370496,
        [(1, 3602879701896397 / 36028797018963968),
         (1, 3602879701896397 / 18014398509481984)]) ∧
    (1351079888211149 / 4503599627370496 : ℚ) ≠
      3602879701896397 / 36028797018963968 * 1 + 3602879701896397 / 18014398509481984 * 1 ∧
    (1351079888211149 / 4503599627370496 : ℚ) ≠
      ([3602879701896397 / 36028797018963968, 3602879701896397 / 18014398509481984] :
        List ℚ).sum ∧
    Float64.round (3 / 10) = 5404319552844595 / 18014398509481984 ∧
    (5404319552844595 / 18014398509481984 : ℚ) <
      3602879701896397 / 36028797018963968 + 3602879701896397 / 18014398509481984 ∧
    (3602879701896397 / 36028797018963968 + 3602879701896397 / 18014398509481984 : ℚ) <
      1351079888211149 / 4503599627370496 ∧
    boxStore.products.map (fun p => (p.ID, p.LengthCm, p.WidthCm, p.HeightCm)) =
      [(7, 70, 100, 100), (8, 20, 100, 100)] ∧
    (CreateOrderUseCase.output
      (CreateOrderUseCase.Execute 9 "ORD-20240101-9" boxStore boxInput)).map
        (fun out => (out.Order.TotalVolumeM3, out.SuggestedVehicle,
          out.Lines.map (fun line => (line.ProductID, line.Quantity)))) =
      some (5629499534213119 / 562949953421312, VehicleType.VehicleVan, [(7, 14), (8, 1)]) ∧
    (70 * 100 * 100 / 1000000 * 14 + 20 * 100 * 100 / 1000000 * 1 : ℚ) = 10 ∧
    (5629499534213119 / 562949953421312 : ℚ) < 10 ∧
    ({ placedOrderRow 0 none with TotalVolumeM3 := 10 } : Order).SuggestVehicle =
      VehicleType.VehicleCamion35 ∧
    CreateOrderUseCase.inRange decimalStore decimalInput = true ∧
    CreateOrderUseCase.inRange boxStore boxInput = true := by
  refine ⟨by decide!, by decide!, by norm_num, by norm_num, by decide!, by norm_num,
    by norm_num, by decide!, by decide!, by norm_num, by norm_num, by decide!, by decide!,
    by decide!⟩

/-! ## Route assignment: choice of the vehicle -/

theorem VehicleRepository.mem_ListAvailable {typeOrder : VehicleType → Nat} {s : Store}
    {v : Vehicle} :
    v ∈ VehicleRepository.ListAvailable typeOrder s ↔
      v ∈ s.vehicles ∧ v.IsAvailableForRoute = true := by
  unfold VehicleRepository.ListAvailable Vehicle.IsAvailableForRoute
  rw [(List.perm_insertionSort _ _).mem_iff, List.mem_filter]

theorem VehicleRepository.ListAvailable_nil (typeOrder : VehicleType → Nat) (s : Store)
    (hzero : ∀ v ∈ s.vehicles, v.IsAvailableForRoute = false) :
    VehicleRepository.ListAvailable typeOrder s = [] := by
  apply List.eq_nil_iff_forall_not_mem.mpr
  intro v hv
  rw [VehicleRepository.mem_ListAvailable] at hv
  rw [hzero v hv.1] at hv
  exact Bool.noConfusion hv.2

theorem VehicleRepository.vehicle_found_ID {s : Store} {id : UUID} {vehicle : Vehicle}
    (h : VehicleRepository.FindByID s id = some vehicle) : vehicle.ID = id := by
  have := List.find?_some h
  simpa using this

theorem VehicleRepository.vehicle_found_mem {s : Store} {id : UUID} {vehicle : Vehicle}
    (h : VehicleRepository.FindByID s id = some vehicle) : vehicle ∈ s.vehicles :=
  List.mem_of_find?_eq_some h

theorem AssignRouteUseCase.matchVehicle_some {suggested : Option VehicleType}
    {vehicles : List Vehicle} {selected : Vehicle}
    (h : AssignRouteUseCase.matchVehicle suggested vehicles = some selected) :
    ∃ vehicleType before after, suggested = some vehicleType ∧
      vehicles = before ++ selected :: after ∧ selected.VehicleType = vehicleType ∧
      ∀ v ∈ before, v.VehicleType ≠ vehicleType := by
  induction vehicles with
  | nil => simp [AssignRouteUseCase.matchVehicle] at h
  | cons v rest ih =>
    cases suggested with
    | none =>
      simp only [AssignRouteUseCase.matchVehicle] at h
      obtain ⟨vehicleType, _, _, hnone, _⟩ := ih h
      cases hnone
    | some vehicleType =>
      simp only [AssignRouteUseCase.matchVehicle] at h
      by_cases hv : v.VehicleType = vehicleType
      · rw [if_pos hv] at h
        cases h
        exact ⟨vehicleType, [], rest, rfl, rfl, hv, by simp⟩
      · rw [if_neg hv] at h
        obtain ⟨vehicleType2, before, after, hsome, hsplit, htype, hbefore⟩ := ih h
        cases hsome
        refine ⟨vehicleType, v :: before, after, rfl, by rw [hsplit]; rfl, htype, ?_⟩
        intro w hw
        rcases List.mem_cons.mp hw with hw | hw
        · rw [hw]; exact hv
        · exact hbefore w hw

theorem AssignRouteUseCase.matchVehicle_none {suggested : Option VehicleType}
    {vehicles : List Vehicle}
    (h : AssignRouteUseCase.matchVehicle suggested vehicles = none) :
    ∀ vehicleType, suggested = some vehicleType →
      ∀ v ∈ vehicles, v.VehicleType ≠ vehicleType := by
  induction vehicles with
  | nil => intro _ _ v hv; cases hv
  | cons v rest ih =>
    intro vehicleType hsome w hw
    subst hsome
    simp only [AssignRouteUseCase.matchVehicle] at h
    by_cases hv : v.VehicleType = vehicleType
    · rw [if_pos hv] at h
      cases h
    · rw [if_neg hv] at h
      rcases List.mem_cons.mp hw with hw | hw
      · rw [hw]; exact hv
      · exact ih h vehicleType rfl w hw

theorem AssignRouteUseCase.selectVehicle_nil (order : Order) :
    AssignRouteUseCase.selectVehicle order [] = none := rfl

theorem AssignRouteUseCase.selectVehicle_cons (order : Order) (first : Vehicle)
    (rest : List Vehicle) :
    ∃ selected, AssignRouteUseCase.selectVehicle order (first :: rest) = some selected ∧
      ((∃ vehicleType before after, order.SuggestedVehicle = some vehicleType ∧
          first :: rest = before ++ selected :: after ∧
          selected.VehicleType = vehicleType ∧
          ∀ v ∈ before, v.VehicleType ≠ vehicleType) ∨
        (selected = first ∧ ∀ vehicleType, order.SuggestedVehicle = some vehicleType →
          ∀ v ∈ first :: rest, v.VehicleType ≠ vehicleType)) := by
  cases hmatch : AssignRouteUseCase.matchVehicle order.SuggestedVehicle (first :: rest) with
  | some selected =>
    refine ⟨selected, by simp only [AssignRouteUseCase.selectVehicle, hmatch], Or.inl ?_⟩
    exact AssignRouteUseCase.matchVehicle_some hmatch
  | none =>
    refine ⟨first, by simp only [AssignRouteUseCase.selectVehicle, hmatch, List.head?_cons],
      Or.inr ⟨rfl, ?_⟩⟩
    exact AssignRouteUseCase.matchVehicle_none hmatch

/-! ## Route assignment: the branches of Execute -/

theorem AssignRouteUseCase.Execute_order_missing (typeOrder : VehicleType → Nat) (now : Int)
    (routeNumber : String) (s : Store) (input : AssignRouteInput)
    (horder : OrderRepository.FindByID s input.OrderID = none) :
    AssignRouteUseCase.Execute typeOrder now routeNumber s input =
      (s, .error "pedido no encontrado") := by
  simp only [AssignRouteUseCase.Execute, horder]

theorem AssignRouteUseCase.Execute_vehicle_error (typeOrder : VehicleType → Nat) (now : Int)
    (routeNumber : String) (s : Store) (input : AssignRouteInput) (order : Order)
    (e : String)
    (horder : OrderRepository.FindByID s input.OrderID = some order)
    (hvehicle : AssignRouteUseCase.chooseVehicle typeOrder s order input = .error e) :
    AssignRouteUseCase.Execute typeOrder now routeNumber s input = (s, .error e) := by
  simp only [AssignRouteUseCase.Execute, horder, hvehicle]

theorem AssignRouteUseCase.Execute_driver_error (typeOrder : VehicleType → Nat) (now : Int)
    (routeNumber : String) (s : Store) (input : AssignRouteInput) (order : Order)
    (vehicle : Vehicle) (autoVehicle : Bool) (e : String)
    (horder : OrderRepository.FindByID s input.OrderID = some order)
    (hvehicle : AssignRouteUseCase.chooseVehicle typeOrder s order input =
      .ok (vehicle, autoVehicle))
    (hdriver : AssignRouteUseCase.chooseDriver now s input = .error e) :
    AssignRouteUseCase.Execute typeOrder now routeNumber s input = (s, .error e) := by
  simp only [AssignRouteUseCase.Execute, horder, hvehicle, hdriver]

theorem AssignRouteUseCase.Execute_committed (typeOrder : VehicleType → Nat) (now : Int)
    (routeNumber : String) (s : Store) (input : AssignRouteInput) (order : Order)
    (vehicle : Vehicle) (autoVehicle : Bool) (driver : Driver) (autoDriver : Bool)
    (horder : OrderRepository.FindByID s input.OrderID = some order)
    (hvehicle : AssignRouteUseCase.chooseVehicle typeOrder s order input =
      .ok (vehicle, autoVehicle))
    (hdriver : AssignRouteUseCase.chooseDriver now s input = .ok (driver, autoDriver)) :
    AssignRouteUseCase.Execute typeOrder now routeNumber s input =
      ((AssignRouteUseCase.commit now routeNumber s input order vehicle driver
          (autoVehicle || autoDriver)).1,
        .ok (AssignRouteUseCase.commit now routeNumber s input order vehicle driver
          (autoVehicle || autoDriver)).2) := by
  simp only [AssignRouteUseCase.Execute, horder, hvehicle, hdriver]

/-- Every failure of AssignRoute leaves the store as it was. -/
theorem AssignRouteUseCase.Execute_error_keeps_store (typeOrder : VehicleType → Nat)
    (now : Int) (routeNumber : String) (s : Store) (input : AssignRouteInput) (e : String)
    (h : (AssignRouteUseCase.Execute typeOrder now routeNumber s input).2 = .error e) :
    AssignRouteUseCase.Execute typeOrder now routeNumber s input = (s, .error e) := by
  cases horder : OrderRepository.FindByID s input.OrderID with
  | none =>
    rw [AssignRouteUseCase.Execute_order_missing typeOrder now routeNumber s input horder]
      at h ⊢
    cases h
    rfl
  | some order =>
    cases hvehicle : AssignRouteUseCase.chooseVehicle typeOrder s order input with
    | error e1 =>
      rw [AssignRouteUseCase.Execute_vehicle_error typeOrder now routeNumber s input order e1
        horder hvehicle] at h ⊢
      cases h
      rfl
    | ok chosen =>
      obtain ⟨vehicle, autoVehicle⟩ := chosen
      cases hdriver : AssignRouteUseCase.chooseDriver now s input with
      | error e1 =>
        rw [AssignRouteUseCase.Execute_driver_error typeOrder now routeNumber s input order
          vehicle autoVehicle e1 horder hvehicle hdriver] at h ⊢
        cases h
        rfl
      | ok chosenDriver =>
        obtain ⟨driver, autoDriver⟩ := chosenDriver
        rw [AssignRouteUseCase.Execute_committed typeOrder now routeNumber s input order
          vehicle autoVehicle driver autoDriver horder hvehicle hdriver] at h
        cases h

/-- A successful AssignRoute went through the three checks and returns what the last
steps built. -/
theorem AssignRouteUseCase.Execute_ok_inv (typeOrder : VehicleType → Nat)
    (now : Int) (routeNumber : String) (s : Store) (input : AssignRouteInput)
    (out : AssignRouteOutput)
    (h : (AssignRouteUseCase.Execute typeOrder now routeNumber s input).2 = .ok out) :
    ∃ order vehicle autoVehicle driver autoDriver,
      OrderRepository.FindByID s input.OrderID = some order ∧
      AssignRouteUseCase.chooseVehicle typeOrder s order input = .ok (vehicle, autoVehicle) ∧
      AssignRouteUseCase.chooseDriver now s input = .ok (driver, autoDriver) ∧
      out = (AssignRouteUseCase.commit now routeNumber s input order vehicle driver
          (autoVehicle || autoDriver)).2 := by
  cases horder : OrderRepository.FindByID s input.OrderID with
  | none =>
    rw [AssignRouteUseCase.Execute_order_missing typeOrder now routeNumber s input horder]
      at h
    cases h
  | some order =>
    cases hvehicle : AssignRouteUseCase.chooseVehicle typeOrder s order input with
    | error e1 =>
      rw [AssignRouteUseCase.Execute_vehicle_error typeOrder now routeNumber s input order e1
        horder hvehicle] at h
      cases h
    | ok chosen =>
      obtain ⟨vehicle, autoVehicle⟩ := chosen
      cases hdriver : AssignRouteUseCase.chooseDriver now s input with
      | error e1 =>
        rw [AssignRouteUseCase.Execute_driver_error typeOrder now routeNumber s input order
          vehicle autoVehicle e1 horder hvehicle hdriver] at h
        cases h
      | ok chosenDriver =>
        obtain ⟨driver, autoDriver⟩ := chosenDriver
        rw [AssignRouteUseCase.Execute_committed typeOrder now routeNumber s input order
          vehicle autoVehicle driver autoDriver horder hvehicle hdriver] at h
        cases h
        exact ⟨order, vehicle, autoVehicle, driver, autoDriver, rfl, hvehicle, rfl, rfl⟩

/-- What a successful check of the vehicle went through. -/
theorem AssignRouteUseCase.chooseVehicle_ok_inv {typeOrder : VehicleType → Nat} {s : Store}
    {order : Order} {input : AssignRouteInput} {vehicle : Vehicle} {autoVehicle : Bool}
    (h : AssignRouteUseCase.chooseVehicle typeOrder s order input =
      .ok (vehicle, autoVehicle)) :
    ∃ vehicleID,
      AssignRouteUseCase.vehicleChoice typeOrder s order input =
        .ok (vehicleID, autoVehicle) ∧
      VehicleRepository.FindByID s vehicleID = some vehicle ∧
      vehicle.IsAvailableForRoute = true := by
  unfold AssignRouteUseCase.chooseVehicle at h
  cases hchoice : AssignRouteUseCase.vehicleChoice typeOrder s order input with
  | error e => rw [hchoice] at h; cases h
  | ok chosen =>
    obtain ⟨vehicleID, auto⟩ := chosen
    rw [hchoice] at h
    cases hfind : VehicleRepository.FindByID s vehicleID with
    | none => simp only [hfind] at h; cases h
    | some found =>
      simp only [hfind] at h
      cases havailable : found.IsAvailableForRoute with
      | false => simp [havailable] at h
      | true =>
        simp only [havailable, Bool.not_true, Bool.false_eq_true, if_false] at h
        cases h
        exact ⟨vehicleID, rfl, hfind, havailable⟩

theorem AssignRouteUseCase.commit_route_vehicle (now : Int) (routeNumber : String)
    (s : Store) (input : AssignRouteInput) (order : Order) (vehicle : Vehicle)
    (driver : Driver) (autoAssigned : Bool) :
    (AssignRouteUseCase.commit now routeNumber s input order vehicle driver
        autoAssigned).2.Route.VehicleID = vehicle.ID ∧
    (AssignRouteUseCase.commit now routeNumber s input order vehicle driver
        autoAssigned).2.AssignedVehicle.ID = vehicle.ID ∧
    (AssignRouteUseCase.commit now routeNumber s input order vehicle driver
        autoAssigned).2.AutoAssigned = autoAssigned :=
  ⟨rfl, rfl, rfl⟩

/-- C18: when AssignRoute is called for an existing order without a vehicle identifier, an
empty list of available vehicles makes the call fail with ErrVehicleNotAvailable, the store
left as it was; on a non-empty list the selected vehicle is the first one of the list whose
type is the suggested type of the order, when the order suggests a type and the list holds
such a vehicle, and the head of the list otherwise.  The identifier of the selected vehicle
is the one the call goes on with, and a successful call reports it as the vehicle of the
route, marked as assigned automatically. -/
theorem AssignRouteUseCase.Execute_vehicle_selection (typeOrder : VehicleType → Nat)
    (now : Int) (routeNumber : String) (s : Store) (input : AssignRouteInput) (order : Order)
    (horder : OrderRepository.FindByID s input.OrderID = some order)
    (homitted : input.VehicleID = none) :
    (VehicleRepository.ListAvailable typeOrder s = [] →
      AssignRouteUseCase.Execute typeOrder now routeNumber s input =
        (s, .error ErrVehicleNotAvailable)) ∧
    (∀ first rest, VehicleRepository.ListAvailable typeOrder s = first :: rest →
      ∃ selected,
        AssignRouteUseCase.selectVehicle order (first :: rest) = some selected ∧
        ((∃ vehicleType before after, order.SuggestedVehicle = some vehicleType ∧
            first :: rest = before ++ selected :: after ∧
            selected.VehicleType = vehicleType ∧
            ∀ v ∈ before, v.VehicleType ≠ vehicleType) ∨
          (selected = first ∧ ∀ vehicleType, order.SuggestedVehicle = some vehicleType →
            ∀ v ∈ first :: rest, v.VehicleType ≠ vehicleType)) ∧
        AssignRouteUseCase.vehicleChoice typeOrder s order input =
          .ok (selected.ID, true) ∧
        ∀ out, (AssignRouteUseCase.Execute typeOrder now routeNumber s input).2 = .ok out →
          out.Route.VehicleID = selected.ID ∧ out.AssignedVehicle.ID = selected.ID ∧
          out.AutoAssigned = true) := by
  constructor
  · intro hempty
    apply AssignRouteUseCase.Execute_vehicle_error typeOrder now routeNumber s input order _
      horder
    simp only [AssignRouteUseCase.chooseVehicle, AssignRouteUseCase.vehicleChoice, homitted,
      hempty, AssignRouteUseCase.selectVehicle_nil]
  · intro first rest hlist
    obtain ⟨selected, hselected, hwhich⟩ :=
      AssignRouteUseCase.selectVehicle_cons order first rest
    have hchoice : AssignRouteUseCase.vehicleChoice typeOrder s order input =
        .ok (selected.ID, true) := by
      simp only [AssignRouteUseCase.vehicleChoice, homitted, hlist, hselected]
    refine ⟨selected, hselected, hwhich, hchoice, ?_⟩
    intro out hout
    obtain ⟨order2, vehicle, autoVehicle, driver, autoDriver, horder2, hvehicle, _, hcommit⟩ :=
      AssignRouteUseCase.Execute_ok_inv typeOrder now routeNumber s input out hout
    rw [horder] at horder2
    cases horder2
    obtain ⟨vehicleID, hchoice2, hfind, _⟩ := AssignRouteUseCase.chooseVehicle_ok_inv hvehicle
    rw [hchoice] at hchoice2
    cases hchoice2
    have hid := VehicleRepository.vehicle_found_ID hfind
    obtain ⟨h1, h2, h3⟩ := AssignRouteUseCase.commit_route_vehicle now routeNumber s input
      order vehicle driver (true || autoDriver)
    rw [hcommit, h1, h2, h3, hid]
    exact ⟨rfl, rfl, rfl⟩

/-- C18 at a concrete fleet whose available vehicles are, in the order of the list, the
camioneta 2 and the tortons 1 and 3: order 20 suggests a torton and gets vehicle 1, the
first torton of the list; order 21 suggests nothing and order 22 suggests a van, which the
list does not hold, so both get vehicle 2, the head of the list. -/
theorem AssignRouteUseCase.Execute_vehicle_selection_witness :
    ((VehicleRepository.ListAvailable textOrder fleetStore = [] →
      AssignRouteUseCase.Execute textOrder 100 "RTA-1" fleetStore (routeInput 20 none none) =
        (fleetStore, .error ErrVehicleNotAvailable)) ∧
    (∀ first rest, VehicleRepository.ListAvailable textOrder fleetStore = first :: rest →
      ∃ selected,
        AssignRouteUseCase.selectVehicle (placedOrderRow 20 (some VehicleType.VehicleTorton))
          (first :: rest) = some selected ∧
        ((∃ vehicleType before after,
            (placedOrderRow 20 (some VehicleType.VehicleTorton)).SuggestedVehicle =
              some vehicleType ∧
            first :: rest = before ++ selected :: after ∧
            selected.VehicleType = vehicleType ∧
            ∀ v ∈ before, v.VehicleType ≠ vehicleType) ∨
          (selected = first ∧ ∀ vehicleType,
            (placedOrderRow 20 (some VehicleType.VehicleTorton)).SuggestedVehicle =
              some vehicleType →
            ∀ v ∈ first :: rest, v.VehicleType ≠ vehicleType)) ∧
        AssignRouteUseCase.vehicleChoice textOrder fleetStore
          (placedOrderRow 20 (some VehicleType.VehicleTorton)) (routeInput 20 none none) =
          .ok (selected.ID, true) ∧
        ∀ out, (AssignRouteUseCase.Execute textOrder 100 "RTA-1" fleetStore
            (routeInput 20 none none)).2 = .ok out →
          out.Route.VehicleID = selected.ID ∧ out.AssignedVehicle.ID = selected.ID ∧
          out.AutoAssigned = true)) ∧
    (VehicleRepository.ListAvailable textOrder fleetStore).map (·.ID) = [2, 1, 3] ∧
    (AssignRouteUseCase.output (AssignRouteUseCase.Execute textOrder 100 "RTA-1" fleetStore
      (routeInput 20 none none))).map (fun out => (out.Route.VehicleID, out.AutoAssigned)) =
        some (1, true) ∧
    (AssignRouteUseCase.output (AssignRouteUseCase.Execute textOrder 100 "RTA-1" fleetStore
      (routeInput 21 none none))).map (fun out => (out.Route.VehicleID, out.AutoAssigned)) =
        some (2, true) ∧
    (AssignRouteUseCase.output (AssignRouteUseCase.Execute textOrder 100 "RTA-1" fleetStore
      (routeInput 22 none none))).map (fun out => (out.Route.VehicleID, out.AutoAssigned)) =
        some (2, true) ∧
    AssignRouteUseCase.failure (AssignRouteUseCase.Execute textOrder 100 "RTA-1"
      idleFleetStore (routeInput 20 none none)) = some ErrVehicleNotAvailable :=
  ⟨AssignRouteUseCase.Execute_vehicle_selection textOrder 100 "RTA-1" fleetStore
    (routeInput 20 none none) (placedOrderRow 20 (some VehicleType.VehicleTorton))
    (by decide) (by decide), by decide, by decide, by decide, by decide, by decide⟩

/-! ## Route assignment: failures of the vehicle and driver checks -/

theorem AssignRouteUseCase.chooseVehicle_omitted_empty {typeOrder : VehicleType → Nat}
    {s : Store} {order : Order} {input : AssignRouteInput}
    (homitted : input.VehicleID = none)
    (hempty : VehicleRepository.ListAvailable typeOrder s = []) :
    AssignRouteUseCase.chooseVehicle typeOrder s order input =
      .error ErrVehicleNotAvailable := by
  simp only [AssignRouteUseCase.chooseVehicle, AssignRouteUseCase.vehicleChoice, homitted,
    hempty, AssignRouteUseCase.selectVehicle_nil]

theorem AssignRouteUseCase.chooseVehicle_supplied_unavailable
    {typeOrder : VehicleType → Nat} {s : Store} {order : Order} {input : AssignRouteInput}
    {vehicleID : UUID} {vehicle : Vehicle}
    (hsupplied : input.VehicleID = some vehicleID)
    (hfind : VehicleRepository.FindByID s vehicleID = some vehicle)
    (hunavailable : vehicle.IsAvailableForRoute = false) :
    AssignRouteUseCase.chooseVehicle typeOrder s order input =
      .error ErrVehicleNotAvailable := by
  simp [AssignRouteUseCase.chooseVehicle, AssignRouteUseCase.vehicleChoice, hsupplied,
    hfind, hunavailable]

theorem AssignRouteUseCase.chooseVehicle_supplied_missing
    {typeOrder : VehicleType → Nat} {s : Store} {order : Order} {input : AssignRouteInput}
    {vehicleID : UUID}
    (hsupplied : input.VehicleID = some vehicleID)
    (hfind : VehicleRepository.FindByID s vehicleID = none) :
    AssignRouteUseCase.chooseVehicle typeOrder s order input =
      .error "vehículo no encontrado" := by
  simp only [AssignRouteUseCase.chooseVehicle, AssignRouteUseCase.vehicleChoice, hsupplied,
    hfind]

theorem AssignRouteUseCase.chooseDriver_supplied_unavailable
    {now : Int} {s : Store} {input : AssignRouteInput} {driverID : UUID} {driver : Driver}
    (hsupplied : input.DriverID = some driverID)
    (hfind : DriverRepository.FindByID s driverID = some driver)
    (hunavailable : driver.IsAvailableForRoute now = false) :
    AssignRouteUseCase.chooseDriver now s input = .error ErrDriverNotAvailable := by
  simp [AssignRouteUseCase.chooseDriver, AssignRouteUseCase.driverChoice, hsupplied,
    hfind, hunavailable]

/-- With no available vehicle in the table the vehicle step of AssignRoute fails. -/
theorem AssignRouteUseCase.chooseVehicle_none_available (typeOrder : VehicleType → Nat)
    (s : Store) (order : Order) (input : AssignRouteInput)
    (hzero : ∀ v ∈ s.vehicles, v.IsAvailableForRoute = false) :
    ∃ e, AssignRouteUseCase.chooseVehicle typeOrder s order input = .error e := by
  cases hsupplied : input.VehicleID with
  | none =>
    exact ⟨_, AssignRouteUseCase.chooseVehicle_omitted_empty hsupplied
      (VehicleRepository.ListAvailable_nil typeOrder s hzero)⟩
  | some vehicleID =>
    cases hfind : VehicleRepository.FindByID s vehicleID with
    | none => exact ⟨_, AssignRouteUseCase.chooseVehicle_supplied_missing hsupplied hfind⟩
    | some vehicle =>
      exact ⟨_, AssignRouteUseCase.chooseVehicle_supplied_unavailable hsupplied hfind
        (hzero vehicle (VehicleRepository.vehicle_found_mem hfind))⟩

/-- C19, the part that fails: with no vehicle of status DISPONIBLE in the table, a call
that names an order that does not exist fails with the error of the missing order, and a
call for an existing order that names a vehicle that does not exist fails with the error
of the missing vehicle; neither is ErrVehicleNotAvailable. -/
theorem AssignRouteUseCase.Execute_other_errors :
    (∀ v ∈ workshopFleetStore.vehicles, v.Status ≠ VehicleStatus.VehicleDisponible) ∧
    VehicleRepository.ListAvailable textOrder workshopFleetStore = [] ∧
    AssignRouteUseCase.failure (AssignRouteUseCase.Execute textOrder 100 "RTA-1"
      workshopFleetStore (routeInput 99 none none)) = some "pedido no encontrado" ∧
    AssignRouteUseCase.failure (AssignRouteUseCase.Execute textOrder 100 "RTA-1"
      workshopFleetStore (routeInput 20 (some 77) none)) = some "vehículo no encontrado" ∧
    "pedido no encontrado" ≠ ErrVehicleNotAvailable ∧
    "vehículo no encontrado" ≠ ErrVehicleNotAvailable := by
  decide

/-- C19, amended: when no vehicle of the table is available (status DISPONIBLE and
active), every call of AssignRoute fails and leaves the store as it was: no route is
created and no vehicle, driver or order is written.  The error is ErrVehicleNotAvailable
when the order exists and the vehicle identifier is omitted or names an existing vehicle;
it is the error of the missing order when the order does not exist, and the error of the
missing vehicle when the order exists and the identifier names no vehicle. -/
theorem AssignRouteUseCase.Execute_no_vehicle (typeOrder : VehicleType → Nat) (now : Int)
    (routeNumber : String) (s : Store) (input : AssignRouteInput)
    (hzero : ∀ v ∈ s.vehicles, v.IsAvailableForRoute = false) :
    (∃ e, AssignRouteUseCase.Execute typeOrder now routeNumber s input = (s, .error e)) ∧
    (∀ order, OrderRepository.FindByID s input.OrderID = some order →
      (input.VehicleID = none ∨ ∃ vehicleID vehicle, input.VehicleID = some vehicleID ∧
        VehicleRepository.FindByID s vehicleID = some vehicle) →
      AssignRouteUseCase.Execute typeOrder now routeNumber s input =
        (s, .error ErrVehicleNotAvailable)) ∧
    (OrderRepository.FindByID s input.OrderID = none →
      AssignRouteUseCase.Execute typeOrder now routeNumber s input =
        (s, .error "pedido no encontrado")) ∧
    (∀ order vehicleID, OrderRepository.FindByID s input.OrderID = some order →
      input.VehicleID = some vehicleID → VehicleRepository.FindByID s vehicleID = none →
      AssignRouteUseCase.Execute typeOrder now routeNumber s input =
        (s, .error "vehículo no encontrado")) := by
  refine ⟨?_, ?_, ?_, ?_⟩
  · cases horder : OrderRepository.FindByID s input.OrderID with
    | none =>
      exact ⟨_, AssignRouteUseCase.Execute_order_missing typeOrder now routeNumber s input
        horder⟩
    | some order =>
      obtain ⟨e, he⟩ :=
        AssignRouteUseCase.chooseVehicle_none_available typeOrder s order input hzero
      exact ⟨e, AssignRouteUseCase.Execute_vehicle_error typeOrder now routeNumber s input
        order e horder he⟩
  · intro order horder hvehicle
    apply AssignRouteUseCase.Execute_vehicle_error typeOrder now routeNumber s input order _
      horder
    rcases hvehicle with homitted | ⟨vehicleID, vehicle, hsupplied, hfind⟩
    · exact AssignRouteUseCase.chooseVehicle_omitted_empty homitted
        (VehicleRepository.ListAvailable_nil typeOrder s hzero)
    · exact AssignRouteUseCase.chooseVehicle_supplied_unavailable hsupplied hfind
        (hzero vehicle (VehicleRepository.vehicle_found_mem hfind))
  · intro horder
    exact AssignRouteUseCase.Execute_order_missing typeOrder now routeNumber s input horder
  · intro order vehicleID horder hsupplied hfind
    exact AssignRouteUseCase.Execute_vehicle_error typeOrder now routeNumber s input order _
      horder (AssignRouteUseCase.chooseVehicle_supplied_missing hsupplied hfind)

/-- C19, amended, at a concrete fleet whose two vehicles are in the workshop and
inactive: the request for order 20 without a vehicle, and the one that names vehicle 5,
fail with ErrVehicleNotAvailable and leave the store as it was. -/
theorem AssignRouteUseCase.Execute_no_vehicle_witness :
    AssignRouteUseCase.Execute textOrder 100 "RTA-1" idleFleetStore
      (routeInput 20 none none) = (idleFleetStore, .error ErrVehicleNotAvailable) ∧
    AssignRouteUseCase.Execute textOrder 100 "RTA-1" idleFleetStore
      (routeInput 20 (some 5) (some 1)) = (idleFleetStore, .error ErrVehicleNotAvailable) ∧
    idleFleetStore.vehicles.map (fun v => (v.ID, v.Status, v.IsActive)) =
      [(4, VehicleStatus.VehicleEnTaller, true),
        (5, VehicleStatus.VehicleDisponible, false)] :=
  ⟨(AssignRouteUseCase.Execute_no_vehicle textOrder 100 "RTA-1" idleFleetStore
      (routeInput 20 none none) (by decide)).2.1
      (placedOrderRow 20 (some VehicleType.VehicleTorton)) (by decide) (Or.inl rfl),
    (AssignRouteUseCase.Execute_no_vehicle textOrder 100 "RTA-1" idleFleetStore
      (routeInput 20 (some 5) (some 1)) (by decide)).2.1
      (placedOrderRow 20 (some VehicleType.VehicleTorton)) (by decide)
      (Or.inr ⟨5, vehicleRow 5 VehicleType.VehicleTorton VehicleStatus.VehicleDisponible
        false, rfl, by decide⟩),
    by decide⟩

/-- C20, the part that fails: for the existing order 20, a call that names the existing
vehicle 4, which is in the workshop, and the existing driver 2, who is resting, fails
with ErrVehicleNotAvailable, not with ErrDriverNotAvailable.  The resting driver gives
ErrDriverNotAvailable when the vehicle is omitted and the fleet has an available vehicle,
but ErrVehicleNotAvailable again when the fleet has none.  A call that names vehicle 4
for an order that does not exist fails with the error of the missing order, not with
ErrVehicleNotAvailable. -/
theorem AssignRouteUseCase.Execute_vehicle_checked_first :
    (OrderRepository.FindByID fleetStore 20).isSome = true ∧
    (VehicleRepository.FindByID fleetStore 4).map (·.IsAvailableForRoute) = some false ∧
    (DriverRepository.FindByID fleetStore 2).map (Driver.IsAvailableForRoute 100) =
      some false ∧
    AssignRouteUseCase.failure (AssignRouteUseCase.Execute textOrder 100 "RTA-1" fleetStore
      (routeInput 20 (some 4) (some 2))) = some ErrVehicleNotAvailable ∧
    ErrVehicleNotAvailable ≠ ErrDriverNotAvailable ∧
    AssignRouteUseCase.failure (AssignRouteUseCase.Execute textOrder 100 "RTA-1" fleetStore
      (routeInput 20 none (some 2))) = some ErrDriverNotAvailable ∧
    AssignRouteUseCase.failure (AssignRouteUseCase.Execute textOrder 100 "RTA-1"
      idleFleetStore (routeInput 20 none (some 2))) = some ErrVehicleNotAvailable ∧
    AssignRouteUseCase.failure (AssignRouteUseCase.Execute textOrder 100 "RTA-1" fleetStore
      (routeInput 99 (some 4) none)) = some "pedido no encontrado" ∧
    "pedido no encontrado" ≠ ErrVehicleNotAvailable := by
  decide

/-- C20, amended: a call of AssignRoute that names an existing vehicle that is not
(DISPONIBLE and active) fails and leaves the store as it was, with ErrVehicleNotAvailable
when the order exists; a call that names an existing driver that is not (DISPONIBLE,
active and with a license expiry strictly after the current time) fails and leaves the
store as it was, with ErrDriverNotAvailable when the order exists and the vehicle step
has passed.  The store being as it was, no route is created and no vehicle, driver or
order is written. -/
theorem AssignRouteUseCase.Execute_revalidation (typeOrder : VehicleType → Nat) (now : Int)
    (routeNumber : String) (s : Store) (input : AssignRouteInput) :
    (∀ vehicleID vehicle, input.VehicleID = some vehicleID →
      VehicleRepository.FindByID s vehicleID = some vehicle →
      vehicle.IsAvailableForRoute = false →
      (∃ e, AssignRouteUseCase.Execute typeOrder now routeNumber s input = (s, .error e)) ∧
      ∀ order, OrderRepository.FindByID s input.OrderID = some order →
        AssignRouteUseCase.Execute typeOrder now routeNumber s input =
          (s, .error ErrVehicleNotAvailable)) ∧
    (∀ driverID driver, input.DriverID = some driverID →
      DriverRepository.FindByID s driverID = some driver →
      driver.IsAvailableForRoute now = false →
      (∃ e, AssignRouteUseCase.Execute typeOrder now routeNumber s input = (s, .error e)) ∧
      ∀ order vehicle autoVehicle, OrderRepository.FindByID s input.OrderID = some order →
        AssignRouteUseCase.chooseVehicle typeOrder s order input =
          .ok (vehicle, autoVehicle) →
        AssignRouteUseCase.Execute typeOrder now routeNumber s input =
          (s, .error ErrDriverNotAvailable)) := by
  constructor
  · intro vehicleID vehicle hsupplied hfind hunavailable
    have hstep : ∀ order, OrderRepository.FindByID s input.OrderID = some order →
        AssignRouteUseCase.Execute typeOrder now routeNumber s input =
          (s, .error ErrVehicleNotAvailable) := fun order horder =>
      AssignRouteUseCase.Execute_vehicle_error typeOrder now routeNumber s input order _
        horder (AssignRouteUseCase.chooseVehicle_supplied_unavailable hsupplied hfind
          hunavailable)
    refine ⟨?_, hstep⟩
    cases horder : OrderRepository.FindByID s input.OrderID with
    | none =>
      exact ⟨_, AssignRouteUseCase.Execute_order_missing typeOrder now routeNumber s input
        horder⟩
    | some order => exact ⟨_, hstep order horder⟩
  · intro driverID driver hsupplied hfind hunavailable
    have hdriver := AssignRouteUseCase.chooseDriver_supplied_unavailable hsupplied hfind
      hunavailable
    have hstep : ∀ order vehicle autoVehicle,
        OrderRepository.FindByID s input.OrderID = some order →
        AssignRouteUseCase.chooseVehicle typeOrder s order input =
          .ok (vehicle, autoVehicle) →
        AssignRouteUseCase.Execute typeOrder now routeNumber s input =
          (s, .error ErrDriverNotAvailable) := fun order vehicle autoVehicle horder hvehicle =>
      AssignRouteUseCase.Execute_driver_error typeOrder now routeNumber s input order vehicle
        autoVehicle _ horder hvehicle hdriver
    refine ⟨?_, hstep⟩
    cases horder : OrderRepository.FindByID s input.OrderID with
    | none =>
      exact ⟨_, AssignRouteUseCase.Execute_order_missing typeOrder now routeNumber s input
        horder⟩
    | some order =>
      cases hvehicle : AssignRouteUseCase.chooseVehicle typeOrder s order input with
      | error e =>
        exact ⟨e, AssignRouteUseCase.Execute_vehicle_error typeOrder now routeNumber s input
          order e horder hvehicle⟩
      | ok chosen =>
        obtain ⟨vehicle, autoVehicle⟩ := chosen
        exact ⟨_, hstep order vehicle autoVehicle horder hvehicle⟩

/-- C20, amended, at a concrete fleet: for order 20 the request that names vehicle 4,
which is in the workshop, fails with ErrVehicleNotAvailable, and the request that names
the available vehicle 1 and the resting driver 2 fails with ErrDriverNotAvailable; the
store is left as it was by both. -/
theorem AssignRouteUseCase.Execute_revalidation_witness :
    AssignRouteUseCase.Execute textOrder 100 "RTA-1" fleetStore
      (routeInput 20 (some 4) none) = (fleetStore, .error ErrVehicleNotAvailable) ∧
    AssignRouteUseCase.Execute textOrder 100 "RTA-1" fleetStore
      (routeInput 20 (some 1) (some 2)) = (fleetStore, .error ErrDriverNotAvailable) :=
  ⟨((AssignRouteUseCase.Execute_revalidation textOrder 100 "RTA-1" fleetStore
      (routeInput 20 (some 4) none)).1 4
      (vehicleRow 4 VehicleType.VehicleVan VehicleStatus.VehicleEnTaller true)
      rfl (by decide) (by decide)).2
      (placedOrderRow 20 (some VehicleType.VehicleTorton)) (by decide),
    ((AssignRouteUseCase.Execute_revalidation textOrder 100 "RTA-1" fleetStore
      (routeInput 20 (some 1) (some 2))).2 2
      (driverRow 2 DriverStatus.DriverDescanso true 1000)
      rfl (by decide) (by decide)).2
      (placedOrderRow 20 (some VehicleType.VehicleTorton))
      (vehicleRow 1 VehicleType.VehicleTorton VehicleStatus.VehicleDisponible true) false
      (by decide) (by rfl)⟩

/-! ## Route assignment: the writes of a successful call -/

theorem VehicleRepository.vehicle_Update_eq (s : Store) (now : Int) (vehicle : Vehicle) :
    VehicleRepository.Update s now vehicle =
      if (!s.faults.vehicleUpdate && s.vehicles.any (fun v => v.ID == vehicle.ID)) = true then
        some (VehicleRepository.written s now vehicle)
      else none := by
  unfold VehicleRepository.Update
  cases s.faults.vehicleUpdate <;> simp

theorem DriverRepository.driver_Update_eq (s : Store) (now : Int) (driver : Driver) :
    DriverRepository.Update s now driver =
      if (!s.faults.driverUpdate && s.drivers.any (fun d => d.ID == driver.ID)) = true then
        some (DriverRepository.written s now driver)
      else none := by
  unfold DriverRepository.Update
  cases s.faults.driverUpdate <;> simp

theorem OrderRepository.placed_Update_eq (s : Store) (now : Int) (order : Order) :
    OrderRepository.Update s now order =
      if (!s.faults.orderUpdate &&
          s.orders.any (fun o => o.ID == order.ID && o.DeletedAt.isNone)) = true then
        some (OrderRepository.written s now order)
      else none := by
  unfold OrderRepository.Update
  cases s.faults.orderUpdate <;> simp

theorem VehicleRepository.vehicle_update_or_keep (s : Store) (now : Int) (vehicle : Vehicle) :
    (match VehicleRepository.Update s now vehicle with
      | some t => t
      | none => s) =
      { s with vehicles :=
          if (!s.faults.vehicleUpdate && s.vehicles.any (fun v => v.ID == vehicle.ID)) = true
          then s.vehicles.map (Vehicle.applyUpdate now vehicle) else s.vehicles } := by
  rw [VehicleRepository.vehicle_Update_eq]
  by_cases h : (!s.faults.vehicleUpdate && s.vehicles.any (fun v => v.ID == vehicle.ID)) = true
  · rw [if_pos h, if_pos h]
    rfl
  · rw [if_neg h, if_neg h]

theorem DriverRepository.driver_update_or_keep (s : Store) (now : Int) (driver : Driver) :
    (match DriverRepository.Update s now driver with
      | some t => t
      | none => s) =
      { s with drivers :=
          if (!s.faults.driverUpdate && s.drivers.any (fun d => d.ID == driver.ID)) = true
          then s.drivers.map (Driver.applyUpdate now driver) else s.drivers } := by
  rw [DriverRepository.driver_Update_eq]
  by_cases h : (!s.faults.driverUpdate && s.drivers.any (fun d => d.ID == driver.ID)) = true
  · rw [if_pos h, if_pos h]
    rfl
  · rw [if_neg h, if_neg h]

theorem OrderRepository.placed_update_or_keep (s : Store) (now : Int) (order : Order) :
    (match OrderRepository.Update s now order with
      | some t => t
      | none => s) =
      { s with orders :=
          if (!s.faults.orderUpdate &&
            s.orders.any (fun o => o.ID == order.ID && o.DeletedAt.isNone)) = true
          then s.orders.map (Order.applyUpdate now order) else s.orders } := by
  rw [OrderRepository.placed_Update_eq]
  by_cases h : (!s.faults.orderUpdate &&
      s.orders.any (fun o => o.ID == order.ID && o.DeletedAt.isNone)) = true
  · rw [if_pos h, if_pos h]
    rfl
  · rw [if_neg h, if_neg h]

/-- The tables a committed AssignRoute leaves: the route appended, and each of the three
status updates applied unless it failed. -/
theorem AssignRouteUseCase.commit_tables (now : Int) (routeNumber : String) (s : Store)
    (input : AssignRouteInput) (order : Order) (vehicle : Vehicle) (driver : Driver)
    (autoAssigned : Bool) :
    (AssignRouteUseCase.commit now routeNumber s input order vehicle driver
        autoAssigned).2.Route =
      AssignRouteUseCase.storedRoute now routeNumber s input vehicle driver ∧
    (AssignRouteUseCase.commit now routeNumber s input order vehicle driver
        autoAssigned).1.routes =
      s.routes ++ [AssignRouteUseCase.storedRoute now routeNumber s input vehicle driver] ∧
    (AssignRouteUseCase.commit now routeNumber s input order vehicle driver
        autoAssigned).1.vehicles =
      (if (!s.faults.vehicleUpdate &&
          s.vehicles.any (fun v => v.ID == vehicle.ID)) = true then
        s.vehicles.map (Vehicle.applyUpdate now
          { vehicle with Status := VehicleStatus.VehicleEnRuta })
      else s.vehicles) ∧
    (AssignRouteUseCase.commit now routeNumber s input order vehicle driver
        autoAssigned).1.drivers =
      (if (!s.faults.driverUpdate &&
          s.drivers.any (fun d => d.ID == driver.ID)) = true then
        s.drivers.map (Driver.applyUpdate now
          { driver with Status := DriverStatus.DriverEnRuta })
      else s.drivers) ∧
    (AssignRouteUseCase.commit now routeNumber s input order vehicle driver
        autoAssigned).1.orders =
      (if (!s.faults.orderUpdate &&
          s.orders.any (fun o => o.ID == order.ID && o.DeletedAt.isNone)) = true then
        s.orders.map (Order.applyUpdate now
          { order with Status := OrderStatus.OrderEnRuta })
      else s.orders) ∧
    (AssignRouteUseCase.commit now routeNumber s input order vehicle driver
        autoAssigned).1.faults = s.faults := by
  simp only [AssignRouteUseCase.commit, VehicleRepository.vehicle_update_or_keep,
    DriverRepository.driver_update_or_keep, OrderRepository.placed_update_or_keep]
  exact ⟨rfl, rfl, rfl, rfl, rfl, rfl⟩

theorem DriverRepository.driver_found_ID {s : Store} {id : UUID} {driver : Driver}
    (h : DriverRepository.FindByID s id = some driver) : driver.ID = id := by
  have := List.find?_some h
  simpa using this

theorem DriverRepository.driver_found_mem {s : Store} {id : UUID} {driver : Driver}
    (h : DriverRepository.FindByID s id = some driver) : driver ∈ s.drivers :=
  List.mem_of_find?_eq_some h

theorem OrderRepository.placed_found {s : Store} {id : UUID} {order : Order}
    (h : OrderRepository.FindByID s id = some order) :
    order ∈ s.orders ∧ order.ID = id ∧ order.DeletedAt = none := by
  have hp := List.find?_some h
  simp only [Bool.and_eq_true, beq_iff_eq, Option.isNone_iff_eq_none] at hp
  exact ⟨List.mem_of_find?_eq_some h, hp.1, hp.2⟩

/-- What a successful check of the driver went through. -/
theorem AssignRouteUseCase.chooseDriver_ok_inv {now : Int} {s : Store}
    {input : AssignRouteInput} {driver : Driver} {autoDriver : Bool}
    (h : AssignRouteUseCase.chooseDriver now s input = .ok (driver, autoDriver)) :
    ∃ driverID,
      AssignRouteUseCase.driverChoice s input = .ok (driverID, autoDriver) ∧
      DriverRepository.FindByID s driverID = some driver ∧
      driver.IsAvailableForRoute now = true := by
  unfold AssignRouteUseCase.chooseDriver at h
  cases hchoice : AssignRouteUseCase.driverChoice s input with
  | error e => rw [hchoice] at h; cases h
  | ok chosen =>
    obtain ⟨driverID, auto⟩ := chosen
    rw [hchoice] at h
    cases hfind : DriverRepository.FindByID s driverID with
    | none => simp only [hfind] at h; cases h
    | some found =>
      simp only [hfind] at h
      cases havailable : found.IsAvailableForRoute now with
      | false => simp [havailable] at h
      | true =>
        simp only [havailable, Bool.not_true, Bool.false_eq_true, if_false] at h
        cases h
        exact ⟨driverID, rfl, hfind, havailable⟩

/-- A successful AssignRoute found the order, a vehicle and a driver that pass their
checks, and is the commit of the three. -/
theorem AssignRouteUseCase.Execute_ok_commit (typeOrder : VehicleType → Nat)
    (now : Int) (routeNumber : String) (s : Store) (input : AssignRouteInput)
    (out : AssignRouteOutput)
    (h : (AssignRouteUseCase.Execute typeOrder now routeNumber s input).2 = .ok out) :
    ∃ order vehicle autoVehicle driver autoDriver vehicleID driverID,
      OrderRepository.FindByID s input.OrderID = some order ∧
      AssignRouteUseCase.vehicleChoice typeOrder s order input =
        .ok (vehicleID, autoVehicle) ∧
      VehicleRepository.FindByID s vehicleID = some vehicle ∧
      vehicle.IsAvailableForRoute = true ∧
      AssignRouteUseCase.driverChoice s input = .ok (driverID, autoDriver) ∧
      DriverRepository.FindByID s driverID = some driver ∧
      driver.IsAvailableForRoute now = true ∧
      AssignRouteUseCase.Execute typeOrder now routeNumber s input =
        ((AssignRouteUseCase.commit now routeNumber s input order vehicle driver
            (autoVehicle || autoDriver)).1,
          .ok (AssignRouteUseCase.commit now routeNumber s input order vehicle driver
            (autoVehicle || autoDriver)).2) ∧
      out = (AssignRouteUseCase.commit now routeNumber s input order vehicle driver
          (autoVehicle || autoDriver)).2 := by
  obtain ⟨order, vehicle, autoVehicle, driver, autoDriver, horder, hvehicle, hdriver, hout⟩ :=
    AssignRouteUseCase.Execute_ok_inv typeOrder now routeNumber s input out h
  obtain ⟨vehicleID, hchoice, hfind, havailable⟩ :=
    AssignRouteUseCase.chooseVehicle_ok_inv hvehicle
  obtain ⟨driverID, hchoice2, hfind2, havailable2⟩ :=
    AssignRouteUseCase.chooseDriver_ok_inv hdriver
  exact ⟨order, vehicle, autoVehicle, driver, autoDriver, vehicleID, driverID, horder,
    hchoice, hfind, havailable, hchoice2, hfind2, havailable2,
    AssignRouteUseCase.Execute_committed typeOrder now routeNumber s input order vehicle
      autoVehicle driver autoDriver horder hvehicle hdriver, hout⟩

theorem forall₂_map_self {α : Type} {R : α → α → Prop} (f : α → α) (l : List α)
    (h : ∀ x ∈ l, R x (f x)) : List.Forall₂ R l (l.map f) := by
  induction l with
  | nil => exact .nil
  | cons a rest ih =>
    exact .cons (h a (List.mem_cons_self _ _))
      (ih (fun x hx => h x (List.mem_cons_of_mem _ hx)))

theorem Vehicle.vehicle_applyUpdate_ID (now : Int) (vehicle row : Vehicle) :
    (Vehicle.applyUpdate now vehicle row).ID = row.ID := by
  unfold Vehicle.applyUpdate
  split <;> rfl

theorem Driver.driver_applyUpdate_ID (now : Int) (driver row : Driver) :
    (Driver.applyUpdate now driver row).ID = row.ID := by
  unfold Driver.applyUpdate
  split <;> rfl

theorem Order.placed_applyUpdate_key (now : Int) (order row : Order) :
    (Order.applyUpdate now order row).ID = row.ID ∧
    (Order.applyUpdate now order row).DeletedAt = row.DeletedAt := by
  unfold Order.applyUpdate
  split <;> exact ⟨rfl, rfl⟩

theorem VehicleRepository.find_map_vehicle_update (now : Int) (vehicle : Vehicle)
    (rows : List Vehicle) (id : UUID) :
    (rows.map (Vehicle.applyUpdate now vehicle)).find? (fun v => v.ID == id) =
      (rows.find? (fun v => v.ID == id)).map (Vehicle.applyUpdate now vehicle) := by
  induction rows with
  | nil => rfl
  | cons row rest ih =>
    simp only [List.map_cons, List.find?_cons, Vehicle.vehicle_applyUpdate_ID]
    cases row.ID == id <;> simp [ih]

theorem DriverRepository.find_map_driver_update (now : Int) (driver : Driver)
    (rows : List Driver) (id : UUID) :
    (rows.map (Driver.applyUpdate now driver)).find? (fun d => d.ID == id) =
      (rows.find? (fun d => d.ID == id)).map (Driver.applyUpdate now driver) := by
  induction rows with
  | nil => rfl
  | cons row rest ih =>
    simp only [List.map_cons, List.find?_cons, Driver.driver_applyUpdate_ID]
    cases row.ID == id <;> simp [ih]

theorem OrderRepository.find_map_placed_update (now : Int) (order : Order)
    (rows : List Order) (id : UUID) :
    (rows.map (Order.applyUpdate now order)).find?
        (fun o => o.ID == id && o.DeletedAt.isNone) =
      (rows.find? (fun o => o.ID == id && o.DeletedAt.isNone)).map
        (Order.applyUpdate now order) := by
  induction rows with
  | nil => rfl
  | cons row rest ih =>
    simp only [List.map_cons, List.find?_cons, (Order.placed_applyUpdate_key now order row).1,
      (Order.placed_applyUpdate_key now order row).2]
    cases row.ID == id && row.DeletedAt.isNone <;> simp [ih]

/-- The tables a committed AssignRoute leaves when its three status updates succeed. -/
theorem AssignRouteUseCase.commit_written (now : Int) (routeNumber : String) (s : Store)
    (input : AssignRouteInput) (order : Order) (vehicle : Vehicle) (driver : Driver)
    (autoAssigned : Bool)
    (hvehicle : s.faults.vehicleUpdate = false) (hdriver : s.faults.driverUpdate = false)
    (horder : s.faults.orderUpdate = false)
    (hv : vehicle ∈ s.vehicles) (hd : driver ∈ s.drivers)
    (ho : order ∈ s.orders) (hlive : order.DeletedAt = none) :
    (AssignRouteUseCase.commit now routeNumber s input order vehicle driver
        autoAssigned).1.vehicles =
      s.vehicles.map (Vehicle.applyUpdate now
        { vehicle with Status := VehicleStatus.VehicleEnRuta }) ∧
    (AssignRouteUseCase.commit now routeNumber s input order vehicle driver
        autoAssigned).1.drivers =
      s.drivers.map (Driver.applyUpdate now
        { driver with Status := DriverStatus.DriverEnRuta }) ∧
    (AssignRouteUseCase.commit now routeNumber s input order vehicle driver
        autoAssigned).1.orders =
      s.orders.map (Order.applyUpdate now
        { order with Status := OrderStatus.OrderEnRuta }) := by
  obtain ⟨_, _, h1, h2, h3, _⟩ := AssignRouteUseCase.commit_tables now routeNumber s input
    order vehicle driver autoAssigned
  have c1 : (!s.faults.vehicleUpdate &&
      s.vehicles.any (fun v => v.ID == vehicle.ID)) = true := by
    rw [hvehicle]
    simpa using ⟨vehicle, hv, rfl⟩
  have c2 : (!s.faults.driverUpdate &&
      s.drivers.any (fun d => d.ID == driver.ID)) = true := by
    rw [hdriver]
    simpa using ⟨driver, hd, rfl⟩
  have c3 : (!s.faults.orderUpdate &&
      s.orders.any (fun o => o.ID == order.ID && o.DeletedAt.isNone)) = true := by
    rw [horder]
    simpa using ⟨order, ho, rfl, hlive⟩
  rw [h1, h2, h3, if_pos c1, if_pos c2, if_pos c3]
  exact ⟨rfl, rfl, rfl⟩

/-- C21: a successful AssignRoute whose three status updates are not failing appends
exactly one route, the one it returns, for the given order and the selected vehicle and
driver (the supplied ones when the caller named them); afterwards the selected vehicle,
the selected driver and the order read back as EN_RUTA; and row by row the tables of
vehicles, drivers and orders are as before, except that the rows of the selected vehicle,
of the selected driver and of the order carry the status EN_RUTA. -/
theorem AssignRouteUseCase.Execute_assigns (typeOrder : VehicleType → Nat) (now : Int)
    (routeNumber : String) (s : Store) (input : AssignRouteInput) (out : AssignRouteOutput)
    (hvehicle : s.faults.vehicleUpdate = false) (hdriver : s.faults.driverUpdate = false)
    (horder : s.faults.orderUpdate = false)
    (hok : (AssignRouteUseCase.Execute typeOrder now routeNumber s input).2 = .ok out) :
    (AssignRouteUseCase.Execute typeOrder now routeNumber s input).1.routes =
      s.routes ++ [out.Route] ∧
    out.Route.OrderID = input.OrderID ∧
    out.Route.VehicleID = out.AssignedVehicle.ID ∧
    out.Route.DriverID = out.AssignedDriver.ID ∧
    (∀ id, input.VehicleID = some id → out.AssignedVehicle.ID = id) ∧
    (∀ id, input.DriverID = some id → out.AssignedDriver.ID = id) ∧
    (∃ v, VehicleRepository.FindByID
        (AssignRouteUseCase.Execute typeOrder now routeNumber s input).1
        out.AssignedVehicle.ID = some v ∧ v.Status = VehicleStatus.VehicleEnRuta) ∧
    (∃ d, DriverRepository.FindByID
        (AssignRouteUseCase.Execute typeOrder now routeNumber s input).1
        out.AssignedDriver.ID = some d ∧ d.Status = DriverStatus.DriverEnRuta) ∧
    (∃ o, OrderRepository.FindByID
        (AssignRouteUseCase.Execute typeOrder now routeNumber s input).1
        input.OrderID = some o ∧ o.Status = OrderStatus.OrderEnRuta) ∧
    List.Forall₂
      (fun old new => new.ID = old.ID ∧
        (old.ID = out.AssignedVehicle.ID → new.Status = VehicleStatus.VehicleEnRuta) ∧
        (old.ID ≠ out.AssignedVehicle.ID → new = old))
      s.vehicles (AssignRouteUseCase.Execute typeOrder now routeNumber s input).1.vehicles ∧
    List.Forall₂
      (fun old new => new.ID = old.ID ∧
        (old.ID = out.AssignedDriver.ID → new.Status = DriverStatus.DriverEnRuta) ∧
        (old.ID ≠ out.AssignedDriver.ID → new = old))
      s.drivers (AssignRouteUseCase.Execute typeOrder now routeNumber s input).1.drivers ∧
    List.Forall₂
      (fun old new => new.ID = old.ID ∧
        (old.ID = input.OrderID → old.DeletedAt = none →
          new.Status = OrderStatus.OrderEnRuta) ∧
        (old.ID ≠ input.OrderID ∨ old.DeletedAt ≠ none → new = old))
      s.orders (AssignRouteUseCase.Execute typeOrder now routeNumber s input).1.orders := by
  obtain ⟨order, vehicle, autoVehicle, driver, autoDriver, vehicleID, driverID, hfindOrder,
    hchoice, hfind, _, hchoice2, hfind2, _, hexec, hout⟩ :=
    AssignRouteUseCase.Execute_ok_commit typeOrder now routeNumber s input out hok
  obtain ⟨ho, hoid, hlive⟩ := OrderRepository.placed_found hfindOrder
  have hv := VehicleRepository.vehicle_found_mem hfind
  have hvid := VehicleRepository.vehicle_found_ID hfind
  have hd := DriverRepository.driver_found_mem hfind2
  have hdid := DriverRepository.driver_found_ID hfind2
  obtain ⟨hroute, hroutes, _, _, _, _⟩ := AssignRouteUseCase.commit_tables now routeNumber s
    input order vehicle driver (autoVehicle || autoDriver)
  obtain ⟨hvehicles, hdrivers, horders⟩ := AssignRouteUseCase.commit_written now routeNumber
    s input order vehicle driver (autoVehicle || autoDriver) hvehicle hdriver horder hv hd ho
    hlive
  have hav : out.AssignedVehicle.ID = vehicle.ID := by rw [hout]; rfl
  have had : out.AssignedDriver.ID = driver.ID := by rw [hout]; rfl
  rw [hexec]
  simp only [hav, had]
  refine ⟨?_, ?_, ?_, ?_, ?_, ?_, ?_, ?_, ?_, ?_, ?_, ?_⟩
  · rw [hroutes, hout, hroute]
  · rw [hout]; rfl
  · rw [hout]; rfl
  · rw [hout]; rfl
  · intro id hid
    simp only [AssignRouteUseCase.vehicleChoice, hid] at hchoice
    cases hchoice
    exact hvid
  · intro id hid
    simp only [AssignRouteUseCase.driverChoice, hid] at hchoice2
    cases hchoice2
    exact hdid
  · refine ⟨Vehicle.applyUpdate now { vehicle with Status := VehicleStatus.VehicleEnRuta }
      vehicle, ?_, ?_⟩
    · unfold VehicleRepository.FindByID
      rw [hvehicles, VehicleRepository.find_map_vehicle_update]
      have hfind3 : s.vehicles.find? (fun v => v.ID == vehicle.ID) = some vehicle := by
        rw [hvid]; exact hfind
      rw [hfind3]
      rfl
    · simp [Vehicle.applyUpdate]
  · refine ⟨Driver.applyUpdate now { driver with Status := DriverStatus.DriverEnRuta }
      driver, ?_, ?_⟩
    · unfold DriverRepository.FindByID
      rw [hdrivers, DriverRepository.find_map_driver_update]
      have hfind3 : s.drivers.find? (fun d => d.ID == driver.ID) = some driver := by
        rw [hdid]; exact hfind2
      rw [hfind3]
      rfl
    · simp [Driver.applyUpdate]
  · refine ⟨Order.applyUpdate now { order with Status := OrderStatus.OrderEnRuta }
      order, ?_, ?_⟩
    · unfold OrderRepository.FindByID
      rw [horders, OrderRepository.find_map_placed_update]
      have hfind3 : s.orders.find? (fun o => o.ID == input.OrderID && o.DeletedAt.isNone) =
          some order := hfindOrder
      rw [hfind3]
      rfl
    · simp [Order.applyUpdate, hlive]
  · rw [hvehicles]
    apply forall₂_map_self
    intro old _
    refine ⟨Vehicle.vehicle_applyUpdate_ID _ _ _, ?_, ?_⟩
    · intro h
      simp [Vehicle.applyUpdate, h]
    · intro h
      simp [Vehicle.applyUpdate, h]
  · rw [hdrivers]
    apply forall₂_map_self
    intro old _
    refine ⟨Driver.driver_applyUpdate_ID _ _ _, ?_, ?_⟩
    · intro h
      simp [Driver.applyUpdate, h]
    · intro h
      simp [Driver.applyUpdate, h]
  · rw [horders]
    apply forall₂_map_self
    intro old _
    refine ⟨(Order.placed_applyUpdate_key _ _ _).1, ?_, ?_⟩
    · intro h hl
      simp [Order.applyUpdate, h, hl, hoid]
    · intro h
      rcases h with h | h
      · simp [Order.applyUpdate, h, hoid]
      · simp [Order.applyUpdate, h]

/-- C21 at a concrete fleet: the request for order 20 without vehicle or driver succeeds
with the torton 1 and driver 1; one route is appended, vehicle 1, driver 1 and order 20
are EN_RUTA afterwards, and the other vehicles, drivers and orders are as before. -/
theorem AssignRouteUseCase.Execute_assigns_witness :
    (AssignRouteUseCase.Execute textOrder 100 "RTA-1" fleetStore
        (routeInput 20 none none)).1.routes =
      fleetStore.routes ++ [AssignRouteUseCase.storedRoute 100 "RTA-1" fleetStore
        (routeInput 20 none none)
        (vehicleRow 1 VehicleType.VehicleTorton VehicleStatus.VehicleDisponible true)
        (driverRow 1 DriverStatus.DriverDisponible true 1000)] ∧
    (AssignRouteUseCase.Execute textOrder 100 "RTA-1" fleetStore
        (routeInput 20 none none)).1.routes.map
        (fun r => (r.ID, r.OrderID, r.VehicleID, r.DriverID)) = [(1, 20, 1, 1)] ∧
    (AssignRouteUseCase.Execute textOrder 100 "RTA-1" fleetStore
        (routeInput 20 none none)).1.vehicles.map (fun v => (v.ID, v.Status)) =
      [(1, VehicleStatus.VehicleEnRuta), (2, VehicleStatus.VehicleDisponible),
        (3, VehicleStatus.VehicleDisponible), (4, VehicleStatus.VehicleEnTaller)] ∧
    (AssignRouteUseCase.Execute textOrder 100 "RTA-1" fleetStore
        (routeInput 20 none none)).1.drivers.map (fun d => (d.ID, d.Status)) =
      [(1, DriverStatus.DriverEnRuta), (2, DriverStatus.DriverDescanso)] ∧
    (AssignRouteUseCase.Execute textOrder 100 "RTA-1" fleetStore
        (routeInput 20 none none)).1.orders.map (fun o => (o.ID, o.Status)) =
      [(20, OrderStatus.OrderEnRuta), (21, OrderStatus.OrderListo),
        (22, OrderStatus.OrderListo)] :=
  ⟨(AssignRouteUseCase.Execute_assigns textOrder 100 "RTA-1" fleetStore
      (routeInput 20 none none)
      (AssignRouteUseCase.commit 100 "RTA-1" fleetStore (routeInput 20 none none)
        (placedOrderRow 20 (some VehicleType.VehicleTorton))
        (vehicleRow 1 VehicleType.VehicleTorton VehicleStatus.VehicleDisponible true)
        (driverRow 1 DriverStatus.DriverDisponible true 1000) true).2
      (by decide) (by decide) (by decide) (by rfl)).1,
    by decide, by decide, by decide, by decide⟩

/-! ## Route assignment: failing status updates -/

/-- The result of AssignRoute does not depend on the failures the store is under. -/
theorem AssignRouteUseCase.Execute_result_withFaults (typeOrder : VehicleType → Nat)
    (now : Int) (routeNumber : String) (s : Store) (f : Faults) (input : AssignRouteInput) :
    (AssignRouteUseCase.Execute typeOrder now routeNumber (s.withFaults f) input).2 =
      (AssignRouteUseCase.Execute typeOrder now routeNumber s input).2 := by
  cases horder : OrderRepository.FindByID s input.OrderID with
  | none =>
    rw [AssignRouteUseCase.Execute_order_missing typeOrder now routeNumber s input horder,
      AssignRouteUseCase.Execute_order_missing typeOrder now routeNumber (s.withFaults f)
        input horder]
  | some order =>
    cases hvehicle : AssignRouteUseCase.chooseVehicle typeOrder s order input with
    | error e =>
      rw [AssignRouteUseCase.Execute_vehicle_error typeOrder now routeNumber s input order e
          horder hvehicle,
        AssignRouteUseCase.Execute_vehicle_error typeOrder now routeNumber (s.withFaults f)
          input order e horder hvehicle]
    | ok chosen =>
      obtain ⟨vehicle, autoVehicle⟩ := chosen
      cases hdriver : AssignRouteUseCase.chooseDriver now s input with
      | error e =>
        rw [AssignRouteUseCase.Execute_driver_error typeOrder now routeNumber s input order
            vehicle autoVehicle e horder hvehicle hdriver,
          AssignRouteUseCase.Execute_driver_error typeOrder now routeNumber (s.withFaults f)
            input order vehicle autoVehicle e horder hvehicle hdriver]
      | ok chosenDriver =>
        obtain ⟨driver, autoDriver⟩ := chosenDriver
        rw [AssignRouteUseCase.Execute_committed typeOrder now routeNumber s input order
            vehicle autoVehicle driver autoDriver horder hvehicle hdriver,
          AssignRouteUseCase.Execute_committed typeOrder now routeNumber (s.withFaults f)
            input order vehicle autoVehicle driver autoDriver horder hvehicle hdriver]
        rfl

/-- C22, the part that fails: on a fleet where the update of vehicles fails, the request
for order 20 returns without error the very output it returns when every write succeeds;
the route is created, driver 1 and order 20 are EN_RUTA, and vehicle 1, which the route
uses, is still stored as DISPONIBLE. -/
theorem AssignRouteUseCase.Execute_reports_success :
    AssignRouteUseCase.failure (AssignRouteUseCase.Execute textOrder 100 "RTA-1"
      (fleetStore.withFaults { vehicleUpdate := true }) (routeInput 20 none none)) = none ∧
    AssignRouteUseCase.output (AssignRouteUseCase.Execute textOrder 100 "RTA-1"
      (fleetStore.withFaults { vehicleUpdate := true }) (routeInput 20 none none)) =
      AssignRouteUseCase.output (AssignRouteUseCase.Execute textOrder 100 "RTA-1"
        fleetStore (routeInput 20 none none)) ∧
    (AssignRouteUseCase.Execute textOrder 100 "RTA-1"
      (fleetStore.withFaults { vehicleUpdate := true }) (routeInput 20 none none)).1.routes.map
        (fun r => (r.ID, r.OrderID, r.VehicleID, r.DriverID)) = [(1, 20, 1, 1)] ∧
    (AssignRouteUseCase.Execute textOrder 100 "RTA-1"
      (fleetStore.withFaults { vehicleUpdate := true }) (routeInput 20 none none)).1.vehicles =
      fleetStore.vehicles ∧
    (VehicleRepository.FindByID (AssignRouteUseCase.Execute textOrder 100 "RTA-1"
      (fleetStore.withFaults { vehicleUpdate := true }) (routeInput 20 none none)).1 1).map
        (·.Status) = some VehicleStatus.VehicleDisponible ∧
    (AssignRouteUseCase.Execute textOrder 100 "RTA-1"
      (fleetStore.withFaults { vehicleUpdate := true }) (routeInput 20 none none)).1.drivers.map
        (fun d => (d.ID, d.Status)) =
      [(1, DriverStatus.DriverEnRuta), (2, DriverStatus.DriverDescanso)] ∧
    (AssignRouteUseCase.Execute textOrder 100 "RTA-1"
      (fleetStore.withFaults { vehicleUpdate := true }) (routeInput 20 none none)).1.orders.map
        (fun o => (o.ID, o.Status)) =
      [(20, OrderStatus.OrderEnRuta), (21, OrderStatus.OrderListo),
        (22, OrderStatus.OrderListo)] := by
  decide

/-- C22, amended: the result of AssignRoute is the same whether or not the status updates
of the vehicle, the driver or the order fail: a call that succeeds when every write
succeeds returns the same output, without an error and without a mark, when some of them
fail.  The route it returns is appended, the table whose update failed is left as it was,
and the updates that did not fail are applied: nothing is rolled back. -/
theorem AssignRouteUseCase.Execute_write_failures (typeOrder : VehicleType → Nat)
    (now : Int) (routeNumber : String) (s : Store) (f : Faults) (input : AssignRouteInput) :
    (AssignRouteUseCase.Execute typeOrder now routeNumber (s.withFaults f) input).2 =
      (AssignRouteUseCase.Execute typeOrder now routeNumber s input).2 ∧
    ∀ out,
      (AssignRouteUseCase.Execute typeOrder now routeNumber (s.withFaults f) input).2 =
        .ok out →
      (AssignRouteUseCase.Execute typeOrder now routeNumber (s.withFaults f) input).1.routes =
        s.routes ++ [out.Route] ∧
      (f.vehicleUpdate = true →
        (AssignRouteUseCase.Execute typeOrder now routeNumber (s.withFaults f)
          input).1.vehicles = s.vehicles) ∧
      (f.driverUpdate = true →
        (AssignRouteUseCase.Execute typeOrder now routeNumber (s.withFaults f)
          input).1.drivers = s.drivers) ∧
      (f.orderUpdate = true →
        (AssignRouteUseCase.Execute typeOrder now routeNumber (s.withFaults f)
          input).1.orders = s.orders) ∧
      (f.vehicleUpdate = false →
        ∃ v, VehicleRepository.FindByID
          (AssignRouteUseCase.Execute typeOrder now routeNumber (s.withFaults f) input).1
          out.AssignedVehicle.ID = some v ∧ v.Status = VehicleStatus.VehicleEnRuta) ∧
      (f.driverUpdate = false →
        ∃ d, DriverRepository.FindByID
          (AssignRouteUseCase.Execute typeOrder now routeNumber (s.withFaults f) input).1
          out.AssignedDriver.ID = some d ∧ d.Status = DriverStatus.DriverEnRuta) ∧
      (f.orderUpdate = false →
        ∃ o, OrderRepository.FindByID
          (AssignRouteUseCase.Execute typeOrder now routeNumber (s.withFaults f) input).1
          input.OrderID = some o ∧ o.Status = OrderStatus.OrderEnRuta) := by
  refine ⟨AssignRouteUseCase.Execute_result_withFaults typeOrder now routeNumber s f input,
    ?_⟩
  intro out hok
  obtain ⟨order, vehicle, autoVehicle, driver, autoDriver, vehicleID, driverID, hfindOrder,
    hchoice, hfind, _, hchoice2, hfind2, _, hexec, hout⟩ :=
    AssignRouteUseCase.Execute_ok_commit typeOrder now routeNumber (s.withFaults f) input
      out hok
  obtain ⟨ho, hoid, hlive⟩ := OrderRepository.placed_found hfindOrder
  have hv := VehicleRepository.vehicle_found_mem hfind
  have hvid := VehicleRepository.vehicle_found_ID hfind
  have hd := DriverRepository.driver_found_mem hfind2
  have hdid := DriverRepository.driver_found_ID hfind2
  obtain ⟨hroute, hroutes, hvehicles, hdrivers, horders, _⟩ :=
    AssignRouteUseCase.commit_tables now routeNumber (s.withFaults f) input order vehicle
      driver (autoVehicle || autoDriver)
  have hav : out.AssignedVehicle.ID = vehicle.ID := by rw [hout]; rfl
  have had : out.AssignedDriver.ID = driver.ID := by rw [hout]; rfl
  have hf : (s.withFaults f).faults = f := rfl
  rw [hexec]
  simp only [hav, had]
  rw [hf] at hvehicles hdrivers horders
  refine ⟨?_, ?_, ?_, ?_, ?_, ?_, ?_⟩
  · rw [hroutes, hout, hroute]
    rfl
  · intro hfault
    rw [hvehicles, hfault]
    rfl
  · intro hfault
    rw [hdrivers, hfault]
    rfl
  · intro hfault
    rw [horders, hfault]
    rfl
  · intro hfault
    have c1 : (!f.vehicleUpdate &&
        (s.withFaults f).vehicles.any (fun v => v.ID == vehicle.ID)) = true := by
      rw [hfault]
      simpa using ⟨vehicle, hv, rfl⟩
    refine ⟨Vehicle.applyUpdate now { vehicle with Status := VehicleStatus.VehicleEnRuta }
      vehicle, ?_, ?_⟩
    · unfold VehicleRepository.FindByID
      rw [hvehicles, if_pos c1, VehicleRepository.find_map_vehicle_update]
      have hfind3 : (s.withFaults f).vehicles.find? (fun v => v.ID == vehicle.ID) =
          some vehicle := by
        rw [hvid]; exact hfind
      rw [hfind3]
      rfl
    · simp [Vehicle.applyUpdate]
  · intro hfault
    have c2 : (!f.driverUpdate &&
        (s.withFaults f).drivers.any (fun d => d.ID == driver.ID)) = true := by
      rw [hfault]
      simpa using ⟨driver, hd, rfl⟩
    refine ⟨Driver.applyUpdate now { driver with Status := DriverStatus.DriverEnRuta }
      driver, ?_, ?_⟩
    · unfold DriverRepository.FindByID
      rw [hdrivers, if_pos c2, DriverRepository.find_map_driver_update]
      have hfind3 : (s.withFaults f).drivers.find? (fun d => d.ID == driver.ID) =
          some driver := by
        rw [hdid]; exact hfind2
      rw [hfind3]
      rfl
    · simp [Driver.applyUpdate]
  · intro hfault
    have c3 : (!f.orderUpdate &&
        (s.withFaults f).orders.any (fun o => o.ID == order.ID && o.DeletedAt.isNone)) =
        true := by
      rw [hfault]
      simpa using ⟨order, ho, rfl, hlive⟩
    refine ⟨Order.applyUpdate now { order with Status := OrderStatus.OrderEnRuta }
      order, ?_, ?_⟩
    · unfold OrderRepository.FindByID
      rw [horders, if_pos c3, OrderRepository.find_map_placed_update]
      have hfind3 : (s.withFaults f).orders.find?
          (fun o => o.ID == input.OrderID && o.DeletedAt.isNone) = some order := hfindOrder
      rw [hfind3]
      rfl
    · simp [Order.applyUpdate, hlive]

/-- C22, amended, at a concrete fleet where the update of drivers fails: the request for
order 20 returns the output of the run without failures, leaves the table of drivers as
it was, and vehicle 1 reads back as EN_RUTA. -/
theorem AssignRouteUseCase.Execute_write_failures_witness :
    ((AssignRouteUseCase.Execute textOrder 100 "RTA-1"
        (fleetStore.withFaults { driverUpdate := true }) (routeInput 20 none none)).2 =
      (AssignRouteUseCase.Execute textOrder 100 "RTA-1" fleetStore
        (routeInput 20 none none)).2) ∧
    (AssignRouteUseCase.Execute textOrder 100 "RTA-1"
        (fleetStore.withFaults { driverUpdate := true }) (routeInput 20 none none)).1.drivers =
      fleetStore.drivers ∧
    (VehicleRepository.FindByID (AssignRouteUseCase.Execute textOrder 100 "RTA-1"
        (fleetStore.withFaults { driverUpdate := true }) (routeInput 20 none none)).1 1).map
      (·.Status) = some VehicleStatus.VehicleEnRuta :=
  ⟨(AssignRouteUseCase.Execute_write_failures textOrder 100 "RTA-1" fleetStore
      { driverUpdate := true } (routeInput 20 none none)).1,
    ((AssignRouteUseCase.Execute_write_failures textOrder 100 "RTA-1" fleetStore
      { driverUpdate := true } (routeInput 20 none none)).2
      (AssignRouteUseCase.commit 100 "RTA-1" fleetStore (routeInput 20 none none)
        (placedOrderRow 20 (some VehicleType.VehicleTorton))
        (vehicleRow 1 VehicleType.VehicleTorton VehicleStatus.VehicleDisponible true)
        (driverRow 1 DriverStatus.DriverDisponible true 1000) true).2
      (by rfl)).2.2.1 rfl,
    by decide⟩

/-! ## Route assignment: vehicles and drivers on a route -/

theorem DriverRepository.mem_available_drivers {s : Store} {d : Driver} :
    d ∈ DriverRepository.ListAvailable s ↔
      d ∈ s.drivers ∧ (d.Status == DriverStatus.DriverDisponible && d.IsActive) = true := by
  unfold DriverRepository.ListAvailable
  rw [(List.perm_insertionSort _ _).mem_iff, List.mem_filter]

theorem AssignRouteUseCase.matchVehicle_mem {suggested : Option VehicleType}
    {vehicles : List Vehicle} {selected : Vehicle}
    (h : AssignRouteUseCase.matchVehicle suggested vehicles = some selected) :
    selected ∈ vehicles := by
  obtain ⟨_, before, after, _, hsplit, _, _⟩ := AssignRouteUseCase.matchVehicle_some h
  rw [hsplit]
  simp

theorem AssignRouteUseCase.selectVehicle_mem {order : Order} {vehicles : List Vehicle}
    {selected : Vehicle}
    (h : AssignRouteUseCase.selectVehicle order vehicles = some selected) :
    selected ∈ vehicles := by
  unfold AssignRouteUseCase.selectVehicle at h
  cases hmatch : AssignRouteUseCase.matchVehicle order.SuggestedVehicle vehicles with
  | some v =>
    rw [hmatch] at h
    cases h
    exact AssignRouteUseCase.matchVehicle_mem hmatch
  | none =>
    rw [hmatch] at h
    exact List.mem_of_mem_head? h

/-- The vehicle an automatic choice settles on is an available row of the table. -/
theorem AssignRouteUseCase.vehicleChoice_auto {typeOrder : VehicleType → Nat} {s : Store}
    {order : Order} {input : AssignRouteInput} {vehicleID : UUID} {autoVehicle : Bool}
    (homitted : input.VehicleID = none)
    (h : AssignRouteUseCase.vehicleChoice typeOrder s order input =
      .ok (vehicleID, autoVehicle)) :
    ∃ selected ∈ s.vehicles, selected.ID = vehicleID ∧
      selected.IsAvailableForRoute = true := by
  unfold AssignRouteUseCase.vehicleChoice at h
  rw [homitted] at h
  cases hselect : AssignRouteUseCase.selectVehicle order
      (VehicleRepository.ListAvailable typeOrder s) with
  | none => simp only [hselect] at h; cases h
  | some selected =>
    simp only [hselect] at h
    cases h
    have hmem := VehicleRepository.mem_ListAvailable.mp
      (AssignRouteUseCase.selectVehicle_mem hselect)
    exact ⟨selected, hmem.1, rfl, hmem.2⟩

/-- The driver an automatic choice settles on is a row of the table with status
DISPONIBLE. -/
theorem AssignRouteUseCase.driverChoice_auto {s : Store} {input : AssignRouteInput}
    {driverID : UUID} {autoDriver : Bool}
    (homitted : input.DriverID = none)
    (h : AssignRouteUseCase.driverChoice s input = .ok (driverID, autoDriver)) :
    ∃ selected ∈ s.drivers, selected.ID = driverID ∧
      selected.Status = DriverStatus.DriverDisponible := by
  unfold AssignRouteUseCase.driverChoice at h
  rw [homitted] at h
  cases hlist : DriverRepository.ListAvailable s with
  | nil => simp only [hlist] at h; cases h
  | cons first rest =>
    simp only [hlist] at h
    cases h
    have hmem : first ∈ DriverRepository.ListAvailable s := by
      rw [hlist]; exact List.mem_cons_self _ _
    have hrow := DriverRepository.mem_available_drivers.mp hmem
    refine ⟨first, hrow.1, rfl, ?_⟩
    have := hrow.2
    simp only [Bool.and_eq_true, beq_iff_eq] at this
    exact this.1

theorem VehicleBusy_map (now : Int) (vehicle : Vehicle) (vehicleID : UUID)
    (rows : List Vehicle)
    (h : ∀ v ∈ rows, v.ID = vehicleID → v.IsAvailableForRoute = false) :
    ∀ v ∈ rows.map (Vehicle.applyUpdate now
        { vehicle with Status := VehicleStatus.VehicleEnRuta }),
      v.ID = vehicleID → v.IsAvailableForRoute = false := by
  intro v hv hid
  obtain ⟨row, hrow, rfl⟩ := List.mem_map.mp hv
  rw [Vehicle.vehicle_applyUpdate_ID] at hid
  unfold Vehicle.applyUpdate
  split
  · rfl
  · exact h row hrow hid

theorem DriverBusy_map (now : Int) (driver : Driver) (driverID : UUID)
    (rows : List Driver)
    (h : ∀ d ∈ rows, d.ID = driverID → d.Status ≠ DriverStatus.DriverDisponible) :
    ∀ d ∈ rows.map (Driver.applyUpdate now
        { driver with Status := DriverStatus.DriverEnRuta }),
      d.ID = driverID → d.Status ≠ DriverStatus.DriverDisponible := by
  intro d hd hid
  obtain ⟨row, hrow, rfl⟩ := List.mem_map.mp hd
  rw [Driver.driver_applyUpdate_ID] at hid
  unfold Driver.applyUpdate
  split
  · intro hstatus
    cases hstatus
  · exact h row hrow hid

/-- The tables of vehicles, drivers and routes after any AssignRoute call: a failed call
leaves the store as it was, a successful one appends its route and rewrites the vehicles
and the drivers with a status EN_RUTA, or leaves them when the update failed. -/
theorem AssignRouteUseCase.Execute_fleet_tables (typeOrder : VehicleType → Nat) (now : Int)
    (routeNumber : String) (s : Store) (input : AssignRouteInput) :
    ((AssignRouteUseCase.Execute typeOrder now routeNumber s input).1 = s ∧
      ∃ e, (AssignRouteUseCase.Execute typeOrder now routeNumber s input).2 = .error e) ∨
    ∃ (out : AssignRouteOutput) (vehicle : Vehicle) (driver : Driver),
      (AssignRouteUseCase.Execute typeOrder now routeNumber s input).2 = .ok out ∧
      (AssignRouteUseCase.Execute typeOrder now routeNumber s input).1.routes =
        s.routes ++ [out.Route] ∧
      ((AssignRouteUseCase.Execute typeOrder now routeNumber s input).1.vehicles =
          s.vehicles ∨
        (AssignRouteUseCase.Execute typeOrder now routeNumber s input).1.vehicles =
          s.vehicles.map (Vehicle.applyUpdate now
            { vehicle with Status := VehicleStatus.VehicleEnRuta })) ∧
      ((AssignRouteUseCase.Execute typeOrder now routeNumber s input).1.drivers =
          s.drivers ∨
        (AssignRouteUseCase.Execute typeOrder now routeNumber s input).1.drivers =
          s.drivers.map (Driver.applyUpdate now
            { driver with Status := DriverStatus.DriverEnRuta })) ∧
      (AssignRouteUseCase.Execute typeOrder now routeNumber s input).1.faults = s.faults := by
  cases hresult : (AssignRouteUseCase.Execute typeOrder now routeNumber s input).2 with
  | error e =>
    left
    rw [AssignRouteUseCase.Execute_error_keeps_store typeOrder now routeNumber s input e
      hresult]
    exact ⟨rfl, e, rfl⟩
  | ok out =>
    right
    obtain ⟨order, vehicle, autoVehicle, driver, autoDriver, _, _, _, _, _, _, _, _, _, hexec,
      hout⟩ := AssignRouteUseCase.Execute_ok_commit typeOrder now routeNumber s input out
        hresult
    obtain ⟨hroute, hroutes, hvehicles, hdrivers, _, hfaults⟩ :=
      AssignRouteUseCase.commit_tables now routeNumber s input order vehicle driver
        (autoVehicle || autoDriver)
    refine ⟨out, vehicle, driver, rfl, ?_, ?_, ?_, ?_⟩
    · rw [hexec, hroutes, hout, hroute]
    · rw [hexec, hvehicles]
      split
      · exact Or.inr rfl
      · exact Or.inl rfl
    · rw [hexec, hdrivers]
      split
      · exact Or.inr rfl
      · exact Or.inl rfl
    · rw [hexec, hfaults]

/-- A vehicle that is not available stays so through any AssignRoute call, and so does a
driver whose status is not DISPONIBLE. -/
theorem AssignRouteUseCase.Execute_keeps_busy (typeOrder : VehicleType → Nat) (now : Int)
    (routeNumber : String) (s : Store) (input : AssignRouteInput) (vehicleID driverID : UUID)
    (hv : VehicleBusy s vehicleID) (hd : DriverBusy s driverID) :
    VehicleBusy (AssignRouteUseCase.Execute typeOrder now routeNumber s input).1 vehicleID ∧
    DriverBusy (AssignRouteUseCase.Execute typeOrder now routeNumber s input).1 driverID := by
  rcases AssignRouteUseCase.Execute_fleet_tables typeOrder now routeNumber s input with
    ⟨hsame, _⟩ | ⟨out, vehicle, driver, _, _, hvehicles, hdrivers, _⟩
  · rw [hsame]
    exact ⟨hv, hd⟩
  · constructor
    · unfold VehicleBusy
      rcases hvehicles with h | h
      · rw [h]; exact hv
      · rw [h]; exact VehicleBusy_map now vehicle vehicleID s.vehicles hv
    · unfold DriverBusy
      rcases hdrivers with h | h
      · rw [h]; exact hd
      · rw [h]; exact DriverBusy_map now driver driverID s.drivers hd

theorem AssignRouteUseCase.run_keeps_busy (typeOrder : VehicleType → Nat)
    (vehicleID driverID : UUID) (calls : List (Int × String × AssignRouteInput)) :
    ∀ s : Store, VehicleBusy s vehicleID → DriverBusy s driverID →
      VehicleBusy (AssignRouteUseCase.run typeOrder s calls) vehicleID ∧
      DriverBusy (AssignRouteUseCase.run typeOrder s calls) driverID := by
  induction calls with
  | nil => intro s hv hd; exact ⟨hv, hd⟩
  | cons call rest ih =>
    intro s hv hd
    obtain ⟨hv1, hd1⟩ := AssignRouteUseCase.Execute_keeps_busy typeOrder call.1 call.2.1 s
      call.2.2 vehicleID driverID hv hd
    exact ih _ hv1 hd1

/-- A successful AssignRoute uses neither a vehicle that is not available nor a driver
whose status is not DISPONIBLE. -/
theorem AssignRouteUseCase.Execute_avoids_busy (typeOrder : VehicleType → Nat) (now : Int)
    (routeNumber : String) (s : Store) (input : AssignRouteInput) (vehicleID driverID : UUID)
    (out : AssignRouteOutput)
    (hv : VehicleBusy s vehicleID) (hd : DriverBusy s driverID)
    (hok : (AssignRouteUseCase.Execute typeOrder now routeNumber s input).2 = .ok out) :
    out.Route.VehicleID ≠ vehicleID ∧ out.Route.DriverID ≠ driverID ∧
    input.VehicleID ≠ some vehicleID ∧ input.DriverID ≠ some driverID := by
  obtain ⟨order, vehicle, autoVehicle, driver, autoDriver, chosenVehicle, chosenDriver, _,
    hchoice, hfind, havailable, hchoice2, hfind2, havailable2, _, hout⟩ :=
    AssignRouteUseCase.Execute_ok_commit typeOrder now routeNumber s input out hok
  have h1 : out.Route.VehicleID = vehicle.ID := by rw [hout]; rfl
  have h2 : out.Route.DriverID = driver.ID := by rw [hout]; rfl
  have hvne : vehicle.ID ≠ vehicleID := by
    intro hid
    have := hv vehicle (VehicleRepository.vehicle_found_mem hfind) hid
    rw [this] at havailable
    cases havailable
  have hdne : driver.ID ≠ driverID := by
    intro hid
    have hbusy := hd driver (DriverRepository.driver_found_mem hfind2) hid
    simp only [Driver.IsAvailableForRoute, Bool.and_eq_true, beq_iff_eq] at havailable2
    exact hbusy havailable2.1.1
  refine ⟨by rw [h1]; exact hvne, by rw [h2]; exact hdne, ?_, ?_⟩
  · intro hnamed
    simp only [AssignRouteUseCase.vehicleChoice, hnamed] at hchoice
    cases hchoice
    exact hvne (VehicleRepository.vehicle_found_ID hfind)
  · intro hnamed
    simp only [AssignRouteUseCase.driverChoice, hnamed] at hchoice2
    cases hchoice2
    exact hdne (DriverRepository.driver_found_ID hfind2)

/-- The routes a sequence of AssignRoute calls appends use neither a vehicle that is not
available at the start nor a driver whose status is not DISPONIBLE at the start. -/
theorem AssignRouteUseCase.run_routes_avoid_busy (typeOrder : VehicleType → Nat)
    (vehicleID driverID : UUID) (calls : List (Int × String × AssignRouteInput)) :
    ∀ s : Store, VehicleBusy s vehicleID → DriverBusy s driverID →
      ∃ created, (AssignRouteUseCase.run typeOrder s calls).routes = s.routes ++ created ∧
        ∀ r ∈ created, r.VehicleID ≠ vehicleID ∧ r.DriverID ≠ driverID := by
  induction calls with
  | nil =>
    intro s _ _
    exact ⟨[], by simp [AssignRouteUseCase.run], by simp⟩
  | cons call rest ih =>
    intro s hv hd
    obtain ⟨hv1, hd1⟩ := AssignRouteUseCase.Execute_keeps_busy typeOrder call.1 call.2.1 s
      call.2.2 vehicleID driverID hv hd
    obtain ⟨created, hroutes, hcreated⟩ := ih _ hv1 hd1
    rcases AssignRouteUseCase.Execute_fleet_tables typeOrder call.1 call.2.1 s call.2.2 with
      ⟨hsame, _⟩ | ⟨out, _, _, hok, hone, _, _, _⟩
    · refine ⟨created, ?_, hcreated⟩
      show (AssignRouteUseCase.run typeOrder _ rest).routes = _
      rw [hroutes, hsame]
    · obtain ⟨hne1, hne2, _, _⟩ := AssignRouteUseCase.Execute_avoids_busy typeOrder call.1
        call.2.1 s call.2.2 vehicleID driverID out hv hd hok
      refine ⟨out.Route :: created, ?_, ?_⟩
      · show (AssignRouteUseCase.run typeOrder _ rest).routes = _
        rw [hroutes, hone]
        simp
      · intro r hr
        rcases List.mem_cons.mp hr with rfl | hr
        · exact ⟨hne1, hne2⟩
        · exact hcreated r hr

/-- After a successful AssignRoute whose updates of the vehicle and of the driver are not
failing, every row of the vehicle and of the driver of its route is EN_RUTA. -/
theorem AssignRouteUseCase.Execute_makes_busy (typeOrder : VehicleType → Nat) (now : Int)
    (routeNumber : String) (s : Store) (input : AssignRouteInput) (out : AssignRouteOutput)
    (hvehicle : s.faults.vehicleUpdate = false) (hdriver : s.faults.driverUpdate = false)
    (hok : (AssignRouteUseCase.Execute typeOrder now routeNumber s input).2 = .ok out) :
    VehicleBusy (AssignRouteUseCase.Execute typeOrder now routeNumber s input).1
      out.Route.VehicleID ∧
    DriverBusy (AssignRouteUseCase.Execute typeOrder now routeNumber s input).1
      out.Route.DriverID := by
  obtain ⟨order, vehicle, autoVehicle, driver, autoDriver, _, _, _, _, hfind, _, _, hfind2,
    _, hexec, hout⟩ :=
    AssignRouteUseCase.Execute_ok_commit typeOrder now routeNumber s input out hok
  obtain ⟨_, _, hvehicles, hdrivers, _, _⟩ :=
    AssignRouteUseCase.commit_tables now routeNumber s input order vehicle driver
      (autoVehicle || autoDriver)
  have c1 : (!s.faults.vehicleUpdate &&
      s.vehicles.any (fun v => v.ID == vehicle.ID)) = true := by
    rw [hvehicle]
    simpa using ⟨vehicle, VehicleRepository.vehicle_found_mem hfind, rfl⟩
  have c2 : (!s.faults.driverUpdate &&
      s.drivers.any (fun d => d.ID == driver.ID)) = true := by
    rw [hdriver]
    simpa using ⟨driver, DriverRepository.driver_found_mem hfind2, rfl⟩
  rw [if_pos c1] at hvehicles
  rw [if_pos c2] at hdrivers
  have h1 : out.Route.VehicleID = vehicle.ID := by rw [hout]; rfl
  have h2 : out.Route.DriverID = driver.ID := by rw [hout]; rfl
  rw [hexec, h1, h2]
  constructor
  · intro v hv hid
    change v ∈ (AssignRouteUseCase.commit now routeNumber s input order vehicle driver
      (autoVehicle || autoDriver)).1.vehicles at hv
    rw [hvehicles] at hv
    obtain ⟨row, _, rfl⟩ := List.mem_map.mp hv
    rw [Vehicle.vehicle_applyUpdate_ID] at hid
    simp [Vehicle.applyUpdate, hid, Vehicle.IsAvailableForRoute]
  · intro d hd hid
    change d ∈ (AssignRouteUseCase.commit now routeNumber s input order vehicle driver
      (autoVehicle || autoDriver)).1.drivers at hd
    rw [hdrivers] at hd
    obtain ⟨row, _, rfl⟩ := List.mem_map.mp hd
    rw [Driver.driver_applyUpdate_ID] at hid
    simp [Driver.applyUpdate, hid]

/-- C23: after a successful AssignRoute that selected the vehicle V and the driver D (its
updates of the vehicle and of the driver not failing), and after any further sequence of
AssignRoute calls, an AssignRoute that names V or D fails and leaves the store as it was,
an automatic choice settles neither on V nor on D, a successful AssignRoute uses another
vehicle and another driver, and none of the routes appended in between references V or
D. -/
theorem AssignRouteUseCase.Execute_no_double_booking (typeOrder : VehicleType → Nat)
    (now : Int) (routeNumber : String) (s : Store) (input : AssignRouteInput)
    (out : AssignRouteOutput)
    (hvehicle : s.faults.vehicleUpdate = false) (hdriver : s.faults.driverUpdate = false)
    (hok : (AssignRouteUseCase.Execute typeOrder now routeNumber s input).2 = .ok out)
    (calls : List (Int × String × AssignRouteInput)) (later : Int) (number : String)
    (again : AssignRouteInput) :
    (again.VehicleID = some out.Route.VehicleID ∨ again.DriverID = some out.Route.DriverID →
      ∃ e, AssignRouteUseCase.Execute typeOrder later number
          (AssignRouteUseCase.run typeOrder
            (AssignRouteUseCase.Execute typeOrder now routeNumber s input).1 calls) again =
        (AssignRouteUseCase.run typeOrder
            (AssignRouteUseCase.Execute typeOrder now routeNumber s input).1 calls,
          .error e)) ∧
    (∀ order vehicleID autoVehicle, again.VehicleID = none →
      AssignRouteUseCase.vehicleChoice typeOrder
          (AssignRouteUseCase.run typeOrder
            (AssignRouteUseCase.Execute typeOrder now routeNumber s input).1 calls)
          order again = .ok (vehicleID, autoVehicle) →
      vehicleID ≠ out.Route.VehicleID) ∧
    (∀ driverID autoDriver, again.DriverID = none →
      AssignRouteUseCase.driverChoice
          (AssignRouteUseCase.run typeOrder
            (AssignRouteUseCase.Execute typeOrder now routeNumber s input).1 calls)
          again = .ok (driverID, autoDriver) →
      driverID ≠ out.Route.DriverID) ∧
    (∀ out2,
      (AssignRouteUseCase.Execute typeOrder later number
          (AssignRouteUseCase.run typeOrder
            (AssignRouteUseCase.Execute typeOrder now routeNumber s input).1 calls)
          again).2 = .ok out2 →
      out2.Route.VehicleID ≠ out.Route.VehicleID ∧
      out2.Route.DriverID ≠ out.Route.DriverID) ∧
    ∃ created,
      (AssignRouteUseCase.run typeOrder
          (AssignRouteUseCase.Execute typeOrder now routeNumber s input).1 calls).routes =
        (AssignRouteUseCase.Execute typeOrder now routeNumber s input).1.routes ++ created ∧
      ∀ r ∈ created,
        r.VehicleID ≠ out.Route.VehicleID ∧ r.DriverID ≠ out.Route.DriverID := by
  obtain ⟨hv0, hd0⟩ := AssignRouteUseCase.Execute_makes_busy typeOrder now routeNumber s
    input out hvehicle hdriver hok
  obtain ⟨hv, hd⟩ := AssignRouteUseCase.run_keeps_busy typeOrder out.Route.VehicleID
    out.Route.DriverID calls _ hv0 hd0
  refine ⟨?_, ?_, ?_, ?_, ?_⟩
  · intro hnamed
    cases hresult : (AssignRouteUseCase.Execute typeOrder later number
        (AssignRouteUseCase.run typeOrder
          (AssignRouteUseCase.Execute typeOrder now routeNumber s input).1 calls)
        again).2 with
    | error e =>
      exact ⟨e, AssignRouteUseCase.Execute_error_keeps_store typeOrder later number _ again
        e hresult⟩
    | ok out2 =>
      obtain ⟨_, _, h3, h4⟩ := AssignRouteUseCase.Execute_avoids_busy typeOrder later number
        _ again out.Route.VehicleID out.Route.DriverID out2 hv hd hresult
      rcases hnamed with h | h
      · exact absurd h h3
      · exact absurd h h4
  · intro order vehicleID autoVehicle homitted hchoice
    obtain ⟨selected, hmem, hid, havailable⟩ :=
      AssignRouteUseCase.vehicleChoice_auto homitted hchoice
    intro heq
    have := hv selected hmem (hid.trans heq)
    rw [this] at havailable
    cases havailable
  · intro driverID autoDriver homitted hchoice
    obtain ⟨selected, hmem, hid, hstatus⟩ :=
      AssignRouteUseCase.driverChoice_auto homitted hchoice
    intro heq
    exact hd selected hmem (hid.trans heq) hstatus
  · intro out2 hok2
    obtain ⟨h1, h2, _, _⟩ := AssignRouteUseCase.Execute_avoids_busy typeOrder later number
      _ again out.Route.VehicleID out.Route.DriverID out2 hv hd hok2
    exact ⟨h1, h2⟩
  · exact AssignRouteUseCase.run_routes_avoid_busy typeOrder out.Route.VehicleID
      out.Route.DriverID calls _ hv0 hd0

/-- C23 at a concrete fleet with two available tortons and two available drivers: the
first request for order 20 gets vehicle 1 and driver 1; after a second request, which
gets vehicle 3 and driver 2, a request that names vehicle 1 fails with
ErrVehicleNotAvailable and the two routes use different vehicles and drivers. -/
theorem AssignRouteUseCase.Execute_no_double_booking_witness :
    (∃ e, AssignRouteUseCase.Execute textOrder 102 "RTA-3"
        (AssignRouteUseCase.run textOrder
          (AssignRouteUseCase.Execute textOrder 100 "RTA-1" twoDriverFleetStore
            (routeInput 20 none none)).1 [(101, "RTA-2", routeInput 20 none none)])
        (routeInput 20 (some 1) none) =
      (AssignRouteUseCase.run textOrder
          (AssignRouteUseCase.Execute textOrder 100 "RTA-1" twoDriverFleetStore
            (routeInput 20 none none)).1 [(101, "RTA-2", routeInput 20 none none)],
        .error e)) ∧
    AssignRouteUseCase.failure (AssignRouteUseCase.Execute textOrder 102 "RTA-3"
        (AssignRouteUseCase.run textOrder
          (AssignRouteUseCase.Execute textOrder 100 "RTA-1" twoDriverFleetStore
            (routeInput 20 none none)).1 [(101, "RTA-2", routeInput 20 none none)])
        (routeInput 20 (some 1) none)) = some ErrVehicleNotAvailable ∧
    (AssignRouteUseCase.run textOrder
        (AssignRouteUseCase.Execute textOrder 100 "RTA-1" twoDriverFleetStore
          (routeInput 20 none none)).1
        [(101, "RTA-2", routeInput 20 none none)]).routes.map
      (fun r => (r.ID, r.VehicleID, r.DriverID)) = [(1, 1, 1), (2, 3, 2)] :=
  ⟨(AssignRouteUseCase.Execute_no_double_booking textOrder 100 "RTA-1" twoDriverFleetStore
      (routeInput 20 none none)
      (AssignRouteUseCase.commit 100 "RTA-1" twoDriverFleetStore (routeInput 20 none none)
        (placedOrderRow 20 (some VehicleType.VehicleTorton))
        (vehicleRow 1 VehicleType.VehicleTorton VehicleStatus.VehicleDisponible true)
        (driverRow 1 DriverStatus.DriverDisponible true 1000) true).2
      (by decide) (by decide) (by rfl) [(101, "RTA-2", routeInput 20 none none)] 102 "RTA-3"
      (routeInput 20 (some 1) none)).1 (Or.inl rfl),
    by decide, by decide⟩

/-! ## Route assignment: several routes for one order -/

/-- After a successful AssignRoute whose update of the order is not failing, the order
reads back as EN_RUTA. -/
theorem AssignRouteUseCase.Execute_order_on_route (typeOrder : VehicleType → Nat)
    (now : Int) (routeNumber : String) (s : Store) (input : AssignRouteInput)
    (out : AssignRouteOutput) (horder : s.faults.orderUpdate = false)
    (hok : (AssignRouteUseCase.Execute typeOrder now routeNumber s input).2 = .ok out) :
    ∃ o, OrderRepository.FindByID
        (AssignRouteUseCase.Execute typeOrder now routeNumber s input).1 input.OrderID =
        some o ∧ o.Status = OrderStatus.OrderEnRuta := by
  obtain ⟨order, vehicle, autoVehicle, driver, autoDriver, _, _, hfindOrder, _, _, _, _, _,
    _, hexec, _⟩ :=
    AssignRouteUseCase.Execute_ok_commit typeOrder now routeNumber s input out hok
  obtain ⟨ho, hoid, hlive⟩ := OrderRepository.placed_found hfindOrder
  obtain ⟨_, _, _, _, horders, _⟩ :=
    AssignRouteUseCase.commit_tables now routeNumber s input order vehicle driver
      (autoVehicle || autoDriver)
  have c3 : (!s.faults.orderUpdate &&
      s.orders.any (fun o => o.ID == order.ID && o.DeletedAt.isNone)) = true := by
    rw [horder]
    simpa using ⟨order, ho, rfl, hlive⟩
  rw [if_pos c3] at horders
  rw [hexec]
  refine ⟨Order.applyUpdate now { order with Status := OrderStatus.OrderEnRuta } order,
    ?_, ?_⟩
  · unfold OrderRepository.FindByID
    rw [horders, OrderRepository.find_map_placed_update]
    have hfind3 : s.orders.find? (fun o => o.ID == input.OrderID && o.DeletedAt.isNone) =
        some order := hfindOrder
    rw [hfind3]
    rfl
  · simp [Order.applyUpdate, hlive]

/-- C29, the part that fails: on a fleet with two available tortons and two available
drivers the request for order 20 succeeds and order 20 is EN_RUTA; the same request made
again succeeds too, and two routes reference order 20. -/
theorem AssignRouteUseCase.Execute_second_route :
    AssignRouteUseCase.failure (AssignRouteUseCase.Execute textOrder 100 "RTA-1"
      twoDriverFleetStore (routeInput 20 none none)) = none ∧
    (OrderRepository.FindByID (AssignRouteUseCase.Execute textOrder 100 "RTA-1"
      twoDriverFleetStore (routeInput 20 none none)).1 20).map (·.Status) =
      some OrderStatus.OrderEnRuta ∧
    (AssignRouteUseCase.Execute textOrder 100 "RTA-1" twoDriverFleetStore
      (routeInput 20 none none)).1.routes.map
      (fun r => (r.ID, r.OrderID, r.VehicleID, r.DriverID)) = [(1, 20, 1, 1)] ∧
    AssignRouteUseCase.failure (AssignRouteUseCase.Execute textOrder 101 "RTA-2"
      (AssignRouteUseCase.Execute textOrder 100 "RTA-1" twoDriverFleetStore
        (routeInput 20 none none)).1 (routeInput 20 none none)) = none ∧
    (AssignRouteUseCase.Execute textOrder 101 "RTA-2"
      (AssignRouteUseCase.Execute textOrder 100 "RTA-1" twoDriverFleetStore
        (routeInput 20 none none)).1 (routeInput 20 none none)).1.routes.map
      (fun r => (r.ID, r.OrderID, r.VehicleID, r.DriverID)) =
      [(1, 20, 1, 1), (2, 20, 3, 2)] := by
  decide

/-- C29, amended: once AssignRoute has succeeded for an order (its three status updates
not failing), the order reads back as EN_RUTA and a later AssignRoute for the same order
is decided by the vehicle and the driver alone: when a vehicle and a driver pass their
checks it succeeds and appends a second route for the order, on another vehicle and
another driver than the first; when the vehicle step or the driver step fails, the call
fails and appends no route. -/
theorem AssignRouteUseCase.Execute_same_order_again (typeOrder : VehicleType → Nat)
    (now : Int) (routeNumber : String) (s : Store) (input : AssignRouteInput)
    (out : AssignRouteOutput)
    (hvehicle : s.faults.vehicleUpdate = false) (hdriver : s.faults.driverUpdate = false)
    (horder : s.faults.orderUpdate = false)
    (hok : (AssignRouteUseCase.Execute typeOrder now routeNumber s input).2 = .ok out) :
    ∃ order2,
      OrderRepository.FindByID
        (AssignRouteUseCase.Execute typeOrder now routeNumber s input).1 input.OrderID =
        some order2 ∧
      order2.Status = OrderStatus.OrderEnRuta ∧
      ∀ (later : Int) (number : String) (again : AssignRouteInput),
        again.OrderID = input.OrderID →
        (∀ vehicle autoVehicle driver autoDriver,
          AssignRouteUseCase.chooseVehicle typeOrder
            (AssignRouteUseCase.Execute typeOrder now routeNumber s input).1 order2 again =
            .ok (vehicle, autoVehicle) →
          AssignRouteUseCase.chooseDriver later
            (AssignRouteUseCase.Execute typeOrder now routeNumber s input).1 again =
            .ok (driver, autoDriver) →
          ∃ out2,
            (AssignRouteUseCase.Execute typeOrder later number
              (AssignRouteUseCase.Execute typeOrder now routeNumber s input).1 again).2 =
              .ok out2 ∧
            (AssignRouteUseCase.Execute typeOrder later number
              (AssignRouteUseCase.Execute typeOrder now routeNumber s input).1
              again).1.routes = s.routes ++ [out.Route, out2.Route] ∧
            out.Route.OrderID = input.OrderID ∧
            out2.Route.OrderID = input.OrderID ∧
            out2.Route.VehicleID ≠ out.Route.VehicleID ∧
            out2.Route.DriverID ≠ out.Route.DriverID) ∧
        ((∃ e, AssignRouteUseCase.chooseVehicle typeOrder
            (AssignRouteUseCase.Execute typeOrder now routeNumber s input).1 order2 again =
            .error e) ∨
          (∃ e, AssignRouteUseCase.chooseDriver later
            (AssignRouteUseCase.Execute typeOrder now routeNumber s input).1 again =
            .error e) →
          ∃ e, AssignRouteUseCase.Execute typeOrder later number
              (AssignRouteUseCase.Execute typeOrder now routeNumber s input).1 again =
            ((AssignRouteUseCase.Execute typeOrder now routeNumber s input).1,
              .error e)) := by
  obtain ⟨order2, hfind2, hstatus⟩ := AssignRouteUseCase.Execute_order_on_route typeOrder
    now routeNumber s input out horder hok
  obtain ⟨hv0, hd0⟩ := AssignRouteUseCase.Execute_makes_busy typeOrder now routeNumber s
    input out hvehicle hdriver hok
  have hfirst : (AssignRouteUseCase.Execute typeOrder now routeNumber s input).1.routes =
      s.routes ++ [out.Route] ∧ out.Route.OrderID = input.OrderID := by
    obtain ⟨order, vehicle, autoVehicle, driver, autoDriver, _, _, _, _, _, _, _, _, _,
      hexec, hout⟩ :=
      AssignRouteUseCase.Execute_ok_commit typeOrder now routeNumber s input out hok
    obtain ⟨hroute, hroutes, _, _, _, _⟩ :=
      AssignRouteUseCase.commit_tables now routeNumber s input order vehicle driver
        (autoVehicle || autoDriver)
    constructor
    · rw [hexec, hroutes, hout, hroute]
    · rw [hout]; rfl
  refine ⟨order2, hfind2, hstatus, ?_⟩
  intro later number again hsame
  have hfindAgain : OrderRepository.FindByID
      (AssignRouteUseCase.Execute typeOrder now routeNumber s input).1 again.OrderID =
      some order2 := by rw [hsame]; exact hfind2
  constructor
  · intro vehicle autoVehicle driver autoDriver hchooseV hchooseD
    have hexec2 := AssignRouteUseCase.Execute_committed typeOrder later number _ again order2
      vehicle autoVehicle driver autoDriver hfindAgain hchooseV hchooseD
    obtain ⟨hroute2, hroutes2, _, _, _, _⟩ :=
      AssignRouteUseCase.commit_tables later number
        (AssignRouteUseCase.Execute typeOrder now routeNumber s input).1 again order2 vehicle
        driver (autoVehicle || autoDriver)
    have hok2 : (AssignRouteUseCase.Execute typeOrder later number
        (AssignRouteUseCase.Execute typeOrder now routeNumber s input).1 again).2 =
        .ok (AssignRouteUseCase.commit later number
          (AssignRouteUseCase.Execute typeOrder now routeNumber s input).1 again order2
          vehicle driver (autoVehicle || autoDriver)).2 := by rw [hexec2]
    obtain ⟨hne1, hne2, _, _⟩ := AssignRouteUseCase.Execute_avoids_busy typeOrder later number
      _ again out.Route.VehicleID out.Route.DriverID _ hv0 hd0 hok2
    refine ⟨_, hok2, ?_, hfirst.2, ?_, hne1, hne2⟩
    · rw [hexec2, hroutes2, hroute2, hfirst.1]
      simp
    · rw [← hsame]; rfl
  · intro hfails
    rcases hfails with ⟨e, he⟩ | ⟨e, he⟩
    · exact ⟨e, AssignRouteUseCase.Execute_vehicle_error typeOrder later number _ again order2
        e hfindAgain he⟩
    · cases hchooseV : AssignRouteUseCase.chooseVehicle typeOrder
          (AssignRouteUseCase.Execute typeOrder now routeNumber s input).1 order2 again with
      | error e1 =>
        exact ⟨e1, AssignRouteUseCase.Execute_vehicle_error typeOrder later number _ again
          order2 e1 hfindAgain hchooseV⟩
      | ok chosen =>
        obtain ⟨vehicle, autoVehicle⟩ := chosen
        exact ⟨e, AssignRouteUseCase.Execute_driver_error typeOrder later number _ again
          order2 vehicle autoVehicle e hfindAgain hchooseV he⟩

/-- C29, amended, at the fleet with two available tortons and two available drivers: the
second request for order 20 appends a second route for it, on vehicle 3 and driver 2. -/
theorem AssignRouteUseCase.Execute_same_order_again_witness :
    (∃ order2,
      OrderRepository.FindByID (AssignRouteUseCase.Execute textOrder 100 "RTA-1"
        twoDriverFleetStore (routeInput 20 none none)).1 20 = some order2 ∧
      order2.Status = OrderStatus.OrderEnRuta) ∧
    (AssignRouteUseCase.Execute textOrder 101 "RTA-2"
      (AssignRouteUseCase.Execute textOrder 100 "RTA-1" twoDriverFleetStore
        (routeInput 20 none none)).1 (routeInput 20 none none)).1.routes.map
      (fun r => (r.ID, r.OrderID, r.VehicleID, r.DriverID)) =
      [(1, 20, 1, 1), (2, 20, 3, 2)] :=
  ⟨(AssignRouteUseCase.Execute_same_order_again textOrder 100 "RTA-1" twoDriverFleetStore
      (routeInput 20 none none)
      (AssignRouteUseCase.commit 100 "RTA-1" twoDriverFleetStore (routeInput 20 none none)
        (placedOrderRow 20 (some VehicleType.VehicleTorton))
        (vehicleRow 1 VehicleType.VehicleTorton VehicleStatus.VehicleDisponible true)
        (driverRow 1 DriverStatus.DriverDisponible true 1000) true).2
      (by decide) (by decide) (by decide) (by rfl)).imp (fun _ h => ⟨h.1, h.2.1⟩),
    by decide⟩

/-! ## Pre-departure check -/

/-- C24: for an existing route, PerformPreDepartureCheck returns without error exactly
when the fuel level is at least 25, the tire condition is not "MALO" and the lights are
in order; it then appends one checklist, built from the input and the driver of the
route, and otherwise it leaves the store as it was.  A fuel level of 24 is refused, and a
fuel level of 25 with tires that are not "MALO" and lights in order is accepted. -/
theorem PerformPreDepartureCheckUseCase.Execute_gate (now : Int) (s : Store)
    (input : PerformCheckInput) (route : Route)
    (hroute : RouteRepository.FindByID s input.RouteID = some route) :
    ((PerformPreDepartureCheckUseCase.Execute now s input).2 = none ↔
      (25 ≤ input.FuelLevel ∧ input.TireCondition ≠ "MALO" ∧ input.LightsOk = true)) ∧
    ((PerformPreDepartureCheckUseCase.Execute now s input).2 = none →
      (PerformPreDepartureCheckUseCase.Execute now s input).1.checklists =
        s.checklists ++ [(PreDepartureChecklistRepository.Create s
          (PerformPreDepartureCheckUseCase.checklist now input route)).2]) ∧
    ((PerformPreDepartureCheckUseCase.Execute now s input).2 ≠ none →
      (PerformPreDepartureCheckUseCase.Execute now s input).1 = s) ∧
    (input.FuelLevel = 24 →
      (PerformPreDepartureCheckUseCase.Execute now s input).2 ≠ none) ∧
    (input.FuelLevel = 25 → input.TireCondition ≠ "MALO" → input.LightsOk = true →
      (PerformPreDepartureCheckUseCase.Execute now s input).2 = none) := by
  have hpass : 25 ≤ input.FuelLevel → input.TireCondition ≠ "MALO" → input.LightsOk = true →
      PerformPreDepartureCheckUseCase.Execute now s input =
        (AuditRepository.Log (PreDepartureChecklistRepository.Create s
            (PerformPreDepartureCheckUseCase.checklist now input route)).1
          { UserID := some input.UserID
            Action := "PRE_DEPARTURE_CHECK"
            EntityType := "ROUTE"
            EntityID := some route.ID }, none) := by
    intro hfuel htires hlights
    have hfuel2 : ¬ input.FuelLevel < 25 := by omega
    simp only [PerformPreDepartureCheckUseCase.Execute, hroute, if_neg hfuel2, if_neg htires,
      hlights, Bool.not_true, Bool.false_eq_true, if_false]
  have hrefuse : ¬ (25 ≤ input.FuelLevel ∧ input.TireCondition ≠ "MALO" ∧
      input.LightsOk = true) →
      ∃ e, PerformPreDepartureCheckUseCase.Execute now s input = (s, some e) := by
    intro hnot
    by_cases hfuel : input.FuelLevel < 25
    · refine ⟨"nivel de combustible insuficiente (<25%). Cargar combustible antes de partir",
        ?_⟩
      simp only [PerformPreDepartureCheckUseCase.Execute, hroute, if_pos hfuel]
    · by_cases htires : input.TireCondition = "MALO"
      · refine ⟨"condición de llantas MALA. Cambiar llantas antes de partir",
          ?_⟩
        simp only [PerformPreDepartureCheckUseCase.Execute, hroute, if_neg hfuel,
          if_pos htires]
      · have hlights : input.LightsOk = false := by
          cases h : input.LightsOk with
          | false => rfl
          | true => exact absurd ⟨by omega, htires, h⟩ hnot
        refine ⟨"luces no funcionan correctamente. Reparar antes de partir",
          ?_⟩
        simp only [PerformPreDepartureCheckUseCase.Execute, hroute, if_neg hfuel,
          if_neg htires, hlights, Bool.not_false, if_true]
  have hiff : (PerformPreDepartureCheckUseCase.Execute now s input).2 = none ↔
      (25 ≤ input.FuelLevel ∧ input.TireCondition ≠ "MALO" ∧ input.LightsOk = true) := by
    constructor
    · intro hnone
      by_contra hnot
      obtain ⟨e, he⟩ := hrefuse hnot
      rw [he] at hnone
      cases hnone
    · intro h
      rw [hpass h.1 h.2.1 h.2.2]
  refine ⟨hiff, ?_, ?_, ?_, ?_⟩
  · intro hnone
    obtain ⟨h1, h2, h3⟩ := hiff.mp hnone
    rw [hpass h1 h2 h3]
    rfl
  · intro hsome
    have hnot : ¬ (25 ≤ input.FuelLevel ∧ input.TireCondition ≠ "MALO" ∧
        input.LightsOk = true) := fun h => hsome (hiff.mpr h)
    obtain ⟨e, he⟩ := hrefuse hnot
    rw [he]
  · intro h24 hnone
    have := (hiff.mp hnone).1
    omega
  · intro h25 htires hlights
    exact hiff.mpr ⟨by omega, htires, hlights⟩

/-- C24 at a store holding route 1: the check with fuel level 24 is refused and leaves no
checklist, the check with fuel level 25, good tires and lights in order is accepted and
leaves one checklist; bad tires or failing lights are refused at any fuel level. -/
theorem PerformPreDepartureCheckUseCase.Execute_gate_witness :
    ((PerformPreDepartureCheckUseCase.Execute 5 routedStore (checkInput 24 "BUENO" true)).2 ≠
      none) ∧
    (PerformPreDepartureCheckUseCase.Execute 5 routedStore
      (checkInput 24 "BUENO" true)).1 = routedStore ∧
    (PerformPreDepartureCheckUseCase.Execute 5 routedStore (checkInput 25 "BUENO" true)).2 =
      none ∧
    (PerformPreDepartureCheckUseCase.Execute 5 routedStore
      (checkInput 25 "BUENO" true)).1.checklists.map
      (fun c => (c.ID, c.RouteID, c.DriverID, c.FuelLevel, c.TireCondition, c.LightsOk)) =
      [(1, 1, 1, 25, "BUENO", true)] ∧
    (PerformPreDepartureCheckUseCase.Execute 5 routedStore (checkInput 100 "MALO" true)) =
      (routedStore, some "condición de llantas MALA. Cambiar llantas antes de partir") ∧
    (PerformPreDepartureCheckUseCase.Execute 5 routedStore (checkInput 100 "REGULAR" false)) =
      (routedStore, some "luces no funcionan correctamente. Reparar antes de partir") :=
  ⟨(PerformPreDepartureCheckUseCase.Execute_gate 5 routedStore (checkInput 24 "BUENO" true)
      (routeRow 1) (by decide)).2.2.2.1 rfl,
    by decide,
    (PerformPreDepartureCheckUseCase.Execute_gate 5 routedStore (checkInput 25 "BUENO" true)
      (routeRow 1) (by decide)).2.2.2.2 rfl (by decide) rfl,
    by decide, by decide, by decide⟩

/-! ## Creation of reception orders -/

/-- The loop of step 5 succeeds exactly when every product is found, and then appends one
line per input line, in order. -/
theorem CreateReceptionOrderUseCase.buildLines_ok (s : Store) (order : ReceptionOrder) :
    ∀ (inputs : List ReceptionLineInput) (lines : List ReceptionLine),
      (∀ l ∈ inputs, (ProductRepository.FindByID s l.ProductID).isSome = true) →
      CreateReceptionOrderUseCase.buildLines s order lines inputs =
        .ok (lines ++ inputs.map (CreateReceptionOrderUseCase.line order))
  | [], lines, _ => by simp [CreateReceptionOrderUseCase.buildLines]
  | lineInput :: rest, lines, h => by
    have hfirst := h lineInput (List.mem_cons_self _ _)
    obtain ⟨product, hproduct⟩ := Option.isSome_iff_exists.mp hfirst
    simp only [CreateReceptionOrderUseCase.buildLines, hproduct]
    rw [CreateReceptionOrderUseCase.buildLines_ok s order rest _
      (fun l hl => h l (List.mem_cons_of_mem _ hl))]
    simp

theorem CreateReceptionOrderUseCase.buildLines_error (s : Store) (order : ReceptionOrder) :
    ∀ (inputs : List ReceptionLineInput) (lines : List ReceptionLine),
      (∃ l ∈ inputs, ProductRepository.FindByID s l.ProductID = none) →
      ∃ e, CreateReceptionOrderUseCase.buildLines s order lines inputs = .error e
  | [], _, h => by
    obtain ⟨l, hl, _⟩ := h
    cases hl
  | lineInput :: rest, lines, h => by
    cases hproduct : ProductRepository.FindByID s lineInput.ProductID with
    | none =>
      refine ⟨"producto " ++ toString lineInput.ProductID ++ " no encontrado", ?_⟩
      simp only [CreateReceptionOrderUseCase.buildLines, hproduct]
    | some product =>
      obtain ⟨l, hl, hmissing⟩ := h
      rcases List.mem_cons.mp hl with rfl | hl
      · rw [hproduct] at hmissing
        cases hmissing
      · obtain ⟨e, he⟩ := CreateReceptionOrderUseCase.buildLines_error s order rest
          (lines ++ [CreateReceptionOrderUseCase.line order lineInput]) ⟨l, hl, hmissing⟩
        exact ⟨e, by simp only [CreateReceptionOrderUseCase.buildLines, hproduct, he]⟩

/-- CreateBatch appends the rows it gives back to `reception_lines` and leaves the other
tables alone; every row keeps the order, product, expected quantity, lot number and
expiration date of its line, is in condition APTO and is not counted. -/
theorem ReceptionLineRepository.CreateBatch_stored (now : Int) :
    ∀ (lines : List ReceptionLine) (s : Store),
      (ReceptionLineRepository.CreateBatch s now lines).1 =
        { s with receptionLines :=
            s.receptionLines ++ (ReceptionLineRepository.CreateBatch s now lines).2 } ∧
      List.Forall₂
        (fun line row =>
          row.ReceptionOrderID = line.ReceptionOrderID ∧ row.ProductID = line.ProductID ∧
          row.ExpectedQuantity = line.ExpectedQuantity ∧ row.LotNumber = line.LotNumber ∧
          row.ExpirationDate = line.ExpirationDate ∧
          row.Condition = ProductCondition.ConditionApto ∧ row.CountedQuantity = none)
        lines (ReceptionLineRepository.CreateBatch s now lines).2
  | [], s => ⟨by simp [ReceptionLineRepository.CreateBatch], .nil⟩
  | line :: rest, s => by
    obtain ⟨hstore, hrows⟩ := ReceptionLineRepository.CreateBatch_stored now rest
      { s with receptionLines := s.receptionLines ++
        [ReceptionLineRepository.stored s now line] }
    refine ⟨?_, ?_⟩
    · simp only [ReceptionLineRepository.CreateBatch]
      rw [hstore]
      simp
    · simp only [ReceptionLineRepository.CreateBatch]
      exact .cons ⟨rfl, rfl, rfl, rfl, rfl, rfl, rfl⟩ hrows

/-- The branches of CreateReceptionOrder. -/
theorem CreateReceptionOrderUseCase.Execute_cases (now : Int) (orderNumber : String)
    (s : Store) (input : CreateReceptionOrderInput) :
    (SupplierRepository.FindByID s input.SupplierID = none ∧
      CreateReceptionOrderUseCase.Execute now orderNumber s input =
        (s, .error "proveedor no encontrado")) ∨
    ((∃ supplier, SupplierRepository.FindByID s input.SupplierID = some supplier) ∧
      input.Lines = [] ∧
      CreateReceptionOrderUseCase.Execute now orderNumber s input =
        (s, .error "la orden debe tener al menos una línea")) ∨
    (∃ supplier e, SupplierRepository.FindByID s input.SupplierID = some supplier ∧
      input.Lines ≠ [] ∧
      (∃ l ∈ input.Lines, ProductRepository.FindByID s l.ProductID = none) ∧
      CreateReceptionOrderUseCase.Execute now orderNumber s input =
        ((ReceptionOrderRepository.Create s now
          (CreateReceptionOrderUseCase.order orderNumber input supplier)).1, .error e)) ∨
    (∃ supplier, SupplierRepository.FindByID s input.SupplierID = some supplier ∧
      input.Lines ≠ [] ∧
      (∀ l ∈ input.Lines, (ProductRepository.FindByID s l.ProductID).isSome = true) ∧
      CreateReceptionOrderUseCase.Execute now orderNumber s input =
        (AuditRepository.Log
          (ReceptionLineRepository.CreateBatch
            (ReceptionOrderRepository.Create s now
              (CreateReceptionOrderUseCase.order orderNumber input supplier)).1 now
            (input.Lines.map (CreateReceptionOrderUseCase.line
              (ReceptionOrderRepository.Create s now
                (CreateReceptionOrderUseCase.order orderNumber input supplier)).2))).1
          { UserID := some input.UserID
            Action := "CREATE_RECEPTION_ORDER"
            EntityType := "RECEPTION_ORDER"
            EntityID := some (ReceptionOrderRepository.Create s now
              (CreateReceptionOrderUseCase.order orderNumber input supplier)).2.ID },
          .ok (ReceptionOrderRepository.Create s now
            (CreateReceptionOrderUseCase.order orderNumber input supplier)).2)) := by
  cases hsupplier : SupplierRepository.FindByID s input.SupplierID with
  | none =>
    left
    exact ⟨rfl, by simp only [CreateReceptionOrderUseCase.Execute, hsupplier]⟩
  | some supplier =>
    right
    by_cases hempty : input.Lines = []
    · left
      refine ⟨⟨supplier, rfl⟩, hempty, ?_⟩
      simp only [CreateReceptionOrderUseCase.Execute, hsupplier, hempty, List.length_nil,
        if_true]
    · right
      have hlen : ¬ input.Lines.length = 0 := by
        intro h
        exact hempty (List.length_eq_zero.mp h)
      by_cases hall : ∀ l ∈ input.Lines,
          (ProductRepository.FindByID s l.ProductID).isSome = true
      · right
        refine ⟨supplier, rfl, hempty, hall, ?_⟩
        have hbuild := CreateReceptionOrderUseCase.buildLines_ok
          (ReceptionOrderRepository.Create s now
            (CreateReceptionOrderUseCase.order orderNumber input supplier)).1
          (ReceptionOrderRepository.Create s now
            (CreateReceptionOrderUseCase.order orderNumber input supplier)).2
          input.Lines [] hall
        simp only [CreateReceptionOrderUseCase.Execute, hsupplier, if_neg hlen, hbuild,
          List.nil_append]
      · left
        have hmissing : ∃ l ∈ input.Lines, ProductRepository.FindByID s l.ProductID = none := by
          by_contra hnone
          apply hall
          intro l hl
          cases hfind : ProductRepository.FindByID s l.ProductID with
          | none => exact absurd ⟨l, hl, hfind⟩ hnone
          | some _ => rfl
        obtain ⟨e, he⟩ := CreateReceptionOrderUseCase.buildLines_error
          (ReceptionOrderRepository.Create s now
            (CreateReceptionOrderUseCase.order orderNumber input supplier)).1
          (ReceptionOrderRepository.Create s now
            (CreateReceptionOrderUseCase.order orderNumber input supplier)).2
          input.Lines [] hmissing
        refine ⟨supplier, e, rfl, hempty, hmissing, ?_⟩
        simp only [CreateReceptionOrderUseCase.Execute, hsupplier, if_neg hlen, he]

/-- C25: CreateReceptionOrder succeeds exactly when the supplier exists, the list of lines
is not empty and the product of every line exists.  It then appends one order, the one
it returns, with status PENDIENTE, the brand of the supplier and the given number, and
one reception line per input line, in order, each for that order with the product,
expected quantity, lot number and expiration date of its input line, in condition APTO
and without a counted quantity. -/
theorem CreateReceptionOrderUseCase.Execute_creates (now : Int) (orderNumber : String)
    (s : Store) (input : CreateReceptionOrderInput) :
    ((∃ order, (CreateReceptionOrderUseCase.Execute now orderNumber s input).2 = .ok order) ↔
      ((∃ supplier, SupplierRepository.FindByID s input.SupplierID = some supplier) ∧
        input.Lines ≠ [] ∧
        ∀ l ∈ input.Lines, (ProductRepository.FindByID s l.ProductID).isSome = true)) ∧
    ∀ order, (CreateReceptionOrderUseCase.Execute now orderNumber s input).2 = .ok order →
      ∃ supplier lines,
        SupplierRepository.FindByID s input.SupplierID = some supplier ∧
        (CreateReceptionOrderUseCase.Execute now orderNumber s input).1.receptionOrders =
          s.receptionOrders ++ [order] ∧
        order.Status = ReceptionStatus.ReceptionPendiente ∧
        order.Brand = supplier.Brand ∧
        order.SupplierID = input.SupplierID ∧
        order.OrderNumber = orderNumber ∧
        (CreateReceptionOrderUseCase.Execute now orderNumber s input).1.receptionLines =
          s.receptionLines ++ lines ∧
        List.Forall₂
          (fun lineInput line =>
            line.ReceptionOrderID = order.ID ∧ line.ProductID = lineInput.ProductID ∧
            line.ExpectedQuantity = lineInput.ExpectedQuantity ∧
            line.LotNumber = lineInput.LotNumber ∧
            line.ExpirationDate = lineInput.ExpirationDate ∧
            line.Condition = ProductCondition.ConditionApto ∧ line.CountedQuantity = none)
          input.Lines lines := by
  rcases CreateReceptionOrderUseCase.Execute_cases now orderNumber s input with
    ⟨hnone, hexec⟩ | ⟨_, hempty, hexec⟩ | ⟨supplier, e, _, _, hmissing, hexec⟩ |
    ⟨supplier, hsupplier, hlines, hall, hexec⟩
  · rw [hexec]
    refine ⟨⟨?_, ?_⟩, ?_⟩
    · rintro ⟨order, h⟩
      cases h
    · rintro ⟨⟨supplier, hsupplier⟩, _, _⟩
      rw [hnone] at hsupplier
      cases hsupplier
    · intro order h
      cases h
  · rw [hexec]
    refine ⟨⟨?_, ?_⟩, ?_⟩
    · rintro ⟨order, h⟩
      cases h
    · rintro ⟨_, hlines, _⟩
      exact absurd hempty hlines
    · intro order h
      cases h
  · rw [hexec]
    refine ⟨⟨?_, ?_⟩, ?_⟩
    · rintro ⟨order, h⟩
      cases h
    · rintro ⟨_, _, hall⟩
      obtain ⟨l, hl, hnone⟩ := hmissing
      have := hall l hl
      rw [hnone] at this
      cases this
    · intro order h
      cases h
  · rw [hexec]
    refine ⟨⟨fun _ => ⟨⟨supplier, hsupplier⟩, hlines, hall⟩, fun _ => ⟨_, rfl⟩⟩, ?_⟩
    intro order horder
    cases horder
    obtain ⟨hstore, hrows⟩ := ReceptionLineRepository.CreateBatch_stored now
      (input.Lines.map (CreateReceptionOrderUseCase.line
        (ReceptionOrderRepository.Create s now
          (CreateReceptionOrderUseCase.order orderNumber input supplier)).2))
      (ReceptionOrderRepository.Create s now
        (CreateReceptionOrderUseCase.order orderNumber input supplier)).1
    rw [List.forall₂_map_left_iff] at hrows
    refine ⟨supplier, _, hsupplier, ?_, rfl, rfl, rfl, rfl, ?_, hrows⟩
    · show (ReceptionLineRepository.CreateBatch _ now _).1.receptionOrders = _
      rw [hstore]
      rfl
    · show (ReceptionLineRepository.CreateBatch _ now _).1.receptionLines = _
      rw [hstore]
      rfl

/-- C25 at a store with supplier 1 (brand Jumex) and the products 7 and 8: the order with
a line for each of them is stored as PENDIENTE with brand Jumex, and its two lines are
stored in order, in condition APTO and not counted. -/
theorem CreateReceptionOrderUseCase.Execute_creates_witness :
    (∃ order, (CreateReceptionOrderUseCase.Execute 5 "REC-20231114-42" receivingStore
      (receptionInput [receptionLineInput 7 10 "L1" (some 900),
        receptionLineInput 8 4 "L2" none])).2 = .ok order) ∧
    (CreateReceptionOrderUseCase.Execute 5 "REC-20231114-42" receivingStore
      (receptionInput [receptionLineInput 7 10 "L1" (some 900),
        receptionLineInput 8 4 "L2" none])).1.receptionOrders.map
      (fun o => (o.ID, o.OrderNumber, o.SupplierID, o.Brand, o.Status)) =
      [(1, "REC-20231114-42", 1, Brand.BrandJumex, ReceptionStatus.ReceptionPendiente)] ∧
    (CreateReceptionOrderUseCase.Execute 5 "REC-20231114-42" receivingStore
      (receptionInput [receptionLineInput 7 10 "L1" (some 900),
        receptionLineInput 8 4 "L2" none])).1.receptionLines.map
      (fun l => (l.ID, l.ReceptionOrderID, l.ProductID, l.ExpectedQuantity, l.LotNumber)) =
      [(1, 1, 7, 10, "L1"), (2, 1, 8, 4, "L2")] ∧
    (CreateReceptionOrderUseCase.Execute 5 "REC-20231114-42" receivingStore
      (receptionInput [receptionLineInput 7 10 "L1" (some 900),
        receptionLineInput 8 4 "L2" none])).1.receptionLines.map
      (fun l => (l.ExpirationDate, l.Condition, l.CountedQuantity)) =
      [(some 900, ProductCondition.ConditionApto, none),
        (none, ProductCondition.ConditionApto, none)] :=
  ⟨(CreateReceptionOrderUseCase.Execute_creates 5 "REC-20231114-42" receivingStore
      (receptionInput [receptionLineInput 7 10 "L1" (some 900),
        receptionLineInput 8 4 "L2" none])).1.mpr
      ⟨⟨supplierRow 1 Brand.BrandJumex, by decide⟩, by decide, by decide⟩,
    by decide, by decide, by decide⟩

/-- C26 (failing input): supplier 1 and product 7 exist, product 99 does not.  The
reception order with a line for product 7 and a line for product 99 is refused with the
error of the missing product, yet the order row has been inserted: the table of
reception orders holds a PENDIENTE order without any line.  A missing supplier and an
empty list of lines are refused with the store as it was. -/
theorem CreateReceptionOrderUseCase.Execute_orphan_order :
    CreateReceptionOrderUseCase.failure
      (CreateReceptionOrderUseCase.Execute 5 "REC-20231114-42" receivingStore
        (receptionInput [receptionLineInput 7 10 "L1" none,
          receptionLineInput 99 4 "L2" none])) = some "producto 99 no encontrado" ∧
    receivingStore.receptionOrders = [] ∧
    (CreateReceptionOrderUseCase.Execute 5 "REC-20231114-42" receivingStore
      (receptionInput [receptionLineInput 7 10 "L1" none,
        receptionLineInput 99 4 "L2" none])).1.receptionOrders.map
      (fun o => (o.ID, o.OrderNumber, o.SupplierID, o.Status)) =
      [(1, "REC-20231114-42", 1, ReceptionStatus.ReceptionPendiente)] ∧
    (CreateReceptionOrderUseCase.Execute 5 "REC-20231114-42" receivingStore
      (receptionInput [receptionLineInput 7 10 "L1" none,
        receptionLineInput 99 4 "L2" none])).1.receptionLines = [] ∧
    (CreateReceptionOrderUseCase.Execute 5 "REC-20231114-42" receivingStore
      (receptionInput [])).1 = receivingStore ∧
    (CreateReceptionOrderUseCase.Execute 5 "REC-20231114-42" receivingStore
      { receptionInput [receptionLineInput 7 10 "L1" none] with SupplierID := 3 }).1 =
      receivingStore := by
  decide

/-! ## Generated numbers -/

theorem digitChar_isDigit (n : Nat) : (Nat.digitChar (n % 10)).isDigit = true := by
  have h : n % 10 < 10 := Nat.mod_lt _ (by decide)
  generalize n % 10 = m at h
  interval_cases m <;> rfl

theorem toDigitsCore_isDigit :
    ∀ (fuel n : Nat) (ds : List Char), (∀ c ∈ ds, c.isDigit = true) →
      ∀ c ∈ Nat.toDigitsCore 10 fuel n ds, c.isDigit = true
  | 0, _, ds, h => by simpa [Nat.toDigitsCore] using h
  | fuel + 1, n, ds, h => by
    have hcons : ∀ c ∈ Nat.digitChar (n % 10) :: ds, c.isDigit = true := by
      intro c hc
      rcases List.mem_cons.mp hc with rfl | hc
      · exact digitChar_isDigit n
      · exact h c hc
    unfold Nat.toDigitsCore
    by_cases hzero : n / 10 = 0
    · simpa [hzero] using hcons
    · simp only [hzero, if_false]
      exact toDigitsCore_isDigit fuel (n / 10) _ hcons

theorem toDigitsCore_length_append (fuel n : Nat) :
    ∀ ds : List Char, (Nat.toDigitsCore 10 fuel n ds).length =
      (Nat.toDigitsCore 10 fuel n []).length + ds.length
  | [] => rfl
  | c :: rest => by
    rw [Nat.toDigitsCore_lens_eq, toDigitsCore_length_append fuel n rest]
    rfl

theorem toDigitsCore_length_ge :
    ∀ (k fuel n : Nat), n < fuel → 10 ^ k ≤ n →
      k + 1 ≤ (Nat.toDigitsCore 10 fuel n []).length
  | _, 0, _, hfuel, _ => by omega
  | 0, fuel + 1, n, _, _ => by
    unfold Nat.toDigitsCore
    by_cases hzero : n / 10 = 0
    · simp [hzero]
    · simp only [hzero, if_false]
      rw [toDigitsCore_length_append]
      simp
  | k + 1, fuel + 1, n, hfuel, hpow => by
    have hten : 10 ≤ n := le_trans (by
      calc 10 = 10 ^ 1 := rfl
        _ ≤ 10 ^ (k + 1) := Nat.pow_le_pow_right (by decide) (by omega)) hpow
    have hdiv : 10 ^ k ≤ n / 10 := by
      rw [Nat.le_div_iff_mul_le (by decide)]
      calc 10 ^ k * 10 = 10 ^ (k + 1) := (pow_succ 10 k).symm
        _ ≤ n := hpow
    have hzero : n / 10 ≠ 0 := by omega
    have hlt : n / 10 < fuel := by omega
    unfold Nat.toDigitsCore
    simp only [hzero, if_false]
    rw [toDigitsCore_length_append]
    have := toDigitsCore_length_ge k fuel (n / 10) hlt hdiv
    simp only [List.length_singleton]
    omega

/-- The decimal numeral of a number below 10000 has between one and four digits, and four
digits exactly from 1000 on. -/
theorem repr_length_four (n : Nat) (h : n < 10000) :
    (∀ c ∈ (Nat.repr n).data, c.isDigit = true) ∧
    1 ≤ (Nat.repr n).length ∧ (Nat.repr n).length ≤ 4 ∧
    ((Nat.repr n).length = 4 ↔ 1000 ≤ n) := by
  have hdigits : ∀ c ∈ (Nat.repr n).data, c.isDigit = true :=
    toDigitsCore_isDigit (n + 1) n [] (by simp)
  have hlow : ∀ k, 10 ^ k ≤ n → k + 1 ≤ (Nat.repr n).length := fun k hk =>
    toDigitsCore_length_ge k (n + 1) n (by omega) hk
  have hone : 1 ≤ (Nat.repr n).length := by
    by_cases hz : n = 0
    · subst hz
      decide
    · exact hlow 0 (by simp; omega)
  have hup : (Nat.repr n).length ≤ 4 := Nat.repr_length n 4 (by decide) (by simpa using h)
  refine ⟨hdigits, hone, hup, ?_, ?_⟩
  · intro hfour
    by_contra hsmall
    have := Nat.repr_length n 3 (by decide) (by simp; omega)
    omega
  · intro hbig
    have := hlow 3 (by simpa using hbig)
    omega

theorem appendInt_length (x width : Nat) (hwidth : 0 < width) (h : x < 10 ^ width) :
    (appendInt x width).length = width ∧ ∀ c ∈ (appendInt x width).data, c.isDigit = true := by
  have hlen := Nat.repr_length x width hwidth h
  constructor
  · unfold appendInt
    rw [String.length_append]
    simp only [String.length, List.length_replicate]
    simp only [String.length] at hlen
    omega
  · intro c hc
    unfold appendInt at hc
    rw [String.data_append] at hc
    rcases List.mem_append.mp hc with hc | hc
    · have := List.eq_of_mem_replicate hc
      rw [this]
      rfl
    · exact toDigitsCore_isDigit (x + 1) x [] (by simp) c hc

/-- C27, the part that fails: at Unix second 1700000042 (14 November 2023) the remainder
by 10000 is 42 and the number of the reception order is "REC-20231114-42", with a suffix
of two digits; at Unix second 1709640000 (5 March 2024) the remainder is 0 and the number
of the order is "ORD-20240305-0", with a suffix of one digit.  The reception order is
stored under that number. -/
theorem CreateReceptionOrderUseCase.orderNumber_short_suffix :
    CreateReceptionOrderUseCase.orderNumber novemberStamp = "REC-20231114-42" ∧
    CreateOrderUseCase.orderNumber novemberStamp = "ORD-20231114-42" ∧
    CreateReceptionOrderUseCase.orderNumber marchStamp = "REC-20240305-0" ∧
    CreateOrderUseCase.orderNumber marchStamp = "ORD-20240305-0" ∧
    novemberStamp.suffix.length = 2 ∧ marchStamp.suffix.length = 1 ∧
    (CreateReceptionOrderUseCase.Execute 5
      (CreateReceptionOrderUseCase.orderNumber novemberStamp) receivingStore
      (receptionInput [receptionLineInput 7 10 "L1" none])).1.receptionOrders.map
      (·.OrderNumber) = ["REC-20231114-42"] := by
  decide

/-- C27, amended: for a clock reading from the epoch on, in a year of at most four
digits, the number of a reception order is "REC-", the eight digits of the date
(YYYYMMDD), "-", and the decimal numeral of the Unix second modulo 10000, and the number
of an order is the same after "ORD-".  The numeral is not padded: it has between one and
four digits, and four digits exactly when the remainder is at least 1000. -/
theorem CreateReceptionOrderUseCase.orderNumber_shape (t : Timestamp)
    (hyear : t.Year ≤ 9999) (hmonth : t.Month ≤ 12) (hday : t.Day ≤ 31)
    (hunix : 0 ≤ t.Unix) :
    CreateReceptionOrderUseCase.orderNumber t = "REC-" ++ t.Format ++ "-" ++ t.suffix ∧
    CreateOrderUseCase.orderNumber t = "ORD-" ++ t.Format ++ "-" ++ t.suffix ∧
    t.Format.length = 8 ∧
    (∀ c ∈ t.Format.data, c.isDigit = true) ∧
    t.suffix = Nat.repr (t.Unix.toNat % 10000) ∧
    (∀ c ∈ t.suffix.data, c.isDigit = true) ∧
    1 ≤ t.suffix.length ∧ t.suffix.length ≤ 4 ∧
    (t.suffix.length = 4 ↔ 1000 ≤ t.Unix % 10000) := by
  obtain ⟨hy1, hy2⟩ := appendInt_length t.Year 4 (by decide) (by simp; omega)
  obtain ⟨hm1, hm2⟩ := appendInt_length t.Month 2 (by decide) (by simp; omega)
  obtain ⟨hd1, hd2⟩ := appendInt_length t.Day 2 (by decide) (by simp; omega)
  obtain ⟨k, hk⟩ := Int.eq_ofNat_of_zero_le hunix
  have hsuffix : t.suffix = Nat.repr (t.Unix.toNat % 10000) := by
    unfold Timestamp.suffix
    rw [hk]
    rfl
  have hmod : t.Unix % 10000 = ((t.Unix.toNat % 10000 : Nat) : Int) := by
    rw [hk]
    simp
  obtain ⟨hs1, hs2, hs3, hs4⟩ := repr_length_four (t.Unix.toNat % 10000)
    (Nat.mod_lt _ (by decide))
  refine ⟨rfl, rfl, ?_, ?_, hsuffix, ?_, ?_, ?_, ?_⟩
  · unfold Timestamp.Format
    rw [String.length_append, String.length_append, hy1, hm1, hd1]
  · intro c hc
    unfold Timestamp.Format at hc
    rw [String.data_append, String.data_append] at hc
    rcases List.mem_append.mp hc with hc | hc
    · rcases List.mem_append.mp hc with hc | hc
      · exact hy2 c hc
      · exact hm2 c hc
    · exact hd2 c hc
  · rw [hsuffix]; exact hs1
  · rw [hsuffix]; exact hs2
  · rw [hsuffix]; exact hs3
  · rw [hsuffix, hs4, hmod]
    exact Int.ofNat_le.symm

/-- C27, amended, at Unix second 1700001234 of 14 November 2023: the suffix has its four
digits, the remainder being 1234. -/
theorem CreateReceptionOrderUseCase.orderNumber_shape_witness :
    ({ Year := 2023, Month := 11, Day := 14, Unix := 1700001234 } : Timestamp).suffix.length
      = 4 ∧
    CreateReceptionOrderUseCase.orderNumber
      { Year := 2023, Month := 11, Day := 14, Unix := 1700001234 } = "REC-20231114-1234" :=
  ⟨(CreateReceptionOrderUseCase.orderNumber_shape
      { Year := 2023, Month := 11, Day := 14, Unix := 1700001234 }
      (by decide) (by decide) (by decide) (by decide)).2.2.2.2.2.2.2.2.mpr (by decide),
    by decide⟩

/-! ## Order creation: the shape of the loading efficiency -/

/-- C30: when the customer is active, every requested product exists and no float64
operation of the call overflows, CreateOrder succeeds with a finite float64 as total
volume v; its suggested vehicle is VAN, CAMION_3_5 or TORTON, never CAMIONETA, so the
capacity is 10, 20 or 40 and never the default of the lookup; and when v is not negative,
the efficiency lies between 0 and 100, is 100 exactly when v is at least 40, lies in
[0, 100) for v < 10 (VAN), in [50, 100) for 10 ≤ v < 20 (CAMION_3_5) and in [50, 100) for
20 ≤ v < 40 (TORTON); below 40 it is the float64 value of `(v / capacity) * 100`. -/
theorem CreateOrderUseCase.Execute_efficiency_shape (now : Int) (orderNumber : String)
    (s : Store) (input : CreateOrderInput) (customer : Customer)
    (hCustomer : CustomerRepository.FindByID s input.CustomerID = some customer)
    (hActive : customer.IsActive = true)
    (hProducts : ∀ li ∈ input.Lines,
      (ProductRepository.FindByID s li.ProductID).isSome = true)
    (hRange : CreateOrderUseCase.inRange s input = true) :
    ∃ out,
      (CreateOrderUseCase.Execute now orderNumber s input).2 = .ok out ∧
      Float64.isFinite out.Order.TotalVolumeM3 = true ∧
      out.SuggestedVehicle = out.Order.SuggestVehicle ∧
      out.SuggestedVehicle ≠ VehicleType.VehicleCamioneta ∧
      (out.SuggestedVehicle = VehicleType.VehicleVan ∨
        out.SuggestedVehicle = VehicleType.VehicleCamion35 ∨
        out.SuggestedVehicle = VehicleType.VehicleTorton) ∧
      (0 ≤ out.Order.TotalVolumeM3 →
        0 ≤ out.LoadingEfficiency ∧ out.LoadingEfficiency ≤ 100 ∧
        (out.LoadingEfficiency = 100 ↔ 40 ≤ out.Order.TotalVolumeM3) ∧
        (out.Order.TotalVolumeM3 < 40 → out.LoadingEfficiency < 100) ∧
        (out.Order.TotalVolumeM3 < 10 →
          out.SuggestedVehicle = VehicleType.VehicleVan ∧
          out.LoadingEfficiency =
            Float64.mul (Float64.div out.Order.TotalVolumeM3 10) 100) ∧
        (10 ≤ out.Order.TotalVolumeM3 → out.Order.TotalVolumeM3 < 20 →
          out.SuggestedVehicle = VehicleType.VehicleCamion35 ∧
          out.LoadingEfficiency =
            Float64.mul (Float64.div out.Order.TotalVolumeM3 20) 100 ∧
          50 ≤ out.LoadingEfficiency) ∧
        (20 ≤ out.Order.TotalVolumeM3 → out.Order.TotalVolumeM3 < 40 →
          out.SuggestedVehicle = VehicleType.VehicleTorton ∧
          out.LoadingEfficiency =
            Float64.mul (Float64.div out.Order.TotalVolumeM3 40) 100 ∧
          50 ≤ out.LoadingEfficiency) ∧
        (40 ≤ out.Order.TotalVolumeM3 →
          out.SuggestedVehicle = VehicleType.VehicleTorton)) := by
  obtain ⟨out, q, hok, hq, hsuggest, heff⟩ :=
    CreateOrderUseCase.Execute_volume_float now orderNumber s input customer hCustomer hActive
      hProducts
  refine ⟨out, hok,
    (CreateOrderUseCase.Execute_finite now orderNumber s input out hRange hok).2.1,
    hsuggest, ?_, ?_, ?_⟩
  · rw [hsuggest]
    unfold Order.SuggestVehicle
    split
    · simp
    · split <;> simp
  · rw [hsuggest]
    unfold Order.SuggestVehicle
    split
    · simp
    · split <;> simp
  · intro hvol
    rw [heff, hsuggest]
    unfold Order.SuggestVehicle
    rw [hq] at hvol ⊢
    by_cases h10 : Float64.round q < 10
    · obtain ⟨hlo, hhi, hbelow, _, _⟩ := CreateOrderUseCase.loadingEfficiency_van q hvol
      obtain ⟨hlt, hval⟩ := hbelow h10
      simp only [if_pos h10, CreateOrderUseCase.vehicleCapacity]
      exact ⟨hlo, hhi, ⟨fun h => absurd h hlt.ne, fun h => by linarith⟩,
        fun _ => hlt, fun _ => ⟨trivial, hval⟩, fun h => by linarith,
        fun h => by linarith, fun h => by linarith⟩
    · by_cases h20 : Float64.round q < 20
      · obtain ⟨hlo, hhi, hbelow, _, hhalf⟩ :=
          CreateOrderUseCase.loadingEfficiency_camion q hvol
        obtain ⟨hlt, hval⟩ := hbelow h20
        have h50 := hhalf (by linarith [not_lt.mp h10])
        simp only [if_neg h10, if_pos h20, CreateOrderUseCase.vehicleCapacity]
        exact ⟨hlo, hhi, ⟨fun h => absurd h hlt.ne, fun h => by linarith⟩,
          fun _ => hlt, fun h => absurd h h10,
          fun _ _ => ⟨trivial, hval, h50⟩, fun h => by linarith,
          fun h => by linarith⟩
      · obtain ⟨hlo, hhi, hbelow, hfull, hhalf⟩ :=
          CreateOrderUseCase.loadingEfficiency_torton q hvol
        have h50 := hhalf (by linarith [not_lt.mp h20])
        simp only [if_neg h10, if_neg h20, CreateOrderUseCase.vehicleCapacity]
        by_cases h40 : Float64.round q < 40
        · obtain ⟨hlt, hval⟩ := hbelow h40
          exact ⟨hlo, hhi, ⟨fun h => absurd h hlt.ne, fun h => by linarith⟩,
            fun _ => hlt, fun h => absurd h h10, fun _ h => absurd h h20,
            fun _ _ => ⟨trivial, hval, h50⟩, fun _ => trivial⟩
        · have hge : 40 ≤ Float64.round q := not_lt.mp h40
          have h100 := hfull hge
          exact ⟨hlo, hhi, ⟨fun _ => hge, fun _ => h100⟩,
            fun h => absurd h h40, fun h => absurd h h10, fun _ h => absurd h h20,
            fun _ h => absurd h h40, fun _ => trivial⟩

/-- C30 at concrete stores: 10 units of a product of 8 cubic metres make 80 cubic metres,
the suggested vehicle is the TORTON and the efficiency is 100; 3 small units and 2 small
units make the float64 0.005 cubic metres, the suggested vehicle is the VAN and the
efficiency is the float64 0.05; 14 units of 0.7 and 1 unit of 0.2 cubic metres make the
float64 9.999999999999998, the suggested vehicle is the VAN and the efficiency is the
float64 99.99999999999997.  At the largest float64 below 10, 20 and 40 the efficiency is
the float64 99.99999999999997, and at 10 and 20 it is 50. -/
theorem CreateOrderUseCase.Execute_efficiency_shape_witness :
    (∃ out,
      (CreateOrderUseCase.Execute 9 "ORD-20240101-9" bulkStore bulkInput).2 = .ok out ∧
      out.SuggestedVehicle ≠ VehicleType.VehicleCamioneta) ∧
    CreateOrderUseCase.inRange bulkStore bulkInput = true ∧
    CreateOrderUseCase.inRange bulkStore heavyFragileInput = true ∧
    CreateOrderUseCase.inRange boxStore boxInput = true ∧
    (CreateOrderUseCase.output
      (CreateOrderUseCase.Execute 9 "ORD-20240101-9" bulkStore bulkInput)).map
        (fun out => (out.Order.TotalVolumeM3, out.SuggestedVehicle, out.LoadingEfficiency)) =
      some (80, VehicleType.VehicleTorton, 100) ∧
    (CreateOrderUseCase.output
      (CreateOrderUseCase.Execute 9 "ORD-20240101-9" bulkStore heavyFragileInput)).map
        (fun out => (out.Order.TotalVolumeM3, out.SuggestedVehicle, out.LoadingEfficiency)) =
      some (Float64.round (5 / 1000), VehicleType.VehicleVan, Float64.round (5 / 100)) ∧
    (CreateOrderUseCase.output
      (CreateOrderUseCase.Execute 9 "ORD-20240101-9" boxStore boxInput)).map
        (fun out => (out.Order.TotalVolumeM3, out.SuggestedVehicle, out.LoadingEfficiency)) =
      some (5629499534213119 / 562949953421312, VehicleType.VehicleVan,
        3518437208883199 / 35184372088832) ∧
    CreateOrderUseCase.loadingEfficiency (5629499534213119 / 562949953421312) 10 =
      3518437208883199 / 35184372088832 ∧
    CreateOrderUseCase.loadingEfficiency (5629499534213119 / 281474976710656) 20 =
      3518437208883199 / 35184372088832 ∧
    CreateOrderUseCase.loadingEfficiency (5629499534213119 / 140737488355328) 40 =
      3518437208883199 / 35184372088832 ∧
    CreateOrderUseCase.loadingEfficiency 10 20 = 50 ∧
    CreateOrderUseCase.loadingEfficiency 20 40 = 50 :=
  ⟨(CreateOrderUseCase.Execute_efficiency_shape 9 "ORD-20240101-9" bulkStore bulkInput
      { ID := 1, Name := "cliente", CreditLimit := 0, IsActive := true }
      (by decide) (by decide) (by decide) (by decide!)).imp (fun _ h => ⟨h.1, h.2.2.2.1⟩),
    by decide!, by decide!, by decide!,
    by decide!, by decide!, by decide!, by decide!, by decide!, by decide!, by decide!,
    by decide!⟩

/-! ## Audit failures -/

/-- The primary state ignores both the audit flag and the audit records. -/
theorem Store.primary_auditDown (s : Store) (down : Bool) (entry : AuditLog) :
    (s.auditDown down).primary = s.primary ∧
    (AuditRepository.Log s entry).primary = s.primary := ⟨rfl, rfl⟩

theorem InventoryRepository.inventory_Update_auditDown (s : Store) (down : Bool) (now : Int)
    (inventory : Inventory) :
    InventoryRepository.Update (s.auditDown down) now inventory =
      (InventoryRepository.Update s now inventory).map (fun t => t.auditDown down) := by
  unfold InventoryRepository.Update
  have hcond : (s.auditDown down).inventory.any (fun i => i.ID == inventory.ID) =
      s.inventory.any (fun i => i.ID == inventory.ID) := rfl
  rw [hcond]
  cases s.inventory.any (fun i => i.ID == inventory.ID) <;> rfl

/-- RegisterDamage returns the same result and leaves the same primary state whether the
audit insert fails or not. -/
theorem RegisterDamageUseCase.damage_auditDown (now : Int) (s : Store) (down : Bool)
    (input : RegisterDamageInput) :
    (RegisterDamageUseCase.Execute now (s.auditDown down) input).2 =
      (RegisterDamageUseCase.Execute now s input).2 ∧
    (RegisterDamageUseCase.Execute now (s.auditDown down) input).1.primary =
      (RegisterDamageUseCase.Execute now s input).1.primary := by
  unfold RegisterDamageUseCase.Execute
  by_cases hphoto : input.EvidencePhotoURL = ""
  · rw [if_pos hphoto, if_pos hphoto]
    exact ⟨rfl, rfl⟩
  · rw [if_neg hphoto, if_neg hphoto]
    have hread : InventoryRepository.FindByID (s.auditDown down) input.InventoryID =
        InventoryRepository.FindByID s input.InventoryID := rfl
    rw [hread]
    cases hfind : InventoryRepository.FindByID s input.InventoryID with
    | none => exact ⟨rfl, rfl⟩
    | some inventory =>
      by_cases hstock : inventory.Quantity < input.Quantity
      · simp only [if_pos hstock]
        exact ⟨trivial, rfl⟩
      · simp only [if_neg hstock, InventoryRepository.inventory_Update_auditDown]
        cases hupdate : InventoryRepository.Update s now
            { inventory with Quantity := inventory.Quantity - input.Quantity } with
        | none => exact ⟨rfl, rfl⟩
        | some s1 => exact ⟨rfl, rfl⟩

theorem CycleCountRepository.count_Update_auditDown (s : Store) (down : Bool)
    (count : CycleCount) :
    CycleCountRepository.Update (s.auditDown down) count =
      (CycleCountRepository.Update s count).map (fun t => t.auditDown down) := by
  unfold CycleCountRepository.Update
  have hcond : (s.auditDown down).cycleCounts.any (fun c => c.ID == count.ID) =
      s.cycleCounts.any (fun c => c.ID == count.ID) := rfl
  rw [hcond]
  cases s.cycleCounts.any (fun c => c.ID == count.ID) <;> rfl

theorem PerformCycleCountUseCase.adjust_auditDown (now : Int) (s : Store) (down : Bool)
    (count : CycleCount) (input : PerformCountInput) :
    PerformCycleCountUseCase.adjust now (s.auditDown down) count input =
      (PerformCycleCountUseCase.adjust now s count input).auditDown down := by
  unfold PerformCycleCountUseCase.adjust
  cases count.Variance with
  | none => rfl
  | some variance =>
    by_cases hvariance : variance ≠ 0
    · simp only [if_pos hvariance]
      have hread : InventoryRepository.FindByProduct (s.auditDown down) count.ProductID =
          InventoryRepository.FindByProduct s count.ProductID := rfl
      rw [hread]
      cases InventoryRepository.FindByProduct s count.ProductID with
      | nil => rfl
      | cons inventory rest =>
        simp only []
        have hcreate : ∀ m, (InventoryMovementRepository.Create (s.auditDown down) now m).1 =
            (InventoryMovementRepository.Create s now m).1.auditDown down := fun _ => rfl
        rw [hcreate, InventoryRepository.inventory_Update_auditDown]
        cases InventoryRepository.Update (InventoryMovementRepository.Create s now _).1 now
            { inventory with Quantity := input.CountedQuantity } with
        | none => rfl
        | some s2 => rfl
    · simp only [if_neg hvariance]

/-- PerformCount returns the same result and leaves the same primary state whether the
audit insert fails or not. -/
theorem PerformCycleCountUseCase.PerformCount_auditDown (now : Int) (s : Store)
    (down : Bool) (input : PerformCountInput) :
    (PerformCycleCountUseCase.PerformCount now (s.auditDown down) input).2 =
      (PerformCycleCountUseCase.PerformCount now s input).2 ∧
    (PerformCycleCountUseCase.PerformCount now (s.auditDown down) input).1.primary =
      (PerformCycleCountUseCase.PerformCount now s input).1.primary := by
  unfold PerformCycleCountUseCase.PerformCount
  have hread : CycleCountRepository.FindByID (s.auditDown down) input.CountID =
      CycleCountRepository.FindByID s input.CountID := rfl
  rw [hread]
  cases hfind : CycleCountRepository.FindByID s input.CountID with
  | none => exact ⟨rfl, rfl⟩
  | some count =>
    by_cases hstatus : count.Status ≠ CycleCountStatus.PENDIENTE
    · simp only [if_pos hstatus]
      exact ⟨trivial, rfl⟩
    · simp only [if_neg hstatus, CycleCountRepository.count_Update_auditDown]
      cases hupdate : CycleCountRepository.Update s
          { count with
            CountedQuantity := some input.CountedQuantity
            CountedBy := some input.UserID
            CountedAt := some now
            Status := CycleCountStatus.COMPLETADO } with
      | none => exact ⟨rfl, rfl⟩
      | some s1 =>
        simp only [Option.map_some', PerformCycleCountUseCase.adjust_auditDown]
        exact ⟨trivial, rfl⟩

theorem ReceptionLineRepository.line_Update_auditDown (s : Store) (down : Bool) (now : Int)
    (line : ReceptionLine) :
    ReceptionLineRepository.Update (s.auditDown down) now line =
      (ReceptionLineRepository.Update s now line).map (fun t => t.auditDown down) := by
  unfold ReceptionLineRepository.Update
  have hcond : (s.auditDown down).receptionLines.any (fun l => l.ID == line.ID) =
      s.receptionLines.any (fun l => l.ID == line.ID) := rfl
  rw [hcond]
  cases s.receptionLines.any (fun l => l.ID == line.ID) <;> rfl

theorem ReceptionOrderRepository.order_Update_auditDown (s : Store) (down : Bool) (now : Int)
    (order : ReceptionOrder) :
    ReceptionOrderRepository.Update (s.auditDown down) now order =
      (ReceptionOrderRepository.Update s now order).map (fun t => t.auditDown down) := by
  unfold ReceptionOrderRepository.Update
  have hcond : (s.auditDown down).receptionOrders.any (fun o => o.ID == order.ID) =
      s.receptionOrders.any (fun o => o.ID == order.ID) := rfl
  rw [hcond]
  cases s.receptionOrders.any (fun o => o.ID == order.ID) <;> rfl

theorem BlindCountUseCase.countLines_auditDown (now : Int) (input : BlindCountInput)
    (down : Bool) :
    ∀ (lines : List BlindCountLineInput) (s : Store) (hasDiscrepancies : Bool),
      BlindCountUseCase.countLines now input (s.auditDown down) hasDiscrepancies lines =
        ((BlindCountUseCase.countLines now input s hasDiscrepancies lines).1.auditDown down,
          (BlindCountUseCase.countLines now input s hasDiscrepancies lines).2)
  | [], s, hasDiscrepancies => rfl
  | countInput :: rest, s, hasDiscrepancies => by
    unfold BlindCountUseCase.countLines
    have hread : ReceptionLineRepository.FindByID (s.auditDown down) countInput.LineID =
        ReceptionLineRepository.FindByID s countInput.LineID := rfl
    rw [hread]
    cases ReceptionLineRepository.FindByID s countInput.LineID with
    | none => rfl
    | some line =>
      by_cases hforeign : line.ReceptionOrderID ≠ input.ReceptionOrderID
      · simp only [if_pos hforeign]
      · simp only [if_neg hforeign, ReceptionLineRepository.line_Update_auditDown]
        cases ReceptionLineRepository.Update s now
            (BlindCountUseCase.counted now input countInput line) with
        | none => rfl
        | some s1 =>
          simp only [Option.map_some']
          by_cases hdiscrepancy :
              (BlindCountUseCase.counted now input countInput line).HasDiscrepancy = true
          · simp only [if_pos hdiscrepancy]
            have hcreate : ∀ dis, (ReceptionDiscrepancyRepository.Create
                (s1.auditDown down) now dis).1 =
                (ReceptionDiscrepancyRepository.Create s1 now dis).1.auditDown down :=
              fun _ => rfl
            rw [hcreate]
            exact BlindCountUseCase.countLines_auditDown now input down rest _ true
          · simp only [if_neg hdiscrepancy]
            exact BlindCountUseCase.countLines_auditDown now input down rest s1
              hasDiscrepancies

/-- BlindCount returns the same result and leaves the same primary state whether the
audit insert fails or not. -/
theorem BlindCountUseCase.blindCount_auditDown (now : Int) (s : Store) (down : Bool)
    (input : BlindCountInput) :
    (BlindCountUseCase.Execute now (s.auditDown down) input).2 =
      (BlindCountUseCase.Execute now s input).2 ∧
    (BlindCountUseCase.Execute now (s.auditDown down) input).1.primary =
      (BlindCountUseCase.Execute now s input).1.primary := by
  unfold BlindCountUseCase.Execute
  have hread : ReceptionOrderRepository.FindByID (s.auditDown down) input.ReceptionOrderID =
      ReceptionOrderRepository.FindByID s input.ReceptionOrderID := rfl
  rw [hread]
  cases hfind : ReceptionOrderRepository.FindByID s input.ReceptionOrderID with
  | none => exact ⟨rfl, rfl⟩
  | some order =>
    by_cases hstatus : order.Status ≠ ReceptionStatus.ReceptionPendiente
    · simp only [if_pos hstatus]
      exact ⟨trivial, rfl⟩
    · simp only [if_neg hstatus, BlindCountUseCase.countLines_auditDown]
      rcases hcount : BlindCountUseCase.countLines now input s false input.Lines with
        ⟨s1, hasDiscrepancies, err⟩
      cases err with
      | some e => exact ⟨rfl, rfl⟩
      | none =>
        simp only [ReceptionOrderRepository.order_Update_auditDown]
        cases hupdate : ReceptionOrderRepository.Update s1 now
            (BlindCountUseCase.received now input hasDiscrepancies order) with
        | none => exact ⟨rfl, rfl⟩
        | some s2 => exact ⟨rfl, rfl⟩

theorem CreateOrderUseCase.processLines_auditDown (s : Store) (down : Bool) :
    ∀ (lines : List OrderLineInput) (acc : CreateOrderUseCase.Metrics),
      CreateOrderUseCase.processLines (s.auditDown down) acc lines =
        CreateOrderUseCase.processLines s acc lines
  | [], _ => rfl
  | lineInput :: rest, acc => by
    unfold CreateOrderUseCase.processLines
    have hline : CreateOrderUseCase.processLine (s.auditDown down) acc lineInput =
        CreateOrderUseCase.processLine s acc lineInput := rfl
    rw [hline]
    cases CreateOrderUseCase.processLine s acc lineInput with
    | error e => rfl
    | ok acc1 => exact CreateOrderUseCase.processLines_auditDown s down rest acc1

theorem OrderLineRepository.CreateBatch_auditDown (now : Int) (down : Bool) :
    ∀ (lines : List OrderLine) (s : Store),
      OrderLineRepository.CreateBatch (s.auditDown down) now lines =
        ((OrderLineRepository.CreateBatch s now lines).1.auditDown down,
          (OrderLineRepository.CreateBatch s now lines).2)
  | [], _ => rfl
  | line :: rest, s => by
    have hstep := OrderLineRepository.CreateBatch_auditDown now down rest
      { s with orderLines := s.orderLines ++
        [{ line with ID := freshID (s.orderLines.map (·.ID)), CreatedAt := now }] }
    show ((OrderLineRepository.CreateBatch
          (({ s with orderLines := s.orderLines ++
            [{ line with ID := freshID (s.orderLines.map (·.ID)), CreatedAt := now }] } :
              Store).auditDown down) now rest).1,
        _ :: (OrderLineRepository.CreateBatch
          (({ s with orderLines := s.orderLines ++
            [{ line with ID := freshID (s.orderLines.map (·.ID)), CreatedAt := now }] } :
              Store).auditDown down) now rest).2) = _
    rw [hstep]
    rfl

/-- CreateOrder returns the same result and leaves the same primary state whether the
audit insert fails or not. -/
theorem CreateOrderUseCase.createOrder_auditDown (now : Int) (orderNumber : String) (s : Store)
    (down : Bool) (input : CreateOrderInput) :
    (CreateOrderUseCase.Execute now orderNumber (s.auditDown down) input).2 =
      (CreateOrderUseCase.Execute now orderNumber s input).2 ∧
    (CreateOrderUseCase.Execute now orderNumber (s.auditDown down) input).1.primary =
      (CreateOrderUseCase.Execute now orderNumber s input).1.primary := by
  unfold CreateOrderUseCase.Execute
  have hread : CustomerRepository.FindByID (s.auditDown down) input.CustomerID =
      CustomerRepository.FindByID s input.CustomerID := rfl
  rw [hread, CreateOrderUseCase.processLines_auditDown]
  cases hfind : CustomerRepository.FindByID s input.CustomerID with
  | none => exact ⟨rfl, rfl⟩
  | some customer =>
    dsimp only
    cases hactive : customer.IsActive with
    | false => exact ⟨rfl, rfl⟩
    | true =>
      cases hrun : CreateOrderUseCase.processLines s {} input.Lines with
      | error e => exact ⟨rfl, rfl⟩
      | ok acc =>
        have hcreate : ∀ order, OrderRepository.Create (s.auditDown down) now order =
            ((OrderRepository.Create s now order).1.auditDown down,
              (OrderRepository.Create s now order).2) := fun _ => rfl
        simp only [hactive, Bool.not_true, Bool.false_eq_true, if_false, hcreate,
          OrderLineRepository.CreateBatch_auditDown]
        exact ⟨trivial, rfl⟩

theorem AssignRouteUseCase.commit_auditDown (now : Int) (routeNumber : String) (s : Store)
    (down : Bool) (input : AssignRouteInput) (order : Order) (vehicle : Vehicle)
    (driver : Driver) (autoAssigned : Bool) :
    (AssignRouteUseCase.commit now routeNumber (s.auditDown down) input order vehicle driver
        autoAssigned).1.primary =
      (AssignRouteUseCase.commit now routeNumber s input order vehicle driver
        autoAssigned).1.primary := by
  simp only [AssignRouteUseCase.commit, VehicleRepository.vehicle_update_or_keep,
    DriverRepository.driver_update_or_keep, OrderRepository.placed_update_or_keep]
  rfl

/-- AssignRoute returns the same result and leaves the same primary state whether the
audit insert fails or not. -/
theorem AssignRouteUseCase.assignRoute_auditDown (typeOrder : VehicleType → Nat) (now : Int)
    (routeNumber : String) (s : Store) (down : Bool) (input : AssignRouteInput) :
    (AssignRouteUseCase.Execute typeOrder now routeNumber (s.auditDown down) input).2 =
      (AssignRouteUseCase.Execute typeOrder now routeNumber s input).2 ∧
    (AssignRouteUseCase.Execute typeOrder now routeNumber (s.auditDown down) input).1.primary =
      (AssignRouteUseCase.Execute typeOrder now routeNumber s input).1.primary := by
  refine ⟨AssignRouteUseCase.Execute_result_withFaults typeOrder now routeNumber s
    { s.faults with auditLog := down } input, ?_⟩
  cases horder : OrderRepository.FindByID s input.OrderID with
  | none =>
    rw [AssignRouteUseCase.Execute_order_missing typeOrder now routeNumber s input horder,
      AssignRouteUseCase.Execute_order_missing typeOrder now routeNumber (s.auditDown down)
        input horder]
    rfl
  | some order =>
    cases hvehicle : AssignRouteUseCase.chooseVehicle typeOrder s order input with
    | error e =>
      rw [AssignRouteUseCase.Execute_vehicle_error typeOrder now routeNumber s input order e
          horder hvehicle,
        AssignRouteUseCase.Execute_vehicle_error typeOrder now routeNumber (s.auditDown down)
          input order e horder hvehicle]
      rfl
    | ok chosen =>
      obtain ⟨vehicle, autoVehicle⟩ := chosen
      cases hdriver : AssignRouteUseCase.chooseDriver now s input with
      | error e =>
        rw [AssignRouteUseCase.Execute_driver_error typeOrder now routeNumber s input order
            vehicle autoVehicle e horder hvehicle hdriver,
          AssignRouteUseCase.Execute_driver_error typeOrder now routeNumber
            (s.auditDown down) input order vehicle autoVehicle e horder hvehicle hdriver]
        rfl
      | ok chosenDriver =>
        obtain ⟨driver, autoDriver⟩ := chosenDriver
        rw [AssignRouteUseCase.Execute_committed typeOrder now routeNumber s input order
            vehicle autoVehicle driver autoDriver horder hvehicle hdriver,
          AssignRouteUseCase.Execute_committed typeOrder now routeNumber (s.auditDown down)
            input order vehicle autoVehicle driver autoDriver horder hvehicle hdriver]
        exact AssignRouteUseCase.commit_auditDown now routeNumber s down input order vehicle
          driver (autoVehicle || autoDriver)

/-- RegisterMaintenance returns the same result and leaves the same primary state whether
the audit insert fails or not. -/
theorem RegisterMaintenanceUseCase.maintenance_auditDown (now nextMaintenance : Int) (s : Store)
    (down : Bool) (input : RegisterMaintenanceInput) :
    (RegisterMaintenanceUseCase.Execute now nextMaintenance (s.auditDown down) input).2 =
      (RegisterMaintenanceUseCase.Execute now nextMaintenance s input).2 ∧
    (RegisterMaintenanceUseCase.Execute now nextMaintenance (s.auditDown down)
        input).1.primary =
      (RegisterMaintenanceUseCase.Execute now nextMaintenance s input).1.primary := by
  unfold RegisterMaintenanceUseCase.Execute
  have hread : VehicleRepository.FindByID (s.auditDown down) input.VehicleID =
      VehicleRepository.FindByID s input.VehicleID := rfl
  rw [hread]
  cases hfind : VehicleRepository.FindByID s input.VehicleID with
  | none => exact ⟨rfl, rfl⟩
  | some vehicle =>
    simp only [VehicleRepository.vehicle_update_or_keep]
    exact ⟨trivial, rfl⟩

/-- PerformPreDepartureCheck returns the same result and leaves the same primary state
whether the audit insert fails or not. -/
theorem PerformPreDepartureCheckUseCase.check_auditDown (now : Int) (s : Store)
    (down : Bool) (input : PerformCheckInput) :
    (PerformPreDepartureCheckUseCase.Execute now (s.auditDown down) input).2 =
      (PerformPreDepartureCheckUseCase.Execute now s input).2 ∧
    (PerformPreDepartureCheckUseCase.Execute now (s.auditDown down) input).1.primary =
      (PerformPreDepartureCheckUseCase.Execute now s input).1.primary := by
  unfold PerformPreDepartureCheckUseCase.Execute
  have hread : RouteRepository.FindByID (s.auditDown down) input.RouteID =
      RouteRepository.FindByID s input.RouteID := rfl
  rw [hread]
  cases hfind : RouteRepository.FindByID s input.RouteID with
  | none => exact ⟨rfl, rfl⟩
  | some route =>
    dsimp only
    by_cases hfuel : input.FuelLevel < 25
    · rw [if_pos hfuel, if_pos hfuel]
      exact ⟨rfl, rfl⟩
    · rw [if_neg hfuel, if_neg hfuel]
      by_cases htires : input.TireCondition = "MALO"
      · rw [if_pos htires, if_pos htires]
        exact ⟨rfl, rfl⟩
      · rw [if_neg htires, if_neg htires]
        cases hlights : input.LightsOk with
        | false => exact ⟨rfl, rfl⟩
        | true => exact ⟨rfl, rfl⟩

theorem ReceptionLineRepository.CreateBatch_lines_auditDown (now : Int) (down : Bool) :
    ∀ (lines : List ReceptionLine) (s : Store),
      ReceptionLineRepository.CreateBatch (s.auditDown down) now lines =
        ((ReceptionLineRepository.CreateBatch s now lines).1.auditDown down,
          (ReceptionLineRepository.CreateBatch s now lines).2)
  | [], _ => rfl
  | line :: rest, s => by
    have hstep := ReceptionLineRepository.CreateBatch_lines_auditDown now down rest
      { s with receptionLines := s.receptionLines ++
        [ReceptionLineRepository.stored s now line] }
    show ((ReceptionLineRepository.CreateBatch
          (({ s with receptionLines := s.receptionLines ++
            [ReceptionLineRepository.stored s now line] } : Store).auditDown down)
          now rest).1,
        _ :: (ReceptionLineRepository.CreateBatch
          (({ s with receptionLines := s.receptionLines ++
            [ReceptionLineRepository.stored s now line] } : Store).auditDown down)
          now rest).2) = _
    rw [hstep]
    rfl

theorem CreateReceptionOrderUseCase.buildLines_auditDown (s : Store) (down : Bool)
    (order : ReceptionOrder) :
    ∀ (inputs : List ReceptionLineInput) (lines : List ReceptionLine),
      CreateReceptionOrderUseCase.buildLines (s.auditDown down) order lines inputs =
        CreateReceptionOrderUseCase.buildLines s order lines inputs
  | [], _ => rfl
  | lineInput :: rest, lines => by
    unfold CreateReceptionOrderUseCase.buildLines
    have hread : ProductRepository.FindByID (s.auditDown down) lineInput.ProductID =
        ProductRepository.FindByID s lineInput.ProductID := rfl
    rw [hread]
    cases ProductRepository.FindByID s lineInput.ProductID with
    | none => rfl
    | some _ => exact CreateReceptionOrderUseCase.buildLines_auditDown s down order rest _

/-- CreateReceptionOrder returns the same result and leaves the same primary state
whether the audit insert fails or not. -/
theorem CreateReceptionOrderUseCase.createReception_auditDown (now : Int) (orderNumber : String)
    (s : Store) (down : Bool) (input : CreateReceptionOrderInput) :
    (CreateReceptionOrderUseCase.Execute now orderNumber (s.auditDown down) input).2 =
      (CreateReceptionOrderUseCase.Execute now orderNumber s input).2 ∧
    (CreateReceptionOrderUseCase.Execute now orderNumber (s.auditDown down)
        input).1.primary =
      (CreateReceptionOrderUseCase.Execute now orderNumber s input).1.primary := by
  unfold CreateReceptionOrderUseCase.Execute
  have hread : SupplierRepository.FindByID (s.auditDown down) input.SupplierID =
      SupplierRepository.FindByID s input.SupplierID := rfl
  rw [hread]
  cases hfind : SupplierRepository.FindByID s input.SupplierID with
  | none => exact ⟨rfl, rfl⟩
  | some supplier =>
    dsimp only
    by_cases hempty : input.Lines.length = 0
    · rw [if_pos hempty, if_pos hempty]
      exact ⟨rfl, rfl⟩
    · rw [if_neg hempty, if_neg hempty]
      have hcreate : ∀ order, ReceptionOrderRepository.Create (s.auditDown down) now order =
          ((ReceptionOrderRepository.Create s now order).1.auditDown down,
            (ReceptionOrderRepository.Create s now order).2) := fun _ => rfl
      rw [hcreate]
      dsimp only
      rw [CreateReceptionOrderUseCase.buildLines_auditDown]
      cases hbuild : CreateReceptionOrderUseCase.buildLines
          (ReceptionOrderRepository.Create s now
            (CreateReceptionOrderUseCase.order orderNumber input supplier)).1
          (ReceptionOrderRepository.Create s now
            (CreateReceptionOrderUseCase.order orderNumber input supplier)).2 []
          input.Lines with
      | error e => exact ⟨rfl, rfl⟩
      | ok lines =>
        dsimp only
        rw [ReceptionLineRepository.CreateBatch_lines_auditDown]
        exact ⟨rfl, rfl⟩

/-- C28: for each of CreateReceptionOrder, BlindCount, RegisterDamage, PerformCount,
CreateOrder, AssignRoute, RegisterMaintenance and PerformPreDepartureCheck, for every
input and every initial state, the result (output or error) and the primary state left
behind (every table but the audit log) are the same when the audit insert fails as when
it succeeds. -/
theorem audit_failure_swallowed (s : Store) :
    (∀ now orderNumber input,
      (CreateReceptionOrderUseCase.Execute now orderNumber (s.auditDown true) input).2 =
        (CreateReceptionOrderUseCase.Execute now orderNumber (s.auditDown false) input).2 ∧
      (CreateReceptionOrderUseCase.Execute now orderNumber (s.auditDown true)
          input).1.primary =
        (CreateReceptionOrderUseCase.Execute now orderNumber (s.auditDown false)
          input).1.primary) ∧
    (∀ now input,
      (BlindCountUseCase.Execute now (s.auditDown true) input).2 =
        (BlindCountUseCase.Execute now (s.auditDown false) input).2 ∧
      (BlindCountUseCase.Execute now (s.auditDown true) input).1.primary =
        (BlindCountUseCase.Execute now (s.auditDown false) input).1.primary) ∧
    (∀ now input,
      (RegisterDamageUseCase.Execute now (s.auditDown true) input).2 =
        (RegisterDamageUseCase.Execute now (s.auditDown false) input).2 ∧
      (RegisterDamageUseCase.Execute now (s.auditDown true) input).1.primary =
        (RegisterDamageUseCase.Execute now (s.auditDown false) input).1.primary) ∧
    (∀ now input,
      (PerformCycleCountUseCase.PerformCount now (s.auditDown true) input).2 =
        (PerformCycleCountUseCase.PerformCount now (s.auditDown false) input).2 ∧
      (PerformCycleCountUseCase.PerformCount now (s.auditDown true) input).1.primary =
        (PerformCycleCountUseCase.PerformCount now (s.auditDown false) input).1.primary) ∧
    (∀ now orderNumber input,
      (CreateOrderUseCase.Execute now orderNumber (s.auditDown true) input).2 =
        (CreateOrderUseCase.Execute now orderNumber (s.auditDown false) input).2 ∧
      (CreateOrderUseCase.Execute now orderNumber (s.auditDown true) input).1.primary =
        (CreateOrderUseCase.Execute now orderNumber (s.auditDown false) input).1.primary) ∧
    (∀ typeOrder now routeNumber input,
      (AssignRouteUseCase.Execute typeOrder now routeNumber (s.auditDown true) input).2 =
        (AssignRouteUseCase.Execute typeOrder now routeNumber (s.auditDown false) input).2 ∧
      (AssignRouteUseCase.Execute typeOrder now routeNumber (s.auditDown true)
          input).1.primary =
        (AssignRouteUseCase.Execute typeOrder now routeNumber (s.auditDown false)
          input).1.primary) ∧
    (∀ now nextMaintenance input,
      (RegisterMaintenanceUseCase.Execute now nextMaintenance (s.auditDown true) input).2 =
        (RegisterMaintenanceUseCase.Execute now nextMaintenance (s.auditDown false)
          input).2 ∧
      (RegisterMaintenanceUseCase.Execute now nextMaintenance (s.auditDown true)
          input).1.primary =
        (RegisterMaintenanceUseCase.Execute now nextMaintenance (s.auditDown false)
          input).1.primary) ∧
    (∀ now input,
      (PerformPreDepartureCheckUseCase.Execute now (s.auditDown true) input).2 =
        (PerformPreDepartureCheckUseCase.Execute now (s.auditDown false) input).2 ∧
      (PerformPreDepartureCheckUseCase.Execute now (s.auditDown true) input).1.primary =
        (PerformPreDepartureCheckUseCase.Execute now (s.auditDown false) input).1.primary) := by
  refine ⟨?_, ?_, ?_, ?_, ?_, ?_, ?_, ?_⟩
  · intro now orderNumber input
    obtain ⟨a1, a2⟩ :=
      CreateReceptionOrderUseCase.createReception_auditDown now orderNumber s true input
    obtain ⟨b1, b2⟩ :=
      CreateReceptionOrderUseCase.createReception_auditDown now orderNumber s false input
    exact ⟨a1.trans b1.symm, a2.trans b2.symm⟩
  · intro now input
    obtain ⟨a1, a2⟩ := BlindCountUseCase.blindCount_auditDown now s true input
    obtain ⟨b1, b2⟩ := BlindCountUseCase.blindCount_auditDown now s false input
    exact ⟨a1.trans b1.symm, a2.trans b2.symm⟩
  · intro now input
    obtain ⟨a1, a2⟩ := RegisterDamageUseCase.damage_auditDown now s true input
    obtain ⟨b1, b2⟩ := RegisterDamageUseCase.damage_auditDown now s false input
    exact ⟨a1.trans b1.symm, a2.trans b2.symm⟩
  · intro now input
    obtain ⟨a1, a2⟩ := PerformCycleCountUseCase.PerformCount_auditDown now s true input
    obtain ⟨b1, b2⟩ := PerformCycleCountUseCase.PerformCount_auditDown now s false input
    exact ⟨a1.trans b1.symm, a2.trans b2.symm⟩
  · intro now orderNumber input
    obtain ⟨a1, a2⟩ := CreateOrderUseCase.createOrder_auditDown now orderNumber s true input
    obtain ⟨b1, b2⟩ := CreateOrderUseCase.createOrder_auditDown now orderNumber s false input
    exact ⟨a1.trans b1.symm, a2.trans b2.symm⟩
  · intro typeOrder now routeNumber input
    obtain ⟨a1, a2⟩ :=
      AssignRouteUseCase.assignRoute_auditDown typeOrder now routeNumber s true input
    obtain ⟨b1, b2⟩ :=
      AssignRouteUseCase.assignRoute_auditDown typeOrder now routeNumber s false input
    exact ⟨a1.trans b1.symm, a2.trans b2.symm⟩
  · intro now nextMaintenance input
    obtain ⟨a1, a2⟩ :=
      RegisterMaintenanceUseCase.maintenance_auditDown now nextMaintenance s true input
    obtain ⟨b1, b2⟩ :=
      RegisterMaintenanceUseCase.maintenance_auditDown now nextMaintenance s false input
    exact ⟨a1.trans b1.symm, a2.trans b2.symm⟩
  · intro now input
    obtain ⟨a1, a2⟩ := PerformPreDepartureCheckUseCase.check_auditDown now s true input
    obtain ⟨b1, b2⟩ := PerformPreDepartureCheckUseCase.check_auditDown now s false input
    exact ⟨a1.trans b1.symm, a2.trans b2.symm⟩

/-- C28 at a concrete store: the damage report of 4 units on lot 1 leaves one audit record
when the audit insert works and none when it fails; the result and the other tables are
the same in both runs, lot 1 holding 6 units. -/
theorem audit_failure_swallowed_witness :
    (RegisterDamageUseCase.Execute 9 (ledgerStore.auditDown true) damageInput).1.auditLogs =
      [] ∧
    (RegisterDamageUseCase.Execute 9 (ledgerStore.auditDown false)
      damageInput).1.auditLogs.map (·.Action) = ["REGISTER_DAMAGE"] ∧
    (RegisterDamageUseCase.Execute 9 (ledgerStore.auditDown true) damageInput).1.inventory.map
      (fun lot => (lot.ID, lot.Quantity)) = [(1, 6), (2, 20)] ∧
    ((RegisterDamageUseCase.Execute 9 (ledgerStore.auditDown true) damageInput).2 =
        (RegisterDamageUseCase.Execute 9 (ledgerStore.auditDown false) damageInput).2 ∧
      (RegisterDamageUseCase.Execute 9 (ledgerStore.auditDown true) damageInput).1.primary =
        (RegisterDamageUseCase.Execute 9 (ledgerStore.auditDown false)
          damageInput).1.primary) :=
  ⟨by decide, by decide, by decide, (audit_failure_swallowed ledgerStore).2.2.1 9 damageInput⟩

end Sgl
